import Mathlib

/-!
# Verification development for `typeio`

A shallow embedding of the Go package `typeio` (typed reads and writes of
scalar values over `io.Reader` / `io.Writer`) together with the standard
library routines it calls (`io.ReadFull`, `errors.Is`, `encoding/binary`,
`bytes.Reader`, `bytes.Buffer`).

Conventions of the embedding:
* a byte is a `Fin 256`; a byte slice and a Go `string` are `List Byte`;
* unsigned machine integers are `Nat`, signed ones are `Int`, and every
  conversion that truncates carries its explicit `% 2 ^ w`;
* a reader is a transition function on an explicit state; a call that
  loops over `Read` takes a budget of `Read` calls and reports `pending`
  when the budget runs out before the call returns;
* a Go `error` is a value of `Error`, `nil` is `none`.
-/

namespace Typeio

/-! ## Bytes and errors -/

/-- A byte (`uint8`). -/
abbrev Byte := Fin 256

/-- Go conversion `byte(v)` of an unsigned integer: truncation to 8 bits. -/
def byte (v : Nat) : Byte := ⟨v % 256, Nat.mod_lt v (by decide)⟩

/-- Go error values that occur in the package: the sentinels of `io`, the
package's own `ErrInvalidIP`, foreign errors identified by a tag, and the
wrapper built by `fmt.Errorf("...: %w", err)`. -/
inductive Error where
  | EOF : Error
  | ErrUnexpectedEOF : Error
  | ErrInvalidIP : Error
  | other : Nat → Error
  | wrap : String → Error → Error
  deriving DecidableEq, Repr

/-- Go `errors.Is(err, target)`: `err` or an error in its `Unwrap` chain equals
`target`. -/
def Error.Is : Error → Error → Bool
  | Error.wrap m inner, target =>
      decide (Error.wrap m inner = target) || Error.Is inner target
  | err, target => decide (err = target)

/-! ## Readers and writers -/

/-- What one call `Read(p)` reports: the bytes stored into the front of `p`
(so `n` is `data.length`), the error, and the reader afterwards. -/
structure ReadResult (σ : Type) where
  data : List Byte
  err : Option Error
  st : σ

/-- An `io.Reader` with state `σ`: `read s k` is a call of `Read` with a
buffer of length `k`. The contract `0 <= n <= len(p)` is part of the type. -/
structure Reader (σ : Type) where
  read : σ → Nat → ReadResult σ
  read_le : ∀ s k, (read s k).data.length ≤ k

/-- What one call `Write(p)` reports: the count, the error, and the writer
afterwards. -/
structure WriteResult (σ : Type) where
  n : Nat
  err : Option Error
  st : σ

/-- An `io.Writer` with state `σ`. -/
structure Writer (σ : Type) where
  write : σ → List Byte → WriteResult σ

/-- Method `Read` of `bytes.Reader`; the state is the unread part `r.s[r.i:]`. -/
def bytesReader : Reader (List Byte) where
  read := fun s k =>
    if s = [] then ⟨[], some Error.EOF, s⟩ else ⟨s.take k, none, s.drop k⟩
  read_le := by
    intro s k
    by_cases h : s = []
    · simp [h]
    · simp [h, List.length_take]

/-- Method `Read` of `bytes.Buffer`; the state is the unread part of the
buffer. -/
def bufferReader : Reader (List Byte) where
  read := fun s k =>
    if s = [] then
      (if k = 0 then ⟨[], none, s⟩ else ⟨[], some Error.EOF, s⟩)
    else ⟨s.take k, none, s.drop k⟩
  read_le := by
    intro s k
    by_cases h : s = []
    · by_cases hk : k = 0 <;> simp [h, hk]
    · simp [h, List.length_take]

/-- Method `Write` of `bytes.Buffer`: the bytes are appended and the call
reports `len(p), nil`. -/
def bufferWriter : Writer (List Byte) where
  write := fun s p => ⟨p.length, none, s ++ p⟩

/-! ## Outcomes of a call -/

/-- How a call ends: it returns, it panics, or the budget of `Read` calls
is used up before it returns. -/
inductive Run (α : Type) where
  | done : α → Run α
  | panicked : Run α
  | pending : Run α
  deriving DecidableEq, Repr

/-- The results of a typed read: the value, the error and the reader
afterwards. -/
structure Ret (α σ : Type) where
  val : α
  err : Option Error
  st : σ
  deriving DecidableEq, Repr

/-- The results of a typed write: the error and the writer afterwards. -/
structure WRet (σ : Type) where
  err : Option Error
  st : σ
  deriving DecidableEq, Repr

/-! ## `io.ReadFull` and the two primitives of `util.go` -/

/-- The loop of `io.ReadAtLeast`:
`for n < min && err == nil { nn, err = r.Read(buf[n:]); n += nn }`,
where `buf` has length `len` and `got` are the `n` bytes stored so far. -/
def ReadAtLeast.loop {σ : Type} (R : Reader σ) (len min : Nat) :
    Nat → σ → List Byte → Option Error → Option (ReadResult σ)
  | 0, s, got, err =>
      if got.length < min ∧ err = none then none else some ⟨got, err, s⟩
  | fuel + 1, s, got, err =>
      if got.length < min ∧ err = none then
        let r := R.read s (len - got.length)
        ReadAtLeast.loop R len min fuel r.st (got ++ r.data) r.err
      else some ⟨got, err, s⟩

/-- Go `io.ReadAtLeast(r, buf, min)` for a buffer of length `len` with
`min <= len`: the loop, then
`if n >= min { err = nil } else if n > 0 && err == EOF { err = ErrUnexpectedEOF }`. -/
def ReadAtLeast {σ : Type} (R : Reader σ) (fuel : Nat) (s : σ) (len min : Nat) :
    Option (ReadResult σ) :=
  match ReadAtLeast.loop R len min fuel s [] none with
  | none => none
  | some r =>
      if min ≤ r.data.length then some ⟨r.data, none, r.st⟩
      else if 0 < r.data.length ∧ r.err = some Error.EOF then
        some ⟨r.data, some Error.ErrUnexpectedEOF, r.st⟩
      else some r

/-- Go `io.ReadFull(r, buf)` is `ReadAtLeast(r, buf, len(buf))`. -/
def ReadFull {σ : Type} (R : Reader σ) (fuel : Nat) (s : σ) (len : Nat) :
    Option (ReadResult σ) :=
  ReadAtLeast R fuel s len len

/-- The largest length `make([]byte, n)` accepts: `maxAlloc` of the Go runtime,
`1 << 48` on the 64-bit platforms (linux/amd64 among them), where `int` has 64
bits. -/
def maxAlloc : Nat := 2 ^ 48

/-- Function `readN(r, n)` of `util.go`. `make([]byte, n)` panics
(`makeslice: len out of range`) for a negative `n` and for an `n` above
`maxAlloc`; memory running out below that limit is not part of the model. A
`nil` slice is the empty list. -/
def readN {σ : Type} (R : Reader σ) (fuel : Nat) (s : σ) (n : Int) :
    Run (Ret (List Byte) σ) :=
  if n < 0 ∨ (maxAlloc : Int) < n then Run.panicked
  else
    match ReadFull R fuel s n.toNat with
    | none => Run.pending
    | some r =>
        match r.err with
        | some err =>
            if Error.Is err Error.EOF then Run.done ⟨[], some Error.EOF, r.st⟩
            else Run.done ⟨[], some (Error.wrap "read failure: " err), r.st⟩
        | none => Run.done ⟨r.data, none, r.st⟩

/-- Function `write(w, b)` of `util.go`. -/
def write {σ : Type} (W : Writer σ) (s : σ) (b : List Byte) : WRet σ :=
  let r := W.write s b
  match r.err with
  | some err => ⟨some (Error.wrap "write failure: " err), r.st⟩
  | none => ⟨none, r.st⟩

/-! ## `encoding/binary` and integer conversions -/

/-- Left shift `x << k` in an unsigned type of `w` bits. -/
def shl (w x k : Nat) : Nat := (x <<< k) % 2 ^ w

/-- Go `binary.BigEndian.Uint16(b)`; `none` is the index-out-of-range panic. -/
def BigEndian.Uint16 : List Byte → Option Nat
  | b0 :: b1 :: _ => some (b1.val ||| shl 16 b0.val 8)
  | _ => none

/-- Go `binary.BigEndian.PutUint16(b, v)` on a fresh 2-byte buffer. -/
def BigEndian.PutUint16 (v : Nat) : List Byte :=
  [byte (v >>> 8), byte v]

/-- Go `binary.LittleEndian.Uint16(b)`. -/
def LittleEndian.Uint16 : List Byte → Option Nat
  | b0 :: b1 :: _ => some (b0.val ||| shl 16 b1.val 8)
  | _ => none

/-- Go `binary.LittleEndian.PutUint16(b, v)` on a fresh 2-byte buffer. -/
def LittleEndian.PutUint16 (v : Nat) : List Byte :=
  [byte v, byte (v >>> 8)]

/-- Go `binary.BigEndian.Uint32(b)`. -/
def BigEndian.Uint32 : List Byte → Option Nat
  | b0 :: b1 :: b2 :: b3 :: _ =>
      some (b3.val ||| shl 32 b2.val 8 ||| shl 32 b1.val 16 ||| shl 32 b0.val 24)
  | _ => none

/-- Go `binary.BigEndian.PutUint32(b, v)` on a fresh 4-byte buffer. -/
def BigEndian.PutUint32 (v : Nat) : List Byte :=
  [byte (v >>> 24), byte (v >>> 16), byte (v >>> 8), byte v]

/-- Go `binary.LittleEndian.Uint32(b)`. -/
def LittleEndian.Uint32 : List Byte → Option Nat
  | b0 :: b1 :: b2 :: b3 :: _ =>
      some (b0.val ||| shl 32 b1.val 8 ||| shl 32 b2.val 16 ||| shl 32 b3.val 24)
  | _ => none

/-- Go `binary.LittleEndian.PutUint32(b, v)` on a fresh 4-byte buffer. -/
def LittleEndian.PutUint32 (v : Nat) : List Byte :=
  [byte v, byte (v >>> 8), byte (v >>> 16), byte (v >>> 24)]

/-- Go `binary.BigEndian.Uint64(b)`. -/
def BigEndian.Uint64 : List Byte → Option Nat
  | b0 :: b1 :: b2 :: b3 :: b4 :: b5 :: b6 :: b7 :: _ =>
      some (b7.val ||| shl 64 b6.val 8 ||| shl 64 b5.val 16 ||| shl 64 b4.val 24 |||
        shl 64 b3.val 32 ||| shl 64 b2.val 40 ||| shl 64 b1.val 48 ||| shl 64 b0.val 56)
  | _ => none

/-- Go `binary.BigEndian.PutUint64(b, v)` on a fresh 8-byte buffer. -/
def BigEndian.PutUint64 (v : Nat) : List Byte :=
  [byte (v >>> 56), byte (v >>> 48), byte (v >>> 40), byte (v >>> 32),
   byte (v >>> 24), byte (v >>> 16), byte (v >>> 8), byte v]

/-- Go `binary.LittleEndian.Uint64(b)`. -/
def LittleEndian.Uint64 : List Byte → Option Nat
  | b0 :: b1 :: b2 :: b3 :: b4 :: b5 :: b6 :: b7 :: _ =>
      some (b0.val ||| shl 64 b1.val 8 ||| shl 64 b2.val 16 ||| shl 64 b3.val 24 |||
        shl 64 b4.val 32 ||| shl 64 b5.val 40 ||| shl 64 b6.val 48 ||| shl 64 b7.val 56)
  | _ => none

/-- Go `binary.LittleEndian.PutUint64(b, v)` on a fresh 8-byte buffer. -/
def LittleEndian.PutUint64 (v : Nat) : List Byte :=
  [byte v, byte (v >>> 8), byte (v >>> 16), byte (v >>> 24),
   byte (v >>> 32), byte (v >>> 40), byte (v >>> 48), byte (v >>> 56)]

/-- Conversion of an unsigned `w`-bit value to the signed type of the same
width (`int8(x)`, `int16(x)`, ...): the bits are kept and read as two's
complement. -/
def toSigned (w : Nat) (u : Nat) : Int :=
  ((u : Int) + 2 ^ (w - 1)) % 2 ^ w - 2 ^ (w - 1)

/-- Conversion of a signed value to the unsigned type of `w` bits
(`uint8(v)`, `uint16(v)`, ...): truncation to `w` bits. -/
def toUnsigned (w : Nat) (v : Int) : Nat :=
  (v % 2 ^ w).toNat

/-! ## `integer.go` -/

/-- Function `ReadUint8` of `integer.go`. -/
def ReadUint8 {σ : Type} (R : Reader σ) (fuel : Nat) (s : σ) : Run (Ret Nat σ) :=
  match readN R fuel s 1 with
  | Run.pending => Run.pending
  | Run.panicked => Run.panicked
  | Run.done r =>
      match r.err with
      | some err => Run.done ⟨0, some err, r.st⟩
      | none =>
          match r.val with
          | b0 :: _ => Run.done ⟨b0.val, none, r.st⟩
          | [] => Run.panicked

/-- Function `WriteUint8` of `integer.go`. -/
def WriteUint8 {σ : Type} (W : Writer σ) (s : σ) (v : Nat) : WRet σ :=
  write W s [byte v]

/-- Function `ReadInt8` of `integer.go`. -/
def ReadInt8 {σ : Type} (R : Reader σ) (fuel : Nat) (s : σ) : Run (Ret Int σ) :=
  match readN R fuel s 1 with
  | Run.pending => Run.pending
  | Run.panicked => Run.panicked
  | Run.done r =>
      match r.err with
      | some err => Run.done ⟨0, some err, r.st⟩
      | none =>
          match r.val with
          | b0 :: _ => Run.done ⟨toSigned 8 b0.val, none, r.st⟩
          | [] => Run.panicked

/-- Function `WriteInt8` of `integer.go`. -/
def WriteInt8 {σ : Type} (W : Writer σ) (s : σ) (v : Int) : WRet σ :=
  write W s [byte (toUnsigned 8 v)]

/-- Function `ReadUint16BE` of `integer.go`. -/
def ReadUint16BE {σ : Type} (R : Reader σ) (fuel : Nat) (s : σ) : Run (Ret Nat σ) :=
  match readN R fuel s 2 with
  | Run.pending => Run.pending
  | Run.panicked => Run.panicked
  | Run.done r =>
      match r.err with
      | some err => Run.done ⟨0, some err, r.st⟩
      | none =>
          match BigEndian.Uint16 r.val with
          | some u => Run.done ⟨u, none, r.st⟩
          | none => Run.panicked

/-- Function `WriteUint16BE` of `integer.go`. -/
def WriteUint16BE {σ : Type} (W : Writer σ) (s : σ) (v : Nat) : WRet σ :=
  write W s (BigEndian.PutUint16 v)

/-- Function `ReadUint16LE` of `integer.go`. -/
def ReadUint16LE {σ : Type} (R : Reader σ) (fuel : Nat) (s : σ) : Run (Ret Nat σ) :=
  match readN R fuel s 2 with
  | Run.pending => Run.pending
  | Run.panicked => Run.panicked
  | Run.done r =>
      match r.err with
      | some err => Run.done ⟨0, some err, r.st⟩
      | none =>
          match LittleEndian.Uint16 r.val with
          | some u => Run.done ⟨u, none, r.st⟩
          | none => Run.panicked

/-- Function `WriteUint16LE` of `integer.go`. -/
def WriteUint16LE {σ : Type} (W : Writer σ) (s : σ) (v : Nat) : WRet σ :=
  write W s (LittleEndian.PutUint16 v)

/-- Function `ReadInt16BE` of `integer.go`. -/
def ReadInt16BE {σ : Type} (R : Reader σ) (fuel : Nat) (s : σ) : Run (Ret Int σ) :=
  match readN R fuel s 2 with
  | Run.pending => Run.pending
  | Run.panicked => Run.panicked
  | Run.done r =>
      match r.err with
      | some err => Run.done ⟨0, some err, r.st⟩
      | none =>
          match BigEndian.Uint16 r.val with
          | some u => Run.done ⟨toSigned 16 u, none, r.st⟩
          | none => Run.panicked

/-- Function `WriteInt16BE` of `integer.go`. -/
def WriteInt16BE {σ : Type} (W : Writer σ) (s : σ) (v : Int) : WRet σ :=
  write W s (BigEndian.PutUint16 (toUnsigned 16 v))

/-- Function `ReadInt16LE` of `integer.go`. -/
def ReadInt16LE {σ : Type} (R : Reader σ) (fuel : Nat) (s : σ) : Run (Ret Int σ) :=
  match readN R fuel s 2 with
  | Run.pending => Run.pending
  | Run.panicked => Run.panicked
  | Run.done r =>
      match r.err with
      | some err => Run.done ⟨0, some err, r.st⟩
      | none =>
          match LittleEndian.Uint16 r.val with
          | some u => Run.done ⟨toSigned 16 u, none, r.st⟩
          | none => Run.panicked

/-- Function `WriteInt16LE` of `integer.go`. -/
def WriteInt16LE {σ : Type} (W : Writer σ) (s : σ) (v : Int) : WRet σ :=
  write W s (LittleEndian.PutUint16 (toUnsigned 16 v))

/-- Function `ReadUint32BE` of `integer.go`. -/
def ReadUint32BE {σ : Type} (R : Reader σ) (fuel : Nat) (s : σ) : Run (Ret Nat σ) :=
  match readN R fuel s 4 with
  | Run.pending => Run.pending
  | Run.panicked => Run.panicked
  | Run.done r =>
      match r.err with
      | some err => Run.done ⟨0, some err, r.st⟩
      | none =>
          match BigEndian.Uint32 r.val with
          | some u => Run.done ⟨u, none, r.st⟩
          | none => Run.panicked

/-- Function `WriteUint32BE` of `integer.go`. -/
def WriteUint32BE {σ : Type} (W : Writer σ) (s : σ) (v : Nat) : WRet σ :=
  write W s (BigEndian.PutUint32 v)

/-- Function `ReadUint32LE` of `integer.go`. -/
def ReadUint32LE {σ : Type} (R : Reader σ) (fuel : Nat) (s : σ) : Run (Ret Nat σ) :=
  match readN R fuel s 4 with
  | Run.pending => Run.pending
  | Run.panicked => Run.panicked
  | Run.done r =>
      match r.err with
      | some err => Run.done ⟨0, some err, r.st⟩
      | none =>
          match LittleEndian.Uint32 r.val with
          | some u => Run.done ⟨u, none, r.st⟩
          | none => Run.panicked

/-- Function `WriteUint32LE` of `integer.go`. -/
def WriteUint32LE {σ : Type} (W : Writer σ) (s : σ) (v : Nat) : WRet σ :=
  write W s (LittleEndian.PutUint32 v)

/-- Function `ReadInt32BE` of `integer.go`. -/
def ReadInt32BE {σ : Type} (R : Reader σ) (fuel : Nat) (s : σ) : Run (Ret Int σ) :=
  match readN R fuel s 4 with
  | Run.pending => Run.pending
  | Run.panicked => Run.panicked
  | Run.done r =>
      match r.err with
      | some err => Run.done ⟨0, some err, r.st⟩
      | none =>
          match BigEndian.Uint32 r.val with
          | some u => Run.done ⟨toSigned 32 u, none, r.st⟩
          | none => Run.panicked

/-- Function `WriteInt32BE` of `integer.go`. -/
def WriteInt32BE {σ : Type} (W : Writer σ) (s : σ) (v : Int) : WRet σ :=
  write W s (BigEndian.PutUint32 (toUnsigned 32 v))

/-- Function `ReadInt32LE` of `integer.go`. -/
def ReadInt32LE {σ : Type} (R : Reader σ) (fuel : Nat) (s : σ) : Run (Ret Int σ) :=
  match readN R fuel s 4 with
  | Run.pending => Run.pending
  | Run.panicked => Run.panicked
  | Run.done r =>
      match r.err with
      | some err => Run.done ⟨0, some err, r.st⟩
      | none =>
          match LittleEndian.Uint32 r.val with
          | some u => Run.done ⟨toSigned 32 u, none, r.st⟩
          | none => Run.panicked

/-- Function `WriteInt32LE` of `integer.go`. -/
def WriteInt32LE {σ : Type} (W : Writer σ) (s : σ) (v : Int) : WRet σ :=
  write W s (LittleEndian.PutUint32 (toUnsigned 32 v))

/-- Function `ReadUint64BE` of `integer.go`. -/
def ReadUint64BE {σ : Type} (R : Reader σ) (fuel : Nat) (s : σ) : Run (Ret Nat σ) :=
  match readN R fuel s 8 with
  | Run.pending => Run.pending
  | Run.panicked => Run.panicked
  | Run.done r =>
      match r.err with
      | some err => Run.done ⟨0, some err, r.st⟩
      | none =>
          match BigEndian.Uint64 r.val with
          | some u => Run.done ⟨u, none, r.st⟩
          | none => Run.panicked

/-- Function `WriteUint64BE` of `integer.go`. -/
def WriteUint64BE {σ : Type} (W : Writer σ) (s : σ) (v : Nat) : WRet σ :=
  write W s (BigEndian.PutUint64 v)

/-- Function `ReadUint64LE` of `integer.go`. -/
def ReadUint64LE {σ : Type} (R : Reader σ) (fuel : Nat) (s : σ) : Run (Ret Nat σ) :=
  match readN R fuel s 8 with
  | Run.pending => Run.pending
  | Run.panicked => Run.panicked
  | Run.done r =>
      match r.err with
      | some err => Run.done ⟨0, some err, r.st⟩
      | none =>
          match LittleEndian.Uint64 r.val with
          | some u => Run.done ⟨u, none, r.st⟩
          | none => Run.panicked

/-- Function `WriteUint64LE` of `integer.go`. -/
def WriteUint64LE {σ : Type} (W : Writer σ) (s : σ) (v : Nat) : WRet σ :=
  write W s (LittleEndian.PutUint64 v)

/-- Function `ReadInt64BE` of `integer.go`. -/
def ReadInt64BE {σ : Type} (R : Reader σ) (fuel : Nat) (s : σ) : Run (Ret Int σ) :=
  match readN R fuel s 8 with
  | Run.pending => Run.pending
  | Run.panicked => Run.panicked
  | Run.done r =>
      match r.err with
      | some err => Run.done ⟨0, some err, r.st⟩
      | none =>
          match BigEndian.Uint64 r.val with
          | some u => Run.done ⟨toSigned 64 u, none, r.st⟩
          | none => Run.panicked

/-- Function `WriteInt64BE` of `integer.go`. -/
def WriteInt64BE {σ : Type} (W : Writer σ) (s : σ) (v : Int) : WRet σ :=
  write W s (BigEndian.PutUint64 (toUnsigned 64 v))

/-- Function `ReadInt64LE` of `integer.go`. -/
def ReadInt64LE {σ : Type} (R : Reader σ) (fuel : Nat) (s : σ) : Run (Ret Int σ) :=
  match readN R fuel s 8 with
  | Run.pending => Run.pending
  | Run.panicked => Run.panicked
  | Run.done r =>
      match r.err with
      | some err => Run.done ⟨0, some err, r.st⟩
      | none =>
          match LittleEndian.Uint64 r.val with
          | some u => Run.done ⟨toSigned 64 u, none, r.st⟩
          | none => Run.panicked

/-- Function `WriteInt64LE` of `integer.go`. -/
def WriteInt64LE {σ : Type} (W : Writer σ) (s : σ) (v : Int) : WRet σ :=
  write W s (LittleEndian.PutUint64 (toUnsigned 64 v))

/-! ## `float.go` -/

/-- A `float32` value, identified with its IEEE 754 bit pattern. -/
structure Float32 where
  bits : Fin 4294967296
  deriving DecidableEq, Repr

/-- A `float64` value, identified with its IEEE 754 bit pattern. -/
structure Float64 where
  bits : Fin 18446744073709551616
  deriving DecidableEq, Repr

/-- Go `math.Float32bits`. -/
def Float32bits (v : Float32) : Nat := v.bits.val

/-- Go `math.Float32frombits`. -/
def Float32frombits (u : Nat) : Float32 :=
  ⟨⟨u % 4294967296, Nat.mod_lt u (by decide)⟩⟩

/-- Go `math.Float64bits`. -/
def Float64bits (v : Float64) : Nat := v.bits.val

/-- Go `math.Float64frombits`. -/
def Float64frombits (u : Nat) : Float64 :=
  ⟨⟨u % 18446744073709551616, Nat.mod_lt u (by decide)⟩⟩

/-- Function `ReadFloat32BE` of `float.go`. -/
def ReadFloat32BE {σ : Type} (R : Reader σ) (fuel : Nat) (s : σ) :
    Run (Ret Float32 σ) :=
  match readN R fuel s 4 with
  | Run.pending => Run.pending
  | Run.panicked => Run.panicked
  | Run.done r =>
      match r.err with
      | some err => Run.done ⟨Float32frombits 0, some err, r.st⟩
      | none =>
          match BigEndian.Uint32 r.val with
          | some u => Run.done ⟨Float32frombits u, none, r.st⟩
          | none => Run.panicked

/-- Function `WriteFloat32BE` of `float.go`. -/
def WriteFloat32BE {σ : Type} (W : Writer σ) (s : σ) (v : Float32) : WRet σ :=
  write W s (BigEndian.PutUint32 (Float32bits v))

/-- Function `ReadFloat32LE` of `float.go`. -/
def ReadFloat32LE {σ : Type} (R : Reader σ) (fuel : Nat) (s : σ) :
    Run (Ret Float32 σ) :=
  match readN R fuel s 4 with
  | Run.pending => Run.pending
  | Run.panicked => Run.panicked
  | Run.done r =>
      match r.err with
      | some err => Run.done ⟨Float32frombits 0, some err, r.st⟩
      | none =>
          match LittleEndian.Uint32 r.val with
          | some u => Run.done ⟨Float32frombits u, none, r.st⟩
          | none => Run.panicked

/-- Function `WriteFloat32LE` of `float.go`. -/
def WriteFloat32LE {σ : Type} (W : Writer σ) (s : σ) (v : Float32) : WRet σ :=
  write W s (LittleEndian.PutUint32 (Float32bits v))

/-- Function `ReadFloat64BE` of `float.go`. -/
def ReadFloat64BE {σ : Type} (R : Reader σ) (fuel : Nat) (s : σ) :
    Run (Ret Float64 σ) :=
  match readN R fuel s 8 with
  | Run.pending => Run.pending
  | Run.panicked => Run.panicked
  | Run.done r =>
      match r.err with
      | some err => Run.done ⟨Float64frombits 0, some err, r.st⟩
      | none =>
          match BigEndian.Uint64 r.val with
          | some u => Run.done ⟨Float64frombits u, none, r.st⟩
          | none => Run.panicked

/-- Function `WriteFloat64BE` of `float.go`. -/
def WriteFloat64BE {σ : Type} (W : Writer σ) (s : σ) (v : Float64) : WRet σ :=
  write W s (BigEndian.PutUint64 (Float64bits v))

/-- Function `ReadFloat64LE` of `float.go`. -/
def ReadFloat64LE {σ : Type} (R : Reader σ) (fuel : Nat) (s : σ) :
    Run (Ret Float64 σ) :=
  match readN R fuel s 8 with
  | Run.pending => Run.pending
  | Run.panicked => Run.panicked
  | Run.done r =>
      match r.err with
      | some err => Run.done ⟨Float64frombits 0, some err, r.st⟩
      | none =>
          match LittleEndian.Uint64 r.val with
          | some u => Run.done ⟨Float64frombits u, none, r.st⟩
          | none => Run.panicked

/-- Function `WriteFloat64LE` of `float.go`. -/
def WriteFloat64LE {σ : Type} (W : Writer σ) (s : σ) (v : Float64) : WRet σ :=
  write W s (LittleEndian.PutUint64 (Float64bits v))

/-! ## `time.go` -/

/-- The location attached to a `time.Time`: `time.UTC`, `time.Local`, or a zone
with a name and a fixed offset in seconds east of UTC (`time.FixedZone`). -/
inductive Location where
  | UTC : Location
  | Local : Location
  | fixed : String → Int → Location
  deriving DecidableEq, Repr

/-- A `time.Time`: the instant as whole seconds since 1970-01-01T00:00:00Z
plus nanoseconds, and the attached location. -/
structure Time where
  sec : Int
  nsec : Nat
  loc : Location
  deriving DecidableEq, Repr

/-- The zero value `time.Time{}`: January 1, year 1, 00:00:00 UTC. -/
def Time.zero : Time := ⟨-62135596800, 0, Location.UTC⟩

/-- Go `time.Unix(sec, nsec)` for `0 <= nsec < 1e9`: the local time of that
instant. -/
def timeUnix (sec : Int) (nsec : Nat) : Time := ⟨sec, nsec, Location.Local⟩

/-- Method `UTC` of `time.Time`. -/
def Time.UTC (t : Time) : Time := ⟨t.sec, t.nsec, Location.UTC⟩

/-- Method `Local` of `time.Time`. -/
def Time.Local (t : Time) : Time := ⟨t.sec, t.nsec, Location.Local⟩

/-- Method `Unix` of `time.Time`: whole seconds since the epoch. -/
def Time.Unix (t : Time) : Int := t.sec

/-- Function `ReadUnixTimeUTC32BE` of `time.go`. -/
def ReadUnixTimeUTC32BE {σ : Type} (R : Reader σ) (fuel : Nat) (s : σ) :
    Run (Ret Time σ) :=
  match ReadUint32BE R fuel s with
  | Run.pending => Run.pending
  | Run.panicked => Run.panicked
  | Run.done r =>
      match r.err with
      | some err => Run.done ⟨Time.zero, some err, r.st⟩
      | none => Run.done ⟨(timeUnix (r.val : Int) 0).UTC, none, r.st⟩

/-- Function `ReadUnixTime32BE` of `time.go`. -/
def ReadUnixTime32BE {σ : Type} (R : Reader σ) (fuel : Nat) (s : σ) :
    Run (Ret Time σ) :=
  match ReadUint32BE R fuel s with
  | Run.pending => Run.pending
  | Run.panicked => Run.panicked
  | Run.done r =>
      match r.err with
      | some err => Run.done ⟨Time.zero, some err, r.st⟩
      | none => Run.done ⟨(timeUnix (r.val : Int) 0).Local, none, r.st⟩

/-- Function `ReadUnixTimeUTC32LE` of `time.go`. -/
def ReadUnixTimeUTC32LE {σ : Type} (R : Reader σ) (fuel : Nat) (s : σ) :
    Run (Ret Time σ) :=
  match ReadUint32LE R fuel s with
  | Run.pending => Run.pending
  | Run.panicked => Run.panicked
  | Run.done r =>
      match r.err with
      | some err => Run.done ⟨Time.zero, some err, r.st⟩
      | none => Run.done ⟨(timeUnix (r.val : Int) 0).UTC, none, r.st⟩

/-- Function `ReadUnixTime32LE` of `time.go`. -/
def ReadUnixTime32LE {σ : Type} (R : Reader σ) (fuel : Nat) (s : σ) :
    Run (Ret Time σ) :=
  match ReadUint32LE R fuel s with
  | Run.pending => Run.pending
  | Run.panicked => Run.panicked
  | Run.done r =>
      match r.err with
      | some err => Run.done ⟨Time.zero, some err, r.st⟩
      | none => Run.done ⟨(timeUnix (r.val : Int) 0).Local, none, r.st⟩

/-- Function `WriteUnixTime32BE` of `time.go`. -/
def WriteUnixTime32BE {σ : Type} (W : Writer σ) (s : σ) (t : Time) : WRet σ :=
  WriteUint32BE W s (toUnsigned 32 t.Unix)

/-- Function `WriteUnixTime32LE` of `time.go`. -/
def WriteUnixTime32LE {σ : Type} (W : Writer σ) (s : σ) (t : Time) : WRet σ :=
  WriteUint32LE W s (toUnsigned 32 t.Unix)

/-! ## `network.go` and `string.go` (reads) -/

/-- A `net.IP`: a byte slice, `none` being the `nil` slice. -/
abbrev IP := Option (List Byte)

/-- Function `ReadIPv4` of `network.go` (`net.IPv4len` is 4). -/
def ReadIPv4 {σ : Type} (R : Reader σ) (fuel : Nat) (s : σ) : Run (Ret IP σ) :=
  match readN R fuel s 4 with
  | Run.pending => Run.pending
  | Run.panicked => Run.panicked
  | Run.done r =>
      match r.err with
      | some err => Run.done ⟨none, some err, r.st⟩
      | none => Run.done ⟨some r.val, none, r.st⟩

/-- Function `ReadIPv6` of `network.go` (`net.IPv6len` is 16). -/
def ReadIPv6 {σ : Type} (R : Reader σ) (fuel : Nat) (s : σ) : Run (Ret IP σ) :=
  match readN R fuel s 16 with
  | Run.pending => Run.pending
  | Run.panicked => Run.panicked
  | Run.done r =>
      match r.err with
      | some err => Run.done ⟨none, some err, r.st⟩
      | none => Run.done ⟨some r.val, none, r.st⟩

/-- Go `bytes.IndexByte(b, c)`: the index of the first `c` in `b`, or `-1`. -/
def IndexByte (b : List Byte) (c : Byte) : Int :=
  match b.findIdx? (fun x => x = c) with
  | some i => (i : Int)
  | none => -1

/-- Function `ReadStringN` of `string.go`. -/
def ReadStringN {σ : Type} (R : Reader σ) (fuel : Nat) (s : σ) (n : Int) (pad : Byte) :
    Run (Ret (List Byte) σ) :=
  match readN R fuel s n with
  | Run.pending => Run.pending
  | Run.panicked => Run.panicked
  | Run.done r =>
      match r.err with
      | some err => Run.done ⟨[], some err, r.st⟩
      | none =>
          let p := IndexByte r.val pad
          if 0 ≤ p then Run.done ⟨r.val.take p.toNat, none, r.st⟩
          else Run.done ⟨r.val, none, r.st⟩

/-! ## Test doubles and predicates used to state the properties -/

/-- A reader that plays a script: every call of `Read` takes the next entry
of the script, stores its bytes (as many as fit into the buffer) and reports
its error; when the script is used up it reports `io.EOF`. -/
def scriptReader : Reader (List (List Byte × Option Error)) where
  read := fun s k =>
    match s with
    | [] => ⟨[], some Error.EOF, []⟩
    | entry :: rest => ⟨entry.1.take k, entry.2, rest⟩
  read_le := by
    intro s k
    cases s with
    | nil => simp
    | cons entry rest => simp [List.length_take]

/-- The call returned a non-nil error that satisfies `P`. -/
def FailsWith {α σ : Type} (r : Run (Ret α σ)) (P : Error → Prop) : Prop :=
  ∃ v e s, r = Run.done ⟨v, some e, s⟩ ∧ P e

/-- The read of the in-memory stream `bs` succeeds, leaves exactly `bs[N..]`
in the stream, and returns the value that the same read returns on the
prefix `bs[0..N)` alone. -/
def ConsumesExactly {α : Type} (read : List Byte → Run (Ret α (List Byte)))
    (N : Nat) (bs : List Byte) : Prop :=
  ∃ v, read bs = Run.done ⟨v, none, bs.drop N⟩ ∧
    read (bs.take N) = Run.done ⟨v, none, []⟩

/-- Asked for `k` more bytes from state `s`, the reader reports the error `e`
on a call of `Read` that leaves the `k` bytes incomplete, every earlier call
having reported no error; `s2` is the reader after the failing call. -/
inductive FaultsShort {σ : Type} (R : Reader σ) (e : Error) : σ → Nat → σ → Prop where
  | now (s : σ) (k : Nat) :
      (R.read s k).err = some e → (R.read s k).data.length < k →
      FaultsShort R e s k (R.read s k).st
  | later (s : σ) (k : Nat) (s2 : σ) :
      (R.read s k).err = none → (R.read s k).data.length < k →
      FaultsShort R e (R.read s k).st (k - (R.read s k).data.length) s2 →
      FaultsShort R e s k s2

/-! ## Calendar times, `net.IP` and `WriteIPv4` -/

/-- Days from 1970-01-01 to the given date of the proleptic Gregorian
calendar (`1 <= month <= 12`, `1 <= day`). -/
def daysFromCivil (year month day : Nat) : Int :=
  let y : Int := if month ≤ 2 then (year : Int) - 1 else (year : Int)
  let era : Int := y / 400
  let yoe : Int := y - era * 400
  let mp : Nat := if 2 < month then month - 3 else month + 9
  let doy : Nat := (153 * mp + 2) / 5 + day - 1
  let doe : Int := yoe * 365 + yoe / 4 - yoe / 100 + (doy : Int)
  era * 146097 + doe - 719468

/-- Go `time.Date(year, month, day, hour, min, sec, nsec, loc)` for in-range
arguments, `offset` being the offset of `loc` east of UTC, in seconds, at that
wall-clock time. -/
def timeDate (year month day hour min sec nsec : Nat) (loc : Location) (offset : Int) :
    Time :=
  ⟨daysFromCivil year month day * 86400 + ((hour * 3600 + min * 60 + sec : Nat) : Int) -
    offset, nsec, loc⟩

/-- Method `Equal` of `time.Time`: the two values denote the same instant,
whatever their locations. -/
def Time.Equal (t u : Time) : Prop := t.sec = u.sec ∧ t.nsec = u.nsec

instance (t u : Time) : Decidable (Time.Equal t u) :=
  inferInstanceAs (Decidable (t.sec = u.sec ∧ t.nsec = u.nsec))

/-- Go `isZeros(p)` of package `net`. -/
def isZeros (p : List Byte) : Bool := p.all fun b => b = 0

/-- Method `To4` of `net.IP`. -/
def To4 (ip : IP) : IP :=
  match ip with
  | none => none
  | some b =>
      if b.length = 4 then some b
      else if b.length = 16 ∧ isZeros (b.take 10) = true ∧ b[10]? = some 255 ∧
          b[11]? = some 255 then
        some ((b.drop 12).take 4)
      else none

/-- Function `WriteIPv4` of `network.go`. -/
def WriteIPv4 {σ : Type} (W : Writer σ) (s : σ) (addr : IP) : WRet σ :=
  match To4 addr with
  | none => ⟨some Error.ErrInvalidIP, s⟩
  | some ip4 => write W s ip4

/-! ## Loops of the examples and a helper to state refinements -/

/-- The write loop of the examples,
`for _, v := range data { if err := Write(w, v); err != nil { ... } }`:
the values are written in order up to the first error. -/
def writeEach {α σ : Type} (wr : σ → α → WRet σ) : σ → List α → WRet σ
  | s, [] => ⟨none, s⟩
  | s, v :: vs =>
      match (wr s v).err with
      | some e => ⟨some e, (wr s v).st⟩
      | none => writeEach wr (wr s v).st vs

/-- The read loop of the examples,
`for { v, err := Read(r); if err != nil { ... break }; ... }`: the read is
called until it returns an error; the result holds the values read before, that
error, and the reader afterwards. `steps` bounds the number of calls. -/
def readUntilError {α σ : Type} (rd : σ → Run (Ret α σ)) : Nat → σ → Run (Ret (List α) σ)
  | 0, _ => Run.pending
  | steps + 1, s =>
      match rd s with
      | Run.pending => Run.pending
      | Run.panicked => Run.panicked
      | Run.done r =>
          match r.err with
          | some e => Run.done ⟨[], some e, r.st⟩
          | none =>
              match readUntilError rd steps r.st with
              | Run.pending => Run.pending
              | Run.panicked => Run.panicked
              | Run.done q => Run.done ⟨r.val :: q.val, q.err, q.st⟩

/-- The outcome of a read with `f` applied to the returned value. -/
def Run.mapVal {α β σ : Type} (f : α → β) : Run (Ret α σ) → Run (Ret β σ)
  | Run.done r => Run.done ⟨f r.val, r.err, r.st⟩
  | Run.panicked => Run.panicked
  | Run.pending => Run.pending

/-! ## `WriteIPv6`, `net.IP.Equal` and `ReadCString` -/

/-- Go `v4InV6Prefix` of package `net`: the 12 bytes that start an IPv4-mapped
IPv6 address. -/
def v4InV6Prefix : List Byte := [0, 0, 0, 0, 0, 0, 0, 0, 0, 0, 255, 255]

/-- Go `net.IPv4(a, b, c, d)`: the 16-byte form of the IPv4 address `a.b.c.d`
(a zeroed 16-byte slice, `v4InV6Prefix` copied to its front, bytes 12..15 set). -/
def IPv4 (a b c d : Byte) : List Byte := v4InV6Prefix ++ [a, b, c, d]

/-- Method `To16` of `net.IP`. -/
def To16 (ip : IP) : IP :=
  match ip with
  | none => none
  | some b =>
      match b with
      | [a0, a1, a2, a3] => some (IPv4 a0 a1 a2 a3)
      | _ => if b.length = 16 then some b else none

/-- Function `WriteIPv6` of `network.go`. -/
def WriteIPv6 {σ : Type} (W : Writer σ) (s : σ) (addr : IP) : WRet σ :=
  match To16 addr with
  | none => ⟨some Error.ErrInvalidIP, s⟩
  | some ip16 => write W s ip16

/-- Method `Equal` of `net.IP`: the same bytes, an IPv4 address and its
IPv4-mapped 16-byte form being equal too. A `nil` slice has length 0. -/
def IPEqual (ip x : IP) : Bool :=
  let a := ip.getD []
  let b := x.getD []
  if a.length = b.length then decide (a = b)
  else if a.length = 4 ∧ b.length = 16 then
    decide (b.take 12 = v4InV6Prefix) && decide (a = b.drop 12)
  else if a.length = 16 ∧ b.length = 4 then
    decide (a.take 12 = v4InV6Prefix) && decide (a.drop 12 = b)
  else false

/-- The three `return` statements in the `if err != nil` branch of
`ReadCString`, with `b` and `t` the string and the count so far. -/
def ReadCString.onErr {σ : Type} (b : List Byte) (t : Nat) (err : Error) (st : σ) :
    Ret (List Byte × Nat) σ :=
  if Error.Is err Error.EOF then
    if 0 < t then ⟨(b, t), none, st⟩ else ⟨(b, t), some Error.EOF, st⟩
  else ⟨(b, t), some (Error.wrap "read failure: " err), st⟩

/-- The `for` loop of `ReadCString`, entered with the string `b` and the count
`t`; each iteration calls `Read` with the one-byte buffer `buf`, and `fuel`
bounds the iterations. -/
def ReadCString.loop {σ : Type} (R : Reader σ) :
    Nat → σ → List Byte → Nat → Run (Ret (List Byte × Nat) σ)
  | 0, _, _, _ => Run.pending
  | fuel + 1, s, b, t =>
      let r := R.read s 1
      match r.data with
      | [c] =>
          if c = 0 then Run.done ⟨(b, t + 1), none, r.st⟩
          else
            match r.err with
            | some err => Run.done (ReadCString.onErr (b ++ [c]) (t + 1) err r.st)
            | none => ReadCString.loop R fuel r.st (b ++ [c]) (t + 1)
      | _ =>
          match r.err with
          | some err => Run.done (ReadCString.onErr b t err r.st)
          | none => ReadCString.loop R fuel r.st b t

/-- Function `ReadCString` of `string.go`; the value is the pair of the
returned string and the returned count. -/
def ReadCString {σ : Type} (R : Reader σ) (fuel : Nat) (s : σ) :
    Run (Ret (List Byte × Nat) σ) :=
  ReadCString.loop R fuel s [] 0

/-- A writer that accepts every call of `Write` and keeps the list of the
buffers it was called with, one entry per call. -/
def recordingWriter : Writer (List (List Byte)) where
  write := fun s p => ⟨p.length, none, s ++ [p]⟩

/-! ## More test doubles and predicates on runs of a reader -/

/-- A writer that keeps the list of the buffers it was called with, like
`recordingWriter`, but fails every call with the error `e`. -/
def failingWriter (e : Error) : Writer (List (List Byte)) where
  write := fun s p => ⟨0, some e, s ++ [p]⟩

/-- A writer that takes all but the last byte of every buffer and reports that
short count together with a `nil` error. -/
def shortWriter : Writer (List Byte) where
  write := fun s p => ⟨p.length - 1, none, s ++ p.take (p.length - 1)⟩

/-- Asked for one byte at a time from state `s`, the reader reports the error
`e` on a call of `Read`, every earlier call having reported no error, and no
call, the failing one included, having delivered a `0x00` byte; `ds` are the
bytes these calls delivered, in order, and `s2` is the reader after the failing
call. -/
inductive FaultsAfter {σ : Type} (R : Reader σ) (e : Error) : σ → List Byte → σ → Prop where
  | now (s : σ) :
      (R.read s 1).err = some e → (0 : Byte) ∉ (R.read s 1).data →
      FaultsAfter R e s (R.read s 1).data (R.read s 1).st
  | later (s : σ) (ds : List Byte) (s2 : σ) :
      (R.read s 1).err = none → (0 : Byte) ∉ (R.read s 1).data →
      FaultsAfter R e (R.read s 1).st ds s2 →
      FaultsAfter R e s ((R.read s 1).data ++ ds) s2

/-- The bytes delivered, in order, by `k` successive calls of `Read` with a
one-byte buffer from state `s`, and the reader after these calls. -/
def readCalls {σ : Type} (R : Reader σ) : Nat → σ → List Byte × σ
  | 0, s => ([], s)
  | k + 1, s =>
      let r := R.read s 1
      let rest := readCalls R k r.st
      (r.data ++ rest.1, rest.2)

/-- The typed write `X` (its value already fixed) makes exactly one call of
`Write`, with the buffer `E`: the recording writer gets the one entry `E`; so
does the failing writer (there is no second attempt), and the error returned
wraps its error; for every writer, the writer afterwards is the one after the
single call `Write(E)`, a `nil` error of that call gives `nil`, and an error
`e` of that call gives an error that wraps `e`. -/
def CallsWriteOnce (X : (σ : Type) → Writer σ → σ → WRet σ) (E : List Byte) : Prop :=
  (∀ log, X _ recordingWriter log = ⟨none, log ++ [E]⟩) ∧
  (∀ e log, X _ (failingWriter e) log =
    ⟨some (Error.wrap "write failure: " e), log ++ [E]⟩) ∧
  (∀ (σ : Type) (W : Writer σ) (s : σ),
    (X σ W s).st = (W.write s E).st ∧
    ((W.write s E).err = none → (X σ W s).err = none) ∧
    ∀ e, (W.write s E).err = some e →
      (X σ W s).err = some (Error.wrap "write failure: " e) ∧
      Error.Is (Error.wrap "write failure: " e) e = true)

/-! ## Arithmetic of the byte-order conversions -/

theorem or_shl (w k a b : Nat) (hb : b < 2 ^ k) (ha : a * 2 ^ k < 2 ^ w) :
    b ||| shl w a k = a * 2 ^ k + b := by
  unfold shl
  rw [Nat.shiftLeft_eq, Nat.mod_eq_of_lt ha, Nat.lor_comm, Nat.mul_comm a,
    ← Nat.mul_add_lt_is_or hb]

theorem beUint16_cons (b0 b1 : Byte) (rest : List Byte) :
    BigEndian.Uint16 (b0 :: b1 :: rest) =
      some (b0.val * 256 + b1.val) := by
  have h0 := b0.isLt
  have h1 := b1.isLt
  simp only [BigEndian.Uint16]
  rw [or_shl 16 8 _ _ (by omega) (by omega)]
  refine congrArg some ?_
  norm_num

theorem beUint16_put (v : Nat) (hv : v < 2 ^ 16) :
    BigEndian.Uint16 (BigEndian.PutUint16 v) = some v := by
  rw [BigEndian.PutUint16, beUint16_cons]
  simp only [byte, Nat.shiftRight_eq_div_pow]
  refine congrArg some ?_
  norm_num at hv ⊢
  omega

theorem leUint16_cons (b0 b1 : Byte) (rest : List Byte) :
    LittleEndian.Uint16 (b0 :: b1 :: rest) =
      some (b0.val + b1.val * 256) := by
  have h0 := b0.isLt
  have h1 := b1.isLt
  simp only [LittleEndian.Uint16]
  rw [or_shl 16 8 _ _ (by omega) (by omega)]
  refine congrArg some ?_
  norm_num
  omega

theorem leUint16_put (v : Nat) (hv : v < 2 ^ 16) :
    LittleEndian.Uint16 (LittleEndian.PutUint16 v) = some v := by
  rw [LittleEndian.PutUint16, leUint16_cons]
  simp only [byte, Nat.shiftRight_eq_div_pow]
  refine congrArg some ?_
  norm_num at hv ⊢
  omega

theorem beUint32_cons (b0 b1 b2 b3 : Byte) (rest : List Byte) :
    BigEndian.Uint32 (b0 :: b1 :: b2 :: b3 :: rest) =
      some (b0.val * 256 ^ 3 + b1.val * 256 ^ 2 + b2.val * 256 + b3.val) := by
  have h0 := b0.isLt
  have h1 := b1.isLt
  have h2 := b2.isLt
  have h3 := b3.isLt
  simp only [BigEndian.Uint32]
  rw [or_shl 32 8 _ _ (by omega) (by omega), or_shl 32 16 _ _ (by omega) (by omega), or_shl 32 24 _ _ (by omega) (by omega)]
  refine congrArg some ?_
  norm_num
  omega

theorem beUint32_put (v : Nat) (hv : v < 2 ^ 32) :
    BigEndian.Uint32 (BigEndian.PutUint32 v) = some v := by
  rw [BigEndian.PutUint32, beUint32_cons]
  simp only [byte, Nat.shiftRight_eq_div_pow]
  refine congrArg some ?_
  norm_num at hv ⊢
  omega

theorem leUint32_cons (b0 b1 b2 b3 : Byte) (rest : List Byte) :
    LittleEndian.Uint32 (b0 :: b1 :: b2 :: b3 :: rest) =
      some (b0.val + b1.val * 256 + b2.val * 256 ^ 2 + b3.val * 256 ^ 3) := by
  have h0 := b0.isLt
  have h1 := b1.isLt
  have h2 := b2.isLt
  have h3 := b3.isLt
  simp only [LittleEndian.Uint32]
  rw [or_shl 32 8 _ _ (by omega) (by omega), or_shl 32 16 _ _ (by omega) (by omega), or_shl 32 24 _ _ (by omega) (by omega)]
  refine congrArg some ?_
  norm_num
  omega

theorem leUint32_put (v : Nat) (hv : v < 2 ^ 32) :
    LittleEndian.Uint32 (LittleEndian.PutUint32 v) = some v := by
  rw [LittleEndian.PutUint32, leUint32_cons]
  simp only [byte, Nat.shiftRight_eq_div_pow]
  refine congrArg some ?_
  norm_num at hv ⊢
  omega

theorem beUint64_cons (b0 b1 b2 b3 b4 b5 b6 b7 : Byte) (rest : List Byte) :
    BigEndian.Uint64 (b0 :: b1 :: b2 :: b3 :: b4 :: b5 :: b6 :: b7 :: rest) =
      some (b0.val * 256 ^ 7 + b1.val * 256 ^ 6 + b2.val * 256 ^ 5 + b3.val * 256 ^ 4 + b4.val * 256 ^ 3 + b5.val * 256 ^ 2 + b6.val * 256 + b7.val) := by
  have h0 := b0.isLt
  have h1 := b1.isLt
  have h2 := b2.isLt
  have h3 := b3.isLt
  have h4 := b4.isLt
  have h5 := b5.isLt
  have h6 := b6.isLt
  have h7 := b7.isLt
  simp only [BigEndian.Uint64]
  rw [or_shl 64 8 _ _ (by omega) (by omega), or_shl 64 16 _ _ (by omega) (by omega), or_shl 64 24 _ _ (by omega) (by omega), or_shl 64 32 _ _ (by omega) (by omega), or_shl 64 40 _ _ (by omega) (by omega), or_shl 64 48 _ _ (by omega) (by omega), or_shl 64 56 _ _ (by omega) (by omega)]
  refine congrArg some ?_
  norm_num
  omega

theorem beUint64_put (v : Nat) (hv : v < 2 ^ 64) :
    BigEndian.Uint64 (BigEndian.PutUint64 v) = some v := by
  rw [BigEndian.PutUint64, beUint64_cons]
  simp only [byte, Nat.shiftRight_eq_div_pow]
  refine congrArg some ?_
  norm_num at hv ⊢
  omega

theorem leUint64_cons (b0 b1 b2 b3 b4 b5 b6 b7 : Byte) (rest : List Byte) :
    LittleEndian.Uint64 (b0 :: b1 :: b2 :: b3 :: b4 :: b5 :: b6 :: b7 :: rest) =
      some (b0.val + b1.val * 256 + b2.val * 256 ^ 2 + b3.val * 256 ^ 3 + b4.val * 256 ^ 4 + b5.val * 256 ^ 5 + b6.val * 256 ^ 6 + b7.val * 256 ^ 7) := by
  have h0 := b0.isLt
  have h1 := b1.isLt
  have h2 := b2.isLt
  have h3 := b3.isLt
  have h4 := b4.isLt
  have h5 := b5.isLt
  have h6 := b6.isLt
  have h7 := b7.isLt
  simp only [LittleEndian.Uint64]
  rw [or_shl 64 8 _ _ (by omega) (by omega), or_shl 64 16 _ _ (by omega) (by omega), or_shl 64 24 _ _ (by omega) (by omega), or_shl 64 32 _ _ (by omega) (by omega), or_shl 64 40 _ _ (by omega) (by omega), or_shl 64 48 _ _ (by omega) (by omega), or_shl 64 56 _ _ (by omega) (by omega)]
  refine congrArg some ?_
  norm_num
  omega

theorem leUint64_put (v : Nat) (hv : v < 2 ^ 64) :
    LittleEndian.Uint64 (LittleEndian.PutUint64 v) = some v := by
  rw [LittleEndian.PutUint64, leUint64_cons]
  simp only [byte, Nat.shiftRight_eq_div_pow]
  refine congrArg some ?_
  norm_num at hv ⊢
  omega

theorem toSigned_toUnsigned_8 (v : Int) (h1 : -2 ^ 7 ≤ v) (h2 : v < 2 ^ 7) :
    toSigned 8 (toUnsigned 8 v) = v ∧ toUnsigned 8 v < 2 ^ 8 := by
  unfold toSigned toUnsigned
  norm_num at h1 h2 ⊢
  omega

theorem toSigned_eq_8 (u : Nat) (h : u < 2 ^ 8) :
    toSigned 8 u = if u < 2 ^ 7 then (u : Int) else (u : Int) - 2 ^ 8 := by
  unfold toSigned
  split <;> norm_num at * <;> omega

theorem toSigned_toUnsigned_16 (v : Int) (h1 : -2 ^ 15 ≤ v) (h2 : v < 2 ^ 15) :
    toSigned 16 (toUnsigned 16 v) = v ∧ toUnsigned 16 v < 2 ^ 16 := by
  unfold toSigned toUnsigned
  norm_num at h1 h2 ⊢
  omega

theorem toSigned_eq_16 (u : Nat) (h : u < 2 ^ 16) :
    toSigned 16 u = if u < 2 ^ 15 then (u : Int) else (u : Int) - 2 ^ 16 := by
  unfold toSigned
  split <;> norm_num at * <;> omega

theorem toSigned_toUnsigned_32 (v : Int) (h1 : -2 ^ 31 ≤ v) (h2 : v < 2 ^ 31) :
    toSigned 32 (toUnsigned 32 v) = v ∧ toUnsigned 32 v < 2 ^ 32 := by
  unfold toSigned toUnsigned
  norm_num at h1 h2 ⊢
  omega

theorem toSigned_eq_32 (u : Nat) (h : u < 2 ^ 32) :
    toSigned 32 u = if u < 2 ^ 31 then (u : Int) else (u : Int) - 2 ^ 32 := by
  unfold toSigned
  split <;> norm_num at * <;> omega

theorem toSigned_toUnsigned_64 (v : Int) (h1 : -2 ^ 63 ≤ v) (h2 : v < 2 ^ 63) :
    toSigned 64 (toUnsigned 64 v) = v ∧ toUnsigned 64 v < 2 ^ 64 := by
  unfold toSigned toUnsigned
  norm_num at h1 h2 ⊢
  omega

theorem toSigned_eq_64 (u : Nat) (h : u < 2 ^ 64) :
    toSigned 64 u = if u < 2 ^ 63 then (u : Int) else (u : Int) - 2 ^ 64 := by
  unfold toSigned
  split <;> norm_num at * <;> omega

/-! ## The bounded reader on in-memory streams -/

/-- The value of `maxAlloc`. -/
@[simp] theorem maxAlloc_eq : maxAlloc = 281474976710656 := by decide

theorem ReadAtLeast.loop_stop {σ : Type} (R : Reader σ) (len min fuel : Nat) (s : σ)
    (got : List Byte) (err : Option Error) (h : ¬ (got.length < min ∧ err = none)) :
    ReadAtLeast.loop R len min fuel s got err = some ⟨got, err, s⟩ := by
  cases fuel <;> simp [ReadAtLeast.loop, h]

theorem ReadAtLeast.loop_step {σ : Type} (R : Reader σ) (len min fuel : Nat) (s : σ)
    (got : List Byte) (h : got.length < min) :
    ReadAtLeast.loop R len min (fuel + 1) s got none =
      ReadAtLeast.loop R len min fuel (R.read s (len - got.length)).st
        (got ++ (R.read s (len - got.length)).data) (R.read s (len - got.length)).err := by
  simp [ReadAtLeast.loop, h]

theorem readN_bytes_ok (fuel : Nat) (bs : List Byte) (n : Int) (hf : 0 < fuel)
    (h0 : 0 ≤ n ∧ n ≤ (maxAlloc : Int)) (hn : n.toNat ≤ bs.length) :
    readN bytesReader fuel bs n = Run.done ⟨bs.take n.toNat, none, bs.drop n.toNat⟩ := by
  obtain ⟨f, rfl⟩ : ∃ f, fuel = f + 1 := ⟨fuel - 1, by omega⟩
  have hneg : ¬ (n < 0 ∨ (maxAlloc : Int) < n) := by omega
  by_cases hz : n.toNat = 0
  · rw [readN, if_neg hneg]
    simp [ReadFull, ReadAtLeast, ReadAtLeast.loop, hz]
  · have hne : bs ≠ [] := by
      intro h
      rw [h] at hn
      simp only [List.length_nil] at hn
      omega
    have hlen : (List.take n.toNat bs).length = n.toNat := by
      simp [List.length_take, hn]
    rw [readN, if_neg hneg, ReadFull, ReadAtLeast,
      ReadAtLeast.loop_step _ _ _ _ _ _ (by simpa using Nat.pos_of_ne_zero hz)]
    simp only [bytesReader, if_neg hne, List.length_nil, Nat.sub_zero, List.nil_append]
    rw [ReadAtLeast.loop_stop _ _ _ _ _ _ _ (by simp [hlen])]
    simp [hlen]

theorem readN_buffer_ok (fuel : Nat) (bs : List Byte) (n : Int) (hf : 0 < fuel)
    (h0 : 0 ≤ n ∧ n ≤ (maxAlloc : Int)) (hn : n.toNat ≤ bs.length) :
    readN bufferReader fuel bs n = Run.done ⟨bs.take n.toNat, none, bs.drop n.toNat⟩ := by
  obtain ⟨f, rfl⟩ : ∃ f, fuel = f + 1 := ⟨fuel - 1, by omega⟩
  have hneg : ¬ (n < 0 ∨ (maxAlloc : Int) < n) := by omega
  by_cases hz : n.toNat = 0
  · rw [readN, if_neg hneg]
    simp [ReadFull, ReadAtLeast, ReadAtLeast.loop, hz]
  · have hne : bs ≠ [] := by
      intro h
      rw [h] at hn
      simp only [List.length_nil] at hn
      omega
    have hlen : (List.take n.toNat bs).length = n.toNat := by
      simp [List.length_take, hn]
    rw [readN, if_neg hneg, ReadFull, ReadAtLeast,
      ReadAtLeast.loop_step _ _ _ _ _ _ (by simpa using Nat.pos_of_ne_zero hz)]
    simp only [bufferReader, if_neg hne, List.length_nil, Nat.sub_zero, List.nil_append]
    rw [ReadAtLeast.loop_stop _ _ _ _ _ _ _ (by simp [hlen])]
    simp [hlen]

theorem readN_bytes_eof (fuel : Nat) (n : Int) (hf : 0 < fuel)
    (hn : 0 < n ∧ n ≤ (maxAlloc : Int)) :
    readN bytesReader fuel [] n = Run.done ⟨[], some Error.EOF, []⟩ := by
  obtain ⟨f, rfl⟩ : ∃ f, fuel = f + 1 := ⟨fuel - 1, by omega⟩
  have hneg : ¬ (n < 0 ∨ (maxAlloc : Int) < n) := by omega
  have hpos : 0 < n.toNat := by omega
  rw [readN, if_neg hneg, ReadFull, ReadAtLeast,
    ReadAtLeast.loop_step _ _ _ _ _ _ (by simpa using hpos)]
  simp only [bytesReader, if_true, List.length_nil, Nat.sub_zero, List.nil_append]
  rw [ReadAtLeast.loop_stop _ _ _ _ _ _ _ (by simp)]
  have : ¬ n.toNat ≤ 0 := by omega
  simp [this, Error.Is]

theorem readN_bytes_short (fuel : Nat) (bs : List Byte) (n : Int) (hf : 2 ≤ fuel)
    (hk : 0 < bs.length) (hn : bs.length < n.toNat) (hmax : n ≤ (maxAlloc : Int)) :
    readN bytesReader fuel bs n =
      Run.done ⟨[], some (Error.wrap "read failure: " Error.ErrUnexpectedEOF), []⟩ := by
  obtain ⟨f, rfl⟩ : ∃ f, fuel = f + 2 := ⟨fuel - 2, by omega⟩
  have hneg : ¬ (n < 0 ∨ (maxAlloc : Int) < n) := by omega
  have hne : bs ≠ [] := by
    intro h
    simp [h] at hk
  have htake : List.take n.toNat bs = bs := List.take_of_length_le (by omega)
  have hdrop : List.drop n.toNat bs = [] := List.drop_of_length_le (by omega)
  rw [readN, if_neg hneg, ReadFull, ReadAtLeast,
    ReadAtLeast.loop_step _ _ _ _ _ _ (by simp; omega)]
  simp only [bytesReader, if_neg hne, List.length_nil, Nat.sub_zero, List.nil_append,
    htake, hdrop]
  rw [ReadAtLeast.loop_step _ _ _ _ _ _ hn]
  simp only [if_true, List.append_nil]
  rw [ReadAtLeast.loop_stop _ _ _ _ _ _ _ (by simp)]
  have : ¬ n.toNat ≤ bs.length := by omega
  simp [this, hk, Error.Is]

/-! ## Round trips through a `bytes.Buffer` -/

theorem write_buffer (s b : List Byte) : write bufferWriter s b = ⟨none, s ++ b⟩ := rfl

theorem byte_val_of_lt (v : Nat) (h : v < 2 ^ 8) : (byte v).val = v :=
  Nat.mod_eq_of_lt (by norm_num at h; omega)

theorem ReadUint8_buffer_put (fuel v : Nat) (hf : 0 < fuel) (h : v < 2 ^ 8) :
    ReadUint8 bufferReader fuel [byte v] = Run.done ⟨v, none, []⟩ := by
  simp [ReadUint8, readN_buffer_ok, hf, byte_val_of_lt v h]

theorem ReadInt8_buffer_put (fuel : Nat) (v : Int) (hf : 0 < fuel)
    (h1 : -2 ^ 7 ≤ v) (h2 : v < 2 ^ 7) :
    ReadInt8 bufferReader fuel [byte (toUnsigned 8 v)] = Run.done ⟨v, none, []⟩ := by
  obtain ⟨hs, hu⟩ := toSigned_toUnsigned_8 v h1 h2
  simp [ReadInt8, readN_buffer_ok, hf, byte_val_of_lt _ hu, hs]

theorem ReadUint16BE_buffer_put (fuel v : Nat) (hf : 0 < fuel) (h : v < 2 ^ 16) :
    ReadUint16BE bufferReader fuel (BigEndian.PutUint16 v) = Run.done ⟨v, none, []⟩ := by
  have hp := beUint16_put v h
  unfold BigEndian.PutUint16 at hp ⊢
  simp [ReadUint16BE, readN_buffer_ok, hf, hp]

theorem ReadInt16BE_buffer_put (fuel : Nat) (v : Int) (hf : 0 < fuel)
    (h1 : -2 ^ 15 ≤ v) (h2 : v < 2 ^ 15) :
    ReadInt16BE bufferReader fuel (BigEndian.PutUint16 (toUnsigned 16 v)) =
      Run.done ⟨v, none, []⟩ := by
  obtain ⟨hs, hu⟩ := toSigned_toUnsigned_16 v h1 h2
  have hp := beUint16_put _ hu
  unfold BigEndian.PutUint16 at hp ⊢
  simp [ReadInt16BE, readN_buffer_ok, hf, hp, hs]

theorem ReadUint16LE_buffer_put (fuel v : Nat) (hf : 0 < fuel) (h : v < 2 ^ 16) :
    ReadUint16LE bufferReader fuel (LittleEndian.PutUint16 v) = Run.done ⟨v, none, []⟩ := by
  have hp := leUint16_put v h
  unfold LittleEndian.PutUint16 at hp ⊢
  simp [ReadUint16LE, readN_buffer_ok, hf, hp]

theorem ReadInt16LE_buffer_put (fuel : Nat) (v : Int) (hf : 0 < fuel)
    (h1 : -2 ^ 15 ≤ v) (h2 : v < 2 ^ 15) :
    ReadInt16LE bufferReader fuel (LittleEndian.PutUint16 (toUnsigned 16 v)) =
      Run.done ⟨v, none, []⟩ := by
  obtain ⟨hs, hu⟩ := toSigned_toUnsigned_16 v h1 h2
  have hp := leUint16_put _ hu
  unfold LittleEndian.PutUint16 at hp ⊢
  simp [ReadInt16LE, readN_buffer_ok, hf, hp, hs]

theorem ReadUint32BE_buffer_put (fuel v : Nat) (hf : 0 < fuel) (h : v < 2 ^ 32) :
    ReadUint32BE bufferReader fuel (BigEndian.PutUint32 v) = Run.done ⟨v, none, []⟩ := by
  have hp := beUint32_put v h
  unfold BigEndian.PutUint32 at hp ⊢
  simp [ReadUint32BE, readN_buffer_ok, hf, hp]

theorem ReadInt32BE_buffer_put (fuel : Nat) (v : Int) (hf : 0 < fuel)
    (h1 : -2 ^ 31 ≤ v) (h2 : v < 2 ^ 31) :
    ReadInt32BE bufferReader fuel (BigEndian.PutUint32 (toUnsigned 32 v)) =
      Run.done ⟨v, none, []⟩ := by
  obtain ⟨hs, hu⟩ := toSigned_toUnsigned_32 v h1 h2
  have hp := beUint32_put _ hu
  unfold BigEndian.PutUint32 at hp ⊢
  simp [ReadInt32BE, readN_buffer_ok, hf, hp, hs]

theorem ReadUint32LE_buffer_put (fuel v : Nat) (hf : 0 < fuel) (h : v < 2 ^ 32) :
    ReadUint32LE bufferReader fuel (LittleEndian.PutUint32 v) = Run.done ⟨v, none, []⟩ := by
  have hp := leUint32_put v h
  unfold LittleEndian.PutUint32 at hp ⊢
  simp [ReadUint32LE, readN_buffer_ok, hf, hp]

theorem ReadInt32LE_buffer_put (fuel : Nat) (v : Int) (hf : 0 < fuel)
    (h1 : -2 ^ 31 ≤ v) (h2 : v < 2 ^ 31) :
    ReadInt32LE bufferReader fuel (LittleEndian.PutUint32 (toUnsigned 32 v)) =
      Run.done ⟨v, none, []⟩ := by
  obtain ⟨hs, hu⟩ := toSigned_toUnsigned_32 v h1 h2
  have hp := leUint32_put _ hu
  unfold LittleEndian.PutUint32 at hp ⊢
  simp [ReadInt32LE, readN_buffer_ok, hf, hp, hs]

theorem ReadUint64BE_buffer_put (fuel v : Nat) (hf : 0 < fuel) (h : v < 2 ^ 64) :
    ReadUint64BE bufferReader fuel (BigEndian.PutUint64 v) = Run.done ⟨v, none, []⟩ := by
  have hp := beUint64_put v h
  unfold BigEndian.PutUint64 at hp ⊢
  simp [ReadUint64BE, readN_buffer_ok, hf, hp]

theorem ReadInt64BE_buffer_put (fuel : Nat) (v : Int) (hf : 0 < fuel)
    (h1 : -2 ^ 63 ≤ v) (h2 : v < 2 ^ 63) :
    ReadInt64BE bufferReader fuel (BigEndian.PutUint64 (toUnsigned 64 v)) =
      Run.done ⟨v, none, []⟩ := by
  obtain ⟨hs, hu⟩ := toSigned_toUnsigned_64 v h1 h2
  have hp := beUint64_put _ hu
  unfold BigEndian.PutUint64 at hp ⊢
  simp [ReadInt64BE, readN_buffer_ok, hf, hp, hs]

theorem ReadUint64LE_buffer_put (fuel v : Nat) (hf : 0 < fuel) (h : v < 2 ^ 64) :
    ReadUint64LE bufferReader fuel (LittleEndian.PutUint64 v) = Run.done ⟨v, none, []⟩ := by
  have hp := leUint64_put v h
  unfold LittleEndian.PutUint64 at hp ⊢
  simp [ReadUint64LE, readN_buffer_ok, hf, hp]

theorem ReadInt64LE_buffer_put (fuel : Nat) (v : Int) (hf : 0 < fuel)
    (h1 : -2 ^ 63 ≤ v) (h2 : v < 2 ^ 63) :
    ReadInt64LE bufferReader fuel (LittleEndian.PutUint64 (toUnsigned 64 v)) =
      Run.done ⟨v, none, []⟩ := by
  obtain ⟨hs, hu⟩ := toSigned_toUnsigned_64 v h1 h2
  have hp := leUint64_put _ hu
  unfold LittleEndian.PutUint64 at hp ⊢
  simp [ReadInt64LE, readN_buffer_ok, hf, hp, hs]

/-! ## Properties of the integer codec -/

/-- C1. Unsigned integer round trip: for every unsigned value of width 8, 16,
32 or 64 bits and each byte order, writing the value into an empty
`bytes.Buffer` with the matching write succeeds, and reading that buffer with
the matching read returns exactly the value and no error (and leaves the
buffer empty). -/
theorem unsigned_round_trip (fuel v8 v16 v32 v64 : Nat) (hf : 0 < fuel)
    (h8 : v8 < 2 ^ 8) (h16 : v16 < 2 ^ 16) (h32 : v32 < 2 ^ 32) (h64 : v64 < 2 ^ 64) :
    ((WriteUint8 bufferWriter [] v8).err = none ∧
      ReadUint8 bufferReader fuel (WriteUint8 bufferWriter [] v8).st =
        Run.done ⟨v8, none, []⟩) ∧
    ((WriteUint16BE bufferWriter [] v16).err = none ∧
      ReadUint16BE bufferReader fuel (WriteUint16BE bufferWriter [] v16).st =
        Run.done ⟨v16, none, []⟩) ∧
    ((WriteUint16LE bufferWriter [] v16).err = none ∧
      ReadUint16LE bufferReader fuel (WriteUint16LE bufferWriter [] v16).st =
        Run.done ⟨v16, none, []⟩) ∧
    ((WriteUint32BE bufferWriter [] v32).err = none ∧
      ReadUint32BE bufferReader fuel (WriteUint32BE bufferWriter [] v32).st =
        Run.done ⟨v32, none, []⟩) ∧
    ((WriteUint32LE bufferWriter [] v32).err = none ∧
      ReadUint32LE bufferReader fuel (WriteUint32LE bufferWriter [] v32).st =
        Run.done ⟨v32, none, []⟩) ∧
    ((WriteUint64BE bufferWriter [] v64).err = none ∧
      ReadUint64BE bufferReader fuel (WriteUint64BE bufferWriter [] v64).st =
        Run.done ⟨v64, none, []⟩) ∧
    ((WriteUint64LE bufferWriter [] v64).err = none ∧
      ReadUint64LE bufferReader fuel (WriteUint64LE bufferWriter [] v64).st =
        Run.done ⟨v64, none, []⟩) :=
  ⟨⟨rfl, by simpa [WriteUint8, write_buffer] using ReadUint8_buffer_put fuel v8 hf h8⟩,
    ⟨rfl, by simpa [WriteUint16BE, write_buffer] using ReadUint16BE_buffer_put fuel v16 hf h16⟩,
    ⟨rfl, by simpa [WriteUint16LE, write_buffer] using ReadUint16LE_buffer_put fuel v16 hf h16⟩,
    ⟨rfl, by simpa [WriteUint32BE, write_buffer] using ReadUint32BE_buffer_put fuel v32 hf h32⟩,
    ⟨rfl, by simpa [WriteUint32LE, write_buffer] using ReadUint32LE_buffer_put fuel v32 hf h32⟩,
    ⟨rfl, by simpa [WriteUint64BE, write_buffer] using ReadUint64BE_buffer_put fuel v64 hf h64⟩,
    ⟨rfl, by simpa [WriteUint64LE, write_buffer] using ReadUint64LE_buffer_put fuel v64 hf h64⟩⟩

theorem unsigned_round_trip_witness :
    (0 < 1 ∧ 255 < 2 ^ 8 ∧ 4660 < 2 ^ 16 ∧ 4294967295 < 2 ^ 32 ∧
      1311768467463790320 < 2 ^ 64) ∧
    ((WriteUint8 bufferWriter [] 255).err = none ∧
      ReadUint8 bufferReader 1 (WriteUint8 bufferWriter [] 255).st =
        Run.done ⟨255, none, []⟩) ∧
    ((WriteUint16BE bufferWriter [] 4660).err = none ∧
      ReadUint16BE bufferReader 1 (WriteUint16BE bufferWriter [] 4660).st =
        Run.done ⟨4660, none, []⟩) ∧
    ((WriteUint16LE bufferWriter [] 4660).err = none ∧
      ReadUint16LE bufferReader 1 (WriteUint16LE bufferWriter [] 4660).st =
        Run.done ⟨4660, none, []⟩) ∧
    ((WriteUint32BE bufferWriter [] 4294967295).err = none ∧
      ReadUint32BE bufferReader 1 (WriteUint32BE bufferWriter [] 4294967295).st =
        Run.done ⟨4294967295, none, []⟩) ∧
    ((WriteUint32LE bufferWriter [] 4294967295).err = none ∧
      ReadUint32LE bufferReader 1 (WriteUint32LE bufferWriter [] 4294967295).st =
        Run.done ⟨4294967295, none, []⟩) ∧
    ((WriteUint64BE bufferWriter [] 1311768467463790320).err = none ∧
      ReadUint64BE bufferReader 1 (WriteUint64BE bufferWriter [] 1311768467463790320).st =
        Run.done ⟨1311768467463790320, none, []⟩) ∧
    ((WriteUint64LE bufferWriter [] 1311768467463790320).err = none ∧
      ReadUint64LE bufferReader 1 (WriteUint64LE bufferWriter [] 1311768467463790320).st =
        Run.done ⟨1311768467463790320, none, []⟩) :=
  ⟨⟨by decide, by decide, by decide, by decide, by decide⟩,
    unsigned_round_trip 1 255 4660 4294967295 1311768467463790320
      (by decide) (by decide) (by decide) (by decide) (by decide)⟩

/-- C2. Signed integer round trip: for every signed value of width 8, 16, 32
or 64 bits (negative values and the minimum included) and each byte order,
writing the value into an empty `bytes.Buffer` with the matching write
succeeds, and reading that buffer with the matching read returns exactly the
value and no error. -/
theorem signed_round_trip (fuel : Nat) (v8 v16 v32 v64 : Int) (hf : 0 < fuel)
    (l8 : -2 ^ 7 ≤ v8) (h8 : v8 < 2 ^ 7) (l16 : -2 ^ 15 ≤ v16) (h16 : v16 < 2 ^ 15)
    (l32 : -2 ^ 31 ≤ v32) (h32 : v32 < 2 ^ 31) (l64 : -2 ^ 63 ≤ v64) (h64 : v64 < 2 ^ 63) :
    ((WriteInt8 bufferWriter [] v8).err = none ∧
      ReadInt8 bufferReader fuel (WriteInt8 bufferWriter [] v8).st =
        Run.done ⟨v8, none, []⟩) ∧
    ((WriteInt16BE bufferWriter [] v16).err = none ∧
      ReadInt16BE bufferReader fuel (WriteInt16BE bufferWriter [] v16).st =
        Run.done ⟨v16, none, []⟩) ∧
    ((WriteInt16LE bufferWriter [] v16).err = none ∧
      ReadInt16LE bufferReader fuel (WriteInt16LE bufferWriter [] v16).st =
        Run.done ⟨v16, none, []⟩) ∧
    ((WriteInt32BE bufferWriter [] v32).err = none ∧
      ReadInt32BE bufferReader fuel (WriteInt32BE bufferWriter [] v32).st =
        Run.done ⟨v32, none, []⟩) ∧
    ((WriteInt32LE bufferWriter [] v32).err = none ∧
      ReadInt32LE bufferReader fuel (WriteInt32LE bufferWriter [] v32).st =
        Run.done ⟨v32, none, []⟩) ∧
    ((WriteInt64BE bufferWriter [] v64).err = none ∧
      ReadInt64BE bufferReader fuel (WriteInt64BE bufferWriter [] v64).st =
        Run.done ⟨v64, none, []⟩) ∧
    ((WriteInt64LE bufferWriter [] v64).err = none ∧
      ReadInt64LE bufferReader fuel (WriteInt64LE bufferWriter [] v64).st =
        Run.done ⟨v64, none, []⟩) :=
  ⟨⟨rfl, by simpa [WriteInt8, write_buffer] using ReadInt8_buffer_put fuel v8 hf l8 h8⟩,
    ⟨rfl, by simpa [WriteInt16BE, write_buffer] using ReadInt16BE_buffer_put fuel v16 hf l16 h16⟩,
    ⟨rfl, by simpa [WriteInt16LE, write_buffer] using ReadInt16LE_buffer_put fuel v16 hf l16 h16⟩,
    ⟨rfl, by simpa [WriteInt32BE, write_buffer] using ReadInt32BE_buffer_put fuel v32 hf l32 h32⟩,
    ⟨rfl, by simpa [WriteInt32LE, write_buffer] using ReadInt32LE_buffer_put fuel v32 hf l32 h32⟩,
    ⟨rfl, by simpa [WriteInt64BE, write_buffer] using ReadInt64BE_buffer_put fuel v64 hf l64 h64⟩,
    ⟨rfl, by simpa [WriteInt64LE, write_buffer] using ReadInt64LE_buffer_put fuel v64 hf l64 h64⟩⟩

theorem signed_round_trip_witness :
    (0 < 1 ∧ (-2 ^ 7 ≤ (-128 : Int) ∧ (-128 : Int) < 2 ^ 7) ∧
      (-2 ^ 15 ≤ (-2 : Int) ∧ (-2 : Int) < 2 ^ 15) ∧
      (-2 ^ 31 ≤ (2147483647 : Int) ∧ (2147483647 : Int) < 2 ^ 31) ∧
      (-2 ^ 63 ≤ (-9223372036854775808 : Int) ∧ (-9223372036854775808 : Int) < 2 ^ 63)) ∧
    ((WriteInt8 bufferWriter [] (-128)).err = none ∧
      ReadInt8 bufferReader 1 (WriteInt8 bufferWriter [] (-128)).st =
        Run.done ⟨(-128), none, []⟩) ∧
    ((WriteInt16BE bufferWriter [] (-2)).err = none ∧
      ReadInt16BE bufferReader 1 (WriteInt16BE bufferWriter [] (-2)).st =
        Run.done ⟨(-2), none, []⟩) ∧
    ((WriteInt16LE bufferWriter [] (-2)).err = none ∧
      ReadInt16LE bufferReader 1 (WriteInt16LE bufferWriter [] (-2)).st =
        Run.done ⟨(-2), none, []⟩) ∧
    ((WriteInt32BE bufferWriter [] 2147483647).err = none ∧
      ReadInt32BE bufferReader 1 (WriteInt32BE bufferWriter [] 2147483647).st =
        Run.done ⟨2147483647, none, []⟩) ∧
    ((WriteInt32LE bufferWriter [] 2147483647).err = none ∧
      ReadInt32LE bufferReader 1 (WriteInt32LE bufferWriter [] 2147483647).st =
        Run.done ⟨2147483647, none, []⟩) ∧
    ((WriteInt64BE bufferWriter [] (-9223372036854775808)).err = none ∧
      ReadInt64BE bufferReader 1 (WriteInt64BE bufferWriter [] (-9223372036854775808)).st =
        Run.done ⟨(-9223372036854775808), none, []⟩) ∧
    ((WriteInt64LE bufferWriter [] (-9223372036854775808)).err = none ∧
      ReadInt64LE bufferReader 1 (WriteInt64LE bufferWriter [] (-9223372036854775808)).st =
        Run.done ⟨(-9223372036854775808), none, []⟩) :=
  ⟨⟨by decide, ⟨by decide, by decide⟩, ⟨by decide, by decide⟩, ⟨by decide, by decide⟩,
      ⟨by decide, by decide⟩⟩,
    signed_round_trip 1 (-128) (-2) 2147483647 (-9223372036854775808)
      (by decide) (by decide) (by decide) (by decide) (by decide) (by decide) (by decide)
      (by decide) (by decide)⟩

/-- C3. Unsigned read value: on every in-memory stream whose first bytes are
`b0, b1, ...`, the big-endian reads of 2, 4 and 8 bytes return the sum of
`b[i] * 256 ^ (K - 1 - i)`, the little-endian reads return the sum of
`b[i] * 256 ^ i`, and `ReadUint8` returns `b0`; each read leaves the rest of
the stream. -/
theorem unsigned_read_value (fuel : Nat) (b0 b1 b2 b3 b4 b5 b6 b7 : Byte)
    (rest : List Byte) (hf : 0 < fuel) :
    ReadUint8 bytesReader fuel (b0 :: rest) = Run.done ⟨b0.val, none, rest⟩ ∧
    ReadUint16BE bytesReader fuel (b0 :: b1 :: rest) =
      Run.done ⟨b0.val * 256 ^ 1 + b1.val * 256 ^ 0, none, rest⟩ ∧
    ReadUint16LE bytesReader fuel (b0 :: b1 :: rest) =
      Run.done ⟨b0.val * 256 ^ 0 + b1.val * 256 ^ 1, none, rest⟩ ∧
    ReadUint32BE bytesReader fuel (b0 :: b1 :: b2 :: b3 :: rest) =
      Run.done ⟨b0.val * 256 ^ 3 + b1.val * 256 ^ 2 + b2.val * 256 ^ 1 + b3.val * 256 ^ 0, none, rest⟩ ∧
    ReadUint32LE bytesReader fuel (b0 :: b1 :: b2 :: b3 :: rest) =
      Run.done ⟨b0.val * 256 ^ 0 + b1.val * 256 ^ 1 + b2.val * 256 ^ 2 + b3.val * 256 ^ 3, none, rest⟩ ∧
    ReadUint64BE bytesReader fuel (b0 :: b1 :: b2 :: b3 :: b4 :: b5 :: b6 :: b7 :: rest) =
      Run.done ⟨b0.val * 256 ^ 7 + b1.val * 256 ^ 6 + b2.val * 256 ^ 5 + b3.val * 256 ^ 4 + b4.val * 256 ^ 3 + b5.val * 256 ^ 2 + b6.val * 256 ^ 1 + b7.val * 256 ^ 0, none, rest⟩ ∧
    ReadUint64LE bytesReader fuel (b0 :: b1 :: b2 :: b3 :: b4 :: b5 :: b6 :: b7 :: rest) =
      Run.done ⟨b0.val * 256 ^ 0 + b1.val * 256 ^ 1 + b2.val * 256 ^ 2 + b3.val * 256 ^ 3 + b4.val * 256 ^ 4 + b5.val * 256 ^ 5 + b6.val * 256 ^ 6 + b7.val * 256 ^ 7, none, rest⟩ :=
  ⟨by simp [ReadUint8, readN_bytes_ok, hf],
    by simp [ReadUint16BE, readN_bytes_ok, hf, beUint16_cons],
    by simp [ReadUint16LE, readN_bytes_ok, hf, leUint16_cons],
    by simp [ReadUint32BE, readN_bytes_ok, hf, beUint32_cons],
    by simp [ReadUint32LE, readN_bytes_ok, hf, leUint32_cons],
    by simp [ReadUint64BE, readN_bytes_ok, hf, beUint64_cons],
    by simp [ReadUint64LE, readN_bytes_ok, hf, leUint64_cons]⟩

theorem unsigned_read_value_witness :
    0 < 1 ∧
    ReadUint8 bytesReader 1 (1 :: [9]) = Run.done ⟨(1 : Byte).val, none, [9]⟩ ∧
    ReadUint16BE bytesReader 1 (1 :: 2 :: [9]) =
      Run.done ⟨(1 : Byte).val * 256 ^ 1 + (2 : Byte).val * 256 ^ 0, none, [9]⟩ ∧
    ReadUint16LE bytesReader 1 (1 :: 2 :: [9]) =
      Run.done ⟨(1 : Byte).val * 256 ^ 0 + (2 : Byte).val * 256 ^ 1, none, [9]⟩ ∧
    ReadUint32BE bytesReader 1 (1 :: 2 :: 3 :: 4 :: [9]) =
      Run.done ⟨(1 : Byte).val * 256 ^ 3 + (2 : Byte).val * 256 ^ 2 + (3 : Byte).val * 256 ^ 1 + (4 : Byte).val * 256 ^ 0, none, [9]⟩ ∧
    ReadUint32LE bytesReader 1 (1 :: 2 :: 3 :: 4 :: [9]) =
      Run.done ⟨(1 : Byte).val * 256 ^ 0 + (2 : Byte).val * 256 ^ 1 + (3 : Byte).val * 256 ^ 2 + (4 : Byte).val * 256 ^ 3, none, [9]⟩ ∧
    ReadUint64BE bytesReader 1 (1 :: 2 :: 3 :: 4 :: 5 :: 6 :: 7 :: 8 :: [9]) =
      Run.done ⟨(1 : Byte).val * 256 ^ 7 + (2 : Byte).val * 256 ^ 6 + (3 : Byte).val * 256 ^ 5 + (4 : Byte).val * 256 ^ 4 + (5 : Byte).val * 256 ^ 3 + (6 : Byte).val * 256 ^ 2 + (7 : Byte).val * 256 ^ 1 + (8 : Byte).val * 256 ^ 0, none, [9]⟩ ∧
    ReadUint64LE bytesReader 1 (1 :: 2 :: 3 :: 4 :: 5 :: 6 :: 7 :: 8 :: [9]) =
      Run.done ⟨(1 : Byte).val * 256 ^ 0 + (2 : Byte).val * 256 ^ 1 + (3 : Byte).val * 256 ^ 2 + (4 : Byte).val * 256 ^ 3 + (5 : Byte).val * 256 ^ 4 + (6 : Byte).val * 256 ^ 5 + (7 : Byte).val * 256 ^ 6 + (8 : Byte).val * 256 ^ 7, none, [9]⟩ :=
  ⟨by decide, unsigned_read_value 1 1 2 3 4 5 6 7 8 [9] (by decide)⟩

theorem write_accept {σ : Type} (W : Writer σ) (s : σ) (b : List Byte)
    (h : (W.write s b).err = none) : write W s b = ⟨none, (W.write s b).st⟩ := by
  simp [write, h]

/-- C4. Unsigned write layout: for every writer, every state and every value
`v`, the big-endian write of `K = N/8` bytes hands the writer, in one call,
exactly the `K` bytes whose byte `i` is `(v >> 8*(K-1-i)) mod 256`, the
little-endian write the `K` bytes whose byte `i` is `(v >> 8*i) mod 256`, and
`WriteUint8` the single byte `v`; when the writer accepts that call the write
returns no error, and on a `bytes.Buffer` exactly those bytes are appended. -/
theorem unsigned_write_layout {σ : Type} (W : Writer σ) (s : σ) (buf : List Byte)
    (v : Nat) :
    ((W.write s [byte v]).err = none →
      WriteUint8 W s v =
        ⟨none, (W.write s [byte v]).st⟩) ∧
    WriteUint8 bufferWriter buf v =
      ⟨none, buf ++ [byte v]⟩ ∧
    ((W.write s ((List.range 2).map fun i => byte (v >>> (8 * (2 - 1 - i))))).err = none →
      WriteUint16BE W s v =
        ⟨none, (W.write s ((List.range 2).map fun i => byte (v >>> (8 * (2 - 1 - i))))).st⟩) ∧
    WriteUint16BE bufferWriter buf v =
      ⟨none, buf ++ ((List.range 2).map fun i => byte (v >>> (8 * (2 - 1 - i))))⟩ ∧
    ((W.write s ((List.range 2).map fun i => byte (v >>> (8 * i)))).err = none →
      WriteUint16LE W s v =
        ⟨none, (W.write s ((List.range 2).map fun i => byte (v >>> (8 * i)))).st⟩) ∧
    WriteUint16LE bufferWriter buf v =
      ⟨none, buf ++ ((List.range 2).map fun i => byte (v >>> (8 * i)))⟩ ∧
    ((W.write s ((List.range 4).map fun i => byte (v >>> (8 * (4 - 1 - i))))).err = none →
      WriteUint32BE W s v =
        ⟨none, (W.write s ((List.range 4).map fun i => byte (v >>> (8 * (4 - 1 - i))))).st⟩) ∧
    WriteUint32BE bufferWriter buf v =
      ⟨none, buf ++ ((List.range 4).map fun i => byte (v >>> (8 * (4 - 1 - i))))⟩ ∧
    ((W.write s ((List.range 4).map fun i => byte (v >>> (8 * i)))).err = none →
      WriteUint32LE W s v =
        ⟨none, (W.write s ((List.range 4).map fun i => byte (v >>> (8 * i)))).st⟩) ∧
    WriteUint32LE bufferWriter buf v =
      ⟨none, buf ++ ((List.range 4).map fun i => byte (v >>> (8 * i)))⟩ ∧
    ((W.write s ((List.range 8).map fun i => byte (v >>> (8 * (8 - 1 - i))))).err = none →
      WriteUint64BE W s v =
        ⟨none, (W.write s ((List.range 8).map fun i => byte (v >>> (8 * (8 - 1 - i))))).st⟩) ∧
    WriteUint64BE bufferWriter buf v =
      ⟨none, buf ++ ((List.range 8).map fun i => byte (v >>> (8 * (8 - 1 - i))))⟩ ∧
    ((W.write s ((List.range 8).map fun i => byte (v >>> (8 * i)))).err = none →
      WriteUint64LE W s v =
        ⟨none, (W.write s ((List.range 8).map fun i => byte (v >>> (8 * i)))).st⟩) ∧
    WriteUint64LE bufferWriter buf v =
      ⟨none, buf ++ ((List.range 8).map fun i => byte (v >>> (8 * i)))⟩ :=
  ⟨fun h => write_accept W s _ h, rfl,
    fun h => write_accept W s _ h, rfl,
    fun h => write_accept W s _ h, rfl,
    fun h => write_accept W s _ h, rfl,
    fun h => write_accept W s _ h, rfl,
    fun h => write_accept W s _ h, rfl,
    fun h => write_accept W s _ h, rfl⟩

theorem unsigned_write_layout_witness :
    WriteUint8 bufferWriter [7] 4660 =
      ⟨none, (bufferWriter.write [7] [byte 4660]).st⟩ ∧
    WriteUint16BE bufferWriter [7] 4660 =
      ⟨none, (bufferWriter.write [7] ((List.range 2).map fun i => byte (4660 >>> (8 * (2 - 1 - i))))).st⟩ ∧
    WriteUint16LE bufferWriter [7] 4660 =
      ⟨none, (bufferWriter.write [7] ((List.range 2).map fun i => byte (4660 >>> (8 * i)))).st⟩ ∧
    WriteUint32BE bufferWriter [7] 4660 =
      ⟨none, (bufferWriter.write [7] ((List.range 4).map fun i => byte (4660 >>> (8 * (4 - 1 - i))))).st⟩ ∧
    WriteUint32LE bufferWriter [7] 4660 =
      ⟨none, (bufferWriter.write [7] ((List.range 4).map fun i => byte (4660 >>> (8 * i)))).st⟩ ∧
    WriteUint64BE bufferWriter [7] 4660 =
      ⟨none, (bufferWriter.write [7] ((List.range 8).map fun i => byte (4660 >>> (8 * (8 - 1 - i))))).st⟩ ∧
    WriteUint64LE bufferWriter [7] 4660 =
      ⟨none, (bufferWriter.write [7] ((List.range 8).map fun i => byte (4660 >>> (8 * i)))).st⟩ :=
  ⟨(unsigned_write_layout bufferWriter [7] [] 4660).1 rfl,
    (unsigned_write_layout bufferWriter [7] [] 4660).2.2.1 rfl,
    (unsigned_write_layout bufferWriter [7] [] 4660).2.2.2.2.1 rfl,
    (unsigned_write_layout bufferWriter [7] [] 4660).2.2.2.2.2.2.1 rfl,
    (unsigned_write_layout bufferWriter [7] [] 4660).2.2.2.2.2.2.2.2.1 rfl,
    (unsigned_write_layout bufferWriter [7] [] 4660).2.2.2.2.2.2.2.2.2.2.1 rfl,
    (unsigned_write_layout bufferWriter [7] [] 4660).2.2.2.2.2.2.2.2.2.2.2.2.1 rfl⟩

theorem ReadInt8_bytes (fuel : Nat) (b0 : Byte) (rest : List Byte)
    (hf : 0 < fuel) :
    ∃ u, ReadUint8 bytesReader fuel (b0 :: rest) = Run.done ⟨u, none, rest⟩ ∧
      ReadInt8 bytesReader fuel (b0 :: rest) =
        Run.done ⟨if u < 2 ^ 7 then (u : Int) else (u : Int) - 2 ^ 8, none, rest⟩ := by
  have h0 := b0.isLt
  refine ⟨b0.val, ?_, ?_⟩
  · simp [ReadUint8, readN_bytes_ok, hf]
  · rw [← toSigned_eq_8 _ (h0)]
    simp [ReadInt8, readN_bytes_ok, hf]

theorem ReadInt16BE_bytes (fuel : Nat) (b0 b1 : Byte) (rest : List Byte)
    (hf : 0 < fuel) :
    ∃ u, ReadUint16BE bytesReader fuel (b0 :: b1 :: rest) = Run.done ⟨u, none, rest⟩ ∧
      ReadInt16BE bytesReader fuel (b0 :: b1 :: rest) =
        Run.done ⟨if u < 2 ^ 15 then (u : Int) else (u : Int) - 2 ^ 16, none, rest⟩ := by
  have h0 := b0.isLt
  have h1 := b1.isLt
  refine ⟨b0.val * 256 + b1.val, ?_, ?_⟩
  · simp [ReadUint16BE, readN_bytes_ok, hf, beUint16_cons]
  · rw [← toSigned_eq_16 _ (by norm_num; omega)]
    simp [ReadInt16BE, readN_bytes_ok, hf, beUint16_cons]

theorem ReadInt16LE_bytes (fuel : Nat) (b0 b1 : Byte) (rest : List Byte)
    (hf : 0 < fuel) :
    ∃ u, ReadUint16LE bytesReader fuel (b0 :: b1 :: rest) = Run.done ⟨u, none, rest⟩ ∧
      ReadInt16LE bytesReader fuel (b0 :: b1 :: rest) =
        Run.done ⟨if u < 2 ^ 15 then (u : Int) else (u : Int) - 2 ^ 16, none, rest⟩ := by
  have h0 := b0.isLt
  have h1 := b1.isLt
  refine ⟨b0.val + b1.val * 256, ?_, ?_⟩
  · simp [ReadUint16LE, readN_bytes_ok, hf, leUint16_cons]
  · rw [← toSigned_eq_16 _ (by norm_num; omega)]
    simp [ReadInt16LE, readN_bytes_ok, hf, leUint16_cons]

theorem ReadInt32BE_bytes (fuel : Nat) (b0 b1 b2 b3 : Byte) (rest : List Byte)
    (hf : 0 < fuel) :
    ∃ u, ReadUint32BE bytesReader fuel (b0 :: b1 :: b2 :: b3 :: rest) = Run.done ⟨u, none, rest⟩ ∧
      ReadInt32BE bytesReader fuel (b0 :: b1 :: b2 :: b3 :: rest) =
        Run.done ⟨if u < 2 ^ 31 then (u : Int) else (u : Int) - 2 ^ 32, none, rest⟩ := by
  have h0 := b0.isLt
  have h1 := b1.isLt
  have h2 := b2.isLt
  have h3 := b3.isLt
  refine ⟨b0.val * 256 ^ 3 + b1.val * 256 ^ 2 + b2.val * 256 + b3.val, ?_, ?_⟩
  · simp [ReadUint32BE, readN_bytes_ok, hf, beUint32_cons]
  · rw [← toSigned_eq_32 _ (by norm_num; omega)]
    simp [ReadInt32BE, readN_bytes_ok, hf, beUint32_cons]

theorem ReadInt32LE_bytes (fuel : Nat) (b0 b1 b2 b3 : Byte) (rest : List Byte)
    (hf : 0 < fuel) :
    ∃ u, ReadUint32LE bytesReader fuel (b0 :: b1 :: b2 :: b3 :: rest) = Run.done ⟨u, none, rest⟩ ∧
      ReadInt32LE bytesReader fuel (b0 :: b1 :: b2 :: b3 :: rest) =
        Run.done ⟨if u < 2 ^ 31 then (u : Int) else (u : Int) - 2 ^ 32, none, rest⟩ := by
  have h0 := b0.isLt
  have h1 := b1.isLt
  have h2 := b2.isLt
  have h3 := b3.isLt
  refine ⟨b0.val + b1.val * 256 + b2.val * 256 ^ 2 + b3.val * 256 ^ 3, ?_, ?_⟩
  · simp [ReadUint32LE, readN_bytes_ok, hf, leUint32_cons]
  · rw [← toSigned_eq_32 _ (by norm_num; omega)]
    simp [ReadInt32LE, readN_bytes_ok, hf, leUint32_cons]

theorem ReadInt64BE_bytes (fuel : Nat) (b0 b1 b2 b3 b4 b5 b6 b7 : Byte) (rest : List Byte)
    (hf : 0 < fuel) :
    ∃ u, ReadUint64BE bytesReader fuel (b0 :: b1 :: b2 :: b3 :: b4 :: b5 :: b6 :: b7 :: rest) = Run.done ⟨u, none, rest⟩ ∧
      ReadInt64BE bytesReader fuel (b0 :: b1 :: b2 :: b3 :: b4 :: b5 :: b6 :: b7 :: rest) =
        Run.done ⟨if u < 2 ^ 63 then (u : Int) else (u : Int) - 2 ^ 64, none, rest⟩ := by
  have h0 := b0.isLt
  have h1 := b1.isLt
  have h2 := b2.isLt
  have h3 := b3.isLt
  have h4 := b4.isLt
  have h5 := b5.isLt
  have h6 := b6.isLt
  have h7 := b7.isLt
  refine ⟨b0.val * 256 ^ 7 + b1.val * 256 ^ 6 + b2.val * 256 ^ 5 + b3.val * 256 ^ 4 + b4.val * 256 ^ 3 + b5.val * 256 ^ 2 + b6.val * 256 + b7.val, ?_, ?_⟩
  · simp [ReadUint64BE, readN_bytes_ok, hf, beUint64_cons]
  · rw [← toSigned_eq_64 _ (by norm_num; omega)]
    simp [ReadInt64BE, readN_bytes_ok, hf, beUint64_cons]

theorem ReadInt64LE_bytes (fuel : Nat) (b0 b1 b2 b3 b4 b5 b6 b7 : Byte) (rest : List Byte)
    (hf : 0 < fuel) :
    ∃ u, ReadUint64LE bytesReader fuel (b0 :: b1 :: b2 :: b3 :: b4 :: b5 :: b6 :: b7 :: rest) = Run.done ⟨u, none, rest⟩ ∧
      ReadInt64LE bytesReader fuel (b0 :: b1 :: b2 :: b3 :: b4 :: b5 :: b6 :: b7 :: rest) =
        Run.done ⟨if u < 2 ^ 63 then (u : Int) else (u : Int) - 2 ^ 64, none, rest⟩ := by
  have h0 := b0.isLt
  have h1 := b1.isLt
  have h2 := b2.isLt
  have h3 := b3.isLt
  have h4 := b4.isLt
  have h5 := b5.isLt
  have h6 := b6.isLt
  have h7 := b7.isLt
  refine ⟨b0.val + b1.val * 256 + b2.val * 256 ^ 2 + b3.val * 256 ^ 3 + b4.val * 256 ^ 4 + b5.val * 256 ^ 5 + b6.val * 256 ^ 6 + b7.val * 256 ^ 7, ?_, ?_⟩
  · simp [ReadUint64LE, readN_bytes_ok, hf, leUint64_cons]
  · rw [← toSigned_eq_64 _ (by norm_num; omega)]
    simp [ReadInt64LE, readN_bytes_ok, hf, leUint64_cons]

/-- C5. Signed read is two's complement: for every width `N` in 8, 16, 32, 64,
each byte order and every in-memory stream with at least `N/8` bytes, the
signed read returns `u` when `u < 2^(N-1)` and `u - 2^N` otherwise, where `u`
is what the unsigned read of the same width and byte order returns on the
same stream; both reads succeed and leave the same rest. -/
theorem signed_read_twos_complement (fuel : Nat) (b0 b1 b2 b3 b4 b5 b6 b7 : Byte)
    (rest : List Byte) (hf : 0 < fuel) :
    (∃ u, ReadUint8 bytesReader fuel (b0 :: rest) = Run.done ⟨u, none, rest⟩ ∧
      ReadInt8 bytesReader fuel (b0 :: rest) =
        Run.done ⟨if u < 2 ^ 7 then (u : Int) else (u : Int) - 2 ^ 8, none, rest⟩) ∧
    (∃ u, ReadUint16BE bytesReader fuel (b0 :: b1 :: rest) = Run.done ⟨u, none, rest⟩ ∧
      ReadInt16BE bytesReader fuel (b0 :: b1 :: rest) =
        Run.done ⟨if u < 2 ^ 15 then (u : Int) else (u : Int) - 2 ^ 16, none, rest⟩) ∧
    (∃ u, ReadUint16LE bytesReader fuel (b0 :: b1 :: rest) = Run.done ⟨u, none, rest⟩ ∧
      ReadInt16LE bytesReader fuel (b0 :: b1 :: rest) =
        Run.done ⟨if u < 2 ^ 15 then (u : Int) else (u : Int) - 2 ^ 16, none, rest⟩) ∧
    (∃ u, ReadUint32BE bytesReader fuel (b0 :: b1 :: b2 :: b3 :: rest) = Run.done ⟨u, none, rest⟩ ∧
      ReadInt32BE bytesReader fuel (b0 :: b1 :: b2 :: b3 :: rest) =
        Run.done ⟨if u < 2 ^ 31 then (u : Int) else (u : Int) - 2 ^ 32, none, rest⟩) ∧
    (∃ u, ReadUint32LE bytesReader fuel (b0 :: b1 :: b2 :: b3 :: rest) = Run.done ⟨u, none, rest⟩ ∧
      ReadInt32LE bytesReader fuel (b0 :: b1 :: b2 :: b3 :: rest) =
        Run.done ⟨if u < 2 ^ 31 then (u : Int) else (u : Int) - 2 ^ 32, none, rest⟩) ∧
    (∃ u, ReadUint64BE bytesReader fuel (b0 :: b1 :: b2 :: b3 :: b4 :: b5 :: b6 :: b7 :: rest) = Run.done ⟨u, none, rest⟩ ∧
      ReadInt64BE bytesReader fuel (b0 :: b1 :: b2 :: b3 :: b4 :: b5 :: b6 :: b7 :: rest) =
        Run.done ⟨if u < 2 ^ 63 then (u : Int) else (u : Int) - 2 ^ 64, none, rest⟩) ∧
    (∃ u, ReadUint64LE bytesReader fuel (b0 :: b1 :: b2 :: b3 :: b4 :: b5 :: b6 :: b7 :: rest) = Run.done ⟨u, none, rest⟩ ∧
      ReadInt64LE bytesReader fuel (b0 :: b1 :: b2 :: b3 :: b4 :: b5 :: b6 :: b7 :: rest) =
        Run.done ⟨if u < 2 ^ 63 then (u : Int) else (u : Int) - 2 ^ 64, none, rest⟩) :=
  ⟨ReadInt8_bytes fuel b0 rest hf,
    ReadInt16BE_bytes fuel b0 b1 rest hf,
    ReadInt16LE_bytes fuel b0 b1 rest hf,
    ReadInt32BE_bytes fuel b0 b1 b2 b3 rest hf,
    ReadInt32LE_bytes fuel b0 b1 b2 b3 rest hf,
    ReadInt64BE_bytes fuel b0 b1 b2 b3 b4 b5 b6 b7 rest hf,
    ReadInt64LE_bytes fuel b0 b1 b2 b3 b4 b5 b6 b7 rest hf⟩

theorem signed_read_twos_complement_witness :
    (0 < 1 ∧ ReadInt8 bytesReader 1 [128] = Run.done ⟨-128, none, []⟩ ∧
      ReadInt16BE bytesReader 1 [255, 254] = Run.done ⟨-2, none, []⟩) ∧
    (∃ u, ReadUint8 bytesReader 1 (255 :: []) = Run.done ⟨u, none, []⟩ ∧
      ReadInt8 bytesReader 1 (255 :: []) =
        Run.done ⟨if u < 2 ^ 7 then (u : Int) else (u : Int) - 2 ^ 8, none, []⟩) ∧
    (∃ u, ReadUint16BE bytesReader 1 (255 :: 254 :: []) = Run.done ⟨u, none, []⟩ ∧
      ReadInt16BE bytesReader 1 (255 :: 254 :: []) =
        Run.done ⟨if u < 2 ^ 15 then (u : Int) else (u : Int) - 2 ^ 16, none, []⟩) ∧
    (∃ u, ReadUint16LE bytesReader 1 (255 :: 254 :: []) = Run.done ⟨u, none, []⟩ ∧
      ReadInt16LE bytesReader 1 (255 :: 254 :: []) =
        Run.done ⟨if u < 2 ^ 15 then (u : Int) else (u : Int) - 2 ^ 16, none, []⟩) ∧
    (∃ u, ReadUint32BE bytesReader 1 (255 :: 254 :: 3 :: 4 :: []) = Run.done ⟨u, none, []⟩ ∧
      ReadInt32BE bytesReader 1 (255 :: 254 :: 3 :: 4 :: []) =
        Run.done ⟨if u < 2 ^ 31 then (u : Int) else (u : Int) - 2 ^ 32, none, []⟩) ∧
    (∃ u, ReadUint32LE bytesReader 1 (255 :: 254 :: 3 :: 4 :: []) = Run.done ⟨u, none, []⟩ ∧
      ReadInt32LE bytesReader 1 (255 :: 254 :: 3 :: 4 :: []) =
        Run.done ⟨if u < 2 ^ 31 then (u : Int) else (u : Int) - 2 ^ 32, none, []⟩) ∧
    (∃ u, ReadUint64BE bytesReader 1 (255 :: 254 :: 3 :: 4 :: 5 :: 6 :: 7 :: 8 :: []) = Run.done ⟨u, none, []⟩ ∧
      ReadInt64BE bytesReader 1 (255 :: 254 :: 3 :: 4 :: 5 :: 6 :: 7 :: 8 :: []) =
        Run.done ⟨if u < 2 ^ 63 then (u : Int) else (u : Int) - 2 ^ 64, none, []⟩) ∧
    (∃ u, ReadUint64LE bytesReader 1 (255 :: 254 :: 3 :: 4 :: 5 :: 6 :: 7 :: 8 :: []) = Run.done ⟨u, none, []⟩ ∧
      ReadInt64LE bytesReader 1 (255 :: 254 :: 3 :: 4 :: 5 :: 6 :: 7 :: 8 :: []) =
        Run.done ⟨if u < 2 ^ 63 then (u : Int) else (u : Int) - 2 ^ 64, none, []⟩) :=
  ⟨⟨by decide, by decide, by decide⟩,
    signed_read_twos_complement 1 255 254 3 4 5 6 7 8 [] (by decide)⟩

/-- C6. Signed write is the unsigned write of the two's-complement
reinterpretation: for every width, byte order, writer, writer state and
signed value `v`, the signed write has the same outcome (bytes handed to the
writer, writer state and returned error) as the unsigned write of the same
width and byte order for `v mod 2^N`. -/
theorem signed_write_is_unsigned_write {σ : Type} (W : Writer σ) (s : σ) (v : Int) :
    WriteInt8 W s v = WriteUint8 W s (v % 2 ^ 8).toNat ∧
    WriteInt16BE W s v = WriteUint16BE W s (v % 2 ^ 16).toNat ∧
    WriteInt16LE W s v = WriteUint16LE W s (v % 2 ^ 16).toNat ∧
    WriteInt32BE W s v = WriteUint32BE W s (v % 2 ^ 32).toNat ∧
    WriteInt32LE W s v = WriteUint32LE W s (v % 2 ^ 32).toNat ∧
    WriteInt64BE W s v = WriteUint64BE W s (v % 2 ^ 64).toNat ∧
    WriteInt64LE W s v = WriteUint64LE W s (v % 2 ^ 64).toNat :=
  ⟨rfl, rfl, rfl, rfl, rfl, rfl, rfl⟩

/-- C7. Byte-order inversion: for every 16-, 32- and 64-bit unsigned value `u`
and signed value `i`, every float32 `f`, float64 `d` and time `t`, the bytes
the big-endian write puts into an empty `bytes.Buffer` are the reverse of the
bytes the little-endian write of the same value puts there. -/
theorem byte_order_inversion (u : Nat) (i : Int) (f : Float32) (d : Float64) (t : Time) :
    (WriteUint16BE bufferWriter [] u).st = (WriteUint16LE bufferWriter [] u).st.reverse ∧
    (WriteUint32BE bufferWriter [] u).st = (WriteUint32LE bufferWriter [] u).st.reverse ∧
    (WriteUint64BE bufferWriter [] u).st = (WriteUint64LE bufferWriter [] u).st.reverse ∧
    (WriteInt16BE bufferWriter [] i).st = (WriteInt16LE bufferWriter [] i).st.reverse ∧
    (WriteInt32BE bufferWriter [] i).st = (WriteInt32LE bufferWriter [] i).st.reverse ∧
    (WriteInt64BE bufferWriter [] i).st = (WriteInt64LE bufferWriter [] i).st.reverse ∧
    (WriteFloat32BE bufferWriter [] f).st = (WriteFloat32LE bufferWriter [] f).st.reverse ∧
    (WriteFloat64BE bufferWriter [] d).st = (WriteFloat64LE bufferWriter [] d).st.reverse ∧
    (WriteUnixTime32BE bufferWriter [] t).st =
      (WriteUnixTime32LE bufferWriter [] t).st.reverse :=
  ⟨rfl, rfl, rfl, rfl, rfl, rfl, rfl, rfl, rfl⟩

/-! ## Failure of the bounded reader under every typed read -/

theorem FailsWith.of_eq {α σ : Type} {r : Run (Ret α σ)} {P : Error → Prop} (v : α)
    (e : Error) (s : σ) (h : r = Run.done ⟨v, some e, s⟩) (hp : P e) : FailsWith r P :=
  ⟨v, e, s, h, hp⟩

theorem ReadUint8_of_readN_err {σ : Type} (R : Reader σ) (fuel : Nat) (s s2 : σ)
    (b : List Byte) (e : Error) (h : readN R fuel s 1 = Run.done ⟨b, some e, s2⟩) :
    ReadUint8 R fuel s = Run.done ⟨0, some e, s2⟩ := by
  simp [ReadUint8, h]

theorem ReadInt8_of_readN_err {σ : Type} (R : Reader σ) (fuel : Nat) (s s2 : σ)
    (b : List Byte) (e : Error) (h : readN R fuel s 1 = Run.done ⟨b, some e, s2⟩) :
    ReadInt8 R fuel s = Run.done ⟨0, some e, s2⟩ := by
  simp [ReadInt8, h]

theorem ReadUint16BE_of_readN_err {σ : Type} (R : Reader σ) (fuel : Nat) (s s2 : σ)
    (b : List Byte) (e : Error) (h : readN R fuel s 2 = Run.done ⟨b, some e, s2⟩) :
    ReadUint16BE R fuel s = Run.done ⟨0, some e, s2⟩ := by
  simp [ReadUint16BE, h]

theorem ReadInt16BE_of_readN_err {σ : Type} (R : Reader σ) (fuel : Nat) (s s2 : σ)
    (b : List Byte) (e : Error) (h : readN R fuel s 2 = Run.done ⟨b, some e, s2⟩) :
    ReadInt16BE R fuel s = Run.done ⟨0, some e, s2⟩ := by
  simp [ReadInt16BE, h]

theorem ReadUint16LE_of_readN_err {σ : Type} (R : Reader σ) (fuel : Nat) (s s2 : σ)
    (b : List Byte) (e : Error) (h : readN R fuel s 2 = Run.done ⟨b, some e, s2⟩) :
    ReadUint16LE R fuel s = Run.done ⟨0, some e, s2⟩ := by
  simp [ReadUint16LE, h]

theorem ReadInt16LE_of_readN_err {σ : Type} (R : Reader σ) (fuel : Nat) (s s2 : σ)
    (b : List Byte) (e : Error) (h : readN R fuel s 2 = Run.done ⟨b, some e, s2⟩) :
    ReadInt16LE R fuel s = Run.done ⟨0, some e, s2⟩ := by
  simp [ReadInt16LE, h]

theorem ReadUint32BE_of_readN_err {σ : Type} (R : Reader σ) (fuel : Nat) (s s2 : σ)
    (b : List Byte) (e : Error) (h : readN R fuel s 4 = Run.done ⟨b, some e, s2⟩) :
    ReadUint32BE R fuel s = Run.done ⟨0, some e, s2⟩ := by
  simp [ReadUint32BE, h]

theorem ReadInt32BE_of_readN_err {σ : Type} (R : Reader σ) (fuel : Nat) (s s2 : σ)
    (b : List Byte) (e : Error) (h : readN R fuel s 4 = Run.done ⟨b, some e, s2⟩) :
    ReadInt32BE R fuel s = Run.done ⟨0, some e, s2⟩ := by
  simp [ReadInt32BE, h]

theorem ReadUint32LE_of_readN_err {σ : Type} (R : Reader σ) (fuel : Nat) (s s2 : σ)
    (b : List Byte) (e : Error) (h : readN R fuel s 4 = Run.done ⟨b, some e, s2⟩) :
    ReadUint32LE R fuel s = Run.done ⟨0, some e, s2⟩ := by
  simp [ReadUint32LE, h]

theorem ReadInt32LE_of_readN_err {σ : Type} (R : Reader σ) (fuel : Nat) (s s2 : σ)
    (b : List Byte) (e : Error) (h : readN R fuel s 4 = Run.done ⟨b, some e, s2⟩) :
    ReadInt32LE R fuel s = Run.done ⟨0, some e, s2⟩ := by
  simp [ReadInt32LE, h]

theorem ReadUint64BE_of_readN_err {σ : Type} (R : Reader σ) (fuel : Nat) (s s2 : σ)
    (b : List Byte) (e : Error) (h : readN R fuel s 8 = Run.done ⟨b, some e, s2⟩) :
    ReadUint64BE R fuel s = Run.done ⟨0, some e, s2⟩ := by
  simp [ReadUint64BE, h]

theorem ReadInt64BE_of_readN_err {σ : Type} (R : Reader σ) (fuel : Nat) (s s2 : σ)
    (b : List Byte) (e : Error) (h : readN R fuel s 8 = Run.done ⟨b, some e, s2⟩) :
    ReadInt64BE R fuel s = Run.done ⟨0, some e, s2⟩ := by
  simp [ReadInt64BE, h]

theorem ReadUint64LE_of_readN_err {σ : Type} (R : Reader σ) (fuel : Nat) (s s2 : σ)
    (b : List Byte) (e : Error) (h : readN R fuel s 8 = Run.done ⟨b, some e, s2⟩) :
    ReadUint64LE R fuel s = Run.done ⟨0, some e, s2⟩ := by
  simp [ReadUint64LE, h]

theorem ReadInt64LE_of_readN_err {σ : Type} (R : Reader σ) (fuel : Nat) (s s2 : σ)
    (b : List Byte) (e : Error) (h : readN R fuel s 8 = Run.done ⟨b, some e, s2⟩) :
    ReadInt64LE R fuel s = Run.done ⟨0, some e, s2⟩ := by
  simp [ReadInt64LE, h]

theorem ReadFloat32BE_of_readN_err {σ : Type} (R : Reader σ) (fuel : Nat) (s s2 : σ)
    (b : List Byte) (e : Error) (h : readN R fuel s 4 = Run.done ⟨b, some e, s2⟩) :
    ReadFloat32BE R fuel s = Run.done ⟨Float32frombits 0, some e, s2⟩ := by
  simp [ReadFloat32BE, h]

theorem ReadFloat32LE_of_readN_err {σ : Type} (R : Reader σ) (fuel : Nat) (s s2 : σ)
    (b : List Byte) (e : Error) (h : readN R fuel s 4 = Run.done ⟨b, some e, s2⟩) :
    ReadFloat32LE R fuel s = Run.done ⟨Float32frombits 0, some e, s2⟩ := by
  simp [ReadFloat32LE, h]

theorem ReadFloat64BE_of_readN_err {σ : Type} (R : Reader σ) (fuel : Nat) (s s2 : σ)
    (b : List Byte) (e : Error) (h : readN R fuel s 8 = Run.done ⟨b, some e, s2⟩) :
    ReadFloat64BE R fuel s = Run.done ⟨Float64frombits 0, some e, s2⟩ := by
  simp [ReadFloat64BE, h]

theorem ReadFloat64LE_of_readN_err {σ : Type} (R : Reader σ) (fuel : Nat) (s s2 : σ)
    (b : List Byte) (e : Error) (h : readN R fuel s 8 = Run.done ⟨b, some e, s2⟩) :
    ReadFloat64LE R fuel s = Run.done ⟨Float64frombits 0, some e, s2⟩ := by
  simp [ReadFloat64LE, h]

theorem ReadUnixTimeUTC32BE_of_readN_err {σ : Type} (R : Reader σ) (fuel : Nat) (s s2 : σ)
    (b : List Byte) (e : Error) (h : readN R fuel s 4 = Run.done ⟨b, some e, s2⟩) :
    ReadUnixTimeUTC32BE R fuel s = Run.done ⟨Time.zero, some e, s2⟩ := by
  simp [ReadUnixTimeUTC32BE, ReadUint32BE, h]

theorem ReadUnixTime32BE_of_readN_err {σ : Type} (R : Reader σ) (fuel : Nat) (s s2 : σ)
    (b : List Byte) (e : Error) (h : readN R fuel s 4 = Run.done ⟨b, some e, s2⟩) :
    ReadUnixTime32BE R fuel s = Run.done ⟨Time.zero, some e, s2⟩ := by
  simp [ReadUnixTime32BE, ReadUint32BE, h]

theorem ReadUnixTimeUTC32LE_of_readN_err {σ : Type} (R : Reader σ) (fuel : Nat) (s s2 : σ)
    (b : List Byte) (e : Error) (h : readN R fuel s 4 = Run.done ⟨b, some e, s2⟩) :
    ReadUnixTimeUTC32LE R fuel s = Run.done ⟨Time.zero, some e, s2⟩ := by
  simp [ReadUnixTimeUTC32LE, ReadUint32LE, h]

theorem ReadUnixTime32LE_of_readN_err {σ : Type} (R : Reader σ) (fuel : Nat) (s s2 : σ)
    (b : List Byte) (e : Error) (h : readN R fuel s 4 = Run.done ⟨b, some e, s2⟩) :
    ReadUnixTime32LE R fuel s = Run.done ⟨Time.zero, some e, s2⟩ := by
  simp [ReadUnixTime32LE, ReadUint32LE, h]

theorem ReadIPv4_of_readN_err {σ : Type} (R : Reader σ) (fuel : Nat) (s s2 : σ)
    (b : List Byte) (e : Error) (h : readN R fuel s 4 = Run.done ⟨b, some e, s2⟩) :
    ReadIPv4 R fuel s = Run.done ⟨none, some e, s2⟩ := by
  simp [ReadIPv4, h]

theorem ReadIPv6_of_readN_err {σ : Type} (R : Reader σ) (fuel : Nat) (s s2 : σ)
    (b : List Byte) (e : Error) (h : readN R fuel s 16 = Run.done ⟨b, some e, s2⟩) :
    ReadIPv6 R fuel s = Run.done ⟨none, some e, s2⟩ := by
  simp [ReadIPv6, h]

theorem ReadStringN_of_readN_err {σ : Type} (R : Reader σ) (fuel : Nat) (s s2 : σ)
    (n : Int) (pad : Byte) (b : List Byte) (e : Error)
    (h : readN R fuel s n = Run.done ⟨b, some e, s2⟩) :
    ReadStringN R fuel s n pad = Run.done ⟨[], some e, s2⟩ := by
  simp [ReadStringN, h]

/-- C8. End-of-stream versus truncation: for every typed read that needs
`N >= 1` bytes (integers, floats, UNIX time, IPv4, IPv6, `ReadStringN` with
`n = N`, `n` within the allocation limit `maxAlloc`) on a `bytes.Reader`
holding `k` bytes: with `k = 0` the read fails with exactly `io.EOF`; with
`1 <= k < N` it fails with an error that matches `io.ErrUnexpectedEOF` and
does not match `io.EOF`. -/
theorem eof_versus_truncation (fuel : Nat) (bs : List Byte) (n : Nat) (pad : Byte)
    (hf : 2 ≤ fuel) (hk : 0 < bs.length) (hmax : n ≤ maxAlloc) :
    FailsWith (ReadUint8 bytesReader fuel []) (fun e => e = Error.EOF) ∧
    FailsWith (ReadInt8 bytesReader fuel []) (fun e => e = Error.EOF) ∧
    FailsWith (ReadUint16BE bytesReader fuel []) (fun e => e = Error.EOF) ∧
    (bs.length < 2 →
      FailsWith (ReadUint16BE bytesReader fuel bs)
        (fun e => Error.Is e Error.ErrUnexpectedEOF = true ∧ Error.Is e Error.EOF = false)) ∧
    FailsWith (ReadInt16BE bytesReader fuel []) (fun e => e = Error.EOF) ∧
    (bs.length < 2 →
      FailsWith (ReadInt16BE bytesReader fuel bs)
        (fun e => Error.Is e Error.ErrUnexpectedEOF = true ∧ Error.Is e Error.EOF = false)) ∧
    FailsWith (ReadUint16LE bytesReader fuel []) (fun e => e = Error.EOF) ∧
    (bs.length < 2 →
      FailsWith (ReadUint16LE bytesReader fuel bs)
        (fun e => Error.Is e Error.ErrUnexpectedEOF = true ∧ Error.Is e Error.EOF = false)) ∧
    FailsWith (ReadInt16LE bytesReader fuel []) (fun e => e = Error.EOF) ∧
    (bs.length < 2 →
      FailsWith (ReadInt16LE bytesReader fuel bs)
        (fun e => Error.Is e Error.ErrUnexpectedEOF = true ∧ Error.Is e Error.EOF = false)) ∧
    FailsWith (ReadUint32BE bytesReader fuel []) (fun e => e = Error.EOF) ∧
    (bs.length < 4 →
      FailsWith (ReadUint32BE bytesReader fuel bs)
        (fun e => Error.Is e Error.ErrUnexpectedEOF = true ∧ Error.Is e Error.EOF = false)) ∧
    FailsWith (ReadInt32BE bytesReader fuel []) (fun e => e = Error.EOF) ∧
    (bs.length < 4 →
      FailsWith (ReadInt32BE bytesReader fuel bs)
        (fun e => Error.Is e Error.ErrUnexpectedEOF = true ∧ Error.Is e Error.EOF = false)) ∧
    FailsWith (ReadUint32LE bytesReader fuel []) (fun e => e = Error.EOF) ∧
    (bs.length < 4 →
      FailsWith (ReadUint32LE bytesReader fuel bs)
        (fun e => Error.Is e Error.ErrUnexpectedEOF = true ∧ Error.Is e Error.EOF = false)) ∧
    FailsWith (ReadInt32LE bytesReader fuel []) (fun e => e = Error.EOF) ∧
    (bs.length < 4 →
      FailsWith (ReadInt32LE bytesReader fuel bs)
        (fun e => Error.Is e Error.ErrUnexpectedEOF = true ∧ Error.Is e Error.EOF = false)) ∧
    FailsWith (ReadUint64BE bytesReader fuel []) (fun e => e = Error.EOF) ∧
    (bs.length < 8 →
      FailsWith (ReadUint64BE bytesReader fuel bs)
        (fun e => Error.Is e Error.ErrUnexpectedEOF = true ∧ Error.Is e Error.EOF = false)) ∧
    FailsWith (ReadInt64BE bytesReader fuel []) (fun e => e = Error.EOF) ∧
    (bs.length < 8 →
      FailsWith (ReadInt64BE bytesReader fuel bs)
        (fun e => Error.Is e Error.ErrUnexpectedEOF = true ∧ Error.Is e Error.EOF = false)) ∧
    FailsWith (ReadUint64LE bytesReader fuel []) (fun e => e = Error.EOF) ∧
    (bs.length < 8 →
      FailsWith (ReadUint64LE bytesReader fuel bs)
        (fun e => Error.Is e Error.ErrUnexpectedEOF = true ∧ Error.Is e Error.EOF = false)) ∧
    FailsWith (ReadInt64LE bytesReader fuel []) (fun e => e = Error.EOF) ∧
    (bs.length < 8 →
      FailsWith (ReadInt64LE bytesReader fuel bs)
        (fun e => Error.Is e Error.ErrUnexpectedEOF = true ∧ Error.Is e Error.EOF = false)) ∧
    FailsWith (ReadFloat32BE bytesReader fuel []) (fun e => e = Error.EOF) ∧
    (bs.length < 4 →
      FailsWith (ReadFloat32BE bytesReader fuel bs)
        (fun e => Error.Is e Error.ErrUnexpectedEOF = true ∧ Error.Is e Error.EOF = false)) ∧
    FailsWith (ReadFloat32LE bytesReader fuel []) (fun e => e = Error.EOF) ∧
    (bs.length < 4 →
      FailsWith (ReadFloat32LE bytesReader fuel bs)
        (fun e => Error.Is e Error.ErrUnexpectedEOF = true ∧ Error.Is e Error.EOF = false)) ∧
    FailsWith (ReadFloat64BE bytesReader fuel []) (fun e => e = Error.EOF) ∧
    (bs.length < 8 →
      FailsWith (ReadFloat64BE bytesReader fuel bs)
        (fun e => Error.Is e Error.ErrUnexpectedEOF = true ∧ Error.Is e Error.EOF = false)) ∧
    FailsWith (ReadFloat64LE bytesReader fuel []) (fun e => e = Error.EOF) ∧
    (bs.length < 8 →
      FailsWith (ReadFloat64LE bytesReader fuel bs)
        (fun e => Error.Is e Error.ErrUnexpectedEOF = true ∧ Error.Is e Error.EOF = false)) ∧
    FailsWith (ReadUnixTimeUTC32BE bytesReader fuel []) (fun e => e = Error.EOF) ∧
    (bs.length < 4 →
      FailsWith (ReadUnixTimeUTC32BE bytesReader fuel bs)
        (fun e => Error.Is e Error.ErrUnexpectedEOF = true ∧ Error.Is e Error.EOF = false)) ∧
    FailsWith (ReadUnixTime32BE bytesReader fuel []) (fun e => e = Error.EOF) ∧
    (bs.length < 4 →
      FailsWith (ReadUnixTime32BE bytesReader fuel bs)
        (fun e => Error.Is e Error.ErrUnexpectedEOF = true ∧ Error.Is e Error.EOF = false)) ∧
    FailsWith (ReadUnixTimeUTC32LE bytesReader fuel []) (fun e => e = Error.EOF) ∧
    (bs.length < 4 →
      FailsWith (ReadUnixTimeUTC32LE bytesReader fuel bs)
        (fun e => Error.Is e Error.ErrUnexpectedEOF = true ∧ Error.Is e Error.EOF = false)) ∧
    FailsWith (ReadUnixTime32LE bytesReader fuel []) (fun e => e = Error.EOF) ∧
    (bs.length < 4 →
      FailsWith (ReadUnixTime32LE bytesReader fuel bs)
        (fun e => Error.Is e Error.ErrUnexpectedEOF = true ∧ Error.Is e Error.EOF = false)) ∧
    FailsWith (ReadIPv4 bytesReader fuel []) (fun e => e = Error.EOF) ∧
    (bs.length < 4 →
      FailsWith (ReadIPv4 bytesReader fuel bs)
        (fun e => Error.Is e Error.ErrUnexpectedEOF = true ∧ Error.Is e Error.EOF = false)) ∧
    FailsWith (ReadIPv6 bytesReader fuel []) (fun e => e = Error.EOF) ∧
    (bs.length < 16 →
      FailsWith (ReadIPv6 bytesReader fuel bs)
        (fun e => Error.Is e Error.ErrUnexpectedEOF = true ∧ Error.Is e Error.EOF = false)) ∧
    (0 < n →
      FailsWith (ReadStringN bytesReader fuel [] (n : Nat) pad) (fun e => e = Error.EOF)) ∧
    (bs.length < n →
      FailsWith (ReadStringN bytesReader fuel bs (n : Nat) pad)
        (fun e => Error.Is e Error.ErrUnexpectedEOF = true ∧ Error.Is e Error.EOF = false)) :=
  ⟨FailsWith.of_eq _ _ _ (ReadUint8_of_readN_err _ _ _ _ _ _
      (readN_bytes_eof fuel 1 (by omega) (by decide))) rfl,
    FailsWith.of_eq _ _ _ (ReadInt8_of_readN_err _ _ _ _ _ _
      (readN_bytes_eof fuel 1 (by omega) (by decide))) rfl,
    FailsWith.of_eq _ _ _ (ReadUint16BE_of_readN_err _ _ _ _ _ _
      (readN_bytes_eof fuel 2 (by omega) (by decide))) rfl,
    fun h => FailsWith.of_eq _ _ _ (ReadUint16BE_of_readN_err _ _ _ _ _ _
      (readN_bytes_short fuel bs 2 hf hk (by simpa using h) (by decide))) ⟨rfl, rfl⟩,
    FailsWith.of_eq _ _ _ (ReadInt16BE_of_readN_err _ _ _ _ _ _
      (readN_bytes_eof fuel 2 (by omega) (by decide))) rfl,
    fun h => FailsWith.of_eq _ _ _ (ReadInt16BE_of_readN_err _ _ _ _ _ _
      (readN_bytes_short fuel bs 2 hf hk (by simpa using h) (by decide))) ⟨rfl, rfl⟩,
    FailsWith.of_eq _ _ _ (ReadUint16LE_of_readN_err _ _ _ _ _ _
      (readN_bytes_eof fuel 2 (by omega) (by decide))) rfl,
    fun h => FailsWith.of_eq _ _ _ (ReadUint16LE_of_readN_err _ _ _ _ _ _
      (readN_bytes_short fuel bs 2 hf hk (by simpa using h) (by decide))) ⟨rfl, rfl⟩,
    FailsWith.of_eq _ _ _ (ReadInt16LE_of_readN_err _ _ _ _ _ _
      (readN_bytes_eof fuel 2 (by omega) (by decide))) rfl,
    fun h => FailsWith.of_eq _ _ _ (ReadInt16LE_of_readN_err _ _ _ _ _ _
      (readN_bytes_short fuel bs 2 hf hk (by simpa using h) (by decide))) ⟨rfl, rfl⟩,
    FailsWith.of_eq _ _ _ (ReadUint32BE_of_readN_err _ _ _ _ _ _
      (readN_bytes_eof fuel 4 (by omega) (by decide))) rfl,
    fun h => FailsWith.of_eq _ _ _ (ReadUint32BE_of_readN_err _ _ _ _ _ _
      (readN_bytes_short fuel bs 4 hf hk (by simpa using h) (by decide))) ⟨rfl, rfl⟩,
    FailsWith.of_eq _ _ _ (ReadInt32BE_of_readN_err _ _ _ _ _ _
      (readN_bytes_eof fuel 4 (by omega) (by decide))) rfl,
    fun h => FailsWith.of_eq _ _ _ (ReadInt32BE_of_readN_err _ _ _ _ _ _
      (readN_bytes_short fuel bs 4 hf hk (by simpa using h) (by decide))) ⟨rfl, rfl⟩,
    FailsWith.of_eq _ _ _ (ReadUint32LE_of_readN_err _ _ _ _ _ _
      (readN_bytes_eof fuel 4 (by omega) (by decide))) rfl,
    fun h => FailsWith.of_eq _ _ _ (ReadUint32LE_of_readN_err _ _ _ _ _ _
      (readN_bytes_short fuel bs 4 hf hk (by simpa using h) (by decide))) ⟨rfl, rfl⟩,
    FailsWith.of_eq _ _ _ (ReadInt32LE_of_readN_err _ _ _ _ _ _
      (readN_bytes_eof fuel 4 (by omega) (by decide))) rfl,
    fun h => FailsWith.of_eq _ _ _ (ReadInt32LE_of_readN_err _ _ _ _ _ _
      (readN_bytes_short fuel bs 4 hf hk (by simpa using h) (by decide))) ⟨rfl, rfl⟩,
    FailsWith.of_eq _ _ _ (ReadUint64BE_of_readN_err _ _ _ _ _ _
      (readN_bytes_eof fuel 8 (by omega) (by decide))) rfl,
    fun h => FailsWith.of_eq _ _ _ (ReadUint64BE_of_readN_err _ _ _ _ _ _
      (readN_bytes_short fuel bs 8 hf hk (by simpa using h) (by decide))) ⟨rfl, rfl⟩,
    FailsWith.of_eq _ _ _ (ReadInt64BE_of_readN_err _ _ _ _ _ _
      (readN_bytes_eof fuel 8 (by omega) (by decide))) rfl,
    fun h => FailsWith.of_eq _ _ _ (ReadInt64BE_of_readN_err _ _ _ _ _ _
      (readN_bytes_short fuel bs 8 hf hk (by simpa using h) (by decide))) ⟨rfl, rfl⟩,
    FailsWith.of_eq _ _ _ (ReadUint64LE_of_readN_err _ _ _ _ _ _
      (readN_bytes_eof fuel 8 (by omega) (by decide))) rfl,
    fun h => FailsWith.of_eq _ _ _ (ReadUint64LE_of_readN_err _ _ _ _ _ _
      (readN_bytes_short fuel bs 8 hf hk (by simpa using h) (by decide))) ⟨rfl, rfl⟩,
    FailsWith.of_eq _ _ _ (ReadInt64LE_of_readN_err _ _ _ _ _ _
      (readN_bytes_eof fuel 8 (by omega) (by decide))) rfl,
    fun h => FailsWith.of_eq _ _ _ (ReadInt64LE_of_readN_err _ _ _ _ _ _
      (readN_bytes_short fuel bs 8 hf hk (by simpa using h) (by decide))) ⟨rfl, rfl⟩,
    FailsWith.of_eq _ _ _ (ReadFloat32BE_of_readN_err _ _ _ _ _ _
      (readN_bytes_eof fuel 4 (by omega) (by decide))) rfl,
    fun h => FailsWith.of_eq _ _ _ (ReadFloat32BE_of_readN_err _ _ _ _ _ _
      (readN_bytes_short fuel bs 4 hf hk (by simpa using h) (by decide))) ⟨rfl, rfl⟩,
    FailsWith.of_eq _ _ _ (ReadFloat32LE_of_readN_err _ _ _ _ _ _
      (readN_bytes_eof fuel 4 (by omega) (by decide))) rfl,
    fun h => FailsWith.of_eq _ _ _ (ReadFloat32LE_of_readN_err _ _ _ _ _ _
      (readN_bytes_short fuel bs 4 hf hk (by simpa using h) (by decide))) ⟨rfl, rfl⟩,
    FailsWith.of_eq _ _ _ (ReadFloat64BE_of_readN_err _ _ _ _ _ _
      (readN_bytes_eof fuel 8 (by omega) (by decide))) rfl,
    fun h => FailsWith.of_eq _ _ _ (ReadFloat64BE_of_readN_err _ _ _ _ _ _
      (readN_bytes_short fuel bs 8 hf hk (by simpa using h) (by decide))) ⟨rfl, rfl⟩,
    FailsWith.of_eq _ _ _ (ReadFloat64LE_of_readN_err _ _ _ _ _ _
      (readN_bytes_eof fuel 8 (by omega) (by decide))) rfl,
    fun h => FailsWith.of_eq _ _ _ (ReadFloat64LE_of_readN_err _ _ _ _ _ _
      (readN_bytes_short fuel bs 8 hf hk (by simpa using h) (by decide))) ⟨rfl, rfl⟩,
    FailsWith.of_eq _ _ _ (ReadUnixTimeUTC32BE_of_readN_err _ _ _ _ _ _
      (readN_bytes_eof fuel 4 (by omega) (by decide))) rfl,
    fun h => FailsWith.of_eq _ _ _ (ReadUnixTimeUTC32BE_of_readN_err _ _ _ _ _ _
      (readN_bytes_short fuel bs 4 hf hk (by simpa using h) (by decide))) ⟨rfl, rfl⟩,
    FailsWith.of_eq _ _ _ (ReadUnixTime32BE_of_readN_err _ _ _ _ _ _
      (readN_bytes_eof fuel 4 (by omega) (by decide))) rfl,
    fun h => FailsWith.of_eq _ _ _ (ReadUnixTime32BE_of_readN_err _ _ _ _ _ _
      (readN_bytes_short fuel bs 4 hf hk (by simpa using h) (by decide))) ⟨rfl, rfl⟩,
    FailsWith.of_eq _ _ _ (ReadUnixTimeUTC32LE_of_readN_err _ _ _ _ _ _
      (readN_bytes_eof fuel 4 (by omega) (by decide))) rfl,
    fun h => FailsWith.of_eq _ _ _ (ReadUnixTimeUTC32LE_of_readN_err _ _ _ _ _ _
      (readN_bytes_short fuel bs 4 hf hk (by simpa using h) (by decide))) ⟨rfl, rfl⟩,
    FailsWith.of_eq _ _ _ (ReadUnixTime32LE_of_readN_err _ _ _ _ _ _
      (readN_bytes_eof fuel 4 (by omega) (by decide))) rfl,
    fun h => FailsWith.of_eq _ _ _ (ReadUnixTime32LE_of_readN_err _ _ _ _ _ _
      (readN_bytes_short fuel bs 4 hf hk (by simpa using h) (by decide))) ⟨rfl, rfl⟩,
    FailsWith.of_eq _ _ _ (ReadIPv4_of_readN_err _ _ _ _ _ _
      (readN_bytes_eof fuel 4 (by omega) (by decide))) rfl,
    fun h => FailsWith.of_eq _ _ _ (ReadIPv4_of_readN_err _ _ _ _ _ _
      (readN_bytes_short fuel bs 4 hf hk (by simpa using h) (by decide))) ⟨rfl, rfl⟩,
    FailsWith.of_eq _ _ _ (ReadIPv6_of_readN_err _ _ _ _ _ _
      (readN_bytes_eof fuel 16 (by omega) (by decide))) rfl,
    fun h => FailsWith.of_eq _ _ _ (ReadIPv6_of_readN_err _ _ _ _ _ _
      (readN_bytes_short fuel bs 16 hf hk (by simpa using h) (by decide))) ⟨rfl, rfl⟩,
    fun h => FailsWith.of_eq _ _ _ (ReadStringN_of_readN_err _ _ _ _ _ pad _ _
      (readN_bytes_eof fuel (n : Nat) (by omega) ⟨by omega, by omega⟩)) rfl,
    fun h => FailsWith.of_eq _ _ _ (ReadStringN_of_readN_err _ _ _ _ _ pad _ _
      (readN_bytes_short fuel bs (n : Nat) hf hk (by simpa using h) (by omega))) ⟨rfl, rfl⟩⟩

theorem eof_versus_truncation_witness :
    (2 ≤ 2 ∧ 0 < [(255 : Byte)].length ∧ 3 ≤ maxAlloc) ∧
    FailsWith (ReadUint8 bytesReader 2 []) (fun e => e = Error.EOF) ∧
    FailsWith (ReadInt8 bytesReader 2 []) (fun e => e = Error.EOF) ∧
    FailsWith (ReadUint16BE bytesReader 2 []) (fun e => e = Error.EOF) ∧
    FailsWith (ReadUint16BE bytesReader 2 [255])
      (fun e => Error.Is e Error.ErrUnexpectedEOF = true ∧ Error.Is e Error.EOF = false) ∧
    FailsWith (ReadInt16BE bytesReader 2 []) (fun e => e = Error.EOF) ∧
    FailsWith (ReadInt16BE bytesReader 2 [255])
      (fun e => Error.Is e Error.ErrUnexpectedEOF = true ∧ Error.Is e Error.EOF = false) ∧
    FailsWith (ReadUint16LE bytesReader 2 []) (fun e => e = Error.EOF) ∧
    FailsWith (ReadUint16LE bytesReader 2 [255])
      (fun e => Error.Is e Error.ErrUnexpectedEOF = true ∧ Error.Is e Error.EOF = false) ∧
    FailsWith (ReadInt16LE bytesReader 2 []) (fun e => e = Error.EOF) ∧
    FailsWith (ReadInt16LE bytesReader 2 [255])
      (fun e => Error.Is e Error.ErrUnexpectedEOF = true ∧ Error.Is e Error.EOF = false) ∧
    FailsWith (ReadUint32BE bytesReader 2 []) (fun e => e = Error.EOF) ∧
    FailsWith (ReadUint32BE bytesReader 2 [255])
      (fun e => Error.Is e Error.ErrUnexpectedEOF = true ∧ Error.Is e Error.EOF = false) ∧
    FailsWith (ReadInt32BE bytesReader 2 []) (fun e => e = Error.EOF) ∧
    FailsWith (ReadInt32BE bytesReader 2 [255])
      (fun e => Error.Is e Error.ErrUnexpectedEOF = true ∧ Error.Is e Error.EOF = false) ∧
    FailsWith (ReadUint32LE bytesReader 2 []) (fun e => e = Error.EOF) ∧
    FailsWith (ReadUint32LE bytesReader 2 [255])
      (fun e => Error.Is e Error.ErrUnexpectedEOF = true ∧ Error.Is e Error.EOF = false) ∧
    FailsWith (ReadInt32LE bytesReader 2 []) (fun e => e = Error.EOF) ∧
    FailsWith (ReadInt32LE bytesReader 2 [255])
      (fun e => Error.Is e Error.ErrUnexpectedEOF = true ∧ Error.Is e Error.EOF = false) ∧
    FailsWith (ReadUint64BE bytesReader 2 []) (fun e => e = Error.EOF) ∧
    FailsWith (ReadUint64BE bytesReader 2 [255])
      (fun e => Error.Is e Error.ErrUnexpectedEOF = true ∧ Error.Is e Error.EOF = false) ∧
    FailsWith (ReadInt64BE bytesReader 2 []) (fun e => e = Error.EOF) ∧
    FailsWith (ReadInt64BE bytesReader 2 [255])
      (fun e => Error.Is e Error.ErrUnexpectedEOF = true ∧ Error.Is e Error.EOF = false) ∧
    FailsWith (ReadUint64LE bytesReader 2 []) (fun e => e = Error.EOF) ∧
    FailsWith (ReadUint64LE bytesReader 2 [255])
      (fun e => Error.Is e Error.ErrUnexpectedEOF = true ∧ Error.Is e Error.EOF = false) ∧
    FailsWith (ReadInt64LE bytesReader 2 []) (fun e => e = Error.EOF) ∧
    FailsWith (ReadInt64LE bytesReader 2 [255])
      (fun e => Error.Is e Error.ErrUnexpectedEOF = true ∧ Error.Is e Error.EOF = false) ∧
    FailsWith (ReadFloat32BE bytesReader 2 []) (fun e => e = Error.EOF) ∧
    FailsWith (ReadFloat32BE bytesReader 2 [255])
      (fun e => Error.Is e Error.ErrUnexpectedEOF = true ∧ Error.Is e Error.EOF = false) ∧
    FailsWith (ReadFloat32LE bytesReader 2 []) (fun e => e = Error.EOF) ∧
    FailsWith (ReadFloat32LE bytesReader 2 [255])
      (fun e => Error.Is e Error.ErrUnexpectedEOF = true ∧ Error.Is e Error.EOF = false) ∧
    FailsWith (ReadFloat64BE bytesReader 2 []) (fun e => e = Error.EOF) ∧
    FailsWith (ReadFloat64BE bytesReader 2 [255])
      (fun e => Error.Is e Error.ErrUnexpectedEOF = true ∧ Error.Is e Error.EOF = false) ∧
    FailsWith (ReadFloat64LE bytesReader 2 []) (fun e => e = Error.EOF) ∧
    FailsWith (ReadFloat64LE bytesReader 2 [255])
      (fun e => Error.Is e Error.ErrUnexpectedEOF = true ∧ Error.Is e Error.EOF = false) ∧
    FailsWith (ReadUnixTimeUTC32BE bytesReader 2 []) (fun e => e = Error.EOF) ∧
    FailsWith (ReadUnixTimeUTC32BE bytesReader 2 [255])
      (fun e => Error.Is e Error.ErrUnexpectedEOF = true ∧ Error.Is e Error.EOF = false) ∧
    FailsWith (ReadUnixTime32BE bytesReader 2 []) (fun e => e = Error.EOF) ∧
    FailsWith (ReadUnixTime32BE bytesReader 2 [255])
      (fun e => Error.Is e Error.ErrUnexpectedEOF = true ∧ Error.Is e Error.EOF = false) ∧
    FailsWith (ReadUnixTimeUTC32LE bytesReader 2 []) (fun e => e = Error.EOF) ∧
    FailsWith (ReadUnixTimeUTC32LE bytesReader 2 [255])
      (fun e => Error.Is e Error.ErrUnexpectedEOF = true ∧ Error.Is e Error.EOF = false) ∧
    FailsWith (ReadUnixTime32LE bytesReader 2 []) (fun e => e = Error.EOF) ∧
    FailsWith (ReadUnixTime32LE bytesReader 2 [255])
      (fun e => Error.Is e Error.ErrUnexpectedEOF = true ∧ Error.Is e Error.EOF = false) ∧
    FailsWith (ReadIPv4 bytesReader 2 []) (fun e => e = Error.EOF) ∧
    FailsWith (ReadIPv4 bytesReader 2 [255])
      (fun e => Error.Is e Error.ErrUnexpectedEOF = true ∧ Error.Is e Error.EOF = false) ∧
    FailsWith (ReadIPv6 bytesReader 2 []) (fun e => e = Error.EOF) ∧
    FailsWith (ReadIPv6 bytesReader 2 [255])
      (fun e => Error.Is e Error.ErrUnexpectedEOF = true ∧ Error.Is e Error.EOF = false) ∧
    FailsWith (ReadStringN bytesReader 2 [] (3 : Nat) 0) (fun e => e = Error.EOF) ∧
    FailsWith (ReadStringN bytesReader 2 [255] (3 : Nat) 0)
      (fun e => Error.Is e Error.ErrUnexpectedEOF = true ∧ Error.Is e Error.EOF = false) := by
  have h := eof_versus_truncation 2 [255] 3 0 (by decide) (by decide) (by decide)
  exact ⟨⟨by decide, by decide, by decide⟩,
    h.1, h.2.1, h.2.2.1, h.2.2.2.1 (by decide), h.2.2.2.2.1, h.2.2.2.2.2.1 (by decide),
    h.2.2.2.2.2.2.1, h.2.2.2.2.2.2.2.1 (by decide), h.2.2.2.2.2.2.2.2.1,
    h.2.2.2.2.2.2.2.2.2.1 (by decide), h.2.2.2.2.2.2.2.2.2.2.1,
    h.2.2.2.2.2.2.2.2.2.2.2.1 (by decide), h.2.2.2.2.2.2.2.2.2.2.2.2.1,
    h.2.2.2.2.2.2.2.2.2.2.2.2.2.1 (by decide), h.2.2.2.2.2.2.2.2.2.2.2.2.2.2.1,
    h.2.2.2.2.2.2.2.2.2.2.2.2.2.2.2.1 (by decide), h.2.2.2.2.2.2.2.2.2.2.2.2.2.2.2.2.1,
    h.2.2.2.2.2.2.2.2.2.2.2.2.2.2.2.2.2.1 (by decide), h.2.2.2.2.2.2.2.2.2.2.2.2.2.2.2.2.2.2.1,
    h.2.2.2.2.2.2.2.2.2.2.2.2.2.2.2.2.2.2.2.1 (by decide),
    h.2.2.2.2.2.2.2.2.2.2.2.2.2.2.2.2.2.2.2.2.1,
    h.2.2.2.2.2.2.2.2.2.2.2.2.2.2.2.2.2.2.2.2.2.1 (by decide),
    h.2.2.2.2.2.2.2.2.2.2.2.2.2.2.2.2.2.2.2.2.2.2.1,
    h.2.2.2.2.2.2.2.2.2.2.2.2.2.2.2.2.2.2.2.2.2.2.2.1 (by decide),
    h.2.2.2.2.2.2.2.2.2.2.2.2.2.2.2.2.2.2.2.2.2.2.2.2.1,
    h.2.2.2.2.2.2.2.2.2.2.2.2.2.2.2.2.2.2.2.2.2.2.2.2.2.1 (by decide),
    h.2.2.2.2.2.2.2.2.2.2.2.2.2.2.2.2.2.2.2.2.2.2.2.2.2.2.1,
    h.2.2.2.2.2.2.2.2.2.2.2.2.2.2.2.2.2.2.2.2.2.2.2.2.2.2.2.1 (by decide),
    h.2.2.2.2.2.2.2.2.2.2.2.2.2.2.2.2.2.2.2.2.2.2.2.2.2.2.2.2.1,
    h.2.2.2.2.2.2.2.2.2.2.2.2.2.2.2.2.2.2.2.2.2.2.2.2.2.2.2.2.2.1 (by decide),
    h.2.2.2.2.2.2.2.2.2.2.2.2.2.2.2.2.2.2.2.2.2.2.2.2.2.2.2.2.2.2.1,
    h.2.2.2.2.2.2.2.2.2.2.2.2.2.2.2.2.2.2.2.2.2.2.2.2.2.2.2.2.2.2.2.1 (by decide),
    h.2.2.2.2.2.2.2.2.2.2.2.2.2.2.2.2.2.2.2.2.2.2.2.2.2.2.2.2.2.2.2.2.1,
    h.2.2.2.2.2.2.2.2.2.2.2.2.2.2.2.2.2.2.2.2.2.2.2.2.2.2.2.2.2.2.2.2.2.1 (by decide),
    h.2.2.2.2.2.2.2.2.2.2.2.2.2.2.2.2.2.2.2.2.2.2.2.2.2.2.2.2.2.2.2.2.2.2.1,
    h.2.2.2.2.2.2.2.2.2.2.2.2.2.2.2.2.2.2.2.2.2.2.2.2.2.2.2.2.2.2.2.2.2.2.2.1 (by decide),
    h.2.2.2.2.2.2.2.2.2.2.2.2.2.2.2.2.2.2.2.2.2.2.2.2.2.2.2.2.2.2.2.2.2.2.2.2.1,
    h.2.2.2.2.2.2.2.2.2.2.2.2.2.2.2.2.2.2.2.2.2.2.2.2.2.2.2.2.2.2.2.2.2.2.2.2.2.1 (by decide),
    h.2.2.2.2.2.2.2.2.2.2.2.2.2.2.2.2.2.2.2.2.2.2.2.2.2.2.2.2.2.2.2.2.2.2.2.2.2.2.1,
    h.2.2.2.2.2.2.2.2.2.2.2.2.2.2.2.2.2.2.2.2.2.2.2.2.2.2.2.2.2.2.2.2.2.2.2.2.2.2.2.1 (by decide),
    h.2.2.2.2.2.2.2.2.2.2.2.2.2.2.2.2.2.2.2.2.2.2.2.2.2.2.2.2.2.2.2.2.2.2.2.2.2.2.2.2.1,
    h.2.2.2.2.2.2.2.2.2.2.2.2.2.2.2.2.2.2.2.2.2.2.2.2.2.2.2.2.2.2.2.2.2.2.2.2.2.2.2.2.2.1 (by decide),
    h.2.2.2.2.2.2.2.2.2.2.2.2.2.2.2.2.2.2.2.2.2.2.2.2.2.2.2.2.2.2.2.2.2.2.2.2.2.2.2.2.2.2.1,
    h.2.2.2.2.2.2.2.2.2.2.2.2.2.2.2.2.2.2.2.2.2.2.2.2.2.2.2.2.2.2.2.2.2.2.2.2.2.2.2.2.2.2.2.1 (by decide),
    h.2.2.2.2.2.2.2.2.2.2.2.2.2.2.2.2.2.2.2.2.2.2.2.2.2.2.2.2.2.2.2.2.2.2.2.2.2.2.2.2.2.2.2.2.1,
    h.2.2.2.2.2.2.2.2.2.2.2.2.2.2.2.2.2.2.2.2.2.2.2.2.2.2.2.2.2.2.2.2.2.2.2.2.2.2.2.2.2.2.2.2.2.1 (by decide),
    h.2.2.2.2.2.2.2.2.2.2.2.2.2.2.2.2.2.2.2.2.2.2.2.2.2.2.2.2.2.2.2.2.2.2.2.2.2.2.2.2.2.2.2.2.2.2.1 (by decide),
    h.2.2.2.2.2.2.2.2.2.2.2.2.2.2.2.2.2.2.2.2.2.2.2.2.2.2.2.2.2.2.2.2.2.2.2.2.2.2.2.2.2.2.2.2.2.2.2 (by decide)⟩

/-! ## Exact consumption on in-memory streams -/

theorem take_one_eq_singleton (b : List Byte) (h : 1 ≤ b.length) :
    ∃ b0, b.take 1 = [b0] := by
  rcases b with _ | ⟨b0, rest⟩
  · simp at h
  · exact ⟨b0, by simp⟩

theorem length_take_of_le (N : Nat) (bs : List Byte) (h : N ≤ bs.length) :
    (bs.take N).length = N := by
  simp [List.length_take, h]

theorem take_take_same (N : Nat) (bs : List Byte) : (bs.take N).take N = bs.take N := by
  simp [List.take_take]

theorem drop_take_same (N : Nat) (bs : List Byte) : (bs.take N).drop N = [] :=
  List.drop_of_length_le (List.length_take_le N bs)

theorem beUint16_isSome (b : List Byte) (h : 2 ≤ b.length) :
    ∃ u, BigEndian.Uint16 b = some u := by
  rcases b with _ | ⟨b0, _ | ⟨b1, rest⟩⟩
  all_goals first
    | exact ⟨_, rfl⟩
    | (simp only [List.length_cons, List.length_nil] at h; omega)

theorem leUint16_isSome (b : List Byte) (h : 2 ≤ b.length) :
    ∃ u, LittleEndian.Uint16 b = some u := by
  rcases b with _ | ⟨b0, _ | ⟨b1, rest⟩⟩
  all_goals first
    | exact ⟨_, rfl⟩
    | (simp only [List.length_cons, List.length_nil] at h; omega)

theorem beUint32_isSome (b : List Byte) (h : 4 ≤ b.length) :
    ∃ u, BigEndian.Uint32 b = some u := by
  rcases b with _ | ⟨b0, _ | ⟨b1, _ | ⟨b2, _ | ⟨b3, rest⟩⟩⟩⟩
  all_goals first
    | exact ⟨_, rfl⟩
    | (simp only [List.length_cons, List.length_nil] at h; omega)

theorem leUint32_isSome (b : List Byte) (h : 4 ≤ b.length) :
    ∃ u, LittleEndian.Uint32 b = some u := by
  rcases b with _ | ⟨b0, _ | ⟨b1, _ | ⟨b2, _ | ⟨b3, rest⟩⟩⟩⟩
  all_goals first
    | exact ⟨_, rfl⟩
    | (simp only [List.length_cons, List.length_nil] at h; omega)

theorem beUint64_isSome (b : List Byte) (h : 8 ≤ b.length) :
    ∃ u, BigEndian.Uint64 b = some u := by
  rcases b with _ | ⟨b0, _ | ⟨b1, _ | ⟨b2, _ | ⟨b3, _ | ⟨b4, _ | ⟨b5, _ | ⟨b6, _ | ⟨b7, rest⟩⟩⟩⟩⟩⟩⟩⟩
  all_goals first
    | exact ⟨_, rfl⟩
    | (simp only [List.length_cons, List.length_nil] at h; omega)

theorem leUint64_isSome (b : List Byte) (h : 8 ≤ b.length) :
    ∃ u, LittleEndian.Uint64 b = some u := by
  rcases b with _ | ⟨b0, _ | ⟨b1, _ | ⟨b2, _ | ⟨b3, _ | ⟨b4, _ | ⟨b5, _ | ⟨b6, _ | ⟨b7, rest⟩⟩⟩⟩⟩⟩⟩⟩
  all_goals first
    | exact ⟨_, rfl⟩
    | (simp only [List.length_cons, List.length_nil] at h; omega)

theorem ReadUint8_consumes (fuel : Nat) (bs : List Byte) (hf : 0 < fuel)
    (h : 1 ≤ bs.length) : ConsumesExactly (ReadUint8 bytesReader fuel) 1 bs := by
  obtain ⟨b0, hb⟩ := take_one_eq_singleton bs h
  have hl := length_take_of_le 1 bs h
  refine ⟨b0.val, ?_, ?_⟩ <;>
    simp [ReadUint8, readN_bytes_ok, hf, h, hl, hb, take_take_same, drop_take_same]

theorem ReadInt8_consumes (fuel : Nat) (bs : List Byte) (hf : 0 < fuel)
    (h : 1 ≤ bs.length) : ConsumesExactly (ReadInt8 bytesReader fuel) 1 bs := by
  obtain ⟨b0, hb⟩ := take_one_eq_singleton bs h
  have hl := length_take_of_le 1 bs h
  refine ⟨toSigned 8 b0.val, ?_, ?_⟩ <;>
    simp [ReadInt8, readN_bytes_ok, hf, h, hl, hb, take_take_same, drop_take_same]

theorem ReadUint16BE_consumes (fuel : Nat) (bs : List Byte) (hf : 0 < fuel)
    (h : 2 ≤ bs.length) : ConsumesExactly (ReadUint16BE bytesReader fuel) 2 bs := by
  have hl := length_take_of_le 2 bs h
  obtain ⟨u, hu⟩ := beUint16_isSome (bs.take 2) (by omega)
  refine ⟨u, ?_, ?_⟩ <;>
    simp [ReadUint16BE, readN_bytes_ok, hf, h, hl, hu, take_take_same, drop_take_same]

theorem ReadInt16BE_consumes (fuel : Nat) (bs : List Byte) (hf : 0 < fuel)
    (h : 2 ≤ bs.length) : ConsumesExactly (ReadInt16BE bytesReader fuel) 2 bs := by
  have hl := length_take_of_le 2 bs h
  obtain ⟨u, hu⟩ := beUint16_isSome (bs.take 2) (by omega)
  refine ⟨toSigned 16 u, ?_, ?_⟩ <;>
    simp [ReadInt16BE, readN_bytes_ok, hf, h, hl, hu, take_take_same, drop_take_same]

theorem ReadUint16LE_consumes (fuel : Nat) (bs : List Byte) (hf : 0 < fuel)
    (h : 2 ≤ bs.length) : ConsumesExactly (ReadUint16LE bytesReader fuel) 2 bs := by
  have hl := length_take_of_le 2 bs h
  obtain ⟨u, hu⟩ := leUint16_isSome (bs.take 2) (by omega)
  refine ⟨u, ?_, ?_⟩ <;>
    simp [ReadUint16LE, readN_bytes_ok, hf, h, hl, hu, take_take_same, drop_take_same]

theorem ReadInt16LE_consumes (fuel : Nat) (bs : List Byte) (hf : 0 < fuel)
    (h : 2 ≤ bs.length) : ConsumesExactly (ReadInt16LE bytesReader fuel) 2 bs := by
  have hl := length_take_of_le 2 bs h
  obtain ⟨u, hu⟩ := leUint16_isSome (bs.take 2) (by omega)
  refine ⟨toSigned 16 u, ?_, ?_⟩ <;>
    simp [ReadInt16LE, readN_bytes_ok, hf, h, hl, hu, take_take_same, drop_take_same]

theorem ReadUint32BE_consumes (fuel : Nat) (bs : List Byte) (hf : 0 < fuel)
    (h : 4 ≤ bs.length) : ConsumesExactly (ReadUint32BE bytesReader fuel) 4 bs := by
  have hl := length_take_of_le 4 bs h
  obtain ⟨u, hu⟩ := beUint32_isSome (bs.take 4) (by omega)
  refine ⟨u, ?_, ?_⟩ <;>
    simp [ReadUint32BE, readN_bytes_ok, hf, h, hl, hu, take_take_same, drop_take_same]

theorem ReadInt32BE_consumes (fuel : Nat) (bs : List Byte) (hf : 0 < fuel)
    (h : 4 ≤ bs.length) : ConsumesExactly (ReadInt32BE bytesReader fuel) 4 bs := by
  have hl := length_take_of_le 4 bs h
  obtain ⟨u, hu⟩ := beUint32_isSome (bs.take 4) (by omega)
  refine ⟨toSigned 32 u, ?_, ?_⟩ <;>
    simp [ReadInt32BE, readN_bytes_ok, hf, h, hl, hu, take_take_same, drop_take_same]

theorem ReadUint32LE_consumes (fuel : Nat) (bs : List Byte) (hf : 0 < fuel)
    (h : 4 ≤ bs.length) : ConsumesExactly (ReadUint32LE bytesReader fuel) 4 bs := by
  have hl := length_take_of_le 4 bs h
  obtain ⟨u, hu⟩ := leUint32_isSome (bs.take 4) (by omega)
  refine ⟨u, ?_, ?_⟩ <;>
    simp [ReadUint32LE, readN_bytes_ok, hf, h, hl, hu, take_take_same, drop_take_same]

theorem ReadInt32LE_consumes (fuel : Nat) (bs : List Byte) (hf : 0 < fuel)
    (h : 4 ≤ bs.length) : ConsumesExactly (ReadInt32LE bytesReader fuel) 4 bs := by
  have hl := length_take_of_le 4 bs h
  obtain ⟨u, hu⟩ := leUint32_isSome (bs.take 4) (by omega)
  refine ⟨toSigned 32 u, ?_, ?_⟩ <;>
    simp [ReadInt32LE, readN_bytes_ok, hf, h, hl, hu, take_take_same, drop_take_same]

theorem ReadUint64BE_consumes (fuel : Nat) (bs : List Byte) (hf : 0 < fuel)
    (h : 8 ≤ bs.length) : ConsumesExactly (ReadUint64BE bytesReader fuel) 8 bs := by
  have hl := length_take_of_le 8 bs h
  obtain ⟨u, hu⟩ := beUint64_isSome (bs.take 8) (by omega)
  refine ⟨u, ?_, ?_⟩ <;>
    simp [ReadUint64BE, readN_bytes_ok, hf, h, hl, hu, take_take_same, drop_take_same]

theorem ReadInt64BE_consumes (fuel : Nat) (bs : List Byte) (hf : 0 < fuel)
    (h : 8 ≤ bs.length) : ConsumesExactly (ReadInt64BE bytesReader fuel) 8 bs := by
  have hl := length_take_of_le 8 bs h
  obtain ⟨u, hu⟩ := beUint64_isSome (bs.take 8) (by omega)
  refine ⟨toSigned 64 u, ?_, ?_⟩ <;>
    simp [ReadInt64BE, readN_bytes_ok, hf, h, hl, hu, take_take_same, drop_take_same]

theorem ReadUint64LE_consumes (fuel : Nat) (bs : List Byte) (hf : 0 < fuel)
    (h : 8 ≤ bs.length) : ConsumesExactly (ReadUint64LE bytesReader fuel) 8 bs := by
  have hl := length_take_of_le 8 bs h
  obtain ⟨u, hu⟩ := leUint64_isSome (bs.take 8) (by omega)
  refine ⟨u, ?_, ?_⟩ <;>
    simp [ReadUint64LE, readN_bytes_ok, hf, h, hl, hu, take_take_same, drop_take_same]

theorem ReadInt64LE_consumes (fuel : Nat) (bs : List Byte) (hf : 0 < fuel)
    (h : 8 ≤ bs.length) : ConsumesExactly (ReadInt64LE bytesReader fuel) 8 bs := by
  have hl := length_take_of_le 8 bs h
  obtain ⟨u, hu⟩ := leUint64_isSome (bs.take 8) (by omega)
  refine ⟨toSigned 64 u, ?_, ?_⟩ <;>
    simp [ReadInt64LE, readN_bytes_ok, hf, h, hl, hu, take_take_same, drop_take_same]

theorem ReadFloat32BE_consumes (fuel : Nat) (bs : List Byte) (hf : 0 < fuel)
    (h : 4 ≤ bs.length) : ConsumesExactly (ReadFloat32BE bytesReader fuel) 4 bs := by
  have hl := length_take_of_le 4 bs h
  obtain ⟨u, hu⟩ := beUint32_isSome (bs.take 4) (by omega)
  refine ⟨Float32frombits u, ?_, ?_⟩ <;>
    simp [ReadFloat32BE, readN_bytes_ok, hf, h, hl, hu, take_take_same, drop_take_same]

theorem ReadFloat32LE_consumes (fuel : Nat) (bs : List Byte) (hf : 0 < fuel)
    (h : 4 ≤ bs.length) : ConsumesExactly (ReadFloat32LE bytesReader fuel) 4 bs := by
  have hl := length_take_of_le 4 bs h
  obtain ⟨u, hu⟩ := leUint32_isSome (bs.take 4) (by omega)
  refine ⟨Float32frombits u, ?_, ?_⟩ <;>
    simp [ReadFloat32LE, readN_bytes_ok, hf, h, hl, hu, take_take_same, drop_take_same]

theorem ReadFloat64BE_consumes (fuel : Nat) (bs : List Byte) (hf : 0 < fuel)
    (h : 8 ≤ bs.length) : ConsumesExactly (ReadFloat64BE bytesReader fuel) 8 bs := by
  have hl := length_take_of_le 8 bs h
  obtain ⟨u, hu⟩ := beUint64_isSome (bs.take 8) (by omega)
  refine ⟨Float64frombits u, ?_, ?_⟩ <;>
    simp [ReadFloat64BE, readN_bytes_ok, hf, h, hl, hu, take_take_same, drop_take_same]

theorem ReadFloat64LE_consumes (fuel : Nat) (bs : List Byte) (hf : 0 < fuel)
    (h : 8 ≤ bs.length) : ConsumesExactly (ReadFloat64LE bytesReader fuel) 8 bs := by
  have hl := length_take_of_le 8 bs h
  obtain ⟨u, hu⟩ := leUint64_isSome (bs.take 8) (by omega)
  refine ⟨Float64frombits u, ?_, ?_⟩ <;>
    simp [ReadFloat64LE, readN_bytes_ok, hf, h, hl, hu, take_take_same, drop_take_same]

theorem ReadUnixTimeUTC32BE_consumes (fuel : Nat) (bs : List Byte) (hf : 0 < fuel)
    (h : 4 ≤ bs.length) : ConsumesExactly (ReadUnixTimeUTC32BE bytesReader fuel) 4 bs := by
  have hl := length_take_of_le 4 bs h
  obtain ⟨u, hu⟩ := beUint32_isSome (bs.take 4) (by omega)
  refine ⟨(timeUnix (u : Int) 0).UTC, ?_, ?_⟩ <;>
    simp [ReadUnixTimeUTC32BE, ReadUint32BE, readN_bytes_ok, hf, h, hl, hu, take_take_same, drop_take_same]

theorem ReadUnixTime32BE_consumes (fuel : Nat) (bs : List Byte) (hf : 0 < fuel)
    (h : 4 ≤ bs.length) : ConsumesExactly (ReadUnixTime32BE bytesReader fuel) 4 bs := by
  have hl := length_take_of_le 4 bs h
  obtain ⟨u, hu⟩ := beUint32_isSome (bs.take 4) (by omega)
  refine ⟨(timeUnix (u : Int) 0).Local, ?_, ?_⟩ <;>
    simp [ReadUnixTime32BE, ReadUint32BE, readN_bytes_ok, hf, h, hl, hu, take_take_same, drop_take_same]

theorem ReadUnixTimeUTC32LE_consumes (fuel : Nat) (bs : List Byte) (hf : 0 < fuel)
    (h : 4 ≤ bs.length) : ConsumesExactly (ReadUnixTimeUTC32LE bytesReader fuel) 4 bs := by
  have hl := length_take_of_le 4 bs h
  obtain ⟨u, hu⟩ := leUint32_isSome (bs.take 4) (by omega)
  refine ⟨(timeUnix (u : Int) 0).UTC, ?_, ?_⟩ <;>
    simp [ReadUnixTimeUTC32LE, ReadUint32LE, readN_bytes_ok, hf, h, hl, hu, take_take_same, drop_take_same]

theorem ReadUnixTime32LE_consumes (fuel : Nat) (bs : List Byte) (hf : 0 < fuel)
    (h : 4 ≤ bs.length) : ConsumesExactly (ReadUnixTime32LE bytesReader fuel) 4 bs := by
  have hl := length_take_of_le 4 bs h
  obtain ⟨u, hu⟩ := leUint32_isSome (bs.take 4) (by omega)
  refine ⟨(timeUnix (u : Int) 0).Local, ?_, ?_⟩ <;>
    simp [ReadUnixTime32LE, ReadUint32LE, readN_bytes_ok, hf, h, hl, hu, take_take_same, drop_take_same]

theorem ReadIPv4_consumes (fuel : Nat) (bs : List Byte) (hf : 0 < fuel)
    (h : 4 ≤ bs.length) : ConsumesExactly (ReadIPv4 bytesReader fuel) 4 bs := by
  have hl := length_take_of_le 4 bs h
  refine ⟨some (bs.take 4), ?_, ?_⟩ <;>
    simp [ReadIPv4, readN_bytes_ok, hf, h, hl, take_take_same, drop_take_same]

theorem ReadIPv6_consumes (fuel : Nat) (bs : List Byte) (hf : 0 < fuel)
    (h : 16 ≤ bs.length) : ConsumesExactly (ReadIPv6 bytesReader fuel) 16 bs := by
  have hl := length_take_of_le 16 bs h
  refine ⟨some (bs.take 16), ?_, ?_⟩ <;>
    simp [ReadIPv6, readN_bytes_ok, hf, h, hl, take_take_same, drop_take_same]

/-- C9. Exact consumption: for every typed fixed-width read needing `N` bytes
(1, 2, 4, 8 for integers, 4 and 8 for floats, 4 for UNIX time, 4 for IPv4, 16
for IPv6) and every `bytes.Reader` stream `bs` with at least `N` bytes, the
read succeeds, the stream content afterwards is exactly `bs[N..]`, and the
value is the one the same read returns on `bs[0..N)` alone. -/
theorem exact_consumption (fuel : Nat) (bs : List Byte) (hf : 0 < fuel) :
    (1 ≤ bs.length → ConsumesExactly (ReadUint8 bytesReader fuel) 1 bs) ∧
    (1 ≤ bs.length → ConsumesExactly (ReadInt8 bytesReader fuel) 1 bs) ∧
    (2 ≤ bs.length → ConsumesExactly (ReadUint16BE bytesReader fuel) 2 bs) ∧
    (2 ≤ bs.length → ConsumesExactly (ReadInt16BE bytesReader fuel) 2 bs) ∧
    (2 ≤ bs.length → ConsumesExactly (ReadUint16LE bytesReader fuel) 2 bs) ∧
    (2 ≤ bs.length → ConsumesExactly (ReadInt16LE bytesReader fuel) 2 bs) ∧
    (4 ≤ bs.length → ConsumesExactly (ReadUint32BE bytesReader fuel) 4 bs) ∧
    (4 ≤ bs.length → ConsumesExactly (ReadInt32BE bytesReader fuel) 4 bs) ∧
    (4 ≤ bs.length → ConsumesExactly (ReadUint32LE bytesReader fuel) 4 bs) ∧
    (4 ≤ bs.length → ConsumesExactly (ReadInt32LE bytesReader fuel) 4 bs) ∧
    (8 ≤ bs.length → ConsumesExactly (ReadUint64BE bytesReader fuel) 8 bs) ∧
    (8 ≤ bs.length → ConsumesExactly (ReadInt64BE bytesReader fuel) 8 bs) ∧
    (8 ≤ bs.length → ConsumesExactly (ReadUint64LE bytesReader fuel) 8 bs) ∧
    (8 ≤ bs.length → ConsumesExactly (ReadInt64LE bytesReader fuel) 8 bs) ∧
    (4 ≤ bs.length → ConsumesExactly (ReadFloat32BE bytesReader fuel) 4 bs) ∧
    (4 ≤ bs.length → ConsumesExactly (ReadFloat32LE bytesReader fuel) 4 bs) ∧
    (8 ≤ bs.length → ConsumesExactly (ReadFloat64BE bytesReader fuel) 8 bs) ∧
    (8 ≤ bs.length → ConsumesExactly (ReadFloat64LE bytesReader fuel) 8 bs) ∧
    (4 ≤ bs.length → ConsumesExactly (ReadUnixTimeUTC32BE bytesReader fuel) 4 bs) ∧
    (4 ≤ bs.length → ConsumesExactly (ReadUnixTime32BE bytesReader fuel) 4 bs) ∧
    (4 ≤ bs.length → ConsumesExactly (ReadUnixTimeUTC32LE bytesReader fuel) 4 bs) ∧
    (4 ≤ bs.length → ConsumesExactly (ReadUnixTime32LE bytesReader fuel) 4 bs) ∧
    (4 ≤ bs.length → ConsumesExactly (ReadIPv4 bytesReader fuel) 4 bs) ∧
    (16 ≤ bs.length → ConsumesExactly (ReadIPv6 bytesReader fuel) 16 bs) :=
  ⟨ReadUint8_consumes fuel bs hf,
    ReadInt8_consumes fuel bs hf,
    ReadUint16BE_consumes fuel bs hf,
    ReadInt16BE_consumes fuel bs hf,
    ReadUint16LE_consumes fuel bs hf,
    ReadInt16LE_consumes fuel bs hf,
    ReadUint32BE_consumes fuel bs hf,
    ReadInt32BE_consumes fuel bs hf,
    ReadUint32LE_consumes fuel bs hf,
    ReadInt32LE_consumes fuel bs hf,
    ReadUint64BE_consumes fuel bs hf,
    ReadInt64BE_consumes fuel bs hf,
    ReadUint64LE_consumes fuel bs hf,
    ReadInt64LE_consumes fuel bs hf,
    ReadFloat32BE_consumes fuel bs hf,
    ReadFloat32LE_consumes fuel bs hf,
    ReadFloat64BE_consumes fuel bs hf,
    ReadFloat64LE_consumes fuel bs hf,
    ReadUnixTimeUTC32BE_consumes fuel bs hf,
    ReadUnixTime32BE_consumes fuel bs hf,
    ReadUnixTimeUTC32LE_consumes fuel bs hf,
    ReadUnixTime32LE_consumes fuel bs hf,
    ReadIPv4_consumes fuel bs hf,
    ReadIPv6_consumes fuel bs hf⟩

theorem exact_consumption_witness :
    (0 < 1 ∧ ReadUint8 bytesReader 1 [1, 2] = Run.done ⟨1, none, [2]⟩) ∧
    ConsumesExactly (ReadUint8 bytesReader 1) 1 [1, 2, 3, 4, 5, 6, 7, 8, 9, 10, 11, 12, 13, 14, 15, 16, 17] ∧
    ConsumesExactly (ReadInt8 bytesReader 1) 1 [1, 2, 3, 4, 5, 6, 7, 8, 9, 10, 11, 12, 13, 14, 15, 16, 17] ∧
    ConsumesExactly (ReadUint16BE bytesReader 1) 2 [1, 2, 3, 4, 5, 6, 7, 8, 9, 10, 11, 12, 13, 14, 15, 16, 17] ∧
    ConsumesExactly (ReadInt16BE bytesReader 1) 2 [1, 2, 3, 4, 5, 6, 7, 8, 9, 10, 11, 12, 13, 14, 15, 16, 17] ∧
    ConsumesExactly (ReadUint16LE bytesReader 1) 2 [1, 2, 3, 4, 5, 6, 7, 8, 9, 10, 11, 12, 13, 14, 15, 16, 17] ∧
    ConsumesExactly (ReadInt16LE bytesReader 1) 2 [1, 2, 3, 4, 5, 6, 7, 8, 9, 10, 11, 12, 13, 14, 15, 16, 17] ∧
    ConsumesExactly (ReadUint32BE bytesReader 1) 4 [1, 2, 3, 4, 5, 6, 7, 8, 9, 10, 11, 12, 13, 14, 15, 16, 17] ∧
    ConsumesExactly (ReadInt32BE bytesReader 1) 4 [1, 2, 3, 4, 5, 6, 7, 8, 9, 10, 11, 12, 13, 14, 15, 16, 17] ∧
    ConsumesExactly (ReadUint32LE bytesReader 1) 4 [1, 2, 3, 4, 5, 6, 7, 8, 9, 10, 11, 12, 13, 14, 15, 16, 17] ∧
    ConsumesExactly (ReadInt32LE bytesReader 1) 4 [1, 2, 3, 4, 5, 6, 7, 8, 9, 10, 11, 12, 13, 14, 15, 16, 17] ∧
    ConsumesExactly (ReadUint64BE bytesReader 1) 8 [1, 2, 3, 4, 5, 6, 7, 8, 9, 10, 11, 12, 13, 14, 15, 16, 17] ∧
    ConsumesExactly (ReadInt64BE bytesReader 1) 8 [1, 2, 3, 4, 5, 6, 7, 8, 9, 10, 11, 12, 13, 14, 15, 16, 17] ∧
    ConsumesExactly (ReadUint64LE bytesReader 1) 8 [1, 2, 3, 4, 5, 6, 7, 8, 9, 10, 11, 12, 13, 14, 15, 16, 17] ∧
    ConsumesExactly (ReadInt64LE bytesReader 1) 8 [1, 2, 3, 4, 5, 6, 7, 8, 9, 10, 11, 12, 13, 14, 15, 16, 17] ∧
    ConsumesExactly (ReadFloat32BE bytesReader 1) 4 [1, 2, 3, 4, 5, 6, 7, 8, 9, 10, 11, 12, 13, 14, 15, 16, 17] ∧
    ConsumesExactly (ReadFloat32LE bytesReader 1) 4 [1, 2, 3, 4, 5, 6, 7, 8, 9, 10, 11, 12, 13, 14, 15, 16, 17] ∧
    ConsumesExactly (ReadFloat64BE bytesReader 1) 8 [1, 2, 3, 4, 5, 6, 7, 8, 9, 10, 11, 12, 13, 14, 15, 16, 17] ∧
    ConsumesExactly (ReadFloat64LE bytesReader 1) 8 [1, 2, 3, 4, 5, 6, 7, 8, 9, 10, 11, 12, 13, 14, 15, 16, 17] ∧
    ConsumesExactly (ReadUnixTimeUTC32BE bytesReader 1) 4 [1, 2, 3, 4, 5, 6, 7, 8, 9, 10, 11, 12, 13, 14, 15, 16, 17] ∧
    ConsumesExactly (ReadUnixTime32BE bytesReader 1) 4 [1, 2, 3, 4, 5, 6, 7, 8, 9, 10, 11, 12, 13, 14, 15, 16, 17] ∧
    ConsumesExactly (ReadUnixTimeUTC32LE bytesReader 1) 4 [1, 2, 3, 4, 5, 6, 7, 8, 9, 10, 11, 12, 13, 14, 15, 16, 17] ∧
    ConsumesExactly (ReadUnixTime32LE bytesReader 1) 4 [1, 2, 3, 4, 5, 6, 7, 8, 9, 10, 11, 12, 13, 14, 15, 16, 17] ∧
    ConsumesExactly (ReadIPv4 bytesReader 1) 4 [1, 2, 3, 4, 5, 6, 7, 8, 9, 10, 11, 12, 13, 14, 15, 16, 17] ∧
    ConsumesExactly (ReadIPv6 bytesReader 1) 16 [1, 2, 3, 4, 5, 6, 7, 8, 9, 10, 11, 12, 13, 14, 15, 16, 17] := by
  have h := exact_consumption 1 [1, 2, 3, 4, 5, 6, 7, 8, 9, 10, 11, 12, 13, 14, 15, 16, 17]
    (by decide)
  exact ⟨⟨by decide, by decide⟩,
    h.1 (by decide), h.2.1 (by decide), h.2.2.1 (by decide), h.2.2.2.1 (by decide),
    h.2.2.2.2.1 (by decide), h.2.2.2.2.2.1 (by decide), h.2.2.2.2.2.2.1 (by decide),
    h.2.2.2.2.2.2.2.1 (by decide), h.2.2.2.2.2.2.2.2.1 (by decide),
    h.2.2.2.2.2.2.2.2.2.1 (by decide), h.2.2.2.2.2.2.2.2.2.2.1 (by decide),
    h.2.2.2.2.2.2.2.2.2.2.2.1 (by decide), h.2.2.2.2.2.2.2.2.2.2.2.2.1 (by decide),
    h.2.2.2.2.2.2.2.2.2.2.2.2.2.1 (by decide), h.2.2.2.2.2.2.2.2.2.2.2.2.2.2.1 (by decide),
    h.2.2.2.2.2.2.2.2.2.2.2.2.2.2.2.1 (by decide),
    h.2.2.2.2.2.2.2.2.2.2.2.2.2.2.2.2.1 (by decide),
    h.2.2.2.2.2.2.2.2.2.2.2.2.2.2.2.2.2.1 (by decide),
    h.2.2.2.2.2.2.2.2.2.2.2.2.2.2.2.2.2.2.1 (by decide),
    h.2.2.2.2.2.2.2.2.2.2.2.2.2.2.2.2.2.2.2.1 (by decide),
    h.2.2.2.2.2.2.2.2.2.2.2.2.2.2.2.2.2.2.2.2.1 (by decide),
    h.2.2.2.2.2.2.2.2.2.2.2.2.2.2.2.2.2.2.2.2.2.1 (by decide),
    h.2.2.2.2.2.2.2.2.2.2.2.2.2.2.2.2.2.2.2.2.2.2.1 (by decide),
    h.2.2.2.2.2.2.2.2.2.2.2.2.2.2.2.2.2.2.2.2.2.2.2 (by decide)⟩

/-! ## Read faults -/

theorem Error.Is_self (e : Error) : Error.Is e e = true := by
  cases e <;> simp [Error.Is]

theorem ReadAtLeast.loop_fault {σ : Type} (R : Reader σ) (e : Error) {s s2 : σ} {k : Nat}
    (h : FaultsShort R e s k s2) :
    ∀ (len : Nat) (got : List Byte), got.length + k = len →
      ∃ fuel0 data, data.length < len ∧ ∀ fuel, fuel0 ≤ fuel →
        ReadAtLeast.loop R len len fuel s got none = some ⟨data, some e, s2⟩ := by
  induction h with
  | now s k herr hlt =>
      intro len got hlen
      have hk : len - got.length = k := by omega
      refine ⟨1, got ++ (R.read s k).data, ?_, ?_⟩
      · rw [List.length_append]
        omega
      · intro fuel hfuel
        obtain ⟨f, rfl⟩ : ∃ f, fuel = f + 1 := ⟨fuel - 1, by omega⟩
        rw [ReadAtLeast.loop_step _ _ _ _ _ _ (by omega), hk, herr]
        exact ReadAtLeast.loop_stop _ _ _ _ _ _ _ (by simp)
  | later s k s2 hnone hlt _ ih =>
      intro len got hlen
      have hk : len - got.length = k := by omega
      obtain ⟨f0, data, hdata, hrun⟩ := ih len (got ++ (R.read s k).data) (by
        rw [List.length_append]
        omega)
      refine ⟨f0 + 1, data, hdata, ?_⟩
      intro fuel hfuel
      obtain ⟨f, rfl⟩ : ∃ f, fuel = f + 1 := ⟨fuel - 1, by omega⟩
      rw [ReadAtLeast.loop_step _ _ _ _ _ _ (by omega), hk, hnone]
      exact hrun f (by omega)

theorem readN_fault {σ : Type} (R : Reader σ) (e : Error) (s s2 : σ) (n : Int)
    (h0 : 0 ≤ n ∧ n ≤ (maxAlloc : Int)) (hfault : FaultsShort R e s n.toNat s2)
    (he : Error.Is e Error.EOF = false) :
    ∃ fuel0, ∀ fuel, fuel0 ≤ fuel →
      readN R fuel s n = Run.done ⟨[], some (Error.wrap "read failure: " e), s2⟩ := by
  obtain ⟨f0, data, hdata, hrun⟩ :=
    ReadAtLeast.loop_fault R e hfault n.toNat [] (by simp)
  refine ⟨f0, ?_⟩
  intro fuel hfuel
  have hneg : ¬ (n < 0 ∨ (maxAlloc : Int) < n) := by omega
  have hlen : ¬ n.toNat ≤ data.length := by omega
  have hne : e ≠ Error.EOF := by
    intro h
    rw [h] at he
    simp [Error.Is] at he
  rw [readN, if_neg hneg, ReadFull, ReadAtLeast, hrun fuel hfuel]
  simp [hlen, hne, he]

theorem wrap_matches_cause (m : String) (e : Error) :
    Error.Is (Error.wrap m e) e = true := by
  simp [Error.Is, Error.Is_self]

/-- C10 fails as stated: a reader whose `Read` stores the four requested bytes
and reports a foreign error in the same call makes `ReadUint32BE` succeed;
`io.ReadFull` drops an error that arrives with the last requested byte. -/
theorem read_fault_wraps_cause_counterexample :
    (scriptReader.read [([1, 2, 3, 4], some (Error.other 7))] 4).err = some (Error.other 7) ∧
    Error.other 7 ≠ Error.EOF ∧ Error.other 7 ≠ Error.ErrUnexpectedEOF ∧
    Error.Is (Error.other 7) Error.EOF = false ∧
    ReadUint32BE scriptReader 1 [([1, 2, 3, 4], some (Error.other 7))] = Run.done ⟨16909060, none, []⟩ ∧
    ReadUint32BE scriptReader 9 [([1, 2, 3, 4], some (Error.other 7))] = Run.done ⟨16909060, none, []⟩ ∧
    ¬ FailsWith (ReadUint32BE scriptReader 1 [([1, 2, 3, 4], some (Error.other 7))])
      (fun err => Error.Is err (Error.other 7) = true) := by
  refine ⟨rfl, by decide, by decide, rfl, by decide, by decide, ?_⟩
  rintro ⟨v, e, s, h, -⟩
  have h2 : ReadUint32BE scriptReader 1 [([1, 2, 3, 4], some (Error.other 7))] =
      Run.done ⟨16909060, none, []⟩ := by decide
  rw [h2] at h
  simp at h

/-- C10, amended. Read fault wraps its cause: if a call of the underlying
reader's `Read` reports an error `e` that does not match `io.EOF` while the
bytes delivered so far, that call included, are fewer than the `N` the typed
read needs (earlier calls having reported no error), then every typed read
built on the bounded reader (integers, floats, UNIX time, IPv4, IPv6,
`ReadStringN` with `n` within the allocation limit `maxAlloc`) returns, given
a sufficient budget of `Read` calls, an error `err` with `errors.Is(err, e)`. -/
theorem read_fault_wraps_cause {σ : Type} (R : Reader σ) (e : Error) (s s2 : σ)
    (n : Nat) (pad : Byte) (he : Error.Is e Error.EOF = false) (hmax : n ≤ maxAlloc) :
    (FaultsShort R e s 1 s2 → ∃ fuel0, ∀ fuel, fuel0 ≤ fuel →
      FailsWith (ReadUint8 R fuel s) (fun err => Error.Is err e = true)) ∧
    (FaultsShort R e s 1 s2 → ∃ fuel0, ∀ fuel, fuel0 ≤ fuel →
      FailsWith (ReadInt8 R fuel s) (fun err => Error.Is err e = true)) ∧
    (FaultsShort R e s 2 s2 → ∃ fuel0, ∀ fuel, fuel0 ≤ fuel →
      FailsWith (ReadUint16BE R fuel s) (fun err => Error.Is err e = true)) ∧
    (FaultsShort R e s 2 s2 → ∃ fuel0, ∀ fuel, fuel0 ≤ fuel →
      FailsWith (ReadInt16BE R fuel s) (fun err => Error.Is err e = true)) ∧
    (FaultsShort R e s 2 s2 → ∃ fuel0, ∀ fuel, fuel0 ≤ fuel →
      FailsWith (ReadUint16LE R fuel s) (fun err => Error.Is err e = true)) ∧
    (FaultsShort R e s 2 s2 → ∃ fuel0, ∀ fuel, fuel0 ≤ fuel →
      FailsWith (ReadInt16LE R fuel s) (fun err => Error.Is err e = true)) ∧
    (FaultsShort R e s 4 s2 → ∃ fuel0, ∀ fuel, fuel0 ≤ fuel →
      FailsWith (ReadUint32BE R fuel s) (fun err => Error.Is err e = true)) ∧
    (FaultsShort R e s 4 s2 → ∃ fuel0, ∀ fuel, fuel0 ≤ fuel →
      FailsWith (ReadInt32BE R fuel s) (fun err => Error.Is err e = true)) ∧
    (FaultsShort R e s 4 s2 → ∃ fuel0, ∀ fuel, fuel0 ≤ fuel →
      FailsWith (ReadUint32LE R fuel s) (fun err => Error.Is err e = true)) ∧
    (FaultsShort R e s 4 s2 → ∃ fuel0, ∀ fuel, fuel0 ≤ fuel →
      FailsWith (ReadInt32LE R fuel s) (fun err => Error.Is err e = true)) ∧
    (FaultsShort R e s 8 s2 → ∃ fuel0, ∀ fuel, fuel0 ≤ fuel →
      FailsWith (ReadUint64BE R fuel s) (fun err => Error.Is err e = true)) ∧
    (FaultsShort R e s 8 s2 → ∃ fuel0, ∀ fuel, fuel0 ≤ fuel →
      FailsWith (ReadInt64BE R fuel s) (fun err => Error.Is err e = true)) ∧
    (FaultsShort R e s 8 s2 → ∃ fuel0, ∀ fuel, fuel0 ≤ fuel →
      FailsWith (ReadUint64LE R fuel s) (fun err => Error.Is err e = true)) ∧
    (FaultsShort R e s 8 s2 → ∃ fuel0, ∀ fuel, fuel0 ≤ fuel →
      FailsWith (ReadInt64LE R fuel s) (fun err => Error.Is err e = true)) ∧
    (FaultsShort R e s 4 s2 → ∃ fuel0, ∀ fuel, fuel0 ≤ fuel →
      FailsWith (ReadFloat32BE R fuel s) (fun err => Error.Is err e = true)) ∧
    (FaultsShort R e s 4 s2 → ∃ fuel0, ∀ fuel, fuel0 ≤ fuel →
      FailsWith (ReadFloat32LE R fuel s) (fun err => Error.Is err e = true)) ∧
    (FaultsShort R e s 8 s2 → ∃ fuel0, ∀ fuel, fuel0 ≤ fuel →
      FailsWith (ReadFloat64BE R fuel s) (fun err => Error.Is err e = true)) ∧
    (FaultsShort R e s 8 s2 → ∃ fuel0, ∀ fuel, fuel0 ≤ fuel →
      FailsWith (ReadFloat64LE R fuel s) (fun err => Error.Is err e = true)) ∧
    (FaultsShort R e s 4 s2 → ∃ fuel0, ∀ fuel, fuel0 ≤ fuel →
      FailsWith (ReadUnixTimeUTC32BE R fuel s) (fun err => Error.Is err e = true)) ∧
    (FaultsShort R e s 4 s2 → ∃ fuel0, ∀ fuel, fuel0 ≤ fuel →
      FailsWith (ReadUnixTime32BE R fuel s) (fun err => Error.Is err e = true)) ∧
    (FaultsShort R e s 4 s2 → ∃ fuel0, ∀ fuel, fuel0 ≤ fuel →
      FailsWith (ReadUnixTimeUTC32LE R fuel s) (fun err => Error.Is err e = true)) ∧
    (FaultsShort R e s 4 s2 → ∃ fuel0, ∀ fuel, fuel0 ≤ fuel →
      FailsWith (ReadUnixTime32LE R fuel s) (fun err => Error.Is err e = true)) ∧
    (FaultsShort R e s 4 s2 → ∃ fuel0, ∀ fuel, fuel0 ≤ fuel →
      FailsWith (ReadIPv4 R fuel s) (fun err => Error.Is err e = true)) ∧
    (FaultsShort R e s 16 s2 → ∃ fuel0, ∀ fuel, fuel0 ≤ fuel →
      FailsWith (ReadIPv6 R fuel s) (fun err => Error.Is err e = true)) ∧
    (FaultsShort R e s n s2 → ∃ fuel0, ∀ fuel, fuel0 ≤ fuel →
      FailsWith (ReadStringN R fuel s (n : Nat) pad) (fun err => Error.Is err e = true)) :=
  ⟨fun h => (readN_fault R e s s2 1 (by decide) h he).imp fun _ hr fuel hfuel =>
      FailsWith.of_eq _ _ _ (ReadUint8_of_readN_err _ _ _ _ _ _ (hr fuel hfuel))
        (wrap_matches_cause _ e),
    fun h => (readN_fault R e s s2 1 (by decide) h he).imp fun _ hr fuel hfuel =>
      FailsWith.of_eq _ _ _ (ReadInt8_of_readN_err _ _ _ _ _ _ (hr fuel hfuel))
        (wrap_matches_cause _ e),
    fun h => (readN_fault R e s s2 2 (by decide) h he).imp fun _ hr fuel hfuel =>
      FailsWith.of_eq _ _ _ (ReadUint16BE_of_readN_err _ _ _ _ _ _ (hr fuel hfuel))
        (wrap_matches_cause _ e),
    fun h => (readN_fault R e s s2 2 (by decide) h he).imp fun _ hr fuel hfuel =>
      FailsWith.of_eq _ _ _ (ReadInt16BE_of_readN_err _ _ _ _ _ _ (hr fuel hfuel))
        (wrap_matches_cause _ e),
    fun h => (readN_fault R e s s2 2 (by decide) h he).imp fun _ hr fuel hfuel =>
      FailsWith.of_eq _ _ _ (ReadUint16LE_of_readN_err _ _ _ _ _ _ (hr fuel hfuel))
        (wrap_matches_cause _ e),
    fun h => (readN_fault R e s s2 2 (by decide) h he).imp fun _ hr fuel hfuel =>
      FailsWith.of_eq _ _ _ (ReadInt16LE_of_readN_err _ _ _ _ _ _ (hr fuel hfuel))
        (wrap_matches_cause _ e),
    fun h => (readN_fault R e s s2 4 (by decide) h he).imp fun _ hr fuel hfuel =>
      FailsWith.of_eq _ _ _ (ReadUint32BE_of_readN_err _ _ _ _ _ _ (hr fuel hfuel))
        (wrap_matches_cause _ e),
    fun h => (readN_fault R e s s2 4 (by decide) h he).imp fun _ hr fuel hfuel =>
      FailsWith.of_eq _ _ _ (ReadInt32BE_of_readN_err _ _ _ _ _ _ (hr fuel hfuel))
        (wrap_matches_cause _ e),
    fun h => (readN_fault R e s s2 4 (by decide) h he).imp fun _ hr fuel hfuel =>
      FailsWith.of_eq _ _ _ (ReadUint32LE_of_readN_err _ _ _ _ _ _ (hr fuel hfuel))
        (wrap_matches_cause _ e),
    fun h => (readN_fault R e s s2 4 (by decide) h he).imp fun _ hr fuel hfuel =>
      FailsWith.of_eq _ _ _ (ReadInt32LE_of_readN_err _ _ _ _ _ _ (hr fuel hfuel))
        (wrap_matches_cause _ e),
    fun h => (readN_fault R e s s2 8 (by decide) h he).imp fun _ hr fuel hfuel =>
      FailsWith.of_eq _ _ _ (ReadUint64BE_of_readN_err _ _ _ _ _ _ (hr fuel hfuel))
        (wrap_matches_cause _ e),
    fun h => (readN_fault R e s s2 8 (by decide) h he).imp fun _ hr fuel hfuel =>
      FailsWith.of_eq _ _ _ (ReadInt64BE_of_readN_err _ _ _ _ _ _ (hr fuel hfuel))
        (wrap_matches_cause _ e),
    fun h => (readN_fault R e s s2 8 (by decide) h he).imp fun _ hr fuel hfuel =>
      FailsWith.of_eq _ _ _ (ReadUint64LE_of_readN_err _ _ _ _ _ _ (hr fuel hfuel))
        (wrap_matches_cause _ e),
    fun h => (readN_fault R e s s2 8 (by decide) h he).imp fun _ hr fuel hfuel =>
      FailsWith.of_eq _ _ _ (ReadInt64LE_of_readN_err _ _ _ _ _ _ (hr fuel hfuel))
        (wrap_matches_cause _ e),
    fun h => (readN_fault R e s s2 4 (by decide) h he).imp fun _ hr fuel hfuel =>
      FailsWith.of_eq _ _ _ (ReadFloat32BE_of_readN_err _ _ _ _ _ _ (hr fuel hfuel))
        (wrap_matches_cause _ e),
    fun h => (readN_fault R e s s2 4 (by decide) h he).imp fun _ hr fuel hfuel =>
      FailsWith.of_eq _ _ _ (ReadFloat32LE_of_readN_err _ _ _ _ _ _ (hr fuel hfuel))
        (wrap_matches_cause _ e),
    fun h => (readN_fault R e s s2 8 (by decide) h he).imp fun _ hr fuel hfuel =>
      FailsWith.of_eq _ _ _ (ReadFloat64BE_of_readN_err _ _ _ _ _ _ (hr fuel hfuel))
        (wrap_matches_cause _ e),
    fun h => (readN_fault R e s s2 8 (by decide) h he).imp fun _ hr fuel hfuel =>
      FailsWith.of_eq _ _ _ (ReadFloat64LE_of_readN_err _ _ _ _ _ _ (hr fuel hfuel))
        (wrap_matches_cause _ e),
    fun h => (readN_fault R e s s2 4 (by decide) h he).imp fun _ hr fuel hfuel =>
      FailsWith.of_eq _ _ _ (ReadUnixTimeUTC32BE_of_readN_err _ _ _ _ _ _ (hr fuel hfuel))
        (wrap_matches_cause _ e),
    fun h => (readN_fault R e s s2 4 (by decide) h he).imp fun _ hr fuel hfuel =>
      FailsWith.of_eq _ _ _ (ReadUnixTime32BE_of_readN_err _ _ _ _ _ _ (hr fuel hfuel))
        (wrap_matches_cause _ e),
    fun h => (readN_fault R e s s2 4 (by decide) h he).imp fun _ hr fuel hfuel =>
      FailsWith.of_eq _ _ _ (ReadUnixTimeUTC32LE_of_readN_err _ _ _ _ _ _ (hr fuel hfuel))
        (wrap_matches_cause _ e),
    fun h => (readN_fault R e s s2 4 (by decide) h he).imp fun _ hr fuel hfuel =>
      FailsWith.of_eq _ _ _ (ReadUnixTime32LE_of_readN_err _ _ _ _ _ _ (hr fuel hfuel))
        (wrap_matches_cause _ e),
    fun h => (readN_fault R e s s2 4 (by decide) h he).imp fun _ hr fuel hfuel =>
      FailsWith.of_eq _ _ _ (ReadIPv4_of_readN_err _ _ _ _ _ _ (hr fuel hfuel))
        (wrap_matches_cause _ e),
    fun h => (readN_fault R e s s2 16 (by decide) h he).imp fun _ hr fuel hfuel =>
      FailsWith.of_eq _ _ _ (ReadIPv6_of_readN_err _ _ _ _ _ _ (hr fuel hfuel))
        (wrap_matches_cause _ e),
    fun h => (readN_fault R e s s2 (n : Nat) ⟨by omega, by omega⟩ h he).imp
      fun _ hr fuel hfuel =>
      FailsWith.of_eq _ _ _ (ReadStringN_of_readN_err _ _ _ _ _ pad _ _ (hr fuel hfuel))
        (wrap_matches_cause _ e)⟩

theorem read_fault_wraps_cause_witness :
    (Error.Is (Error.other 7) Error.EOF = false ∧ 3 ≤ maxAlloc) ∧
    (∃ fuel0, ∀ fuel, fuel0 ≤ fuel →
      FailsWith (ReadUint8 scriptReader fuel [([], some (Error.other 7))]) (fun err => Error.Is err (Error.other 7) = true)) ∧
    (∃ fuel0, ∀ fuel, fuel0 ≤ fuel →
      FailsWith (ReadInt8 scriptReader fuel [([], some (Error.other 7))]) (fun err => Error.Is err (Error.other 7) = true)) ∧
    (∃ fuel0, ∀ fuel, fuel0 ≤ fuel →
      FailsWith (ReadUint16BE scriptReader fuel [([], some (Error.other 7))]) (fun err => Error.Is err (Error.other 7) = true)) ∧
    (∃ fuel0, ∀ fuel, fuel0 ≤ fuel →
      FailsWith (ReadInt16BE scriptReader fuel [([], some (Error.other 7))]) (fun err => Error.Is err (Error.other 7) = true)) ∧
    (∃ fuel0, ∀ fuel, fuel0 ≤ fuel →
      FailsWith (ReadUint16LE scriptReader fuel [([], some (Error.other 7))]) (fun err => Error.Is err (Error.other 7) = true)) ∧
    (∃ fuel0, ∀ fuel, fuel0 ≤ fuel →
      FailsWith (ReadInt16LE scriptReader fuel [([], some (Error.other 7))]) (fun err => Error.Is err (Error.other 7) = true)) ∧
    (∃ fuel0, ∀ fuel, fuel0 ≤ fuel →
      FailsWith (ReadUint32BE scriptReader fuel [([], some (Error.other 7))]) (fun err => Error.Is err (Error.other 7) = true)) ∧
    (∃ fuel0, ∀ fuel, fuel0 ≤ fuel →
      FailsWith (ReadInt32BE scriptReader fuel [([], some (Error.other 7))]) (fun err => Error.Is err (Error.other 7) = true)) ∧
    (∃ fuel0, ∀ fuel, fuel0 ≤ fuel →
      FailsWith (ReadUint32LE scriptReader fuel [([], some (Error.other 7))]) (fun err => Error.Is err (Error.other 7) = true)) ∧
    (∃ fuel0, ∀ fuel, fuel0 ≤ fuel →
      FailsWith (ReadInt32LE scriptReader fuel [([], some (Error.other 7))]) (fun err => Error.Is err (Error.other 7) = true)) ∧
    (∃ fuel0, ∀ fuel, fuel0 ≤ fuel →
      FailsWith (ReadUint64BE scriptReader fuel [([], some (Error.other 7))]) (fun err => Error.Is err (Error.other 7) = true)) ∧
    (∃ fuel0, ∀ fuel, fuel0 ≤ fuel →
      FailsWith (ReadInt64BE scriptReader fuel [([], some (Error.other 7))]) (fun err => Error.Is err (Error.other 7) = true)) ∧
    (∃ fuel0, ∀ fuel, fuel0 ≤ fuel →
      FailsWith (ReadUint64LE scriptReader fuel [([], some (Error.other 7))]) (fun err => Error.Is err (Error.other 7) = true)) ∧
    (∃ fuel0, ∀ fuel, fuel0 ≤ fuel →
      FailsWith (ReadInt64LE scriptReader fuel [([], some (Error.other 7))]) (fun err => Error.Is err (Error.other 7) = true)) ∧
    (∃ fuel0, ∀ fuel, fuel0 ≤ fuel →
      FailsWith (ReadFloat32BE scriptReader fuel [([], some (Error.other 7))]) (fun err => Error.Is err (Error.other 7) = true)) ∧
    (∃ fuel0, ∀ fuel, fuel0 ≤ fuel →
      FailsWith (ReadFloat32LE scriptReader fuel [([], some (Error.other 7))]) (fun err => Error.Is err (Error.other 7) = true)) ∧
    (∃ fuel0, ∀ fuel, fuel0 ≤ fuel →
      FailsWith (ReadFloat64BE scriptReader fuel [([], some (Error.other 7))]) (fun err => Error.Is err (Error.other 7) = true)) ∧
    (∃ fuel0, ∀ fuel, fuel0 ≤ fuel →
      FailsWith (ReadFloat64LE scriptReader fuel [([], some (Error.other 7))]) (fun err => Error.Is err (Error.other 7) = true)) ∧
    (∃ fuel0, ∀ fuel, fuel0 ≤ fuel →
      FailsWith (ReadUnixTimeUTC32BE scriptReader fuel [([], some (Error.other 7))]) (fun err => Error.Is err (Error.other 7) = true)) ∧
    (∃ fuel0, ∀ fuel, fuel0 ≤ fuel →
      FailsWith (ReadUnixTime32BE scriptReader fuel [([], some (Error.other 7))]) (fun err => Error.Is err (Error.other 7) = true)) ∧
    (∃ fuel0, ∀ fuel, fuel0 ≤ fuel →
      FailsWith (ReadUnixTimeUTC32LE scriptReader fuel [([], some (Error.other 7))]) (fun err => Error.Is err (Error.other 7) = true)) ∧
    (∃ fuel0, ∀ fuel, fuel0 ≤ fuel →
      FailsWith (ReadUnixTime32LE scriptReader fuel [([], some (Error.other 7))]) (fun err => Error.Is err (Error.other 7) = true)) ∧
    (∃ fuel0, ∀ fuel, fuel0 ≤ fuel →
      FailsWith (ReadIPv4 scriptReader fuel [([], some (Error.other 7))]) (fun err => Error.Is err (Error.other 7) = true)) ∧
    (∃ fuel0, ∀ fuel, fuel0 ≤ fuel →
      FailsWith (ReadIPv6 scriptReader fuel [([], some (Error.other 7))]) (fun err => Error.Is err (Error.other 7) = true)) ∧
    (∃ fuel0, ∀ fuel, fuel0 ≤ fuel →
      FailsWith (ReadStringN scriptReader fuel [([], some (Error.other 7))] (3 : Nat) 0) (fun err => Error.Is err (Error.other 7) = true)) := by
  have h := read_fault_wraps_cause scriptReader (Error.other 7)
    [([], some (Error.other 7))] [] 3 0 rfl (by decide)
  exact ⟨⟨rfl, by decide⟩,
    h.1 (FaultsShort.now _ 1 rfl (by decide)),
    h.2.1 (FaultsShort.now _ 1 rfl (by decide)),
    h.2.2.1 (FaultsShort.now _ 2 rfl (by decide)),
    h.2.2.2.1 (FaultsShort.now _ 2 rfl (by decide)),
    h.2.2.2.2.1 (FaultsShort.now _ 2 rfl (by decide)),
    h.2.2.2.2.2.1 (FaultsShort.now _ 2 rfl (by decide)),
    h.2.2.2.2.2.2.1 (FaultsShort.now _ 4 rfl (by decide)),
    h.2.2.2.2.2.2.2.1 (FaultsShort.now _ 4 rfl (by decide)),
    h.2.2.2.2.2.2.2.2.1 (FaultsShort.now _ 4 rfl (by decide)),
    h.2.2.2.2.2.2.2.2.2.1 (FaultsShort.now _ 4 rfl (by decide)),
    h.2.2.2.2.2.2.2.2.2.2.1 (FaultsShort.now _ 8 rfl (by decide)),
    h.2.2.2.2.2.2.2.2.2.2.2.1 (FaultsShort.now _ 8 rfl (by decide)),
    h.2.2.2.2.2.2.2.2.2.2.2.2.1 (FaultsShort.now _ 8 rfl (by decide)),
    h.2.2.2.2.2.2.2.2.2.2.2.2.2.1 (FaultsShort.now _ 8 rfl (by decide)),
    h.2.2.2.2.2.2.2.2.2.2.2.2.2.2.1 (FaultsShort.now _ 4 rfl (by decide)),
    h.2.2.2.2.2.2.2.2.2.2.2.2.2.2.2.1 (FaultsShort.now _ 4 rfl (by decide)),
    h.2.2.2.2.2.2.2.2.2.2.2.2.2.2.2.2.1 (FaultsShort.now _ 8 rfl (by decide)),
    h.2.2.2.2.2.2.2.2.2.2.2.2.2.2.2.2.2.1 (FaultsShort.now _ 8 rfl (by decide)),
    h.2.2.2.2.2.2.2.2.2.2.2.2.2.2.2.2.2.2.1 (FaultsShort.now _ 4 rfl (by decide)),
    h.2.2.2.2.2.2.2.2.2.2.2.2.2.2.2.2.2.2.2.1 (FaultsShort.now _ 4 rfl (by decide)),
    h.2.2.2.2.2.2.2.2.2.2.2.2.2.2.2.2.2.2.2.2.1 (FaultsShort.now _ 4 rfl (by decide)),
    h.2.2.2.2.2.2.2.2.2.2.2.2.2.2.2.2.2.2.2.2.2.1 (FaultsShort.now _ 4 rfl (by decide)),
    h.2.2.2.2.2.2.2.2.2.2.2.2.2.2.2.2.2.2.2.2.2.2.1 (FaultsShort.now _ 4 rfl (by decide)),
    h.2.2.2.2.2.2.2.2.2.2.2.2.2.2.2.2.2.2.2.2.2.2.2.1 (FaultsShort.now _ 16 rfl (by decide)),
    h.2.2.2.2.2.2.2.2.2.2.2.2.2.2.2.2.2.2.2.2.2.2.2.2 (FaultsShort.now _ 3 rfl (by decide))⟩

/-! ## Sequences of values through a `bytes.Buffer` -/

theorem readN_buffer_eof (fuel : Nat) (n : Int) (hf : 0 < fuel)
    (hn : 0 < n ∧ n ≤ (maxAlloc : Int)) :
    readN bufferReader fuel [] n = Run.done ⟨[], some Error.EOF, []⟩ := by
  obtain ⟨f, rfl⟩ : ∃ f, fuel = f + 1 := ⟨fuel - 1, by omega⟩
  have hneg : ¬ (n < 0 ∨ (maxAlloc : Int) < n) := by omega
  have hpos : 0 < n.toNat := by omega
  have hz : ¬ n.toNat = 0 := by omega
  rw [readN, if_neg hneg, ReadFull, ReadAtLeast,
    ReadAtLeast.loop_step _ _ _ _ _ _ (by simpa using hpos)]
  simp only [bufferReader, if_true, List.length_nil, Nat.sub_zero, List.nil_append, if_neg hz]
  rw [ReadAtLeast.loop_stop _ _ _ _ _ _ _ (by simp)]
  have : ¬ n.toNat ≤ 0 := by omega
  simp [this, Error.Is]

theorem writeEach_buffer {α : Type} (wr : List Byte → α → WRet (List Byte))
    (enc : α → List Byte) (hwr : ∀ s v, wr s v = ⟨none, s ++ enc v⟩) (vs : List α) :
    ∀ s, writeEach wr s vs = ⟨none, s ++ (vs.map enc).flatten⟩ := by
  induction vs with
  | nil => intro s; simp [writeEach]
  | cons v vs ih =>
      intro s
      simp [writeEach, hwr, ih, List.append_assoc]

theorem readUntilError_buffer {α : Type} (rd : List Byte → Run (Ret α (List Byte)))
    (enc : α → List Byte) (P : α → Prop) (z : α)
    (hrd : ∀ v rest, P v → rd (enc v ++ rest) = Run.done ⟨v, none, rest⟩)
    (heof : rd [] = Run.done ⟨z, some Error.EOF, []⟩) (vs : List α)
    (hP : ∀ v ∈ vs, P v) :
    readUntilError rd (vs.length + 1) (vs.map enc).flatten =
      Run.done ⟨vs, some Error.EOF, []⟩ := by
  induction vs with
  | nil => simp [readUntilError, heof]
  | cons v vs ih =>
      have hv : P v := hP v (List.mem_cons_self v vs)
      have hvs : ∀ w ∈ vs, P w := fun w hw => hP w (List.mem_cons_of_mem v hw)
      have hstep : readUntilError rd (vs.length + 1 + 1) (enc v ++ (vs.map enc).flatten) =
          Run.done ⟨v :: vs, some Error.EOF, []⟩ := by
        rw [readUntilError, hrd v _ hv]
        simp only []
        rw [ih hvs]
      simpa using hstep

theorem ReadUint8_buffer_put_append (fuel v : Nat) (rest : List Byte) (hf : 0 < fuel)
    (h : v < 2 ^ 8) :
    ReadUint8 bufferReader fuel ([byte v] ++ rest) = Run.done ⟨v, none, rest⟩ := by
  simp [ReadUint8, readN_buffer_ok, hf, byte_val_of_lt v h]

theorem ReadInt8_buffer_put_append (fuel : Nat) (v : Int) (rest : List Byte)
    (hf : 0 < fuel) (h : -2 ^ 7 ≤ v ∧ v < 2 ^ 7) :
    ReadInt8 bufferReader fuel ([byte (toUnsigned 8 v)] ++ rest) =
      Run.done ⟨v, none, rest⟩ := by
  obtain ⟨hs, hu⟩ := toSigned_toUnsigned_8 v h.1 h.2
  simp [ReadInt8, readN_buffer_ok, hf, byte_val_of_lt _ hu, hs]

theorem ReadUint16BE_buffer_put_append (fuel v : Nat) (rest : List Byte)
    (hf : 0 < fuel) (h : v < 2 ^ 16) :
    ReadUint16BE bufferReader fuel (BigEndian.PutUint16 v ++ rest) =
      Run.done ⟨v, none, rest⟩ := by
  have hp := beUint16_put v h
  unfold BigEndian.PutUint16 at hp ⊢
  simp [ReadUint16BE, readN_buffer_ok, hf, hp]

theorem ReadInt16BE_buffer_put_append (fuel : Nat) (v : Int) (rest : List Byte)
    (hf : 0 < fuel) (h : -2 ^ 15 ≤ v ∧ v < 2 ^ 15) :
    ReadInt16BE bufferReader fuel (BigEndian.PutUint16 (toUnsigned 16 v) ++ rest) =
      Run.done ⟨v, none, rest⟩ := by
  obtain ⟨hs, hu⟩ := toSigned_toUnsigned_16 v h.1 h.2
  have hp := beUint16_put _ hu
  unfold BigEndian.PutUint16 at hp ⊢
  simp [ReadInt16BE, readN_buffer_ok, hf, hp, hs]

theorem ReadUint16LE_buffer_put_append (fuel v : Nat) (rest : List Byte)
    (hf : 0 < fuel) (h : v < 2 ^ 16) :
    ReadUint16LE bufferReader fuel (LittleEndian.PutUint16 v ++ rest) =
      Run.done ⟨v, none, rest⟩ := by
  have hp := leUint16_put v h
  unfold LittleEndian.PutUint16 at hp ⊢
  simp [ReadUint16LE, readN_buffer_ok, hf, hp]

theorem ReadInt16LE_buffer_put_append (fuel : Nat) (v : Int) (rest : List Byte)
    (hf : 0 < fuel) (h : -2 ^ 15 ≤ v ∧ v < 2 ^ 15) :
    ReadInt16LE bufferReader fuel (LittleEndian.PutUint16 (toUnsigned 16 v) ++ rest) =
      Run.done ⟨v, none, rest⟩ := by
  obtain ⟨hs, hu⟩ := toSigned_toUnsigned_16 v h.1 h.2
  have hp := leUint16_put _ hu
  unfold LittleEndian.PutUint16 at hp ⊢
  simp [ReadInt16LE, readN_buffer_ok, hf, hp, hs]

theorem ReadUint32BE_buffer_put_append (fuel v : Nat) (rest : List Byte)
    (hf : 0 < fuel) (h : v < 2 ^ 32) :
    ReadUint32BE bufferReader fuel (BigEndian.PutUint32 v ++ rest) =
      Run.done ⟨v, none, rest⟩ := by
  have hp := beUint32_put v h
  unfold BigEndian.PutUint32 at hp ⊢
  simp [ReadUint32BE, readN_buffer_ok, hf, hp]

theorem ReadInt32BE_buffer_put_append (fuel : Nat) (v : Int) (rest : List Byte)
    (hf : 0 < fuel) (h : -2 ^ 31 ≤ v ∧ v < 2 ^ 31) :
    ReadInt32BE bufferReader fuel (BigEndian.PutUint32 (toUnsigned 32 v) ++ rest) =
      Run.done ⟨v, none, rest⟩ := by
  obtain ⟨hs, hu⟩ := toSigned_toUnsigned_32 v h.1 h.2
  have hp := beUint32_put _ hu
  unfold BigEndian.PutUint32 at hp ⊢
  simp [ReadInt32BE, readN_buffer_ok, hf, hp, hs]

theorem ReadUint32LE_buffer_put_append (fuel v : Nat) (rest : List Byte)
    (hf : 0 < fuel) (h : v < 2 ^ 32) :
    ReadUint32LE bufferReader fuel (LittleEndian.PutUint32 v ++ rest) =
      Run.done ⟨v, none, rest⟩ := by
  have hp := leUint32_put v h
  unfold LittleEndian.PutUint32 at hp ⊢
  simp [ReadUint32LE, readN_buffer_ok, hf, hp]

theorem ReadInt32LE_buffer_put_append (fuel : Nat) (v : Int) (rest : List Byte)
    (hf : 0 < fuel) (h : -2 ^ 31 ≤ v ∧ v < 2 ^ 31) :
    ReadInt32LE bufferReader fuel (LittleEndian.PutUint32 (toUnsigned 32 v) ++ rest) =
      Run.done ⟨v, none, rest⟩ := by
  obtain ⟨hs, hu⟩ := toSigned_toUnsigned_32 v h.1 h.2
  have hp := leUint32_put _ hu
  unfold LittleEndian.PutUint32 at hp ⊢
  simp [ReadInt32LE, readN_buffer_ok, hf, hp, hs]

theorem ReadUint64BE_buffer_put_append (fuel v : Nat) (rest : List Byte)
    (hf : 0 < fuel) (h : v < 2 ^ 64) :
    ReadUint64BE bufferReader fuel (BigEndian.PutUint64 v ++ rest) =
      Run.done ⟨v, none, rest⟩ := by
  have hp := beUint64_put v h
  unfold BigEndian.PutUint64 at hp ⊢
  simp [ReadUint64BE, readN_buffer_ok, hf, hp]

theorem ReadInt64BE_buffer_put_append (fuel : Nat) (v : Int) (rest : List Byte)
    (hf : 0 < fuel) (h : -2 ^ 63 ≤ v ∧ v < 2 ^ 63) :
    ReadInt64BE bufferReader fuel (BigEndian.PutUint64 (toUnsigned 64 v) ++ rest) =
      Run.done ⟨v, none, rest⟩ := by
  obtain ⟨hs, hu⟩ := toSigned_toUnsigned_64 v h.1 h.2
  have hp := beUint64_put _ hu
  unfold BigEndian.PutUint64 at hp ⊢
  simp [ReadInt64BE, readN_buffer_ok, hf, hp, hs]

theorem ReadUint64LE_buffer_put_append (fuel v : Nat) (rest : List Byte)
    (hf : 0 < fuel) (h : v < 2 ^ 64) :
    ReadUint64LE bufferReader fuel (LittleEndian.PutUint64 v ++ rest) =
      Run.done ⟨v, none, rest⟩ := by
  have hp := leUint64_put v h
  unfold LittleEndian.PutUint64 at hp ⊢
  simp [ReadUint64LE, readN_buffer_ok, hf, hp]

theorem ReadInt64LE_buffer_put_append (fuel : Nat) (v : Int) (rest : List Byte)
    (hf : 0 < fuel) (h : -2 ^ 63 ≤ v ∧ v < 2 ^ 63) :
    ReadInt64LE bufferReader fuel (LittleEndian.PutUint64 (toUnsigned 64 v) ++ rest) =
      Run.done ⟨v, none, rest⟩ := by
  obtain ⟨hs, hu⟩ := toSigned_toUnsigned_64 v h.1 h.2
  have hp := leUint64_put _ hu
  unfold LittleEndian.PutUint64 at hp ⊢
  simp [ReadInt64LE, readN_buffer_ok, hf, hp, hs]

theorem Uint8_seq_round_trip (fuel : Nat) (vs : List Nat) (hf : 0 < fuel)
    (h : ∀ v ∈ vs, v < 2 ^ 8) :
    (writeEach (WriteUint8 bufferWriter) [] vs =
        ⟨none, (vs.map fun v => (WriteUint8 bufferWriter [] v).st).flatten⟩ ∧
      readUntilError (ReadUint8 bufferReader fuel) (vs.length + 1)
        (writeEach (WriteUint8 bufferWriter) [] vs).st = Run.done ⟨vs, some Error.EOF, []⟩) := by
  have hw := writeEach_buffer (WriteUint8 bufferWriter) (fun v => [byte v])
    (fun _ _ => rfl) vs []
  have he : (fun v => (WriteUint8 bufferWriter [] v).st) = (fun v => [byte v]) := rfl
  rw [hw, he]
  exact ⟨rfl, readUntilError_buffer _ _ (fun v => v < 2 ^ 8) 0
    (fun v rest hv => ReadUint8_buffer_put_append fuel v rest hf hv)
    (ReadUint8_of_readN_err _ _ _ _ _ _ (readN_buffer_eof fuel 1 hf (by decide))) vs h⟩

theorem Uint16BE_seq_round_trip (fuel : Nat) (vs : List Nat) (hf : 0 < fuel)
    (h : ∀ v ∈ vs, v < 2 ^ 16) :
    (writeEach (WriteUint16BE bufferWriter) [] vs =
        ⟨none, (vs.map fun v => (WriteUint16BE bufferWriter [] v).st).flatten⟩ ∧
      readUntilError (ReadUint16BE bufferReader fuel) (vs.length + 1)
        (writeEach (WriteUint16BE bufferWriter) [] vs).st = Run.done ⟨vs, some Error.EOF, []⟩) := by
  have hw := writeEach_buffer (WriteUint16BE bufferWriter) (BigEndian.PutUint16)
    (fun _ _ => rfl) vs []
  have he : (fun v => (WriteUint16BE bufferWriter [] v).st) = (BigEndian.PutUint16) := rfl
  rw [hw, he]
  exact ⟨rfl, readUntilError_buffer _ _ (fun v => v < 2 ^ 16) 0
    (fun v rest hv => ReadUint16BE_buffer_put_append fuel v rest hf hv)
    (ReadUint16BE_of_readN_err _ _ _ _ _ _ (readN_buffer_eof fuel 2 hf (by decide))) vs h⟩

theorem Uint16LE_seq_round_trip (fuel : Nat) (vs : List Nat) (hf : 0 < fuel)
    (h : ∀ v ∈ vs, v < 2 ^ 16) :
    (writeEach (WriteUint16LE bufferWriter) [] vs =
        ⟨none, (vs.map fun v => (WriteUint16LE bufferWriter [] v).st).flatten⟩ ∧
      readUntilError (ReadUint16LE bufferReader fuel) (vs.length + 1)
        (writeEach (WriteUint16LE bufferWriter) [] vs).st = Run.done ⟨vs, some Error.EOF, []⟩) := by
  have hw := writeEach_buffer (WriteUint16LE bufferWriter) (LittleEndian.PutUint16)
    (fun _ _ => rfl) vs []
  have he : (fun v => (WriteUint16LE bufferWriter [] v).st) = (LittleEndian.PutUint16) := rfl
  rw [hw, he]
  exact ⟨rfl, readUntilError_buffer _ _ (fun v => v < 2 ^ 16) 0
    (fun v rest hv => ReadUint16LE_buffer_put_append fuel v rest hf hv)
    (ReadUint16LE_of_readN_err _ _ _ _ _ _ (readN_buffer_eof fuel 2 hf (by decide))) vs h⟩

theorem Uint32BE_seq_round_trip (fuel : Nat) (vs : List Nat) (hf : 0 < fuel)
    (h : ∀ v ∈ vs, v < 2 ^ 32) :
    (writeEach (WriteUint32BE bufferWriter) [] vs =
        ⟨none, (vs.map fun v => (WriteUint32BE bufferWriter [] v).st).flatten⟩ ∧
      readUntilError (ReadUint32BE bufferReader fuel) (vs.length + 1)
        (writeEach (WriteUint32BE bufferWriter) [] vs).st = Run.done ⟨vs, some Error.EOF, []⟩) := by
  have hw := writeEach_buffer (WriteUint32BE bufferWriter) (BigEndian.PutUint32)
    (fun _ _ => rfl) vs []
  have he : (fun v => (WriteUint32BE bufferWriter [] v).st) = (BigEndian.PutUint32) := rfl
  rw [hw, he]
  exact ⟨rfl, readUntilError_buffer _ _ (fun v => v < 2 ^ 32) 0
    (fun v rest hv => ReadUint32BE_buffer_put_append fuel v rest hf hv)
    (ReadUint32BE_of_readN_err _ _ _ _ _ _ (readN_buffer_eof fuel 4 hf (by decide))) vs h⟩

theorem Uint32LE_seq_round_trip (fuel : Nat) (vs : List Nat) (hf : 0 < fuel)
    (h : ∀ v ∈ vs, v < 2 ^ 32) :
    (writeEach (WriteUint32LE bufferWriter) [] vs =
        ⟨none, (vs.map fun v => (WriteUint32LE bufferWriter [] v).st).flatten⟩ ∧
      readUntilError (ReadUint32LE bufferReader fuel) (vs.length + 1)
        (writeEach (WriteUint32LE bufferWriter) [] vs).st = Run.done ⟨vs, some Error.EOF, []⟩) := by
  have hw := writeEach_buffer (WriteUint32LE bufferWriter) (LittleEndian.PutUint32)
    (fun _ _ => rfl) vs []
  have he : (fun v => (WriteUint32LE bufferWriter [] v).st) = (LittleEndian.PutUint32) := rfl
  rw [hw, he]
  exact ⟨rfl, readUntilError_buffer _ _ (fun v => v < 2 ^ 32) 0
    (fun v rest hv => ReadUint32LE_buffer_put_append fuel v rest hf hv)
    (ReadUint32LE_of_readN_err _ _ _ _ _ _ (readN_buffer_eof fuel 4 hf (by decide))) vs h⟩

theorem Uint64BE_seq_round_trip (fuel : Nat) (vs : List Nat) (hf : 0 < fuel)
    (h : ∀ v ∈ vs, v < 2 ^ 64) :
    (writeEach (WriteUint64BE bufferWriter) [] vs =
        ⟨none, (vs.map fun v => (WriteUint64BE bufferWriter [] v).st).flatten⟩ ∧
      readUntilError (ReadUint64BE bufferReader fuel) (vs.length + 1)
        (writeEach (WriteUint64BE bufferWriter) [] vs).st = Run.done ⟨vs, some Error.EOF, []⟩) := by
  have hw := writeEach_buffer (WriteUint64BE bufferWriter) (BigEndian.PutUint64)
    (fun _ _ => rfl) vs []
  have he : (fun v => (WriteUint64BE bufferWriter [] v).st) = (BigEndian.PutUint64) := rfl
  rw [hw, he]
  exact ⟨rfl, readUntilError_buffer _ _ (fun v => v < 2 ^ 64) 0
    (fun v rest hv => ReadUint64BE_buffer_put_append fuel v rest hf hv)
    (ReadUint64BE_of_readN_err _ _ _ _ _ _ (readN_buffer_eof fuel 8 hf (by decide))) vs h⟩

theorem Uint64LE_seq_round_trip (fuel : Nat) (vs : List Nat) (hf : 0 < fuel)
    (h : ∀ v ∈ vs, v < 2 ^ 64) :
    (writeEach (WriteUint64LE bufferWriter) [] vs =
        ⟨none, (vs.map fun v => (WriteUint64LE bufferWriter [] v).st).flatten⟩ ∧
      readUntilError (ReadUint64LE bufferReader fuel) (vs.length + 1)
        (writeEach (WriteUint64LE bufferWriter) [] vs).st = Run.done ⟨vs, some Error.EOF, []⟩) := by
  have hw := writeEach_buffer (WriteUint64LE bufferWriter) (LittleEndian.PutUint64)
    (fun _ _ => rfl) vs []
  have he : (fun v => (WriteUint64LE bufferWriter [] v).st) = (LittleEndian.PutUint64) := rfl
  rw [hw, he]
  exact ⟨rfl, readUntilError_buffer _ _ (fun v => v < 2 ^ 64) 0
    (fun v rest hv => ReadUint64LE_buffer_put_append fuel v rest hf hv)
    (ReadUint64LE_of_readN_err _ _ _ _ _ _ (readN_buffer_eof fuel 8 hf (by decide))) vs h⟩

theorem Int8_seq_round_trip (fuel : Nat) (vs : List Int) (hf : 0 < fuel)
    (h : ∀ v ∈ vs, -2 ^ 7 ≤ v ∧ v < 2 ^ 7) :
    (writeEach (WriteInt8 bufferWriter) [] vs =
        ⟨none, (vs.map fun v => (WriteInt8 bufferWriter [] v).st).flatten⟩ ∧
      readUntilError (ReadInt8 bufferReader fuel) (vs.length + 1)
        (writeEach (WriteInt8 bufferWriter) [] vs).st = Run.done ⟨vs, some Error.EOF, []⟩) := by
  have hw := writeEach_buffer (WriteInt8 bufferWriter) (fun v => [byte (toUnsigned 8 v)])
    (fun _ _ => rfl) vs []
  have he : (fun v => (WriteInt8 bufferWriter [] v).st) = (fun v => [byte (toUnsigned 8 v)]) := rfl
  rw [hw, he]
  exact ⟨rfl, readUntilError_buffer _ _ (fun v => -2 ^ 7 ≤ v ∧ v < 2 ^ 7) 0
    (fun v rest hv => ReadInt8_buffer_put_append fuel v rest hf hv)
    (ReadInt8_of_readN_err _ _ _ _ _ _ (readN_buffer_eof fuel 1 hf (by decide))) vs h⟩

theorem Int16BE_seq_round_trip (fuel : Nat) (vs : List Int) (hf : 0 < fuel)
    (h : ∀ v ∈ vs, -2 ^ 15 ≤ v ∧ v < 2 ^ 15) :
    (writeEach (WriteInt16BE bufferWriter) [] vs =
        ⟨none, (vs.map fun v => (WriteInt16BE bufferWriter [] v).st).flatten⟩ ∧
      readUntilError (ReadInt16BE bufferReader fuel) (vs.length + 1)
        (writeEach (WriteInt16BE bufferWriter) [] vs).st = Run.done ⟨vs, some Error.EOF, []⟩) := by
  have hw := writeEach_buffer (WriteInt16BE bufferWriter) (fun v => BigEndian.PutUint16 (toUnsigned 16 v))
    (fun _ _ => rfl) vs []
  have he : (fun v => (WriteInt16BE bufferWriter [] v).st) = (fun v => BigEndian.PutUint16 (toUnsigned 16 v)) := rfl
  rw [hw, he]
  exact ⟨rfl, readUntilError_buffer _ _ (fun v => -2 ^ 15 ≤ v ∧ v < 2 ^ 15) 0
    (fun v rest hv => ReadInt16BE_buffer_put_append fuel v rest hf hv)
    (ReadInt16BE_of_readN_err _ _ _ _ _ _ (readN_buffer_eof fuel 2 hf (by decide))) vs h⟩

theorem Int16LE_seq_round_trip (fuel : Nat) (vs : List Int) (hf : 0 < fuel)
    (h : ∀ v ∈ vs, -2 ^ 15 ≤ v ∧ v < 2 ^ 15) :
    (writeEach (WriteInt16LE bufferWriter) [] vs =
        ⟨none, (vs.map fun v => (WriteInt16LE bufferWriter [] v).st).flatten⟩ ∧
      readUntilError (ReadInt16LE bufferReader fuel) (vs.length + 1)
        (writeEach (WriteInt16LE bufferWriter) [] vs).st = Run.done ⟨vs, some Error.EOF, []⟩) := by
  have hw := writeEach_buffer (WriteInt16LE bufferWriter) (fun v => LittleEndian.PutUint16 (toUnsigned 16 v))
    (fun _ _ => rfl) vs []
  have he : (fun v => (WriteInt16LE bufferWriter [] v).st) = (fun v => LittleEndian.PutUint16 (toUnsigned 16 v)) := rfl
  rw [hw, he]
  exact ⟨rfl, readUntilError_buffer _ _ (fun v => -2 ^ 15 ≤ v ∧ v < 2 ^ 15) 0
    (fun v rest hv => ReadInt16LE_buffer_put_append fuel v rest hf hv)
    (ReadInt16LE_of_readN_err _ _ _ _ _ _ (readN_buffer_eof fuel 2 hf (by decide))) vs h⟩

theorem Int32BE_seq_round_trip (fuel : Nat) (vs : List Int) (hf : 0 < fuel)
    (h : ∀ v ∈ vs, -2 ^ 31 ≤ v ∧ v < 2 ^ 31) :
    (writeEach (WriteInt32BE bufferWriter) [] vs =
        ⟨none, (vs.map fun v => (WriteInt32BE bufferWriter [] v).st).flatten⟩ ∧
      readUntilError (ReadInt32BE bufferReader fuel) (vs.length + 1)
        (writeEach (WriteInt32BE bufferWriter) [] vs).st = Run.done ⟨vs, some Error.EOF, []⟩) := by
  have hw := writeEach_buffer (WriteInt32BE bufferWriter) (fun v => BigEndian.PutUint32 (toUnsigned 32 v))
    (fun _ _ => rfl) vs []
  have he : (fun v => (WriteInt32BE bufferWriter [] v).st) = (fun v => BigEndian.PutUint32 (toUnsigned 32 v)) := rfl
  rw [hw, he]
  exact ⟨rfl, readUntilError_buffer _ _ (fun v => -2 ^ 31 ≤ v ∧ v < 2 ^ 31) 0
    (fun v rest hv => ReadInt32BE_buffer_put_append fuel v rest hf hv)
    (ReadInt32BE_of_readN_err _ _ _ _ _ _ (readN_buffer_eof fuel 4 hf (by decide))) vs h⟩

theorem Int32LE_seq_round_trip (fuel : Nat) (vs : List Int) (hf : 0 < fuel)
    (h : ∀ v ∈ vs, -2 ^ 31 ≤ v ∧ v < 2 ^ 31) :
    (writeEach (WriteInt32LE bufferWriter) [] vs =
        ⟨none, (vs.map fun v => (WriteInt32LE bufferWriter [] v).st).flatten⟩ ∧
      readUntilError (ReadInt32LE bufferReader fuel) (vs.length + 1)
        (writeEach (WriteInt32LE bufferWriter) [] vs).st = Run.done ⟨vs, some Error.EOF, []⟩) := by
  have hw := writeEach_buffer (WriteInt32LE bufferWriter) (fun v => LittleEndian.PutUint32 (toUnsigned 32 v))
    (fun _ _ => rfl) vs []
  have he : (fun v => (WriteInt32LE bufferWriter [] v).st) = (fun v => LittleEndian.PutUint32 (toUnsigned 32 v)) := rfl
  rw [hw, he]
  exact ⟨rfl, readUntilError_buffer _ _ (fun v => -2 ^ 31 ≤ v ∧ v < 2 ^ 31) 0
    (fun v rest hv => ReadInt32LE_buffer_put_append fuel v rest hf hv)
    (ReadInt32LE_of_readN_err _ _ _ _ _ _ (readN_buffer_eof fuel 4 hf (by decide))) vs h⟩

theorem Int64BE_seq_round_trip (fuel : Nat) (vs : List Int) (hf : 0 < fuel)
    (h : ∀ v ∈ vs, -2 ^ 63 ≤ v ∧ v < 2 ^ 63) :
    (writeEach (WriteInt64BE bufferWriter) [] vs =
        ⟨none, (vs.map fun v => (WriteInt64BE bufferWriter [] v).st).flatten⟩ ∧
      readUntilError (ReadInt64BE bufferReader fuel) (vs.length + 1)
        (writeEach (WriteInt64BE bufferWriter) [] vs).st = Run.done ⟨vs, some Error.EOF, []⟩) := by
  have hw := writeEach_buffer (WriteInt64BE bufferWriter) (fun v => BigEndian.PutUint64 (toUnsigned 64 v))
    (fun _ _ => rfl) vs []
  have he : (fun v => (WriteInt64BE bufferWriter [] v).st) = (fun v => BigEndian.PutUint64 (toUnsigned 64 v)) := rfl
  rw [hw, he]
  exact ⟨rfl, readUntilError_buffer _ _ (fun v => -2 ^ 63 ≤ v ∧ v < 2 ^ 63) 0
    (fun v rest hv => ReadInt64BE_buffer_put_append fuel v rest hf hv)
    (ReadInt64BE_of_readN_err _ _ _ _ _ _ (readN_buffer_eof fuel 8 hf (by decide))) vs h⟩

theorem Int64LE_seq_round_trip (fuel : Nat) (vs : List Int) (hf : 0 < fuel)
    (h : ∀ v ∈ vs, -2 ^ 63 ≤ v ∧ v < 2 ^ 63) :
    (writeEach (WriteInt64LE bufferWriter) [] vs =
        ⟨none, (vs.map fun v => (WriteInt64LE bufferWriter [] v).st).flatten⟩ ∧
      readUntilError (ReadInt64LE bufferReader fuel) (vs.length + 1)
        (writeEach (WriteInt64LE bufferWriter) [] vs).st = Run.done ⟨vs, some Error.EOF, []⟩) := by
  have hw := writeEach_buffer (WriteInt64LE bufferWriter) (fun v => LittleEndian.PutUint64 (toUnsigned 64 v))
    (fun _ _ => rfl) vs []
  have he : (fun v => (WriteInt64LE bufferWriter [] v).st) = (fun v => LittleEndian.PutUint64 (toUnsigned 64 v)) := rfl
  rw [hw, he]
  exact ⟨rfl, readUntilError_buffer _ _ (fun v => -2 ^ 63 ≤ v ∧ v < 2 ^ 63) 0
    (fun v rest hv => ReadInt64LE_buffer_put_append fuel v rest hf hv)
    (ReadInt64LE_of_readN_err _ _ _ _ _ _ (readN_buffer_eof fuel 8 hf (by decide))) vs h⟩

/-- C11. Sequence round trip until end of stream: for every fixed-width
integer type and byte order and every list of values of that type, writing
the elements in order into an empty `bytes.Buffer` yields the concatenation of
their individual encodings, and calling the matching read repeatedly on that
buffer returns the elements in order, each without error, followed by a read
that fails with exactly `io.EOF`. -/
theorem sequence_round_trip (fuel : Nat) (u8 u16 u32 u64 : List Nat)
    (i8 i16 i32 i64 : List Int) (hf : 0 < fuel)
    (hu8 : ∀ v ∈ u8, v < 2 ^ 8) (hu16 : ∀ v ∈ u16, v < 2 ^ 16)
    (hu32 : ∀ v ∈ u32, v < 2 ^ 32) (hu64 : ∀ v ∈ u64, v < 2 ^ 64)
    (hi8 : ∀ v ∈ i8, -2 ^ 7 ≤ v ∧ v < 2 ^ 7) (hi16 : ∀ v ∈ i16, -2 ^ 15 ≤ v ∧ v < 2 ^ 15)
    (hi32 : ∀ v ∈ i32, -2 ^ 31 ≤ v ∧ v < 2 ^ 31)
    (hi64 : ∀ v ∈ i64, -2 ^ 63 ≤ v ∧ v < 2 ^ 63) :
    (writeEach (WriteUint8 bufferWriter) [] u8 =
        ⟨none, (u8.map fun v => (WriteUint8 bufferWriter [] v).st).flatten⟩ ∧
      readUntilError (ReadUint8 bufferReader fuel) (u8.length + 1)
        (writeEach (WriteUint8 bufferWriter) [] u8).st = Run.done ⟨u8, some Error.EOF, []⟩) ∧
    (writeEach (WriteUint16BE bufferWriter) [] u16 =
        ⟨none, (u16.map fun v => (WriteUint16BE bufferWriter [] v).st).flatten⟩ ∧
      readUntilError (ReadUint16BE bufferReader fuel) (u16.length + 1)
        (writeEach (WriteUint16BE bufferWriter) [] u16).st = Run.done ⟨u16, some Error.EOF, []⟩) ∧
    (writeEach (WriteUint16LE bufferWriter) [] u16 =
        ⟨none, (u16.map fun v => (WriteUint16LE bufferWriter [] v).st).flatten⟩ ∧
      readUntilError (ReadUint16LE bufferReader fuel) (u16.length + 1)
        (writeEach (WriteUint16LE bufferWriter) [] u16).st = Run.done ⟨u16, some Error.EOF, []⟩) ∧
    (writeEach (WriteUint32BE bufferWriter) [] u32 =
        ⟨none, (u32.map fun v => (WriteUint32BE bufferWriter [] v).st).flatten⟩ ∧
      readUntilError (ReadUint32BE bufferReader fuel) (u32.length + 1)
        (writeEach (WriteUint32BE bufferWriter) [] u32).st = Run.done ⟨u32, some Error.EOF, []⟩) ∧
    (writeEach (WriteUint32LE bufferWriter) [] u32 =
        ⟨none, (u32.map fun v => (WriteUint32LE bufferWriter [] v).st).flatten⟩ ∧
      readUntilError (ReadUint32LE bufferReader fuel) (u32.length + 1)
        (writeEach (WriteUint32LE bufferWriter) [] u32).st = Run.done ⟨u32, some Error.EOF, []⟩) ∧
    (writeEach (WriteUint64BE bufferWriter) [] u64 =
        ⟨none, (u64.map fun v => (WriteUint64BE bufferWriter [] v).st).flatten⟩ ∧
      readUntilError (ReadUint64BE bufferReader fuel) (u64.length + 1)
        (writeEach (WriteUint64BE bufferWriter) [] u64).st = Run.done ⟨u64, some Error.EOF, []⟩) ∧
    (writeEach (WriteUint64LE bufferWriter) [] u64 =
        ⟨none, (u64.map fun v => (WriteUint64LE bufferWriter [] v).st).flatten⟩ ∧
      readUntilError (ReadUint64LE bufferReader fuel) (u64.length + 1)
        (writeEach (WriteUint64LE bufferWriter) [] u64).st = Run.done ⟨u64, some Error.EOF, []⟩) ∧
    (writeEach (WriteInt8 bufferWriter) [] i8 =
        ⟨none, (i8.map fun v => (WriteInt8 bufferWriter [] v).st).flatten⟩ ∧
      readUntilError (ReadInt8 bufferReader fuel) (i8.length + 1)
        (writeEach (WriteInt8 bufferWriter) [] i8).st = Run.done ⟨i8, some Error.EOF, []⟩) ∧
    (writeEach (WriteInt16BE bufferWriter) [] i16 =
        ⟨none, (i16.map fun v => (WriteInt16BE bufferWriter [] v).st).flatten⟩ ∧
      readUntilError (ReadInt16BE bufferReader fuel) (i16.length + 1)
        (writeEach (WriteInt16BE bufferWriter) [] i16).st = Run.done ⟨i16, some Error.EOF, []⟩) ∧
    (writeEach (WriteInt16LE bufferWriter) [] i16 =
        ⟨none, (i16.map fun v => (WriteInt16LE bufferWriter [] v).st).flatten⟩ ∧
      readUntilError (ReadInt16LE bufferReader fuel) (i16.length + 1)
        (writeEach (WriteInt16LE bufferWriter) [] i16).st = Run.done ⟨i16, some Error.EOF, []⟩) ∧
    (writeEach (WriteInt32BE bufferWriter) [] i32 =
        ⟨none, (i32.map fun v => (WriteInt32BE bufferWriter [] v).st).flatten⟩ ∧
      readUntilError (ReadInt32BE bufferReader fuel) (i32.length + 1)
        (writeEach (WriteInt32BE bufferWriter) [] i32).st = Run.done ⟨i32, some Error.EOF, []⟩) ∧
    (writeEach (WriteInt32LE bufferWriter) [] i32 =
        ⟨none, (i32.map fun v => (WriteInt32LE bufferWriter [] v).st).flatten⟩ ∧
      readUntilError (ReadInt32LE bufferReader fuel) (i32.length + 1)
        (writeEach (WriteInt32LE bufferWriter) [] i32).st = Run.done ⟨i32, some Error.EOF, []⟩) ∧
    (writeEach (WriteInt64BE bufferWriter) [] i64 =
        ⟨none, (i64.map fun v => (WriteInt64BE bufferWriter [] v).st).flatten⟩ ∧
      readUntilError (ReadInt64BE bufferReader fuel) (i64.length + 1)
        (writeEach (WriteInt64BE bufferWriter) [] i64).st = Run.done ⟨i64, some Error.EOF, []⟩) ∧
    (writeEach (WriteInt64LE bufferWriter) [] i64 =
        ⟨none, (i64.map fun v => (WriteInt64LE bufferWriter [] v).st).flatten⟩ ∧
      readUntilError (ReadInt64LE bufferReader fuel) (i64.length + 1)
        (writeEach (WriteInt64LE bufferWriter) [] i64).st = Run.done ⟨i64, some Error.EOF, []⟩) :=
  ⟨Uint8_seq_round_trip fuel u8 hf hu8,
    Uint16BE_seq_round_trip fuel u16 hf hu16,
    Uint16LE_seq_round_trip fuel u16 hf hu16,
    Uint32BE_seq_round_trip fuel u32 hf hu32,
    Uint32LE_seq_round_trip fuel u32 hf hu32,
    Uint64BE_seq_round_trip fuel u64 hf hu64,
    Uint64LE_seq_round_trip fuel u64 hf hu64,
    Int8_seq_round_trip fuel i8 hf hi8,
    Int16BE_seq_round_trip fuel i16 hf hi16,
    Int16LE_seq_round_trip fuel i16 hf hi16,
    Int32BE_seq_round_trip fuel i32 hf hi32,
    Int32LE_seq_round_trip fuel i32 hf hi32,
    Int64BE_seq_round_trip fuel i64 hf hi64,
    Int64LE_seq_round_trip fuel i64 hf hi64⟩

theorem sequence_round_trip_witness :
    (0 < 1 ∧
      (∀ v ∈ ([0, 255] : List Nat), v < 2 ^ 8) ∧
      (∀ v ∈ ([1, 32768, 512] : List Nat), v < 2 ^ 16) ∧
      (∀ v ∈ ([4294967295, 7] : List Nat), v < 2 ^ 32) ∧
      (∀ v ∈ ([18446744073709551615] : List Nat), v < 2 ^ 64) ∧
      (∀ v ∈ ([-128, 127] : List Int), -2 ^ 7 ≤ v ∧ v < 2 ^ 7) ∧
      (∀ v ∈ ([-2, 5] : List Int), -2 ^ 15 ≤ v ∧ v < 2 ^ 15) ∧
      (∀ v ∈ ([-2147483648] : List Int), -2 ^ 31 ≤ v ∧ v < 2 ^ 31) ∧
      (∀ v ∈ ([-1, 0, 1] : List Int), -2 ^ 63 ≤ v ∧ v < 2 ^ 63)) ∧
    (writeEach (WriteUint8 bufferWriter) [] ([0, 255] : List Nat) =
        ⟨none, (([0, 255] : List Nat).map fun v => (WriteUint8 bufferWriter [] v).st).flatten⟩ ∧
      readUntilError (ReadUint8 bufferReader 1) (([0, 255] : List Nat).length + 1)
        (writeEach (WriteUint8 bufferWriter) [] ([0, 255] : List Nat)).st = Run.done ⟨([0, 255] : List Nat), some Error.EOF, []⟩) ∧
    (writeEach (WriteUint16BE bufferWriter) [] ([1, 32768, 512] : List Nat) =
        ⟨none, (([1, 32768, 512] : List Nat).map fun v => (WriteUint16BE bufferWriter [] v).st).flatten⟩ ∧
      readUntilError (ReadUint16BE bufferReader 1) (([1, 32768, 512] : List Nat).length + 1)
        (writeEach (WriteUint16BE bufferWriter) [] ([1, 32768, 512] : List Nat)).st = Run.done ⟨([1, 32768, 512] : List Nat), some Error.EOF, []⟩) ∧
    (writeEach (WriteUint16LE bufferWriter) [] ([1, 32768, 512] : List Nat) =
        ⟨none, (([1, 32768, 512] : List Nat).map fun v => (WriteUint16LE bufferWriter [] v).st).flatten⟩ ∧
      readUntilError (ReadUint16LE bufferReader 1) (([1, 32768, 512] : List Nat).length + 1)
        (writeEach (WriteUint16LE bufferWriter) [] ([1, 32768, 512] : List Nat)).st = Run.done ⟨([1, 32768, 512] : List Nat), some Error.EOF, []⟩) ∧
    (writeEach (WriteUint32BE bufferWriter) [] ([4294967295, 7] : List Nat) =
        ⟨none, (([4294967295, 7] : List Nat).map fun v => (WriteUint32BE bufferWriter [] v).st).flatten⟩ ∧
      readUntilError (ReadUint32BE bufferReader 1) (([4294967295, 7] : List Nat).length + 1)
        (writeEach (WriteUint32BE bufferWriter) [] ([4294967295, 7] : List Nat)).st = Run.done ⟨([4294967295, 7] : List Nat), some Error.EOF, []⟩) ∧
    (writeEach (WriteUint32LE bufferWriter) [] ([4294967295, 7] : List Nat) =
        ⟨none, (([4294967295, 7] : List Nat).map fun v => (WriteUint32LE bufferWriter [] v).st).flatten⟩ ∧
      readUntilError (ReadUint32LE bufferReader 1) (([4294967295, 7] : List Nat).length + 1)
        (writeEach (WriteUint32LE bufferWriter) [] ([4294967295, 7] : List Nat)).st = Run.done ⟨([4294967295, 7] : List Nat), some Error.EOF, []⟩) ∧
    (writeEach (WriteUint64BE bufferWriter) [] ([18446744073709551615] : List Nat) =
        ⟨none, (([18446744073709551615] : List Nat).map fun v => (WriteUint64BE bufferWriter [] v).st).flatten⟩ ∧
      readUntilError (ReadUint64BE bufferReader 1) (([18446744073709551615] : List Nat).length + 1)
        (writeEach (WriteUint64BE bufferWriter) [] ([18446744073709551615] : List Nat)).st = Run.done ⟨([18446744073709551615] : List Nat), some Error.EOF, []⟩) ∧
    (writeEach (WriteUint64LE bufferWriter) [] ([18446744073709551615] : List Nat) =
        ⟨none, (([18446744073709551615] : List Nat).map fun v => (WriteUint64LE bufferWriter [] v).st).flatten⟩ ∧
      readUntilError (ReadUint64LE bufferReader 1) (([18446744073709551615] : List Nat).length + 1)
        (writeEach (WriteUint64LE bufferWriter) [] ([18446744073709551615] : List Nat)).st = Run.done ⟨([18446744073709551615] : List Nat), some Error.EOF, []⟩) ∧
    (writeEach (WriteInt8 bufferWriter) [] ([-128, 127] : List Int) =
        ⟨none, (([-128, 127] : List Int).map fun v => (WriteInt8 bufferWriter [] v).st).flatten⟩ ∧
      readUntilError (ReadInt8 bufferReader 1) (([-128, 127] : List Int).length + 1)
        (writeEach (WriteInt8 bufferWriter) [] ([-128, 127] : List Int)).st = Run.done ⟨([-128, 127] : List Int), some Error.EOF, []⟩) ∧
    (writeEach (WriteInt16BE bufferWriter) [] ([-2, 5] : List Int) =
        ⟨none, (([-2, 5] : List Int).map fun v => (WriteInt16BE bufferWriter [] v).st).flatten⟩ ∧
      readUntilError (ReadInt16BE bufferReader 1) (([-2, 5] : List Int).length + 1)
        (writeEach (WriteInt16BE bufferWriter) [] ([-2, 5] : List Int)).st = Run.done ⟨([-2, 5] : List Int), some Error.EOF, []⟩) ∧
    (writeEach (WriteInt16LE bufferWriter) [] ([-2, 5] : List Int) =
        ⟨none, (([-2, 5] : List Int).map fun v => (WriteInt16LE bufferWriter [] v).st).flatten⟩ ∧
      readUntilError (ReadInt16LE bufferReader 1) (([-2, 5] : List Int).length + 1)
        (writeEach (WriteInt16LE bufferWriter) [] ([-2, 5] : List Int)).st = Run.done ⟨([-2, 5] : List Int), some Error.EOF, []⟩) ∧
    (writeEach (WriteInt32BE bufferWriter) [] ([-2147483648] : List Int) =
        ⟨none, (([-2147483648] : List Int).map fun v => (WriteInt32BE bufferWriter [] v).st).flatten⟩ ∧
      readUntilError (ReadInt32BE bufferReader 1) (([-2147483648] : List Int).length + 1)
        (writeEach (WriteInt32BE bufferWriter) [] ([-2147483648] : List Int)).st = Run.done ⟨([-2147483648] : List Int), some Error.EOF, []⟩) ∧
    (writeEach (WriteInt32LE bufferWriter) [] ([-2147483648] : List Int) =
        ⟨none, (([-2147483648] : List Int).map fun v => (WriteInt32LE bufferWriter [] v).st).flatten⟩ ∧
      readUntilError (ReadInt32LE bufferReader 1) (([-2147483648] : List Int).length + 1)
        (writeEach (WriteInt32LE bufferWriter) [] ([-2147483648] : List Int)).st = Run.done ⟨([-2147483648] : List Int), some Error.EOF, []⟩) ∧
    (writeEach (WriteInt64BE bufferWriter) [] ([-1, 0, 1] : List Int) =
        ⟨none, (([-1, 0, 1] : List Int).map fun v => (WriteInt64BE bufferWriter [] v).st).flatten⟩ ∧
      readUntilError (ReadInt64BE bufferReader 1) (([-1, 0, 1] : List Int).length + 1)
        (writeEach (WriteInt64BE bufferWriter) [] ([-1, 0, 1] : List Int)).st = Run.done ⟨([-1, 0, 1] : List Int), some Error.EOF, []⟩) ∧
    (writeEach (WriteInt64LE bufferWriter) [] ([-1, 0, 1] : List Int) =
        ⟨none, (([-1, 0, 1] : List Int).map fun v => (WriteInt64LE bufferWriter [] v).st).flatten⟩ ∧
      readUntilError (ReadInt64LE bufferReader 1) (([-1, 0, 1] : List Int).length + 1)
        (writeEach (WriteInt64LE bufferWriter) [] ([-1, 0, 1] : List Int)).st = Run.done ⟨([-1, 0, 1] : List Int), some Error.EOF, []⟩) :=
  ⟨⟨by decide, by decide, by decide, by decide, by decide, by decide, by decide, by decide,
      by decide⟩,
    sequence_round_trip 1 [0, 255] [1, 32768, 512] [4294967295, 7] [18446744073709551615] [-128, 127] [-2, 5] [-2147483648] [-1, 0, 1]
      (by decide) (by decide) (by decide) (by decide) (by decide) (by decide) (by decide)
      (by decide) (by decide)⟩

/-! ## The float codec -/

theorem Float32frombits_bits (f : Float32) : Float32frombits (Float32bits f) = f := by
  cases f with
  | mk bits =>
      simp only [Float32frombits, Float32bits]
      congr 1
      exact Fin.ext (Nat.mod_eq_of_lt bits.isLt)

theorem Float64frombits_bits (f : Float64) : Float64frombits (Float64bits f) = f := by
  cases f with
  | mk bits =>
      simp only [Float64frombits, Float64bits]
      congr 1
      exact Fin.ext (Nat.mod_eq_of_lt bits.isLt)

theorem ReadFloat32BE_buffer_put (fuel : Nat) (f : Float32) (hf : 0 < fuel) :
    ReadFloat32BE bufferReader fuel (BigEndian.PutUint32 (Float32bits f)) =
      Run.done ⟨f, none, []⟩ := by
  have hp := beUint32_put (Float32bits f) f.bits.isLt
  unfold BigEndian.PutUint32 at hp ⊢
  simp [ReadFloat32BE, readN_buffer_ok, hf, hp, Float32frombits_bits]

theorem ReadFloat32BE_eq_mapVal {σ : Type} (R : Reader σ) (fuel : Nat) (s : σ) :
    ReadFloat32BE R fuel s = Run.mapVal Float32frombits (ReadUint32BE R fuel s) := by
  unfold ReadFloat32BE ReadUint32BE
  cases readN R fuel s 4 with
  | pending => rfl
  | panicked => rfl
  | done r =>
      obtain ⟨val, err, st⟩ := r
      cases err with
      | some e => rfl
      | none => cases hu : BigEndian.Uint32 val <;> simp [Run.mapVal, hu]

theorem ReadUint32BE_err_val {σ : Type} (R : Reader σ) (fuel : Nat) (s s2 : σ) (u : Nat)
    (e : Error) (h : ReadUint32BE R fuel s = Run.done ⟨u, some e, s2⟩) : u = 0 := by
  unfold ReadUint32BE at h
  cases hr : readN R fuel s 4 with
  | pending => simp [hr] at h
  | panicked => simp [hr] at h
  | done r =>
      obtain ⟨val, err, st⟩ := r
      cases err with
      | some e2 =>
          simp [hr] at h
          exact h.1.symm
      | none => cases hu : BigEndian.Uint32 val <;> simp [hr, hu] at h

theorem ReadFloat32BE_of_uint_err {σ : Type} (R : Reader σ) (fuel : Nat) (s s2 : σ)
    (u : Nat) (e : Error) (h : ReadUint32BE R fuel s = Run.done ⟨u, some e, s2⟩) :
    ReadFloat32BE R fuel s = Run.done ⟨Float32frombits 0, some e, s2⟩ := by
  have hu := ReadUint32BE_err_val R fuel s s2 u e h
  subst hu
  rw [ReadFloat32BE_eq_mapVal, h]
  rfl

theorem ReadFloat32LE_buffer_put (fuel : Nat) (f : Float32) (hf : 0 < fuel) :
    ReadFloat32LE bufferReader fuel (LittleEndian.PutUint32 (Float32bits f)) =
      Run.done ⟨f, none, []⟩ := by
  have hp := leUint32_put (Float32bits f) f.bits.isLt
  unfold LittleEndian.PutUint32 at hp ⊢
  simp [ReadFloat32LE, readN_buffer_ok, hf, hp, Float32frombits_bits]

theorem ReadFloat32LE_eq_mapVal {σ : Type} (R : Reader σ) (fuel : Nat) (s : σ) :
    ReadFloat32LE R fuel s = Run.mapVal Float32frombits (ReadUint32LE R fuel s) := by
  unfold ReadFloat32LE ReadUint32LE
  cases readN R fuel s 4 with
  | pending => rfl
  | panicked => rfl
  | done r =>
      obtain ⟨val, err, st⟩ := r
      cases err with
      | some e => rfl
      | none => cases hu : LittleEndian.Uint32 val <;> simp [Run.mapVal, hu]

theorem ReadUint32LE_err_val {σ : Type} (R : Reader σ) (fuel : Nat) (s s2 : σ) (u : Nat)
    (e : Error) (h : ReadUint32LE R fuel s = Run.done ⟨u, some e, s2⟩) : u = 0 := by
  unfold ReadUint32LE at h
  cases hr : readN R fuel s 4 with
  | pending => simp [hr] at h
  | panicked => simp [hr] at h
  | done r =>
      obtain ⟨val, err, st⟩ := r
      cases err with
      | some e2 =>
          simp [hr] at h
          exact h.1.symm
      | none => cases hu : LittleEndian.Uint32 val <;> simp [hr, hu] at h

theorem ReadFloat32LE_of_uint_err {σ : Type} (R : Reader σ) (fuel : Nat) (s s2 : σ)
    (u : Nat) (e : Error) (h : ReadUint32LE R fuel s = Run.done ⟨u, some e, s2⟩) :
    ReadFloat32LE R fuel s = Run.done ⟨Float32frombits 0, some e, s2⟩ := by
  have hu := ReadUint32LE_err_val R fuel s s2 u e h
  subst hu
  rw [ReadFloat32LE_eq_mapVal, h]
  rfl

theorem ReadFloat64BE_buffer_put (fuel : Nat) (f : Float64) (hf : 0 < fuel) :
    ReadFloat64BE bufferReader fuel (BigEndian.PutUint64 (Float64bits f)) =
      Run.done ⟨f, none, []⟩ := by
  have hp := beUint64_put (Float64bits f) f.bits.isLt
  unfold BigEndian.PutUint64 at hp ⊢
  simp [ReadFloat64BE, readN_buffer_ok, hf, hp, Float64frombits_bits]

theorem ReadFloat64BE_eq_mapVal {σ : Type} (R : Reader σ) (fuel : Nat) (s : σ) :
    ReadFloat64BE R fuel s = Run.mapVal Float64frombits (ReadUint64BE R fuel s) := by
  unfold ReadFloat64BE ReadUint64BE
  cases readN R fuel s 8 with
  | pending => rfl
  | panicked => rfl
  | done r =>
      obtain ⟨val, err, st⟩ := r
      cases err with
      | some e => rfl
      | none => cases hu : BigEndian.Uint64 val <;> simp [Run.mapVal, hu]

theorem ReadUint64BE_err_val {σ : Type} (R : Reader σ) (fuel : Nat) (s s2 : σ) (u : Nat)
    (e : Error) (h : ReadUint64BE R fuel s = Run.done ⟨u, some e, s2⟩) : u = 0 := by
  unfold ReadUint64BE at h
  cases hr : readN R fuel s 8 with
  | pending => simp [hr] at h
  | panicked => simp [hr] at h
  | done r =>
      obtain ⟨val, err, st⟩ := r
      cases err with
      | some e2 =>
          simp [hr] at h
          exact h.1.symm
      | none => cases hu : BigEndian.Uint64 val <;> simp [hr, hu] at h

theorem ReadFloat64BE_of_uint_err {σ : Type} (R : Reader σ) (fuel : Nat) (s s2 : σ)
    (u : Nat) (e : Error) (h : ReadUint64BE R fuel s = Run.done ⟨u, some e, s2⟩) :
    ReadFloat64BE R fuel s = Run.done ⟨Float64frombits 0, some e, s2⟩ := by
  have hu := ReadUint64BE_err_val R fuel s s2 u e h
  subst hu
  rw [ReadFloat64BE_eq_mapVal, h]
  rfl

theorem ReadFloat64LE_buffer_put (fuel : Nat) (f : Float64) (hf : 0 < fuel) :
    ReadFloat64LE bufferReader fuel (LittleEndian.PutUint64 (Float64bits f)) =
      Run.done ⟨f, none, []⟩ := by
  have hp := leUint64_put (Float64bits f) f.bits.isLt
  unfold LittleEndian.PutUint64 at hp ⊢
  simp [ReadFloat64LE, readN_buffer_ok, hf, hp, Float64frombits_bits]

theorem ReadFloat64LE_eq_mapVal {σ : Type} (R : Reader σ) (fuel : Nat) (s : σ) :
    ReadFloat64LE R fuel s = Run.mapVal Float64frombits (ReadUint64LE R fuel s) := by
  unfold ReadFloat64LE ReadUint64LE
  cases readN R fuel s 8 with
  | pending => rfl
  | panicked => rfl
  | done r =>
      obtain ⟨val, err, st⟩ := r
      cases err with
      | some e => rfl
      | none => cases hu : LittleEndian.Uint64 val <;> simp [Run.mapVal, hu]

theorem ReadUint64LE_err_val {σ : Type} (R : Reader σ) (fuel : Nat) (s s2 : σ) (u : Nat)
    (e : Error) (h : ReadUint64LE R fuel s = Run.done ⟨u, some e, s2⟩) : u = 0 := by
  unfold ReadUint64LE at h
  cases hr : readN R fuel s 8 with
  | pending => simp [hr] at h
  | panicked => simp [hr] at h
  | done r =>
      obtain ⟨val, err, st⟩ := r
      cases err with
      | some e2 =>
          simp [hr] at h
          exact h.1.symm
      | none => cases hu : LittleEndian.Uint64 val <;> simp [hr, hu] at h

theorem ReadFloat64LE_of_uint_err {σ : Type} (R : Reader σ) (fuel : Nat) (s s2 : σ)
    (u : Nat) (e : Error) (h : ReadUint64LE R fuel s = Run.done ⟨u, some e, s2⟩) :
    ReadFloat64LE R fuel s = Run.done ⟨Float64frombits 0, some e, s2⟩ := by
  have hu := ReadUint64LE_err_val R fuel s s2 u e h
  subst hu
  rw [ReadFloat64LE_eq_mapVal, h]
  rfl

/-- C12. Float round trip is bit-exact: for every float32 and float64 value,
given as any IEEE 754 bit pattern (NaN payloads, signed zeros and infinities
included), and each byte order, reading back the bytes the write puts into an
empty `bytes.Buffer` returns, without error, a value with the same bit
pattern. -/
theorem float_round_trip_bit_exact (fuel : Nat) (f : Float32) (d : Float64)
    (hf : 0 < fuel) :
    (∃ r, ReadFloat32BE bufferReader fuel (WriteFloat32BE bufferWriter [] f).st =
        Run.done ⟨r, none, []⟩ ∧ Float32bits r = Float32bits f) ∧
    (∃ r, ReadFloat32LE bufferReader fuel (WriteFloat32LE bufferWriter [] f).st =
        Run.done ⟨r, none, []⟩ ∧ Float32bits r = Float32bits f) ∧
    (∃ r, ReadFloat64BE bufferReader fuel (WriteFloat64BE bufferWriter [] d).st =
        Run.done ⟨r, none, []⟩ ∧ Float64bits r = Float64bits d) ∧
    (∃ r, ReadFloat64LE bufferReader fuel (WriteFloat64LE bufferWriter [] d).st =
        Run.done ⟨r, none, []⟩ ∧ Float64bits r = Float64bits d) :=
  ⟨⟨f, ReadFloat32BE_buffer_put fuel f hf, rfl⟩,
    ⟨f, ReadFloat32LE_buffer_put fuel f hf, rfl⟩,
    ⟨d, ReadFloat64BE_buffer_put fuel d hf, rfl⟩,
    ⟨d, ReadFloat64LE_buffer_put fuel d hf, rfl⟩⟩

theorem float_round_trip_bit_exact_witness :
    0 < 1 ∧
    (∃ r, ReadFloat32BE bufferReader 1 (WriteFloat32BE bufferWriter [] (Float32frombits 2143289345)).st =
        Run.done ⟨r, none, []⟩ ∧ Float32bits r = Float32bits (Float32frombits 2143289345)) ∧
    (∃ r, ReadFloat32LE bufferReader 1 (WriteFloat32LE bufferWriter [] (Float32frombits 2143289345)).st =
        Run.done ⟨r, none, []⟩ ∧ Float32bits r = Float32bits (Float32frombits 2143289345)) ∧
    (∃ r, ReadFloat64BE bufferReader 1 (WriteFloat64BE bufferWriter [] (Float64frombits 9223372036854775808)).st =
        Run.done ⟨r, none, []⟩ ∧ Float64bits r = Float64bits (Float64frombits 9223372036854775808)) ∧
    (∃ r, ReadFloat64LE bufferReader 1 (WriteFloat64LE bufferWriter [] (Float64frombits 9223372036854775808)).st =
        Run.done ⟨r, none, []⟩ ∧ Float64bits r = Float64bits (Float64frombits 9223372036854775808)) :=
  ⟨by decide, float_round_trip_bit_exact 1 (Float32frombits 2143289345)
    (Float64frombits 9223372036854775808) (by decide)⟩

/-- C13. The float codec is the integer codec applied to the bit pattern: for
each width and byte order, every writer and every reader, `WriteFloatW(w, v)`
has the outcome of `WriteUintW(w, bits(v))` (same bytes, same error), and
`ReadFloatW(r)` has the outcome of `ReadUintW(r)` with `frombits` applied to
the value: it returns `frombits(u)` when `ReadUintW` returns `u`, and the same
error with the zero value when `ReadUintW` fails. -/
theorem float_codec_is_integer_codec {σ τ : Type} (R : Reader σ) (W : Writer τ)
    (fuel : Nat) (s : σ) (ws : τ) (f : Float32) (d : Float64) :
    WriteFloat32BE W ws f = WriteUint32BE W ws (Float32bits f) ∧
    ReadFloat32BE R fuel s = Run.mapVal Float32frombits (ReadUint32BE R fuel s) ∧
    (∀ u e s2, ReadUint32BE R fuel s = Run.done ⟨u, some e, s2⟩ →
      ReadFloat32BE R fuel s = Run.done ⟨Float32frombits 0, some e, s2⟩) ∧
    WriteFloat32LE W ws f = WriteUint32LE W ws (Float32bits f) ∧
    ReadFloat32LE R fuel s = Run.mapVal Float32frombits (ReadUint32LE R fuel s) ∧
    (∀ u e s2, ReadUint32LE R fuel s = Run.done ⟨u, some e, s2⟩ →
      ReadFloat32LE R fuel s = Run.done ⟨Float32frombits 0, some e, s2⟩) ∧
    WriteFloat64BE W ws d = WriteUint64BE W ws (Float64bits d) ∧
    ReadFloat64BE R fuel s = Run.mapVal Float64frombits (ReadUint64BE R fuel s) ∧
    (∀ u e s2, ReadUint64BE R fuel s = Run.done ⟨u, some e, s2⟩ →
      ReadFloat64BE R fuel s = Run.done ⟨Float64frombits 0, some e, s2⟩) ∧
    WriteFloat64LE W ws d = WriteUint64LE W ws (Float64bits d) ∧
    ReadFloat64LE R fuel s = Run.mapVal Float64frombits (ReadUint64LE R fuel s) ∧
    (∀ u e s2, ReadUint64LE R fuel s = Run.done ⟨u, some e, s2⟩ →
      ReadFloat64LE R fuel s = Run.done ⟨Float64frombits 0, some e, s2⟩) :=
  ⟨rfl, ReadFloat32BE_eq_mapVal R fuel s,
    fun u e s2 h => ReadFloat32BE_of_uint_err R fuel s s2 u e h,
    rfl, ReadFloat32LE_eq_mapVal R fuel s,
    fun u e s2 h => ReadFloat32LE_of_uint_err R fuel s s2 u e h,
    rfl, ReadFloat64BE_eq_mapVal R fuel s,
    fun u e s2 h => ReadFloat64BE_of_uint_err R fuel s s2 u e h,
    rfl, ReadFloat64LE_eq_mapVal R fuel s,
    fun u e s2 h => ReadFloat64LE_of_uint_err R fuel s s2 u e h⟩

theorem float_codec_is_integer_codec_witness :
    ReadFloat32BE bytesReader 1 [] = Run.done ⟨Float32frombits 0, some Error.EOF, []⟩ ∧
    ReadFloat32LE bytesReader 1 [] = Run.done ⟨Float32frombits 0, some Error.EOF, []⟩ ∧
    ReadFloat64BE bytesReader 1 [] = Run.done ⟨Float64frombits 0, some Error.EOF, []⟩ ∧
    ReadFloat64LE bytesReader 1 [] = Run.done ⟨Float64frombits 0, some Error.EOF, []⟩ := by
  have h := float_codec_is_integer_codec bytesReader bufferWriter 1 [] []
    (Float32frombits 1) (Float64frombits 1)
  exact ⟨h.2.2.1 0 Error.EOF [] (by decide),
    h.2.2.2.2.2.1 0 Error.EOF [] (by decide),
    h.2.2.2.2.2.2.2.2.1 0 Error.EOF [] (by decide),
    h.2.2.2.2.2.2.2.2.2.2.2 0 Error.EOF [] (by decide)⟩

/-! ## The time codec -/

theorem toUnsigned_32_of_range (v : Int) (h0 : 0 ≤ v) (h1 : v < 2 ^ 32) :
    ((toUnsigned 32 v : Nat) : Int) = v ∧ toUnsigned 32 v < 2 ^ 32 := by
  unfold toUnsigned
  norm_num at h1 ⊢
  omega

theorem ReadUnixTimeUTC32BE_buffer_put (fuel : Nat) (t : Time) (hf : 0 < fuel)
    (h0 : 0 ≤ t.Unix) (h1 : t.Unix < 2 ^ 32) :
    ReadUnixTimeUTC32BE bufferReader fuel (BigEndian.PutUint32 (toUnsigned 32 t.Unix)) =
      Run.done ⟨⟨t.Unix, 0, Location.UTC⟩, none, []⟩ := by
  obtain ⟨hc, hu⟩ := toUnsigned_32_of_range t.Unix h0 h1
  have hr := ReadUint32BE_buffer_put fuel _ hf hu
  simp [ReadUnixTimeUTC32BE, hr, timeUnix, Time.UTC, hc]

theorem ReadUnixTime32BE_of_uint_ok {σ : Type} (R : Reader σ) (fuel : Nat) (s s2 : σ)
    (u : Nat) (h : ReadUint32BE R fuel s = Run.done ⟨u, none, s2⟩) :
    ReadUnixTimeUTC32BE R fuel s = Run.done ⟨⟨(u : Int), 0, Location.UTC⟩, none, s2⟩ ∧
    ReadUnixTime32BE R fuel s = Run.done ⟨⟨(u : Int), 0, Location.Local⟩, none, s2⟩ := by
  simp [ReadUnixTimeUTC32BE, ReadUnixTime32BE, h, timeUnix, Time.UTC, Time.Local]

theorem ReadUnixTime32BE_of_uint_err {σ : Type} (R : Reader σ) (fuel : Nat) (s s2 : σ)
    (u : Nat) (e : Error) (h : ReadUint32BE R fuel s = Run.done ⟨u, some e, s2⟩) :
    ReadUnixTimeUTC32BE R fuel s = Run.done ⟨Time.zero, some e, s2⟩ ∧
    ReadUnixTime32BE R fuel s = Run.done ⟨Time.zero, some e, s2⟩ := by
  simp [ReadUnixTimeUTC32BE, ReadUnixTime32BE, h]

theorem ReadUint32BE_bytes_lt (fuel : Nat) (b0 b1 b2 b3 : Byte) (rest : List Byte)
    (hf : 0 < fuel) :
    ∃ u, u < 2 ^ 32 ∧
      ReadUint32BE bytesReader fuel (b0 :: b1 :: b2 :: b3 :: rest) =
        Run.done ⟨u, none, rest⟩ := by
  have h0 := b0.isLt
  have h1 := b1.isLt
  have h2 := b2.isLt
  have h3 := b3.isLt
  refine ⟨b0.val * 256 ^ 3 + b1.val * 256 ^ 2 + b2.val * 256 + b3.val, ?_, ?_⟩
  · norm_num
    omega
  · simp [ReadUint32BE, readN_bytes_ok, hf, beUint32_cons]

theorem ReadUnixTimeUTC32LE_buffer_put (fuel : Nat) (t : Time) (hf : 0 < fuel)
    (h0 : 0 ≤ t.Unix) (h1 : t.Unix < 2 ^ 32) :
    ReadUnixTimeUTC32LE bufferReader fuel (LittleEndian.PutUint32 (toUnsigned 32 t.Unix)) =
      Run.done ⟨⟨t.Unix, 0, Location.UTC⟩, none, []⟩ := by
  obtain ⟨hc, hu⟩ := toUnsigned_32_of_range t.Unix h0 h1
  have hr := ReadUint32LE_buffer_put fuel _ hf hu
  simp [ReadUnixTimeUTC32LE, hr, timeUnix, Time.UTC, hc]

theorem ReadUnixTime32LE_of_uint_ok {σ : Type} (R : Reader σ) (fuel : Nat) (s s2 : σ)
    (u : Nat) (h : ReadUint32LE R fuel s = Run.done ⟨u, none, s2⟩) :
    ReadUnixTimeUTC32LE R fuel s = Run.done ⟨⟨(u : Int), 0, Location.UTC⟩, none, s2⟩ ∧
    ReadUnixTime32LE R fuel s = Run.done ⟨⟨(u : Int), 0, Location.Local⟩, none, s2⟩ := by
  simp [ReadUnixTimeUTC32LE, ReadUnixTime32LE, h, timeUnix, Time.UTC, Time.Local]

theorem ReadUnixTime32LE_of_uint_err {σ : Type} (R : Reader σ) (fuel : Nat) (s s2 : σ)
    (u : Nat) (e : Error) (h : ReadUint32LE R fuel s = Run.done ⟨u, some e, s2⟩) :
    ReadUnixTimeUTC32LE R fuel s = Run.done ⟨Time.zero, some e, s2⟩ ∧
    ReadUnixTime32LE R fuel s = Run.done ⟨Time.zero, some e, s2⟩ := by
  simp [ReadUnixTimeUTC32LE, ReadUnixTime32LE, h]

theorem ReadUint32LE_bytes_lt (fuel : Nat) (b0 b1 b2 b3 : Byte) (rest : List Byte)
    (hf : 0 < fuel) :
    ∃ u, u < 2 ^ 32 ∧
      ReadUint32LE bytesReader fuel (b0 :: b1 :: b2 :: b3 :: rest) =
        Run.done ⟨u, none, rest⟩ := by
  have h0 := b0.isLt
  have h1 := b1.isLt
  have h2 := b2.isLt
  have h3 := b3.isLt
  refine ⟨b0.val + b1.val * 256 + b2.val * 256 ^ 2 + b3.val * 256 ^ 3, ?_, ?_⟩
  · norm_num
    omega
  · simp [ReadUint32LE, readN_bytes_ok, hf, leUint32_cons]

/-- C14. UNIX time write wraps to 32 bits and never rejects a value: for every
time `t` (instants before the epoch and beyond the 32-bit range included),
every writer and each byte order, `WriteUnixTime32` has the outcome of
`WriteUint32` for `t.Unix() mod 2^32`; it returns no error when the writer
accepts those 4 bytes, and on a `bytes.Buffer` exactly those bytes are
appended. -/
theorem unix_time_write_wraps {σ : Type} (W : Writer σ) (s : σ) (buf : List Byte)
    (t : Time) :
    WriteUnixTime32BE W s t = WriteUint32BE W s (t.Unix % 2 ^ 32).toNat ∧
    ((W.write s (BigEndian.PutUint32 (t.Unix % 2 ^ 32).toNat)).err = none →
      (WriteUnixTime32BE W s t).err = none) ∧
    WriteUnixTime32BE bufferWriter buf t =
      ⟨none, buf ++ BigEndian.PutUint32 (t.Unix % 2 ^ 32).toNat⟩ ∧
    WriteUnixTime32LE W s t = WriteUint32LE W s (t.Unix % 2 ^ 32).toNat ∧
    ((W.write s (LittleEndian.PutUint32 (t.Unix % 2 ^ 32).toNat)).err = none →
      (WriteUnixTime32LE W s t).err = none) ∧
    WriteUnixTime32LE bufferWriter buf t =
      ⟨none, buf ++ LittleEndian.PutUint32 (t.Unix % 2 ^ 32).toNat⟩ :=
  ⟨rfl, fun h => congrArg WRet.err (write_accept W s _ h), rfl,
    rfl, fun h => congrArg WRet.err (write_accept W s _ h), rfl⟩

theorem unix_time_write_wraps_witness :
    (WriteUnixTime32BE bufferWriter [] ⟨-1, 0, Location.UTC⟩).err = none ∧
    (WriteUnixTime32LE bufferWriter [] ⟨-1, 0, Location.UTC⟩).err = none ∧
    (WriteUnixTime32BE bufferWriter [] ⟨-1, 0, Location.UTC⟩).st = [255, 255, 255, 255] ∧
    (WriteUnixTime32BE bufferWriter [] ⟨4294967301, 0, Location.UTC⟩).err = none ∧
    (WriteUnixTime32BE bufferWriter [] ⟨4294967301, 0, Location.UTC⟩).st = [0, 0, 0, 5] :=
  ⟨(unix_time_write_wraps bufferWriter [] [] ⟨-1, 0, Location.UTC⟩).2.1 rfl,
    (unix_time_write_wraps bufferWriter [] [] ⟨-1, 0, Location.UTC⟩).2.2.2.2.1 rfl,
    by decide,
    (unix_time_write_wraps bufferWriter [] [] ⟨4294967301, 0, Location.UTC⟩).2.1 rfl,
    by decide⟩

/-- C15. The written UNIX-time bytes do not depend on the location: for every
two time values that denote the same instant (`t1.Equal(t2)`), whatever their
locations, every writer and writer state, `WriteUnixTime32BE` has the same
outcome for both (same bytes handed to the writer), and so does
`WriteUnixTime32LE`. -/
theorem unix_time_bytes_ignore_location {σ : Type} (W : Writer σ) (s : σ) (t1 t2 : Time)
    (h : Time.Equal t1 t2) :
    WriteUnixTime32BE W s t1 = WriteUnixTime32BE W s t2 ∧
    WriteUnixTime32LE W s t1 = WriteUnixTime32LE W s t2 := by
  have hs : t1.Unix = t2.Unix := h.1
  simp [WriteUnixTime32BE, WriteUnixTime32LE, hs]

theorem unix_time_bytes_ignore_location_witness :
    (Time.Equal (timeDate 2012 5 20 23 53 54 0 Location.UTC 0)
        (timeDate 2012 5 21 8 53 54 0 (Location.fixed "JST" 32400) 32400) ∧
      (timeDate 2012 5 20 23 53 54 0 Location.UTC 0).loc ≠
        (timeDate 2012 5 21 8 53 54 0 (Location.fixed "JST" 32400) 32400).loc ∧
      (WriteUnixTime32BE bufferWriter [] (timeDate 2012 5 20 23 53 54 0 Location.UTC 0)).st =
        [79, 185, 132, 18]) ∧
    WriteUnixTime32BE bufferWriter [] (timeDate 2012 5 20 23 53 54 0 Location.UTC 0) =
      WriteUnixTime32BE bufferWriter []
        (timeDate 2012 5 21 8 53 54 0 (Location.fixed "JST" 32400) 32400) ∧
    WriteUnixTime32LE bufferWriter [] (timeDate 2012 5 20 23 53 54 0 Location.UTC 0) =
      WriteUnixTime32LE bufferWriter []
        (timeDate 2012 5 21 8 53 54 0 (Location.fixed "JST" 32400) 32400) :=
  ⟨⟨by decide, by decide, by decide⟩,
    unix_time_bytes_ignore_location bufferWriter []
      (timeDate 2012 5 20 23 53 54 0 Location.UTC 0)
      (timeDate 2012 5 21 8 53 54 0 (Location.fixed "JST" 32400) 32400) (by decide)⟩

/-- C16. UNIX time round trip inside the documented range: for every time `t`
whose whole seconds since the epoch `s` satisfy `0 <= s < 2^31` and each byte
order, reading the 4 bytes `WriteUnixTime32` puts into an empty `bytes.Buffer`
with `ReadUnixTimeUTC32` returns, without error, the instant with exactly `s`
seconds and zero nanoseconds, in UTC; the epoch 1970-01-01T00:00:00Z is
written as `00 00 00 00` and reads back as itself. -/
theorem unix_time_round_trip (fuel : Nat) (t : Time) (hf : 0 < fuel)
    (h0 : 0 ≤ t.Unix) (h1 : t.Unix < 2 ^ 31) :
    ((WriteUnixTime32BE bufferWriter [] t).err = none ∧
      ReadUnixTimeUTC32BE bufferReader fuel (WriteUnixTime32BE bufferWriter [] t).st =
        Run.done ⟨⟨t.Unix, 0, Location.UTC⟩, none, []⟩) ∧
    ((WriteUnixTime32LE bufferWriter [] t).err = none ∧
      ReadUnixTimeUTC32LE bufferReader fuel (WriteUnixTime32LE bufferWriter [] t).st =
        Run.done ⟨⟨t.Unix, 0, Location.UTC⟩, none, []⟩) ∧
    (WriteUnixTime32BE bufferWriter [] (timeDate 1970 1 1 0 0 0 0 Location.UTC 0)).st =
      [0, 0, 0, 0] ∧
    ReadUnixTimeUTC32BE bufferReader fuel [0, 0, 0, 0] =
      Run.done ⟨timeDate 1970 1 1 0 0 0 0 Location.UTC 0, none, []⟩ := by
  have h2 : t.Unix < 2 ^ 32 := by
    norm_num at h1 ⊢
    omega
  refine ⟨⟨rfl, ReadUnixTimeUTC32BE_buffer_put fuel t hf h0 h2⟩,
    ⟨rfl, ReadUnixTimeUTC32LE_buffer_put fuel t hf h0 h2⟩, by decide, ?_⟩
  exact ReadUnixTimeUTC32BE_buffer_put fuel (timeDate 1970 1 1 0 0 0 0 Location.UTC 0) hf
    (by decide) (by decide)

theorem unix_time_round_trip_witness :
    (0 < 1 ∧ 0 ≤ (timeDate 2012 5 21 8 53 54 7 (Location.fixed "JST" 32400) 32400).Unix ∧
      (timeDate 2012 5 21 8 53 54 7 (Location.fixed "JST" 32400) 32400).Unix < 2 ^ 31) ∧
    ReadUnixTimeUTC32BE bufferReader 1 (WriteUnixTime32BE bufferWriter []
        (timeDate 2012 5 21 8 53 54 7 (Location.fixed "JST" 32400) 32400)).st =
      Run.done ⟨⟨1337558034, 0, Location.UTC⟩, none, []⟩ ∧
    ReadUnixTimeUTC32LE bufferReader 1 (WriteUnixTime32LE bufferWriter []
        (timeDate 2012 5 21 8 53 54 7 (Location.fixed "JST" 32400) 32400)).st =
      Run.done ⟨⟨1337558034, 0, Location.UTC⟩, none, []⟩ :=
  ⟨⟨by decide, by decide, by decide⟩,
    (unix_time_round_trip 1 (timeDate 2012 5 21 8 53 54 7 (Location.fixed "JST" 32400) 32400)
      (by decide) (by decide) (by decide)).1.2,
    (unix_time_round_trip 1 (timeDate 2012 5 21 8 53 54 7 (Location.fixed "JST" 32400) 32400)
      (by decide) (by decide) (by decide)).2.1.2⟩

/-- C17 (counterexample). The time 2038-01-19T03:14:08Z, whose seconds since
the epoch are `2^31`, is written as `80 00 00 00` (little-endian `00 00 00 80`)
and read back by `ReadUnixTimeUTC32` as the very same instant, not a different
one; so is the last second before the 32-bit wrap, 2106-02-07T06:28:15Z. -/
theorem year_2038_limit_counterexample :
    (timeDate 2038 1 19 3 14 8 0 Location.UTC 0).Unix = 2 ^ 31 ∧
    (WriteUnixTime32BE bufferWriter [] (timeDate 2038 1 19 3 14 8 0 Location.UTC 0)).st =
      [128, 0, 0, 0] ∧
    ReadUnixTimeUTC32BE bufferReader 1
        (WriteUnixTime32BE bufferWriter [] (timeDate 2038 1 19 3 14 8 0 Location.UTC 0)).st =
      Run.done ⟨timeDate 2038 1 19 3 14 8 0 Location.UTC 0, none, []⟩ ∧
    (WriteUnixTime32LE bufferWriter [] (timeDate 2038 1 19 3 14 8 0 Location.UTC 0)).st =
      [0, 0, 0, 128] ∧
    ReadUnixTimeUTC32LE bufferReader 1
        (WriteUnixTime32LE bufferWriter [] (timeDate 2038 1 19 3 14 8 0 Location.UTC 0)).st =
      Run.done ⟨timeDate 2038 1 19 3 14 8 0 Location.UTC 0, none, []⟩ ∧
    ReadUnixTimeUTC32BE bufferReader 1
        (WriteUnixTime32BE bufferWriter [] (timeDate 2106 2 7 6 28 15 0 Location.UTC 0)).st =
      Run.done ⟨timeDate 2106 2 7 6 28 15 0 Location.UTC 0, none, []⟩ := by
  refine ⟨by decide, by decide, by decide, by decide, by decide, by decide⟩

/-- C18. UNIX time read: for each byte order and every reader, when
`ReadUint32` returns `u` both `ReadUnixTimeUTC32` and `ReadUnixTime32` return
the instant with `u` seconds since the epoch and zero nanoseconds, in UTC and
in the local zone respectively, and when `ReadUint32` fails both fail with the
same error and the zero time; on every `bytes.Reader` stream with at least 4
bytes the reads succeed with such a `u < 2^32` and the two results denote the
same instant. -/
theorem unix_time_read {σ : Type} (R : Reader σ) (fuel : Nat) (s : σ)
    (b0 b1 b2 b3 : Byte) (rest : List Byte) (hf : 0 < fuel) :
    (∀ u s2, ReadUint32BE R fuel s = Run.done ⟨u, none, s2⟩ →
      ReadUnixTimeUTC32BE R fuel s = Run.done ⟨⟨(u : Int), 0, Location.UTC⟩, none, s2⟩ ∧
      ReadUnixTime32BE R fuel s = Run.done ⟨⟨(u : Int), 0, Location.Local⟩, none, s2⟩) ∧
    (∀ u e s2, ReadUint32BE R fuel s = Run.done ⟨u, some e, s2⟩ →
      ReadUnixTimeUTC32BE R fuel s = Run.done ⟨Time.zero, some e, s2⟩ ∧
      ReadUnixTime32BE R fuel s = Run.done ⟨Time.zero, some e, s2⟩) ∧
    (∃ u, u < 2 ^ 32 ∧
      ReadUint32BE bytesReader fuel (b0 :: b1 :: b2 :: b3 :: rest) = Run.done ⟨u, none, rest⟩ ∧
      ReadUnixTimeUTC32BE bytesReader fuel (b0 :: b1 :: b2 :: b3 :: rest) =
        Run.done ⟨⟨(u : Int), 0, Location.UTC⟩, none, rest⟩ ∧
      ReadUnixTime32BE bytesReader fuel (b0 :: b1 :: b2 :: b3 :: rest) =
        Run.done ⟨⟨(u : Int), 0, Location.Local⟩, none, rest⟩ ∧
      Time.Equal ⟨(u : Int), 0, Location.UTC⟩ ⟨(u : Int), 0, Location.Local⟩) ∧
    (∀ u s2, ReadUint32LE R fuel s = Run.done ⟨u, none, s2⟩ →
      ReadUnixTimeUTC32LE R fuel s = Run.done ⟨⟨(u : Int), 0, Location.UTC⟩, none, s2⟩ ∧
      ReadUnixTime32LE R fuel s = Run.done ⟨⟨(u : Int), 0, Location.Local⟩, none, s2⟩) ∧
    (∀ u e s2, ReadUint32LE R fuel s = Run.done ⟨u, some e, s2⟩ →
      ReadUnixTimeUTC32LE R fuel s = Run.done ⟨Time.zero, some e, s2⟩ ∧
      ReadUnixTime32LE R fuel s = Run.done ⟨Time.zero, some e, s2⟩) ∧
    (∃ u, u < 2 ^ 32 ∧
      ReadUint32LE bytesReader fuel (b0 :: b1 :: b2 :: b3 :: rest) = Run.done ⟨u, none, rest⟩ ∧
      ReadUnixTimeUTC32LE bytesReader fuel (b0 :: b1 :: b2 :: b3 :: rest) =
        Run.done ⟨⟨(u : Int), 0, Location.UTC⟩, none, rest⟩ ∧
      ReadUnixTime32LE bytesReader fuel (b0 :: b1 :: b2 :: b3 :: rest) =
        Run.done ⟨⟨(u : Int), 0, Location.Local⟩, none, rest⟩ ∧
      Time.Equal ⟨(u : Int), 0, Location.UTC⟩ ⟨(u : Int), 0, Location.Local⟩) :=
  ⟨fun u s2 h => ReadUnixTime32BE_of_uint_ok R fuel s s2 u h,
    fun u e s2 h => ReadUnixTime32BE_of_uint_err R fuel s s2 u e h,
    (ReadUint32BE_bytes_lt fuel b0 b1 b2 b3 rest hf).imp fun u hu =>
      ⟨hu.1, hu.2, (ReadUnixTime32BE_of_uint_ok _ _ _ _ u hu.2).1,
        (ReadUnixTime32BE_of_uint_ok _ _ _ _ u hu.2).2, rfl, rfl⟩,
    fun u s2 h => ReadUnixTime32LE_of_uint_ok R fuel s s2 u h,
    fun u e s2 h => ReadUnixTime32LE_of_uint_err R fuel s s2 u e h,
    (ReadUint32LE_bytes_lt fuel b0 b1 b2 b3 rest hf).imp fun u hu =>
      ⟨hu.1, hu.2, (ReadUnixTime32LE_of_uint_ok _ _ _ _ u hu.2).1,
        (ReadUnixTime32LE_of_uint_ok _ _ _ _ u hu.2).2, rfl, rfl⟩⟩

theorem unix_time_read_witness :
    (0 < 2) ∧
    (ReadUnixTimeUTC32BE bytesReader 2 [79, 185, 132, 18] =
        Run.done ⟨⟨((1337558034 : Nat) : Int), 0, Location.UTC⟩, none, []⟩ ∧
      ReadUnixTime32BE bytesReader 2 [79, 185, 132, 18] =
        Run.done ⟨⟨((1337558034 : Nat) : Int), 0, Location.Local⟩, none, []⟩) ∧
    (ReadUnixTimeUTC32LE bytesReader 2 [192] =
        Run.done ⟨Time.zero, some (Error.wrap "read failure: " Error.ErrUnexpectedEOF), []⟩ ∧
      ReadUnixTime32LE bytesReader 2 [192] =
        Run.done ⟨Time.zero, some (Error.wrap "read failure: " Error.ErrUnexpectedEOF), []⟩) :=
  ⟨by decide,
    (unix_time_read bytesReader 2 [79, 185, 132, 18] 1 2 3 4 [] (by decide)).1
      1337558034 [] (by decide),
    (unix_time_read bytesReader 2 [192] 1 2 3 4 [] (by decide)).2.2.2.2.1
      0 (Error.wrap "read failure: " Error.ErrUnexpectedEOF) [] (by decide)⟩

/-! ## Calendar times beyond the 32-bit range -/

theorem toUnsigned_32_cast (v : Int) :
    ((toUnsigned 32 v : Nat) : Int) = v % 2 ^ 32 ∧ toUnsigned 32 v < 2 ^ 32 := by
  unfold toUnsigned
  norm_num
  omega

theorem unix_time_read_back_mod (fuel : Nat) (t : Time) (hf : 0 < fuel) :
    ReadUnixTimeUTC32BE bufferReader fuel (WriteUnixTime32BE bufferWriter [] t).st =
      Run.done ⟨⟨t.Unix % 2 ^ 32, 0, Location.UTC⟩, none, []⟩ ∧
    ReadUnixTimeUTC32LE bufferReader fuel (WriteUnixTime32LE bufferWriter [] t).st =
      Run.done ⟨⟨t.Unix % 2 ^ 32, 0, Location.UTC⟩, none, []⟩ ∧
    (2 ^ 32 ≤ t.Unix ∨ t.Unix < 0 → t.Unix % 2 ^ 32 ≠ t.Unix) ∧
    (0 ≤ t.Unix ∧ t.Unix < 2 ^ 32 → t.Unix % 2 ^ 32 = t.Unix) := by
  obtain ⟨hc, hu⟩ := toUnsigned_32_cast t.Unix
  have hb := ReadUint32BE_buffer_put fuel _ hf hu
  have hl := ReadUint32LE_buffer_put fuel _ hf hu
  refine ⟨?_, ?_, ?_, ?_⟩
  · have : (WriteUnixTime32BE bufferWriter [] t).st =
        BigEndian.PutUint32 (toUnsigned 32 t.Unix) := rfl
    rw [this]
    simp [ReadUnixTimeUTC32BE, hb, timeUnix, Time.UTC, hc]
  · have : (WriteUnixTime32LE bufferWriter [] t).st =
        LittleEndian.PutUint32 (toUnsigned 32 t.Unix) := rfl
    rw [this]
    simp [ReadUnixTimeUTC32LE, hl, timeUnix, Time.UTC, hc]
  · intro h
    norm_num at h ⊢
    omega
  · intro h
    norm_num at h ⊢
    omega

/-- C17 (amended). The limit is the wrap of the unsigned 32-bit count, in the
year 2106: a time value at or after 2106-02-07T06:28:16Z is not written
correctly, that is, for every time `t` whose whole seconds since the epoch `s`
satisfy `s >= 2^32`, the 4 bytes `WriteUnixTime32BE/LE` writes for `t`, read
back with `ReadUnixTimeUTC32BE/LE`, denote the instant with `s mod 2^32` seconds
since the epoch, which differ from `s`. For `2^31 <= s < 2^32` the instant read
back has exactly `s` seconds since the epoch. -/
theorem year_2038_limit (fuel : Nat) (t : Time) (hf : 0 < fuel) (hs : 2 ^ 32 ≤ t.Unix) :
    ReadUnixTimeUTC32BE bufferReader fuel (WriteUnixTime32BE bufferWriter [] t).st =
      Run.done ⟨⟨t.Unix % 2 ^ 32, 0, Location.UTC⟩, none, []⟩ ∧
    ReadUnixTimeUTC32LE bufferReader fuel (WriteUnixTime32LE bufferWriter [] t).st =
      Run.done ⟨⟨t.Unix % 2 ^ 32, 0, Location.UTC⟩, none, []⟩ ∧
    (⟨t.Unix % 2 ^ 32, 0, Location.UTC⟩ : Time).Unix ≠ t.Unix ∧
    (∀ u : Time, 2 ^ 31 ≤ u.Unix → u.Unix < 2 ^ 32 →
      ReadUnixTimeUTC32BE bufferReader fuel (WriteUnixTime32BE bufferWriter [] u).st =
        Run.done ⟨⟨u.Unix, 0, Location.UTC⟩, none, []⟩ ∧
      ReadUnixTimeUTC32LE bufferReader fuel (WriteUnixTime32LE bufferWriter [] u).st =
        Run.done ⟨⟨u.Unix, 0, Location.UTC⟩, none, []⟩) := by
  obtain ⟨hb, hl, hne, _⟩ := unix_time_read_back_mod fuel t hf
  refine ⟨hb, hl, hne (Or.inl hs), ?_⟩
  intro u h1 h2
  obtain ⟨hb2, hl2, _, heq⟩ := unix_time_read_back_mod fuel u hf
  have h0 : (0 : Int) ≤ u.Unix := by
    have : (0 : Int) ≤ 2 ^ 31 := by norm_num
    omega
  rw [heq ⟨h0, h2⟩] at hb2 hl2
  exact ⟨hb2, hl2⟩

/-- Witness of C17: the time 2106-02-07T06:28:16Z, whose seconds since the
epoch are `2^32`, is read back as the epoch. -/
theorem year_2038_limit_witness :
    (0 < 1 ∧ 2 ^ 32 ≤ (timeDate 2106 2 7 6 28 16 0 Location.UTC 0).Unix ∧
      (timeDate 2106 2 7 6 28 16 0 Location.UTC 0).Unix % 2 ^ 32 = 0) ∧
    ReadUnixTimeUTC32BE bufferReader 1
        (WriteUnixTime32BE bufferWriter [] (timeDate 2106 2 7 6 28 16 0 Location.UTC 0)).st =
      Run.done ⟨⟨(timeDate 2106 2 7 6 28 16 0 Location.UTC 0).Unix % 2 ^ 32, 0,
        Location.UTC⟩, none, []⟩ ∧
    ReadUnixTimeUTC32LE bufferReader 1
        (WriteUnixTime32LE bufferWriter [] (timeDate 2106 2 7 6 28 16 0 Location.UTC 0)).st =
      Run.done ⟨⟨(timeDate 2106 2 7 6 28 16 0 Location.UTC 0).Unix % 2 ^ 32, 0,
        Location.UTC⟩, none, []⟩ ∧
    (⟨(timeDate 2106 2 7 6 28 16 0 Location.UTC 0).Unix % 2 ^ 32, 0, Location.UTC⟩ :
      Time).Unix ≠ (timeDate 2106 2 7 6 28 16 0 Location.UTC 0).Unix ∧
    (∀ u : Time, 2 ^ 31 ≤ u.Unix → u.Unix < 2 ^ 32 →
      ReadUnixTimeUTC32BE bufferReader 1 (WriteUnixTime32BE bufferWriter [] u).st =
        Run.done ⟨⟨u.Unix, 0, Location.UTC⟩, none, []⟩ ∧
      ReadUnixTimeUTC32LE bufferReader 1 (WriteUnixTime32LE bufferWriter [] u).st =
        Run.done ⟨⟨u.Unix, 0, Location.UTC⟩, none, []⟩) :=
  ⟨⟨by decide, by decide, by decide⟩,
    year_2038_limit 1 (timeDate 2106 2 7 6 28 16 0 Location.UTC 0) (by decide) (by decide)⟩

/-! ## `WriteIPv4` -/

theorem isZeros_take_iff (b : List Byte) (h : 10 ≤ b.length) :
    isZeros (b.take 10) = true ↔ ∀ i, i < 10 → b[i]? = some 0 := by
  unfold isZeros
  rw [List.all_eq_true]
  constructor
  · intro hall i hi
    have hlt : i < b.length := by omega
    have hmem : b[i] ∈ b.take 10 := by
      rw [List.mem_iff_getElem?]
      exact ⟨i, by simp [List.getElem?_take, hi, hlt]⟩
    have := hall _ hmem
    simp at this
    simp [List.getElem?_eq_getElem hlt, this]
  · intro hz x hx
    rw [List.mem_iff_getElem?] at hx
    obtain ⟨i, hi⟩ := hx
    by_cases hlt : i < 10
    · have := hz i hlt
      simp [List.getElem?_take, hlt] at hi
      rw [hi] at this
      simp at this
      simp [this]
    · simp [List.getElem?_take, hlt] at hi

theorem To4_of_length_four (b : List Byte) (h : b.length = 4) : To4 (some b) = some b := by
  simp [To4, h]

theorem To4_of_mapped (b : List Byte) (h16 : b.length = 16)
    (hz : ∀ i, i < 10 → b[i]? = some 0) (h10 : b[10]? = some 255)
    (h11 : b[11]? = some 255) : To4 (some b) = some (b.drop 12) := by
  have hne : ¬ b.length = 4 := by omega
  have hzz := (isZeros_take_iff b (by omega)).2 hz
  have ht : (b.drop 12).take 4 = b.drop 12 :=
    List.take_of_length_le (by simp [List.length_drop, h16])
  simp [To4, hne, h16, hzz, h10, h11, ht]

theorem To4_eq_none_iff (addr : IP) :
    To4 addr = none ↔
      ¬ ((∃ b, addr = some b ∧ b.length = 4) ∨
        (∃ b, addr = some b ∧ b.length = 16 ∧ (∀ i, i < 10 → b[i]? = some 0) ∧
          b[10]? = some 255 ∧ b[11]? = some 255)) := by
  cases addr with
  | none => simp [To4]
  | some b =>
      by_cases h4 : b.length = 4
      · constructor
        · intro h
          simp [To4, h4] at h
        · intro h
          exact absurd (Or.inl ⟨b, rfl, h4⟩) h
      · by_cases h16 : b.length = 16
        · have hz := isZeros_take_iff b (by omega)
          have key : To4 (some b) = none ↔
              ¬ (isZeros (b.take 10) = true ∧ b[10]? = some 255 ∧ b[11]? = some 255) := by
            simp only [To4]
            rw [if_neg h4]
            by_cases hm : isZeros (b.take 10) = true ∧ b[10]? = some 255 ∧
                b[11]? = some 255
            · rw [if_pos ⟨h16, hm⟩]
              simp [hm]
            · rw [if_neg (fun h => hm h.2)]
              simp [hm]
          rw [key, hz]
          constructor
          · intro hn hor
            rcases hor with ⟨b2, hb2, h42⟩ | ⟨b2, hb2, _, hzz, h10, h11⟩
            · cases hb2
              exact h4 h42
            · cases hb2
              exact hn ⟨hzz, h10, h11⟩
          · intro hn hm
            exact hn (Or.inr ⟨b, rfl, h16, hm.1, hm.2.1, hm.2.2⟩)
        · constructor
          · intro _ hor
            rcases hor with ⟨b2, hb2, h42⟩ | ⟨b2, hb2, h162, _⟩
            · cases hb2
              exact h4 h42
            · cases hb2
              exact h16 h162
          · intro _
            simp [To4, h4, h16]

theorem write_err_ne_invalid {σ : Type} (W : Writer σ) (s : σ) (p : List Byte) :
    (write W s p).err ≠ some Error.ErrInvalidIP := by
  cases h : (W.write s p).err <;> simp [write, h]

theorem WriteIPv4_invalid_iff {σ : Type} (W : Writer σ) (s : σ) (addr : IP) :
    (WriteIPv4 W s addr).err = some Error.ErrInvalidIP ↔ To4 addr = none := by
  unfold WriteIPv4
  cases h : To4 addr with
  | none => simp
  | some ip4 => simpa using write_err_ne_invalid W s ip4

theorem WriteIPv4_of_To4 {σ : Type} (W : Writer σ) (s : σ) (addr : IP) (ip4 : List Byte)
    (h : To4 addr = some ip4) : WriteIPv4 W s addr = write W s ip4 := by
  simp [WriteIPv4, h]

/-- C19. `WriteIPv4` rejects exactly the non-IPv4 addresses: for every writer,
it returns `ErrInvalidIP` if and only if `addr` is neither a byte sequence of
length exactly 4 nor a byte sequence of length exactly 16 whose bytes 0..9 are
zero and whose bytes 10 and 11 are `0xff`; for every other `addr` and a writer
that accepts the write it returns no error. -/
theorem WriteIPv4_rejects_exactly {σ : Type} (W : Writer σ) (s : σ) (addr : IP) :
    ((WriteIPv4 W s addr).err = some Error.ErrInvalidIP ↔
      ¬ ((∃ b, addr = some b ∧ b.length = 4) ∨
      (∃ b, addr = some b ∧ b.length = 16 ∧ (∀ i, i < 10 → b[i]? = some 0) ∧
        b[10]? = some 255 ∧ b[11]? = some 255))) ∧
    (((∃ b, addr = some b ∧ b.length = 4) ∨
      (∃ b, addr = some b ∧ b.length = 16 ∧ (∀ i, i < 10 → b[i]? = some 0) ∧
        b[10]? = some 255 ∧ b[11]? = some 255)) →
      (∀ p, (W.write s p).err = none) → (WriteIPv4 W s addr).err = none) := by
  refine ⟨(WriteIPv4_invalid_iff W s addr).trans (To4_eq_none_iff addr), ?_⟩
  intro hacc hw
  cases h : To4 addr with
  | none => exact absurd hacc ((To4_eq_none_iff addr).1 h)
  | some ip4 =>
      rw [WriteIPv4_of_To4 W s addr ip4 h, write_accept W s ip4 (hw ip4)]

theorem WriteIPv4_rejects_exactly_witness :
    (WriteIPv4 bufferWriter [] none).err = some Error.ErrInvalidIP ∧
    (WriteIPv4 bufferWriter [] (some [0])).err = some Error.ErrInvalidIP ∧
    (WriteIPv4 bufferWriter [] (some [0, 0, 0])).err = some Error.ErrInvalidIP ∧
    (WriteIPv4 bufferWriter [] (some [0, 0, 0, 0, 0])).err = some Error.ErrInvalidIP ∧
    (WriteIPv4 bufferWriter [] (some [253, 18, 0, 0, 0, 0, 0, 0, 0, 0, 0, 0, 52, 86, 120, 144])).err =
      some Error.ErrInvalidIP ∧
    (WriteIPv4 bufferWriter [] (some [192, 168, 255, 0])).err = none ∧
    (WriteIPv4 bufferWriter [] (some [0, 0, 0, 0, 0, 0, 0, 0, 0, 0, 255, 255, 10, 255, 255, 255])).err = none :=
  ⟨by decide, by decide, by decide, by decide, by decide,
    (WriteIPv4_rejects_exactly bufferWriter [] (some [192, 168, 255, 0])).2
      (Or.inl ⟨_, rfl, rfl⟩) (fun _ => rfl),
    (WriteIPv4_rejects_exactly bufferWriter [] (some [0, 0, 0, 0, 0, 0, 0, 0, 0, 0, 255, 255, 10, 255, 255, 255])).2
      (Or.inr ⟨_, rfl, rfl, by decide, rfl, rfl⟩) (fun _ => rfl)⟩

/-- C20. `WriteIPv4` output: for every accepted `addr`, `WriteIPv4` hands the
writer exactly 4 bytes in one call: `addr` itself when `addr` is 4 bytes long,
and bytes 12..15 of `addr` when `addr` is a 16-byte IPv4-mapped address; on a
`bytes.Buffer` exactly those 4 bytes are appended. -/
theorem WriteIPv4_output {σ : Type} (W : Writer σ) (s : σ) (buf b : List Byte) :
    (b.length = 4 →
      WriteIPv4 W s (some b) = write W s b ∧
      WriteIPv4 bufferWriter buf (some b) = ⟨none, buf ++ b⟩) ∧
    (b.length = 16 ∧ ((∀ i, i < 10 → b[i]? = some 0) ∧ b[10]? = some 255 ∧ b[11]? = some 255) →
      b.drop 12 = (b.drop 12).take 4 ∧ (b.drop 12).length = 4 ∧
      WriteIPv4 W s (some b) = write W s (b.drop 12) ∧
      WriteIPv4 bufferWriter buf (some b) = ⟨none, buf ++ b.drop 12⟩) := by
  constructor
  · intro h4
    have h := To4_of_length_four b h4
    exact ⟨WriteIPv4_of_To4 W s _ _ h, by rw [WriteIPv4_of_To4 _ _ _ _ h, write_buffer]⟩
  · rintro ⟨h16, hz, h10, h11⟩
    have h := To4_of_mapped b h16 hz h10 h11
    have hl : (b.drop 12).length = 4 := by simp [List.length_drop, h16]
    exact ⟨(List.take_of_length_le (by omega)).symm, hl, WriteIPv4_of_To4 W s _ _ h,
      by rw [WriteIPv4_of_To4 _ _ _ _ h, write_buffer]⟩

theorem WriteIPv4_output_witness :
    WriteIPv4 bufferWriter [7] (some [192, 0, 2, 1]) = ⟨none, [7, 192, 0, 2, 1]⟩ ∧
    WriteIPv4 bufferWriter [] (some [0, 0, 0, 0, 0, 0, 0, 0, 0, 0, 255, 255, 10, 255, 255, 255]) =
      ⟨none, [10, 255, 255, 255]⟩ :=
  ⟨((WriteIPv4_output bufferWriter [] [7] [192, 0, 2, 1]).1 rfl).2,
    ((WriteIPv4_output bufferWriter [] []
      [0, 0, 0, 0, 0, 0, 0, 0, 0, 0, 255, 255, 10, 255, 255, 255]).2
      ⟨rfl, by decide, rfl, rfl⟩).2.2.2⟩

/-! ## `WriteIPv6` and the address round trip -/

theorem To16_of_length_sixteen (b : List Byte) (h : b.length = 16) : To16 (some b) = some b := by
  rcases b with _ | ⟨x0, _ | ⟨x1, _ | ⟨x2, _ | ⟨x3, _ | ⟨x4, rest⟩⟩⟩⟩⟩
  all_goals first
    | (simp only [List.length_cons, List.length_nil] at h; omega)
    | simp [To16, h]

theorem To16_of_four (a0 a1 a2 a3 : Byte) :
    To16 (some [a0, a1, a2, a3]) = some (IPv4 a0 a1 a2 a3) := rfl

theorem To16_eq_none_iff (addr : IP) :
    To16 addr = none ↔
      ¬ ((∃ b, addr = some b ∧ b.length = 4) ∨ (∃ b, addr = some b ∧ b.length = 16)) := by
  cases addr with
  | none => simp [To16]
  | some b =>
      rcases b with _ | ⟨x0, _ | ⟨x1, _ | ⟨x2, _ | ⟨x3, _ | ⟨x4, rest⟩⟩⟩⟩⟩
      · simp [To16]
      · simp [To16]
      · simp [To16]
      · simp [To16]
      · simp [To16]
      · by_cases h : (x0 :: x1 :: x2 :: x3 :: x4 :: rest).length = 16
        · simp [To16, h]
        · simp only [To16, if_neg h, true_iff]
          rintro (⟨b2, hb2, h4⟩ | ⟨b2, hb2, h16⟩)
          · cases hb2
            simp at h4
          · cases hb2
            exact h h16

theorem WriteIPv6_invalid_iff {σ : Type} (W : Writer σ) (s : σ) (addr : IP) :
    (WriteIPv6 W s addr).err = some Error.ErrInvalidIP ↔ To16 addr = none := by
  unfold WriteIPv6
  cases h : To16 addr with
  | none => simp
  | some ip16 => simpa using write_err_ne_invalid W s ip16

theorem WriteIPv6_of_To16 {σ : Type} (W : Writer σ) (s : σ) (addr : IP) (ip16 : List Byte)
    (h : To16 addr = some ip16) : WriteIPv6 W s addr = write W s ip16 := by
  simp [WriteIPv6, h]

theorem IPEqual_mapped (a0 a1 a2 a3 : Byte) :
    IPEqual (some (IPv4 a0 a1 a2 a3)) (some [a0, a1, a2, a3]) = true := by
  simp [IPEqual, IPv4, v4InV6Prefix]

theorem To4_IPv4 (a0 a1 a2 a3 : Byte) :
    To4 (some (IPv4 a0 a1 a2 a3)) = some [a0, a1, a2, a3] := by
  simp [To4, IPv4, v4InV6Prefix, isZeros]

theorem ReadIPv6_buffer_IPv4 (fuel : Nat) (a0 a1 a2 a3 : Byte) (hf : 0 < fuel) :
    ReadIPv6 bufferReader fuel (IPv4 a0 a1 a2 a3) =
      Run.done ⟨some (IPv4 a0 a1 a2 a3), none, []⟩ := by
  simp [ReadIPv6, readN_buffer_ok, hf, IPv4, v4InV6Prefix]

/-- C21. `WriteIPv6` output and IPv4 widening: for every writer, an `addr` of
length exactly 16 is handed to the writer unchanged, and an `addr` of length
exactly 4 with bytes `a0 a1 a2 a3` is handed over as the 16 bytes made of ten
`0x00`, then `0xff 0xff`, then `a0 a1 a2 a3`; on a `bytes.Buffer` exactly
those 16 bytes are appended. -/
theorem WriteIPv6_output {σ : Type} (W : Writer σ) (s : σ) (buf b : List Byte)
    (a0 a1 a2 a3 : Byte) :
    (b.length = 16 →
      WriteIPv6 W s (some b) = write W s b ∧
      WriteIPv6 bufferWriter buf (some b) = ⟨none, buf ++ b⟩) ∧
    WriteIPv6 W s (some [a0, a1, a2, a3]) =
      write W s [0, 0, 0, 0, 0, 0, 0, 0, 0, 0, 255, 255, a0, a1, a2, a3] ∧
    WriteIPv6 bufferWriter buf (some [a0, a1, a2, a3]) =
      ⟨none, buf ++ [0, 0, 0, 0, 0, 0, 0, 0, 0, 0, 255, 255, a0, a1, a2, a3]⟩ := by
  refine ⟨?_, rfl, rfl⟩
  intro h16
  have h := To16_of_length_sixteen b h16
  exact ⟨WriteIPv6_of_To16 W s _ _ h, by rw [WriteIPv6_of_To16 _ _ _ _ h, write_buffer]⟩

theorem WriteIPv6_output_witness :
    WriteIPv6 bufferWriter [] (some [253, 18, 0, 0, 0, 0, 0, 0, 0, 0, 0, 0, 52, 86, 120, 144]) =
      ⟨none, [253, 18, 0, 0, 0, 0, 0, 0, 0, 0, 0, 0, 52, 86, 120, 144]⟩ ∧
    WriteIPv6 bufferWriter [] (some [192, 168, 255, 0]) =
      ⟨none, [0, 0, 0, 0, 0, 0, 0, 0, 0, 0, 255, 255, 192, 168, 255, 0]⟩ :=
  ⟨((WriteIPv6_output bufferWriter [] []
      [253, 18, 0, 0, 0, 0, 0, 0, 0, 0, 0, 0, 52, 86, 120, 144] 192 168 255 0).1 rfl).2,
    (WriteIPv6_output bufferWriter [] [] [] 192 168 255 0).2.2⟩

/-- C22. `WriteIPv6` rejects exactly the addresses that are not 4 or 16 bytes
long: for every writer, it returns `ErrInvalidIP` if and only if the length of
`addr` is neither 4 nor 16 (`nil` has no bytes); for every `addr` of length 4
or 16 and a writer that accepts the write it returns no error. -/
theorem WriteIPv6_rejects_exactly {σ : Type} (W : Writer σ) (s : σ) (addr : IP) :
    ((WriteIPv6 W s addr).err = some Error.ErrInvalidIP ↔
      ¬ ((∃ b, addr = some b ∧ b.length = 4) ∨ (∃ b, addr = some b ∧ b.length = 16))) ∧
    (((∃ b, addr = some b ∧ b.length = 4) ∨ (∃ b, addr = some b ∧ b.length = 16)) →
      (∀ p, (W.write s p).err = none) → (WriteIPv6 W s addr).err = none) := by
  refine ⟨(WriteIPv6_invalid_iff W s addr).trans (To16_eq_none_iff addr), ?_⟩
  intro hacc hw
  cases h : To16 addr with
  | none => exact absurd hacc ((To16_eq_none_iff addr).1 h)
  | some ip16 =>
      rw [WriteIPv6_of_To16 W s addr ip16 h, write_accept W s ip16 (hw ip16)]

theorem WriteIPv6_rejects_exactly_witness :
    (WriteIPv6 bufferWriter [] none).err = some Error.ErrInvalidIP ∧
    (WriteIPv6 bufferWriter [] (some [0])).err = some Error.ErrInvalidIP ∧
    (WriteIPv6 bufferWriter [] (some [0, 0, 0])).err = some Error.ErrInvalidIP ∧
    (WriteIPv6 bufferWriter [] (some (List.replicate 14 0))).err =
      some Error.ErrInvalidIP ∧
    (WriteIPv6 bufferWriter [] (some (List.replicate 15 0))).err =
      some Error.ErrInvalidIP ∧
    (WriteIPv6 bufferWriter [] (some [0, 0, 0, 0])).err = none ∧
    (WriteIPv6 bufferWriter [] (some [253, 18, 0, 0, 0, 0, 0, 0, 0, 0, 0, 0, 52, 86, 120, 144])).err = none :=
  ⟨by decide, by decide, by decide, by decide, by decide,
    (WriteIPv6_rejects_exactly bufferWriter [] (some [0, 0, 0, 0])).2
      (Or.inl ⟨_, rfl, rfl⟩) (fun _ => rfl),
    (WriteIPv6_rejects_exactly bufferWriter [] (some [253, 18, 0, 0, 0, 0, 0, 0, 0, 0, 0, 0, 52, 86, 120, 144])).2
      (Or.inr ⟨_, rfl, rfl⟩) (fun _ => rfl)⟩

/-- C23. Invalid-address failure is atomic: for every writer and writer state,
whenever `WriteIPv4` or `WriteIPv6` returns `ErrInvalidIP` the writer is in
the state it had before the call, so its `Write` has not been called: a
writer that records its calls has recorded none, and the content of a
`bytes.Buffer` is unchanged. -/
theorem invalid_address_is_atomic {σ : Type} (W : Writer σ) (s : σ)
    (log : List (List Byte)) (buf : List Byte) (addr : IP) :
    ((WriteIPv4 W s addr).err = some Error.ErrInvalidIP → (WriteIPv4 W s addr).st = s) ∧
    ((WriteIPv6 W s addr).err = some Error.ErrInvalidIP → (WriteIPv6 W s addr).st = s) ∧
    ((WriteIPv4 recordingWriter log addr).err = some Error.ErrInvalidIP →
      (WriteIPv4 recordingWriter log addr).st = log) ∧
    ((WriteIPv6 recordingWriter log addr).err = some Error.ErrInvalidIP →
      (WriteIPv6 recordingWriter log addr).st = log) ∧
    ((WriteIPv4 bufferWriter buf addr).err = some Error.ErrInvalidIP →
      (WriteIPv4 bufferWriter buf addr).st = buf) ∧
    ((WriteIPv6 bufferWriter buf addr).err = some Error.ErrInvalidIP →
      (WriteIPv6 bufferWriter buf addr).st = buf) := by
  have h4 : ∀ {τ : Type} (V : Writer τ) (x : τ),
      (WriteIPv4 V x addr).err = some Error.ErrInvalidIP → (WriteIPv4 V x addr).st = x := by
    intro τ V x h
    have hn := (WriteIPv4_invalid_iff V x addr).1 h
    simp [WriteIPv4, hn]
  have h6 : ∀ {τ : Type} (V : Writer τ) (x : τ),
      (WriteIPv6 V x addr).err = some Error.ErrInvalidIP → (WriteIPv6 V x addr).st = x := by
    intro τ V x h
    have hn := (WriteIPv6_invalid_iff V x addr).1 h
    simp [WriteIPv6, hn]
  exact ⟨h4 W s, h6 W s, h4 _ log, h6 _ log, h4 _ buf, h6 _ buf⟩

theorem invalid_address_is_atomic_witness :
    (WriteIPv4 recordingWriter [[1]] (some [253, 18, 0, 0, 0, 0, 0, 0, 0, 0, 0, 0, 52, 86, 120, 144])).st = [[1]] ∧
    (WriteIPv6 recordingWriter [[1]] (some [0, 0, 0])).st = [[1]] ∧
    (WriteIPv4 bufferWriter [1, 2] none).st = [1, 2] ∧
    (WriteIPv6 bufferWriter [1, 2] none).st = [1, 2] ∧
    (WriteIPv4 recordingWriter [[1]] (some [192, 0, 2, 1])).st = [[1], [192, 0, 2, 1]] :=
  ⟨(invalid_address_is_atomic bufferWriter [] [[1]] []
      (some [253, 18, 0, 0, 0, 0, 0, 0, 0, 0, 0, 0, 52, 86, 120, 144])).2.2.1 (by decide),
    (invalid_address_is_atomic bufferWriter [] [[1]] [] (some [0, 0, 0])).2.2.2.1 (by decide),
    (invalid_address_is_atomic bufferWriter [] [] [1, 2] none).2.2.2.2.1 (by decide),
    (invalid_address_is_atomic bufferWriter [] [] [1, 2] none).2.2.2.2.2 (by decide),
    by decide⟩

/-- C24. IPv4-mapped round trip: for every 4-byte IPv4 address `a`, writing `a`
with `WriteIPv6` into an empty `bytes.Buffer` succeeds, reading that buffer
with `ReadIPv6` returns, without error, a 16-byte address that `net.IP.Equal`
identifies with `a`, and `WriteIPv4` of that result writes the original 4
bytes of `a`. -/
theorem ipv4_mapped_round_trip (fuel : Nat) (a0 a1 a2 a3 : Byte) (hf : 0 < fuel) :
    (WriteIPv6 bufferWriter [] (some [a0, a1, a2, a3])).err = none ∧
    ∃ r, ReadIPv6 bufferReader fuel (WriteIPv6 bufferWriter [] (some [a0, a1, a2, a3])).st =
        Run.done ⟨some r, none, []⟩ ∧
      r.length = 16 ∧
      IPEqual (some r) (some [a0, a1, a2, a3]) = true ∧
      IPEqual (some [a0, a1, a2, a3]) (some r) = true ∧
      WriteIPv4 bufferWriter [] (some r) = ⟨none, [a0, a1, a2, a3]⟩ := by
  refine ⟨rfl, IPv4 a0 a1 a2 a3, ReadIPv6_buffer_IPv4 fuel a0 a1 a2 a3 hf, rfl,
    IPEqual_mapped a0 a1 a2 a3, ?_, ?_⟩
  · simp [IPEqual, IPv4, v4InV6Prefix]
  · rw [WriteIPv4_of_To4 _ _ _ _ (To4_IPv4 a0 a1 a2 a3), write_buffer]
    rfl

theorem ipv4_mapped_round_trip_witness :
    0 < 1 ∧
    (WriteIPv6 bufferWriter [] (some [192, 0, 2, 128])).err = none ∧
    ∃ r, ReadIPv6 bufferReader 1 (WriteIPv6 bufferWriter [] (some [192, 0, 2, 128])).st =
        Run.done ⟨some r, none, []⟩ ∧
      r.length = 16 ∧
      IPEqual (some r) (some [192, 0, 2, 128]) = true ∧
      IPEqual (some [192, 0, 2, 128]) (some r) = true ∧
      WriteIPv4 bufferWriter [] (some r) = ⟨none, [192, 0, 2, 128]⟩ :=
  ⟨by decide, ipv4_mapped_round_trip 1 192 0 2 128 (by decide)⟩

/-! ## `ReadStringN` -/

theorem IndexByte_of_first (l : List Byte) (c : Byte) (p : Nat) (hp : l[p]? = some c)
    (hfirst : ∀ q, q < p → l[q]? ≠ some c) : IndexByte l c = (p : Int) := by
  have hlt : p < l.length := by
    by_contra hge
    rw [List.getElem?_eq_none (by omega)] at hp
    exact absurd hp (by simp)
  have hfind : l.findIdx? (fun x => decide (x = c)) = some p := by
    rw [List.findIdx?_eq_some_iff_getElem]
    refine ⟨hlt, ?_, ?_⟩
    · rw [List.getElem?_eq_getElem hlt] at hp
      simpa using hp
    · intro j hj
      have hjl : j < l.length := by omega
      have := hfirst j hj
      rw [List.getElem?_eq_getElem hjl] at this
      simpa using this
  simp [IndexByte, hfind]

theorem IndexByte_of_absent (l : List Byte) (c : Byte) (h : ∀ q : Nat, l[q]? ≠ some c) :
    IndexByte l c = -1 := by
  have hfind : l.findIdx? (fun x => decide (x = c)) = none := by
    rw [List.findIdx?_eq_none_iff]
    intro x hx
    rw [List.mem_iff_getElem?] at hx
    obtain ⟨i, hi⟩ := hx
    have := h i
    rw [hi] at this
    simpa using this
  simp [IndexByte, hfind]

theorem ReadStringN_bytes (fuel n : Nat) (bs : List Byte) (pad : Byte) (hf : 0 < fuel)
    (hn : n ≤ bs.length) (hmax : n ≤ maxAlloc) :
    ReadStringN bytesReader fuel bs (n : Int) pad =
      if 0 ≤ IndexByte (bs.take n) pad then
        Run.done ⟨(bs.take n).take (IndexByte (bs.take n) pad).toNat, none, bs.drop n⟩
      else Run.done ⟨bs.take n, none, bs.drop n⟩ := by
  have h := readN_bytes_ok fuel bs (n : Int) hf ⟨by omega, by omega⟩ (by simpa using hn)
  simp only [Int.toNat_ofNat] at h
  simp [ReadStringN, h]

theorem ReadStringN_bytes_found (fuel n : Nat) (bs : List Byte) (pad : Byte) (hf : 0 < fuel)
    (hn : n ≤ bs.length) (hmax : n ≤ maxAlloc) (p : Nat) (hp : p < n) (hpad : bs[p]? = some pad)
    (hfirst : ∀ q, q < p → bs[q]? ≠ some pad) :
    ReadStringN bytesReader fuel bs (n : Int) pad = Run.done ⟨bs.take p, none, bs.drop n⟩ := by
  have hi : IndexByte (bs.take n) pad = (p : Int) := by
    apply IndexByte_of_first
    · simp [List.getElem?_take, hp, hpad]
    · intro q hq
      have hqn : q < n := by omega
      simpa [List.getElem?_take, hqn] using hfirst q hq
  have hmin : min p n = p := by omega
  rw [ReadStringN_bytes fuel n bs pad hf hn hmax, hi]
  simp [List.take_take, hmin]

theorem ReadStringN_bytes_absent (fuel n : Nat) (bs : List Byte) (pad : Byte) (hf : 0 < fuel)
    (hn : n ≤ bs.length) (hmax : n ≤ maxAlloc) (habs : ∀ q, q < n → bs[q]? ≠ some pad) :
    ReadStringN bytesReader fuel bs (n : Int) pad = Run.done ⟨bs.take n, none, bs.drop n⟩ := by
  have hi : IndexByte (bs.take n) pad = -1 := by
    apply IndexByte_of_absent
    intro q
    by_cases hq : q < n
    · simpa [List.getElem?_take, hq] using habs q hq
    · simp [List.getElem?_take, hq]
  rw [ReadStringN_bytes fuel n bs pad hf hn hmax, hi]
  simp

theorem readN_zero {σ : Type} (R : Reader σ) (fuel : Nat) (s : σ) :
    readN R fuel s 0 = Run.done ⟨[], none, s⟩ := by
  simp [readN, ReadFull, ReadAtLeast, ReadAtLeast.loop_stop]

theorem ReadStringN_zero_len {σ : Type} (R : Reader σ) (fuel : Nat) (s : σ) (pad : Byte) :
    ReadStringN R fuel s 0 pad = Run.done ⟨[], none, s⟩ := by
  simp [ReadStringN, readN_zero, IndexByte]

/-- C25. Pad stripping in `ReadStringN`: for every `n >= 0` (within the
allocation limit `maxAlloc`, as every length of a stream in memory is), every
pad byte and every `bytes.Reader` stream `bs` with at least `n` bytes,
`ReadStringN` succeeds; if the pad byte occurs in `bs[0..n)` and `p` is the index of its
first occurrence, the result is exactly `bs[0..p)`; if the pad byte does not
occur in `bs[0..n)`, the result is all `n` bytes `bs[0..n)`. -/
theorem ReadStringN_pad_stripping (fuel n : Nat) (bs : List Byte) (pad : Byte)
    (hf : 0 < fuel) (hn : n ≤ bs.length) (hmax : n ≤ maxAlloc) :
    (∀ p, p < n → bs[p]? = some pad → (∀ q, q < p → bs[q]? ≠ some pad) →
      ReadStringN bytesReader fuel bs (n : Int) pad =
        Run.done ⟨bs.take p, none, bs.drop n⟩) ∧
    ((∀ q, q < n → bs[q]? ≠ some pad) →
      ReadStringN bytesReader fuel bs (n : Int) pad =
        Run.done ⟨bs.take n, none, bs.drop n⟩) :=
  ⟨fun p hp hpad hfirst =>
      ReadStringN_bytes_found fuel n bs pad hf hn hmax p hp hpad hfirst,
    fun habs => ReadStringN_bytes_absent fuel n bs pad hf hn hmax habs⟩

theorem ReadStringN_pad_stripping_witness :
    (0 < 1 ∧ 10 ≤ maxAlloc) ∧
    ReadStringN bytesReader 1 [65, 66, 67, 97, 98, 99, 32, 32, 32, 32] (10 : Nat) 32 =
      Run.done ⟨[65, 66, 67, 97, 98, 99], none, []⟩ ∧
    ReadStringN bytesReader 1 [0, 97, 98, 99, 7] (4 : Nat) 0 = Run.done ⟨[], none, [7]⟩ ∧
    ReadStringN bytesReader 1 [1, 2, 3, 4] (3 : Nat) 0 = Run.done ⟨[1, 2, 3], none, [4]⟩ :=
  ⟨⟨by decide, by decide⟩,
    (ReadStringN_pad_stripping 1 10 [65, 66, 67, 97, 98, 99, 32, 32, 32, 32] 32 (by decide)
      (by decide) (by decide)).1 6
      (by decide) (by decide) (by decide),
    (ReadStringN_pad_stripping 1 4 [0, 97, 98, 99, 7] 0 (by decide) (by decide)
      (by decide)).1 0
      (by decide) (by decide) (by decide),
    (ReadStringN_pad_stripping 1 3 [1, 2, 3, 4] 0 (by decide) (by decide)
      (by decide)).2 (by decide)⟩

/-- C26. `ReadStringN` consumes exactly `n` bytes regardless of the pad
position: for every `bytes.Reader` stream `bs` with at least `n` bytes (`n`
within the allocation limit `maxAlloc`, as every length of a stream in memory
is), `ReadStringN(r, n, pad)` succeeds with a string of at most `n` bytes and the
remaining stream content is exactly `bs[n..]`, whether or not and wherever
the pad byte occurs. -/
theorem ReadStringN_consumes_exactly (fuel n : Nat) (bs : List Byte) (pad : Byte)
    (hf : 0 < fuel) (hn : n ≤ bs.length) (hmax : n ≤ maxAlloc) :
    ∃ v, ReadStringN bytesReader fuel bs (n : Int) pad = Run.done ⟨v, none, bs.drop n⟩ ∧
      v.length ≤ n := by
  rw [ReadStringN_bytes fuel n bs pad hf hn hmax]
  split
  · exact ⟨_, rfl, by
      rw [List.length_take, List.length_take]
      omega⟩
  · exact ⟨_, rfl, by
      rw [List.length_take]
      omega⟩

theorem ReadStringN_consumes_exactly_witness :
    (0 < 1 ∧ 6 ≤ maxAlloc ∧
      readUntilError (fun s => ReadStringN bytesReader 1 s 6 0) 3
          [72, 101, 108, 108, 111, 0, 228, 184, 150, 231, 149, 140] =
        Run.done ⟨[[72, 101, 108, 108, 111], [228, 184, 150, 231, 149, 140]],
          some Error.EOF, []⟩) ∧
    ∃ v, ReadStringN bytesReader 1 [72, 101, 108, 108, 111, 0, 228, 184, 150, 231, 149, 140]
        (6 : Nat) 0 = Run.done ⟨v, none, [228, 184, 150, 231, 149, 140]⟩ ∧
      v.length ≤ 6 :=
  ⟨⟨by decide, by decide, by decide⟩,
    ReadStringN_consumes_exactly 1 6 [72, 101, 108, 108, 111, 0, 228, 184, 150, 231, 149, 140] 0
      (by decide) (by decide) (by decide)⟩

/-- C27. Zero-length fixed string: for every reader in every state, an empty
stream already at end-of-stream included, every budget and every pad byte,
`ReadStringN(r, 0, pad)` returns the empty string with no error and leaves the
reader as it was (`Read` is not called). -/
theorem ReadStringN_zero_length {σ : Type} (R : Reader σ) (fuel : Nat) (s : σ) (pad : Byte)
    (bs : List Byte) :
    ReadStringN R fuel s 0 pad = Run.done ⟨[], none, s⟩ ∧
    ReadStringN bytesReader fuel [] 0 pad = Run.done ⟨[], none, []⟩ ∧
    ReadStringN bytesReader fuel bs 0 pad = Run.done ⟨[], none, bs⟩ ∧
    ReadStringN bufferReader fuel [] 0 pad = Run.done ⟨[], none, []⟩ :=
  ⟨ReadStringN_zero_len R fuel s pad, ReadStringN_zero_len _ fuel [] pad,
    ReadStringN_zero_len _ fuel bs pad, ReadStringN_zero_len _ fuel [] pad⟩

/-! ## `ReadCString` -/

theorem ReadCString.loop_bytes_zero (fuel : Nat) (rest b : List Byte) (t : Nat) :
    ReadCString.loop bytesReader (fuel + 1) (0 :: rest) b t =
      Run.done ⟨(b, t + 1), none, rest⟩ := by
  simp [ReadCString.loop, bytesReader]

theorem ReadCString.loop_bytes_nonzero (fuel : Nat) (c : Byte) (rest b : List Byte) (t : Nat)
    (hc : c ≠ 0) :
    ReadCString.loop bytesReader (fuel + 1) (c :: rest) b t =
      ReadCString.loop bytesReader fuel rest (b ++ [c]) (t + 1) := by
  simp [ReadCString.loop, bytesReader, hc]

theorem ReadCString.loop_bytes_nil (fuel : Nat) (b : List Byte) (t : Nat) :
    ReadCString.loop bytesReader (fuel + 1) [] b t =
      Run.done (ReadCString.onErr b t Error.EOF []) := by
  simp [ReadCString.loop, bytesReader]

theorem ReadCString.loop_bytes_terminated (pre : List Byte) (hpre : ∀ x ∈ pre, x ≠ 0)
    (rest : List Byte) :
    ∀ (fuel : Nat) (b : List Byte) (t : Nat), pre.length + 1 ≤ fuel →
      ReadCString.loop bytesReader fuel (pre ++ 0 :: rest) b t =
        Run.done ⟨(b ++ pre, t + pre.length + 1), none, rest⟩ := by
  induction pre with
  | nil =>
      intro fuel b t hfuel
      obtain ⟨f, rfl⟩ : ∃ f, fuel = f + 1 := ⟨fuel - 1, by simp at hfuel; omega⟩
      simp [ReadCString.loop_bytes_zero]
  | cons c pre ih =>
      intro fuel b t hfuel
      have hc : c ≠ 0 := hpre c (List.mem_cons_self c pre)
      have hrest : ∀ x ∈ pre, x ≠ 0 := fun x hx => hpre x (List.mem_cons_of_mem c hx)
      simp only [List.length_cons] at hfuel
      obtain ⟨f, rfl⟩ : ∃ f, fuel = f + 1 := ⟨fuel - 1, by omega⟩
      have e1 : b ++ [c] ++ pre = b ++ c :: pre := by simp
      have e2 : t + 1 + pre.length + 1 = t + (pre.length + 1) + 1 := by omega
      rw [List.cons_append, ReadCString.loop_bytes_nonzero f c _ b t hc,
        ih hrest f (b ++ [c]) (t + 1) (by omega), e1, List.length_cons, e2]

theorem ReadCString.loop_bytes_unterminated (pre : List Byte) (hpre : ∀ x ∈ pre, x ≠ 0) :
    ∀ (fuel : Nat) (b : List Byte) (t : Nat), pre.length + 1 ≤ fuel →
      ReadCString.loop bytesReader fuel pre b t =
        Run.done (ReadCString.onErr (b ++ pre) (t + pre.length) Error.EOF []) := by
  induction pre with
  | nil =>
      intro fuel b t hfuel
      obtain ⟨f, rfl⟩ : ∃ f, fuel = f + 1 := ⟨fuel - 1, by simp at hfuel; omega⟩
      simp [ReadCString.loop_bytes_nil]
  | cons c pre ih =>
      intro fuel b t hfuel
      have hc : c ≠ 0 := hpre c (List.mem_cons_self c pre)
      have hrest : ∀ x ∈ pre, x ≠ 0 := fun x hx => hpre x (List.mem_cons_of_mem c hx)
      simp only [List.length_cons] at hfuel
      obtain ⟨f, rfl⟩ : ∃ f, fuel = f + 1 := ⟨fuel - 1, by omega⟩
      have e1 : b ++ [c] ++ pre = b ++ c :: pre := by simp
      have e2 : t + 1 + pre.length = t + (pre.length + 1) := by omega
      rw [ReadCString.loop_bytes_nonzero f c _ b t hc, ih hrest f (b ++ [c]) (t + 1) (by omega),
        e1, List.length_cons, e2]

theorem split_at_first (bs : List Byte) (c : Byte) (p : Nat) (hp : bs[p]? = some c)
    (hfirst : ∀ q, q < p → bs[q]? ≠ some c) :
    bs = bs.take p ++ c :: bs.drop (p + 1) ∧ (bs.take p).length = p ∧
      ∀ x ∈ bs.take p, x ≠ c := by
  have hlt : p < bs.length := by
    by_contra hge
    rw [List.getElem?_eq_none (by omega)] at hp
    exact absurd hp (by simp)
  have hget : bs[p] = c := by
    rw [List.getElem?_eq_getElem hlt] at hp
    exact Option.some.inj hp
  refine ⟨?_, by simp [List.length_take]; omega, ?_⟩
  · rw [← hget, ← List.drop_eq_getElem_cons hlt, List.take_append_drop]
  · intro x hx hxc
    rw [List.mem_iff_getElem?] at hx
    obtain ⟨i, hi⟩ := hx
    by_cases hip : i < p
    · have := hfirst i hip
      simp [List.getElem?_take, hip] at hi
      rw [hi, hxc] at this
      exact this rfl
    · simp [List.getElem?_take, hip] at hi

theorem ReadCString_bytes_terminated (fuel : Nat) (bs : List Byte) (p : Nat)
    (hp : bs[p]? = some 0) (hfirst : ∀ q, q < p → bs[q]? ≠ some 0) (hfuel : p + 1 ≤ fuel) :
    ReadCString bytesReader fuel bs =
      Run.done ⟨(bs.take p, p + 1), none, bs.drop (p + 1)⟩ := by
  obtain ⟨hsplit, hlen, hno⟩ := split_at_first bs 0 p hp hfirst
  have h := ReadCString.loop_bytes_terminated (bs.take p) hno (bs.drop (p + 1)) fuel [] 0
    (by omega)
  rw [← hsplit] at h
  rw [ReadCString, h, hlen]
  simp

theorem ReadCString_bytes_unterminated (fuel : Nat) (bs : List Byte) (hne : bs ≠ [])
    (hno : (0 : Byte) ∉ bs) (hfuel : bs.length + 1 ≤ fuel) :
    ReadCString bytesReader fuel bs = Run.done ⟨(bs, bs.length), none, []⟩ := by
  have hpos : 0 < bs.length := List.length_pos.2 hne
  have h := ReadCString.loop_bytes_unterminated bs
    (fun x hx hx0 => hno (hx0 ▸ hx)) fuel [] 0 hfuel
  rw [ReadCString, h]
  simp [ReadCString.onErr, Error.Is, hpos]

theorem ReadCString.loop_err_cases {σ : Type} (R : Reader σ) :
    ∀ (fuel : Nat) (s : σ) (b : List Byte) (t : Nat) (str : List Byte) (t2 : Nat) (e : Error)
      (s2 : σ), ReadCString.loop R fuel s b t = Run.done ⟨(str, t2), some e, s2⟩ →
      (e = Error.EOF ∧ t2 = 0 ∧ t = 0 ∧ str = b) ∨
      (∃ e0, e = Error.wrap "read failure: " e0 ∧ Error.Is e0 Error.EOF = false) := by
  intro fuel
  induction fuel with
  | zero =>
      intro s b t str t2 e s2 h
      simp [ReadCString.loop] at h
  | succ f ih =>
      intro s b t str t2 e s2 h
      have honerr : ∀ (b1 : List Byte) (t1 : Nat) (err : Error) (st : σ),
          Run.done (ReadCString.onErr b1 t1 err st) = Run.done ⟨(str, t2), some e, s2⟩ →
          (e = Error.EOF ∧ t2 = 0 ∧ t1 = 0 ∧ str = b1) ∨
          (∃ e0, e = Error.wrap "read failure: " e0 ∧ Error.Is e0 Error.EOF = false) := by
        intro b1 t1 err st hh
        unfold ReadCString.onErr at hh
        by_cases his : Error.Is err Error.EOF = true
        · by_cases ht : 0 < t1
          · simp [his, ht] at hh
          · simp [his, ht] at hh
            obtain ⟨⟨h1, h2⟩, h3, _⟩ := hh
            exact Or.inl ⟨h3.symm, by omega, by omega, h1.symm⟩
        · simp [his] at hh
          exact Or.inr ⟨err, hh.2.1.symm, by simpa using his⟩
      simp only [ReadCString.loop] at h
      split at h
      · next c hdata =>
          by_cases hc : c = 0
          · simp [hc] at h
          · simp only [hc, if_false] at h
            split at h
            · next err herr =>
                rcases honerr _ _ _ _ h with ⟨_, _, h0, _⟩ | hw
                · omega
                · exact Or.inr hw
            · next herr =>
                rcases ih _ _ _ _ _ _ _ h with ⟨_, _, h0, _⟩ | hw
                · omega
                · exact Or.inr hw
      · next hdata =>
          split at h
          · next err herr => exact honerr _ _ _ _ h
          · next herr => exact ih _ _ _ _ _ _ _ h

theorem ReadCString_at_eof {σ : Type} (R : Reader σ) (fuel : Nat) (s : σ) (e : Error)
    (hf : 0 < fuel) (hdata : (R.read s 1).data = []) (herr : (R.read s 1).err = some e)
    (he : Error.Is e Error.EOF = true) :
    ReadCString R fuel s = Run.done ⟨([], 0), some Error.EOF, (R.read s 1).st⟩ := by
  obtain ⟨f, rfl⟩ : ∃ f, fuel = f + 1 := ⟨fuel - 1, by omega⟩
  simp [ReadCString, ReadCString.loop, hdata, herr, ReadCString.onErr, he]

theorem wrap_not_eof (m : String) (e0 : Error) (h : Error.Is e0 Error.EOF = false) :
    Error.wrap m e0 ≠ Error.EOF ∧ Error.Is (Error.wrap m e0) Error.EOF = false := by
  simp [Error.Is, h]

/-- C28. `ReadCString` with a terminator: for every `bytes.Reader` stream `bs`
that contains a `0x00` byte, with `p` the index of the first `0x00`,
`ReadCString` returns the string `bs[0..p)`, the count `p + 1` and no error,
and the remaining stream content is exactly `bs[p+1..]`. -/
theorem ReadCString_with_terminator (fuel : Nat) (bs : List Byte) (p : Nat)
    (hp : bs[p]? = some 0) (hfirst : ∀ q, q < p → bs[q]? ≠ some 0) (hfuel : p + 1 ≤ fuel) :
    ReadCString bytesReader fuel bs =
      Run.done ⟨(bs.take p, p + 1), none, bs.drop (p + 1)⟩ :=
  ReadCString_bytes_terminated fuel bs p hp hfirst hfuel

theorem ReadCString_with_terminator_witness :
    ReadCString bytesReader 9 [65, 66, 67, 32, 97, 98, 99, 32, 0, 65, 66] =
      Run.done ⟨([65, 66, 67, 32, 97, 98, 99, 32], 9), none, [65, 66]⟩ :=
  ReadCString_with_terminator 9 [65, 66, 67, 32, 97, 98, 99, 32, 0, 65, 66] 8 (by decide) (by decide) (by decide)

/-- C29. `ReadCString` without a terminator succeeds: for every non-empty
`bytes.Reader` stream `bs` that contains no `0x00` byte, `ReadCString` returns
the string consisting of all bytes of `bs`, the count `len(bs)` and no error,
and leaves the stream empty. -/
theorem ReadCString_without_terminator (fuel : Nat) (bs : List Byte) (hne : bs ≠ [])
    (hno : (0 : Byte) ∉ bs) (hfuel : bs.length + 1 ≤ fuel) :
    ReadCString bytesReader fuel bs = Run.done ⟨(bs, bs.length), none, []⟩ :=
  ReadCString_bytes_unterminated fuel bs hne hno hfuel

theorem ReadCString_without_terminator_witness :
    ReadCString bytesReader 4 [65, 66, 67] = Run.done ⟨([65, 66, 67], 3), none, []⟩ :=
  ReadCString_without_terminator 4 [65, 66, 67] (by decide) (by decide) (by decide)

/-- C30. `ReadCString` on an empty stream: when the first `Read` finds the
stream at end-of-stream (no byte and an error matching `io.EOF`; an empty
`bytes.Reader` in particular), `ReadCString` returns the empty string, the
count 0 and exactly `io.EOF`; and, for every reader, whenever `ReadCString`
returns an error together with a count of at least one, that error is not
`io.EOF` and does not match it. -/
theorem ReadCString_empty_stream {σ : Type} (R : Reader σ) (fuel : Nat) (s : σ)
    (hf : 0 < fuel) :
    ReadCString bytesReader fuel [] = Run.done ⟨([], 0), some Error.EOF, []⟩ ∧
    (∀ e, (R.read s 1).data = [] → (R.read s 1).err = some e →
      Error.Is e Error.EOF = true →
      ReadCString R fuel s = Run.done ⟨([], 0), some Error.EOF, (R.read s 1).st⟩) ∧
    (∀ str t e s2, ReadCString R fuel s = Run.done ⟨(str, t), some e, s2⟩ → 0 < t →
      e ≠ Error.EOF ∧ Error.Is e Error.EOF = false) ∧
    (∀ str t s2, ReadCString R fuel s = Run.done ⟨(str, t), some Error.EOF, s2⟩ →
      t = 0 ∧ str = []) := by
  refine ⟨ReadCString_at_eof bytesReader fuel [] Error.EOF hf rfl rfl rfl,
    fun e hdata herr he => ReadCString_at_eof R fuel s e hf hdata herr he, ?_, ?_⟩
  · intro str t e s2 h ht
    rcases ReadCString.loop_err_cases R fuel s [] 0 str t e s2 h with ⟨_, h0, _, _⟩ | ⟨e0, he, h0⟩
    · omega
    · rw [he]
      exact wrap_not_eof _ e0 h0
  · intro str t s2 h
    rcases ReadCString.loop_err_cases R fuel s [] 0 str t Error.EOF s2 h with
      ⟨_, h0, _, hs⟩ | ⟨e0, he, _⟩
    · exact ⟨h0, hs⟩
    · cases he

theorem ReadCString_empty_stream_witness :
    (0 < 5) ∧
    ReadCString bytesReader 5 [] = Run.done ⟨([], 0), some Error.EOF, []⟩ ∧
    ReadCString scriptReader 5 [([], some (Error.wrap "closed: " Error.EOF))] =
      Run.done ⟨([], 0), some Error.EOF, []⟩ ∧
    (Error.wrap "read failure: " (Error.other 3) ≠ Error.EOF ∧
      Error.Is (Error.wrap "read failure: " (Error.other 3)) Error.EOF = false) :=
  ⟨by decide,
    (ReadCString_empty_stream bytesReader 5 [] (by decide)).1,
    (ReadCString_empty_stream scriptReader 5
      [([], some (Error.wrap "closed: " Error.EOF))] (by decide)).2.1
      (Error.wrap "closed: " Error.EOF) rfl rfl rfl,
    (ReadCString_empty_stream scriptReader 5
      [([65], none), ([66], some (Error.other 3))] (by decide)).2.2.1
      [65, 66] 2 (Error.wrap "read failure: " (Error.other 3)) [] (by decide) (by decide)⟩

/-! ## `ReadCString` on a read fault -/

/-- The bytes delivered before a fault as described by `FaultsAfter` contain no
`0x00`. -/
theorem FaultsAfter.no_null {σ : Type} (R : Reader σ) (e : Error) {s s2 : σ} {ds : List Byte}
    (h : FaultsAfter R e s ds s2) : (0 : Byte) ∉ ds := by
  induction h with
  | now s _ hnz => exact hnz
  | later s ds s2 _ hnz _ ih =>
      intro hmem
      rcases List.mem_append.1 hmem with h1 | h2
      · exact hnz h1
      · exact ih h2

/-- The loop of `ReadCString`, entered with `b` and `t`, on a reader that faults
with a non-EOF error `e` after delivering the non-null bytes `ds`: with enough
fuel it returns `b ++ ds`, the count `t + len(ds)` and the wrapped `e`. -/
theorem ReadCString.loop_read_fault {σ : Type} (R : Reader σ) (e : Error) {s s2 : σ}
    {ds : List Byte} (h : FaultsAfter R e s ds s2) (he : Error.Is e Error.EOF = false) :
    ∀ (b : List Byte) (t : Nat), ∃ fuel0, ∀ fuel, fuel0 ≤ fuel →
      ReadCString.loop R fuel s b t =
        Run.done ⟨(b ++ ds, t + ds.length), some (Error.wrap "read failure: " e), s2⟩ := by
  induction h with
  | now s herr hnz =>
      intro b t
      refine ⟨1, ?_⟩
      intro fuel hfuel
      obtain ⟨f, rfl⟩ : ∃ f, fuel = f + 1 := ⟨fuel - 1, by omega⟩
      have hle := R.read_le s 1
      rcases hd : (R.read s 1).data with _ | ⟨c, _ | ⟨c2, rest⟩⟩
      · simp [ReadCString.loop, hd, herr, ReadCString.onErr, he]
      · have hc : c ≠ 0 := by
          intro h0
          apply hnz
          rw [hd, h0]
          simp
        simp [ReadCString.loop, hd, herr, ReadCString.onErr, he, hc]
      · rw [hd] at hle
        simp at hle
  | later s ds s2 hnone hnz _ ih =>
      intro b t
      have hle := R.read_le s 1
      rcases hd : (R.read s 1).data with _ | ⟨c, _ | ⟨c2, rest⟩⟩
      · obtain ⟨f0, hf0⟩ := ih b t
        refine ⟨f0 + 1, ?_⟩
        intro fuel hfuel
        obtain ⟨f, rfl⟩ : ∃ f, fuel = f + 1 := ⟨fuel - 1, by omega⟩
        have := hf0 f (by omega)
        simp [ReadCString.loop, hd, hnone, this]
      · have hc : c ≠ 0 := by
          intro h0
          apply hnz
          rw [hd, h0]
          simp
        obtain ⟨f0, hf0⟩ := ih (b ++ [c]) (t + 1)
        refine ⟨f0 + 1, ?_⟩
        intro fuel hfuel
        obtain ⟨f, rfl⟩ : ∃ f, fuel = f + 1 := ⟨fuel - 1, by omega⟩
        have := hf0 f (by omega)
        simp [ReadCString.loop, hd, hnone, hc, this]
        omega
      · rw [hd] at hle
        simp at hle

/-- C31 (counterexample). A one-byte `Read` call reports an error that is not
`io.EOF`, yet `ReadCString` returns a `nil` error: first, the reader delivers
`A`, then the `0x00` terminator together with the error `other 3`, and the loop
leaves at the terminator before it looks at the error; second, the reader
delivers `A` together with an error that wraps `io.EOF`, which `errors.Is`
takes for the end of the stream. -/
theorem ReadCString_fault_wraps_cause_counterexample :
    ReadCString scriptReader 5 [([65], none), ([0], some (Error.other 3))] =
      Run.done ⟨([65], 2), none, []⟩ ∧
    Error.other 3 ≠ Error.EOF ∧
    ReadCString scriptReader 5 [([65], some (Error.wrap "closed: " Error.EOF))] =
      Run.done ⟨([65], 1), none, []⟩ ∧
    Error.wrap "closed: " Error.EOF ≠ Error.EOF :=
  ⟨by decide, by decide, by decide, by decide⟩

/-- C31 (amended). `ReadCString` on an I/O fault: for every reader, if one of
the one-byte `Read` calls reports an error `e` that does not match `io.EOF`,
the earlier calls having reported none and no call so far, the failing one
included, having delivered a `0x00` byte, then `ReadCString` (given enough
fuel) fails with the error that wraps `e`, and returns with it the string of
the bytes `ds` delivered so far, none of them null, and their number as the
count; the reader is left as after the failing call. -/
theorem ReadCString_fault_wraps_cause {σ : Type} (R : Reader σ) (e : Error) (s s2 : σ)
    (ds : List Byte) (h : FaultsAfter R e s ds s2) (he : Error.Is e Error.EOF = false) :
    (0 : Byte) ∉ ds ∧
    ∃ fuel0, ∀ fuel, fuel0 ≤ fuel → ∃ err,
      ReadCString R fuel s = Run.done ⟨(ds, ds.length), some err, s2⟩ ∧
      err = Error.wrap "read failure: " e ∧ Error.Is err e = true := by
  refine ⟨FaultsAfter.no_null R e h, ?_⟩
  obtain ⟨f0, hf0⟩ := ReadCString.loop_read_fault R e h he [] 0
  refine ⟨f0, ?_⟩
  intro fuel hfuel
  refine ⟨Error.wrap "read failure: " e, ?_, rfl, wrap_matches_cause _ _⟩
  have := hf0 fuel hfuel
  simpa [ReadCString] using this

/-- Witness of C31: a reader that delivers `A` and then `B` together with the
error `other 3`. -/
theorem ReadCString_fault_wraps_cause_witness :
    (0 : Byte) ∉ ([65, 66] : List Byte) ∧
    ∃ fuel0, ∀ fuel, fuel0 ≤ fuel → ∃ err,
      ReadCString scriptReader fuel [([65], none), ([66], some (Error.other 3))] =
        Run.done ⟨(([65, 66] : List Byte), ([65, 66] : List Byte).length), some err, []⟩ ∧
      err = Error.wrap "read failure: " (Error.other 3) ∧
      Error.Is err (Error.other 3) = true :=
  ReadCString_fault_wraps_cause scriptReader (Error.other 3)
    [([65], none), ([66], some (Error.other 3))] [] [65, 66]
    (FaultsAfter.later [([65], none), ([66], some (Error.other 3))] [66] []
      (by decide) (by decide)
      (FaultsAfter.now [([66], some (Error.other 3))] (by decide) (by decide)))
    (by decide)

/-! ## Write faults and short writes -/

/-- The checked writer `write` makes exactly one call of `Write` with the
buffer it was given, and wraps the error of that call. -/
theorem write_calls_once (E : List Byte) : CallsWriteOnce (fun _ W s => write W s E) E := by
  refine ⟨fun log => rfl, fun e log => rfl, ?_⟩
  intro σ W s
  refine ⟨?_, ?_, ?_⟩
  · cases h : (W.write s E).err <;> simp [write, h]
  · intro h
    simp [write, h]
  · intro e h
    refine ⟨?_, wrap_matches_cause _ _⟩
    simp [write, h]

/-- A valid IPv4 address has 4 bytes after `To4`. -/
theorem To4_length (addr : IP) (ip4 : List Byte) (h : To4 addr = some ip4) :
    ip4.length = 4 := by
  cases addr with
  | none => simp [To4] at h
  | some b =>
      simp only [To4] at h
      split at h
      · rename_i h4
        cases h
        exact h4
      · split at h
        · rename_i h16
          cases h
          simp [List.length_take, List.length_drop, h16.1]
        · cases h

/-- A valid address has 16 bytes after `To16`. -/
theorem To16_length (addr : IP) (ip16 : List Byte) (h : To16 addr = some ip16) :
    ip16.length = 16 := by
  cases addr with
  | none => simp [To16] at h
  | some b =>
      simp only [To16] at h
      split at h
      · cases h
        rfl
      · split at h
        · rename_i h16
          cases h
          exact h16
        · cases h

/-- C32 (counterexample). `WriteIPv4` and `WriteIPv6` given an address that is
not valid (here the `nil` address) return `ErrInvalidIP` without any call of
`Write`: the log of the recording writer stays empty. -/
theorem write_fault_surfaces_counterexample :
    WriteIPv4 recordingWriter [] none = ⟨some Error.ErrInvalidIP, []⟩ ∧
    WriteIPv6 recordingWriter [] none = ⟨some Error.ErrInvalidIP, []⟩ :=
  ⟨by decide, by decide⟩

/-- C32 (amended). Checked writer surfaces a write fault: the checked writer
and every typed write that has an encoding to write (the integer, float and
UNIX-time writes for every value, `WriteIPv4` and `WriteIPv6` for a valid
address) call `Write` of the underlying writer exactly once with the complete
fixed-size encoding, never a second time and never in parts, and if that call
returns an error `e` the typed write returns an error that wraps `e`;
`WriteIPv4` and `WriteIPv6` given an address that is not valid make no call. -/
theorem write_fault_surfaces (a4 a6 : IP) (ip4 ip16 : List Byte)
    (h4 : To4 a4 = some ip4) (h16 : To16 a6 = some ip16) :
    (∀ E, CallsWriteOnce (fun _ W s => write W s E) E) ∧
    (∀ v, CallsWriteOnce (fun _ W s => WriteUint8 W s v) ([byte v]) ∧
      ([byte v]).length = 1) ∧
    (∀ v, CallsWriteOnce (fun _ W s => WriteInt8 W s v) ([byte (toUnsigned 8 v)]) ∧
      ([byte (toUnsigned 8 v)]).length = 1) ∧
    (∀ v, CallsWriteOnce (fun _ W s => WriteUint16BE W s v) (BigEndian.PutUint16 v) ∧
      (BigEndian.PutUint16 v).length = 2) ∧
    (∀ v, CallsWriteOnce (fun _ W s => WriteUint16LE W s v) (LittleEndian.PutUint16 v) ∧
      (LittleEndian.PutUint16 v).length = 2) ∧
    (∀ v, CallsWriteOnce (fun _ W s => WriteInt16BE W s v) (BigEndian.PutUint16 (toUnsigned 16 v)) ∧
      (BigEndian.PutUint16 (toUnsigned 16 v)).length = 2) ∧
    (∀ v, CallsWriteOnce (fun _ W s => WriteInt16LE W s v) (LittleEndian.PutUint16 (toUnsigned 16 v)) ∧
      (LittleEndian.PutUint16 (toUnsigned 16 v)).length = 2) ∧
    (∀ v, CallsWriteOnce (fun _ W s => WriteUint32BE W s v) (BigEndian.PutUint32 v) ∧
      (BigEndian.PutUint32 v).length = 4) ∧
    (∀ v, CallsWriteOnce (fun _ W s => WriteUint32LE W s v) (LittleEndian.PutUint32 v) ∧
      (LittleEndian.PutUint32 v).length = 4) ∧
    (∀ v, CallsWriteOnce (fun _ W s => WriteInt32BE W s v) (BigEndian.PutUint32 (toUnsigned 32 v)) ∧
      (BigEndian.PutUint32 (toUnsigned 32 v)).length = 4) ∧
    (∀ v, CallsWriteOnce (fun _ W s => WriteInt32LE W s v) (LittleEndian.PutUint32 (toUnsigned 32 v)) ∧
      (LittleEndian.PutUint32 (toUnsigned 32 v)).length = 4) ∧
    (∀ v, CallsWriteOnce (fun _ W s => WriteUint64BE W s v) (BigEndian.PutUint64 v) ∧
      (BigEndian.PutUint64 v).length = 8) ∧
    (∀ v, CallsWriteOnce (fun _ W s => WriteUint64LE W s v) (LittleEndian.PutUint64 v) ∧
      (LittleEndian.PutUint64 v).length = 8) ∧
    (∀ v, CallsWriteOnce (fun _ W s => WriteInt64BE W s v) (BigEndian.PutUint64 (toUnsigned 64 v)) ∧
      (BigEndian.PutUint64 (toUnsigned 64 v)).length = 8) ∧
    (∀ v, CallsWriteOnce (fun _ W s => WriteInt64LE W s v) (LittleEndian.PutUint64 (toUnsigned 64 v)) ∧
      (LittleEndian.PutUint64 (toUnsigned 64 v)).length = 8) ∧
    (∀ v, CallsWriteOnce (fun _ W s => WriteFloat32BE W s v) (BigEndian.PutUint32 (Float32bits v)) ∧
      (BigEndian.PutUint32 (Float32bits v)).length = 4) ∧
    (∀ v, CallsWriteOnce (fun _ W s => WriteFloat32LE W s v) (LittleEndian.PutUint32 (Float32bits v)) ∧
      (LittleEndian.PutUint32 (Float32bits v)).length = 4) ∧
    (∀ v, CallsWriteOnce (fun _ W s => WriteFloat64BE W s v) (BigEndian.PutUint64 (Float64bits v)) ∧
      (BigEndian.PutUint64 (Float64bits v)).length = 8) ∧
    (∀ v, CallsWriteOnce (fun _ W s => WriteFloat64LE W s v) (LittleEndian.PutUint64 (Float64bits v)) ∧
      (LittleEndian.PutUint64 (Float64bits v)).length = 8) ∧
    (∀ t, CallsWriteOnce (fun _ W s => WriteUnixTime32BE W s t) (BigEndian.PutUint32 (toUnsigned 32 t.Unix)) ∧
      (BigEndian.PutUint32 (toUnsigned 32 t.Unix)).length = 4) ∧
    (∀ t, CallsWriteOnce (fun _ W s => WriteUnixTime32LE W s t) (LittleEndian.PutUint32 (toUnsigned 32 t.Unix)) ∧
      (LittleEndian.PutUint32 (toUnsigned 32 t.Unix)).length = 4) ∧
    (CallsWriteOnce (fun _ W s => WriteIPv4 W s a4) ip4 ∧ ip4.length = 4) ∧
    (CallsWriteOnce (fun _ W s => WriteIPv6 W s a6) ip16 ∧ ip16.length = 16) ∧
    (∀ addr log, To4 addr = none →
      WriteIPv4 recordingWriter log addr = ⟨some Error.ErrInvalidIP, log⟩) ∧
    (∀ addr log, To16 addr = none →
      WriteIPv6 recordingWriter log addr = ⟨some Error.ErrInvalidIP, log⟩) :=
  ⟨write_calls_once,
    fun v => ⟨write_calls_once _, rfl⟩,
    fun v => ⟨write_calls_once _, rfl⟩,
    fun v => ⟨write_calls_once _, rfl⟩,
    fun v => ⟨write_calls_once _, rfl⟩,
    fun v => ⟨write_calls_once _, rfl⟩,
    fun v => ⟨write_calls_once _, rfl⟩,
    fun v => ⟨write_calls_once _, rfl⟩,
    fun v => ⟨write_calls_once _, rfl⟩,
    fun v => ⟨write_calls_once _, rfl⟩,
    fun v => ⟨write_calls_once _, rfl⟩,
    fun v => ⟨write_calls_once _, rfl⟩,
    fun v => ⟨write_calls_once _, rfl⟩,
    fun v => ⟨write_calls_once _, rfl⟩,
    fun v => ⟨write_calls_once _, rfl⟩,
    fun v => ⟨write_calls_once _, rfl⟩,
    fun v => ⟨write_calls_once _, rfl⟩,
    fun v => ⟨write_calls_once _, rfl⟩,
    fun v => ⟨write_calls_once _, rfl⟩,
    fun t => ⟨write_calls_once _, rfl⟩,
    fun t => ⟨write_calls_once _, rfl⟩,
    ⟨by simpa [WriteIPv4, h4] using write_calls_once ip4, To4_length a4 ip4 h4⟩,
    ⟨by simpa [WriteIPv6, h16] using write_calls_once ip16, To16_length a6 ip16 h16⟩,
    fun addr log h => by simp [WriteIPv4, h],
    fun addr log h => by simp [WriteIPv6, h]⟩

/-- Witness of C32: the address 192.168.0.1 given as 4 bytes, which `To4` keeps
and `To16` maps to its 16-byte form. -/
theorem write_fault_surfaces_witness :
    (∀ E, CallsWriteOnce (fun _ W s => write W s E) E) ∧
    (∀ v, CallsWriteOnce (fun _ W s => WriteUint8 W s v) ([byte v]) ∧
      ([byte v]).length = 1) ∧
    (∀ v, CallsWriteOnce (fun _ W s => WriteInt8 W s v) ([byte (toUnsigned 8 v)]) ∧
      ([byte (toUnsigned 8 v)]).length = 1) ∧
    (∀ v, CallsWriteOnce (fun _ W s => WriteUint16BE W s v) (BigEndian.PutUint16 v) ∧
      (BigEndian.PutUint16 v).length = 2) ∧
    (∀ v, CallsWriteOnce (fun _ W s => WriteUint16LE W s v) (LittleEndian.PutUint16 v) ∧
      (LittleEndian.PutUint16 v).length = 2) ∧
    (∀ v, CallsWriteOnce (fun _ W s => WriteInt16BE W s v) (BigEndian.PutUint16 (toUnsigned 16 v)) ∧
      (BigEndian.PutUint16 (toUnsigned 16 v)).length = 2) ∧
    (∀ v, CallsWriteOnce (fun _ W s => WriteInt16LE W s v) (LittleEndian.PutUint16 (toUnsigned 16 v)) ∧
      (LittleEndian.PutUint16 (toUnsigned 16 v)).length = 2) ∧
    (∀ v, CallsWriteOnce (fun _ W s => WriteUint32BE W s v) (BigEndian.PutUint32 v) ∧
      (BigEndian.PutUint32 v).length = 4) ∧
    (∀ v, CallsWriteOnce (fun _ W s => WriteUint32LE W s v) (LittleEndian.PutUint32 v) ∧
      (LittleEndian.PutUint32 v).length = 4) ∧
    (∀ v, CallsWriteOnce (fun _ W s => WriteInt32BE W s v) (BigEndian.PutUint32 (toUnsigned 32 v)) ∧
      (BigEndian.PutUint32 (toUnsigned 32 v)).length = 4) ∧
    (∀ v, CallsWriteOnce (fun _ W s => WriteInt32LE W s v) (LittleEndian.PutUint32 (toUnsigned 32 v)) ∧
      (LittleEndian.PutUint32 (toUnsigned 32 v)).length = 4) ∧
    (∀ v, CallsWriteOnce (fun _ W s => WriteUint64BE W s v) (BigEndian.PutUint64 v) ∧
      (BigEndian.PutUint64 v).length = 8) ∧
    (∀ v, CallsWriteOnce (fun _ W s => WriteUint64LE W s v) (LittleEndian.PutUint64 v) ∧
      (LittleEndian.PutUint64 v).length = 8) ∧
    (∀ v, CallsWriteOnce (fun _ W s => WriteInt64BE W s v) (BigEndian.PutUint64 (toUnsigned 64 v)) ∧
      (BigEndian.PutUint64 (toUnsigned 64 v)).length = 8) ∧
    (∀ v, CallsWriteOnce (fun _ W s => WriteInt64LE W s v) (LittleEndian.PutUint64 (toUnsigned 64 v)) ∧
      (LittleEndian.PutUint64 (toUnsigned 64 v)).length = 8) ∧
    (∀ v, CallsWriteOnce (fun _ W s => WriteFloat32BE W s v) (BigEndian.PutUint32 (Float32bits v)) ∧
      (BigEndian.PutUint32 (Float32bits v)).length = 4) ∧
    (∀ v, CallsWriteOnce (fun _ W s => WriteFloat32LE W s v) (LittleEndian.PutUint32 (Float32bits v)) ∧
      (LittleEndian.PutUint32 (Float32bits v)).length = 4) ∧
    (∀ v, CallsWriteOnce (fun _ W s => WriteFloat64BE W s v) (BigEndian.PutUint64 (Float64bits v)) ∧
      (BigEndian.PutUint64 (Float64bits v)).length = 8) ∧
    (∀ v, CallsWriteOnce (fun _ W s => WriteFloat64LE W s v) (LittleEndian.PutUint64 (Float64bits v)) ∧
      (LittleEndian.PutUint64 (Float64bits v)).length = 8) ∧
    (∀ t, CallsWriteOnce (fun _ W s => WriteUnixTime32BE W s t) (BigEndian.PutUint32 (toUnsigned 32 t.Unix)) ∧
      (BigEndian.PutUint32 (toUnsigned 32 t.Unix)).length = 4) ∧
    (∀ t, CallsWriteOnce (fun _ W s => WriteUnixTime32LE W s t) (LittleEndian.PutUint32 (toUnsigned 32 t.Unix)) ∧
      (LittleEndian.PutUint32 (toUnsigned 32 t.Unix)).length = 4) ∧
    (CallsWriteOnce (fun _ W s => WriteIPv4 W s (some [192, 168, 0, 1])) [192, 168, 0, 1] ∧ [192, 168, 0, 1].length = 4) ∧
    (CallsWriteOnce (fun _ W s => WriteIPv6 W s (some [192, 168, 0, 1])) (IPv4 192 168 0 1) ∧ (IPv4 192 168 0 1).length = 16) ∧
    (∀ addr log, To4 addr = none →
      WriteIPv4 recordingWriter log addr = ⟨some Error.ErrInvalidIP, log⟩) ∧
    (∀ addr log, To16 addr = none →
      WriteIPv6 recordingWriter log addr = ⟨some Error.ErrInvalidIP, log⟩) :=
  write_fault_surfaces (some [192, 168, 0, 1]) (some [192, 168, 0, 1]) [192, 168, 0, 1] (IPv4 192 168 0 1) (by decide) (by decide)

/-- The checked writer does not look at the count that `Write` reports: a
short count makes it fail exactly when the call reported an error with it. -/
theorem write_short {σ : Type} (W : Writer σ) (s : σ) (b : List Byte)
    (hc : (W.write s b).n < b.length → (W.write s b).err ≠ none)
    (hshort : (W.write s b).n < b.length) : (write W s b).err ≠ none := by
  have h := hc hshort
  cases herr : (W.write s b).err with
  | none => exact absurd herr h
  | some e => simp [write, herr]

/-- C33 (counterexample). A writer that takes 3 of the 4 bytes and reports the
count 3 with a `nil` error: the checked writer and `WriteUint32BE` return a
`nil` error, with only 3 bytes written. -/
theorem short_write_is_failure_counterexample :
    (shortWriter.write [] [1, 2, 3, 4]).n = 3 ∧
    write shortWriter [] [1, 2, 3, 4] = ⟨none, [1, 2, 3]⟩ ∧
    WriteUint32BE shortWriter [] 16909060 = ⟨none, [1, 2, 3]⟩ :=
  ⟨by decide, by decide, by decide⟩

/-- C33 (amended). A short write is a failure for a writer that keeps the
contract of `io.Writer`: if the writer returns a non-nil error whenever its
`Write` call reports fewer bytes than the buffer it was given, then the
checked writer, and so every typed write, returns a non-nil error when the
single `Write` call reports a short count. The count itself is never looked at:
a short count reported with a `nil` error is not noticed. -/
theorem short_write_is_failure {σ : Type} (W : Writer σ) (s : σ)
    (hc : ∀ b, (W.write s b).n < b.length → (W.write s b).err ≠ none) :
    (∀ b, (W.write s b).n < b.length → (write W s b).err ≠ none) ∧
    (∀ v, (W.write s ([byte v])).n < 1 → (WriteUint8 W s v).err ≠ none) ∧
    (∀ v, (W.write s ([byte (toUnsigned 8 v)])).n < 1 → (WriteInt8 W s v).err ≠ none) ∧
    (∀ v, (W.write s (BigEndian.PutUint16 v)).n < 2 → (WriteUint16BE W s v).err ≠ none) ∧
    (∀ v, (W.write s (LittleEndian.PutUint16 v)).n < 2 → (WriteUint16LE W s v).err ≠ none) ∧
    (∀ v, (W.write s (BigEndian.PutUint16 (toUnsigned 16 v))).n < 2 → (WriteInt16BE W s v).err ≠ none) ∧
    (∀ v, (W.write s (LittleEndian.PutUint16 (toUnsigned 16 v))).n < 2 → (WriteInt16LE W s v).err ≠ none) ∧
    (∀ v, (W.write s (BigEndian.PutUint32 v)).n < 4 → (WriteUint32BE W s v).err ≠ none) ∧
    (∀ v, (W.write s (LittleEndian.PutUint32 v)).n < 4 → (WriteUint32LE W s v).err ≠ none) ∧
    (∀ v, (W.write s (BigEndian.PutUint32 (toUnsigned 32 v))).n < 4 → (WriteInt32BE W s v).err ≠ none) ∧
    (∀ v, (W.write s (LittleEndian.PutUint32 (toUnsigned 32 v))).n < 4 → (WriteInt32LE W s v).err ≠ none) ∧
    (∀ v, (W.write s (BigEndian.PutUint64 v)).n < 8 → (WriteUint64BE W s v).err ≠ none) ∧
    (∀ v, (W.write s (LittleEndian.PutUint64 v)).n < 8 → (WriteUint64LE W s v).err ≠ none) ∧
    (∀ v, (W.write s (BigEndian.PutUint64 (toUnsigned 64 v))).n < 8 → (WriteInt64BE W s v).err ≠ none) ∧
    (∀ v, (W.write s (LittleEndian.PutUint64 (toUnsigned 64 v))).n < 8 → (WriteInt64LE W s v).err ≠ none) ∧
    (∀ v, (W.write s (BigEndian.PutUint32 (Float32bits v))).n < 4 → (WriteFloat32BE W s v).err ≠ none) ∧
    (∀ v, (W.write s (LittleEndian.PutUint32 (Float32bits v))).n < 4 → (WriteFloat32LE W s v).err ≠ none) ∧
    (∀ v, (W.write s (BigEndian.PutUint64 (Float64bits v))).n < 8 → (WriteFloat64BE W s v).err ≠ none) ∧
    (∀ v, (W.write s (LittleEndian.PutUint64 (Float64bits v))).n < 8 → (WriteFloat64LE W s v).err ≠ none) ∧
    (∀ t, (W.write s (BigEndian.PutUint32 (toUnsigned 32 t.Unix))).n < 4 → (WriteUnixTime32BE W s t).err ≠ none) ∧
    (∀ t, (W.write s (LittleEndian.PutUint32 (toUnsigned 32 t.Unix))).n < 4 → (WriteUnixTime32LE W s t).err ≠ none) ∧
    (∀ addr ip4, To4 addr = some ip4 → (W.write s ip4).n < ip4.length →
      (WriteIPv4 W s addr).err ≠ none) ∧
    (∀ addr ip16, To16 addr = some ip16 → (W.write s ip16).n < ip16.length →
      (WriteIPv6 W s addr).err ≠ none) :=
  ⟨fun b h => write_short W s b (hc b) h,
    fun v h => write_short W s _ (hc _) h,
    fun v h => write_short W s _ (hc _) h,
    fun v h => write_short W s _ (hc _) h,
    fun v h => write_short W s _ (hc _) h,
    fun v h => write_short W s _ (hc _) h,
    fun v h => write_short W s _ (hc _) h,
    fun v h => write_short W s _ (hc _) h,
    fun v h => write_short W s _ (hc _) h,
    fun v h => write_short W s _ (hc _) h,
    fun v h => write_short W s _ (hc _) h,
    fun v h => write_short W s _ (hc _) h,
    fun v h => write_short W s _ (hc _) h,
    fun v h => write_short W s _ (hc _) h,
    fun v h => write_short W s _ (hc _) h,
    fun v h => write_short W s _ (hc _) h,
    fun v h => write_short W s _ (hc _) h,
    fun v h => write_short W s _ (hc _) h,
    fun v h => write_short W s _ (hc _) h,
    fun t h => write_short W s _ (hc _) h,
    fun t h => write_short W s _ (hc _) h,
    fun addr ip4 h4 h => by
      simpa [WriteIPv4, h4] using write_short W s ip4 (hc ip4) h,
    fun addr ip16 h16 h => by
      simpa [WriteIPv6, h16] using write_short W s ip16 (hc ip16) h⟩

/-- Witness of C33: the writer that fails every call with the count 0. -/
theorem short_write_is_failure_witness :
    (∀ b, ((failingWriter (Error.other 1)).write [] b).n < b.length →
      ((failingWriter (Error.other 1)).write [] b).err ≠ none) ∧
    (((failingWriter (Error.other 1)).write [] [7]).n < 1 ∧
      (WriteUint8 (failingWriter (Error.other 1)) [] 7).err ≠ none) ∧
    (∀ b, ((failingWriter (Error.other 1)).write [] b).n < b.length → (write (failingWriter (Error.other 1)) [] b).err ≠ none) ∧
    (∀ v, ((failingWriter (Error.other 1)).write [] ([byte v])).n < 1 → (WriteUint8 (failingWriter (Error.other 1)) [] v).err ≠ none) ∧
    (∀ v, ((failingWriter (Error.other 1)).write [] ([byte (toUnsigned 8 v)])).n < 1 → (WriteInt8 (failingWriter (Error.other 1)) [] v).err ≠ none) ∧
    (∀ v, ((failingWriter (Error.other 1)).write [] (BigEndian.PutUint16 v)).n < 2 → (WriteUint16BE (failingWriter (Error.other 1)) [] v).err ≠ none) ∧
    (∀ v, ((failingWriter (Error.other 1)).write [] (LittleEndian.PutUint16 v)).n < 2 → (WriteUint16LE (failingWriter (Error.other 1)) [] v).err ≠ none) ∧
    (∀ v, ((failingWriter (Error.other 1)).write [] (BigEndian.PutUint16 (toUnsigned 16 v))).n < 2 → (WriteInt16BE (failingWriter (Error.other 1)) [] v).err ≠ none) ∧
    (∀ v, ((failingWriter (Error.other 1)).write [] (LittleEndian.PutUint16 (toUnsigned 16 v))).n < 2 → (WriteInt16LE (failingWriter (Error.other 1)) [] v).err ≠ none) ∧
    (∀ v, ((failingWriter (Error.other 1)).write [] (BigEndian.PutUint32 v)).n < 4 → (WriteUint32BE (failingWriter (Error.other 1)) [] v).err ≠ none) ∧
    (∀ v, ((failingWriter (Error.other 1)).write [] (LittleEndian.PutUint32 v)).n < 4 → (WriteUint32LE (failingWriter (Error.other 1)) [] v).err ≠ none) ∧
    (∀ v, ((failingWriter (Error.other 1)).write [] (BigEndian.PutUint32 (toUnsigned 32 v))).n < 4 → (WriteInt32BE (failingWriter (Error.other 1)) [] v).err ≠ none) ∧
    (∀ v, ((failingWriter (Error.other 1)).write [] (LittleEndian.PutUint32 (toUnsigned 32 v))).n < 4 → (WriteInt32LE (failingWriter (Error.other 1)) [] v).err ≠ none) ∧
    (∀ v, ((failingWriter (Error.other 1)).write [] (BigEndian.PutUint64 v)).n < 8 → (WriteUint64BE (failingWriter (Error.other 1)) [] v).err ≠ none) ∧
    (∀ v, ((failingWriter (Error.other 1)).write [] (LittleEndian.PutUint64 v)).n < 8 → (WriteUint64LE (failingWriter (Error.other 1)) [] v).err ≠ none) ∧
    (∀ v, ((failingWriter (Error.other 1)).write [] (BigEndian.PutUint64 (toUnsigned 64 v))).n < 8 → (WriteInt64BE (failingWriter (Error.other 1)) [] v).err ≠ none) ∧
    (∀ v, ((failingWriter (Error.other 1)).write [] (LittleEndian.PutUint64 (toUnsigned 64 v))).n < 8 → (WriteInt64LE (failingWriter (Error.other 1)) [] v).err ≠ none) ∧
    (∀ v, ((failingWriter (Error.other 1)).write [] (BigEndian.PutUint32 (Float32bits v))).n < 4 → (WriteFloat32BE (failingWriter (Error.other 1)) [] v).err ≠ none) ∧
    (∀ v, ((failingWriter (Error.other 1)).write [] (LittleEndian.PutUint32 (Float32bits v))).n < 4 → (WriteFloat32LE (failingWriter (Error.other 1)) [] v).err ≠ none) ∧
    (∀ v, ((failingWriter (Error.other 1)).write [] (BigEndian.PutUint64 (Float64bits v))).n < 8 → (WriteFloat64BE (failingWriter (Error.other 1)) [] v).err ≠ none) ∧
    (∀ v, ((failingWriter (Error.other 1)).write [] (LittleEndian.PutUint64 (Float64bits v))).n < 8 → (WriteFloat64LE (failingWriter (Error.other 1)) [] v).err ≠ none) ∧
    (∀ t, ((failingWriter (Error.other 1)).write [] (BigEndian.PutUint32 (toUnsigned 32 t.Unix))).n < 4 → (WriteUnixTime32BE (failingWriter (Error.other 1)) [] t).err ≠ none) ∧
    (∀ t, ((failingWriter (Error.other 1)).write [] (LittleEndian.PutUint32 (toUnsigned 32 t.Unix))).n < 4 → (WriteUnixTime32LE (failingWriter (Error.other 1)) [] t).err ≠ none) ∧
    (∀ addr ip4, To4 addr = some ip4 → ((failingWriter (Error.other 1)).write [] ip4).n < ip4.length →
      (WriteIPv4 (failingWriter (Error.other 1)) [] addr).err ≠ none) ∧
    (∀ addr ip16, To16 addr = some ip16 → ((failingWriter (Error.other 1)).write [] ip16).n < ip16.length →
      (WriteIPv6 (failingWriter (Error.other 1)) [] addr).err ≠ none) :=
  ⟨fun b _ => by simp [failingWriter],
    ⟨by decide, by decide⟩,
    short_write_is_failure (failingWriter (Error.other 1)) []
      (fun b _ => by simp [failingWriter])⟩

/-! ## Panics -/

/-- The loop of `io.ReadAtLeast` never stores more than the buffer holds, and
stops short of `min` bytes only with an error. -/
theorem ReadAtLeast.loop_length {σ : Type} (R : Reader σ) (len min : Nat) :
    ∀ (fuel : Nat) (s : σ) (got : List Byte) (err : Option Error) (r : ReadResult σ),
      got.length ≤ len → ReadAtLeast.loop R len min fuel s got err = some r →
      r.data.length ≤ len ∧ (r.data.length < min → r.err ≠ none) := by
  intro fuel
  induction fuel with
  | zero =>
      intro s got err r hlen h
      simp only [ReadAtLeast.loop] at h
      split at h
      · cases h
      · rename_i hc
        cases h
        refine ⟨hlen, ?_⟩
        intro hlt herr
        exact hc ⟨hlt, herr⟩
  | succ fuel ih =>
      intro s got err r hlen h
      simp only [ReadAtLeast.loop] at h
      split at h
      · refine ih _ _ _ _ ?_ h
        have := R.read_le s (len - got.length)
        rw [List.length_append]
        omega
      · rename_i hc
        cases h
        refine ⟨hlen, ?_⟩
        intro hlt herr
        exact hc ⟨hlt, herr⟩

/-- A successful `readN(r, n)` returns exactly `n` bytes, for every reader. -/
theorem readN_ok_length {σ : Type} (R : Reader σ) (fuel : Nat) (s s2 : σ) (n : Int)
    (b : List Byte) (h : readN R fuel s n = Run.done ⟨b, none, s2⟩) :
    b.length = n.toNat := by
  unfold readN at h
  split at h
  · cases h
  · unfold ReadFull ReadAtLeast at h
    cases hl : ReadAtLeast.loop R n.toNat n.toNat fuel s [] none with
    | none => simp [hl] at h
    | some r =>
        have hinv := ReadAtLeast.loop_length R n.toNat n.toNat fuel s [] none r
          (Nat.zero_le _) hl
        simp only [hl] at h
        by_cases h1 : n.toNat ≤ r.data.length
        · simp only [if_pos h1] at h
          cases h
          omega
        · rw [if_neg h1] at h
          have hne := hinv.2 (by omega)
          by_cases h2 : 0 < r.data.length ∧ r.err = some Error.EOF
          · rw [if_pos h2] at h
            simp at h
            split at h <;> cases h
          · rw [if_neg h2] at h
            cases herr : r.err with
            | none => exact absurd herr hne
            | some e =>
                simp only [herr] at h
                split at h <;> cases h

/-- With `0 <= n`, `readN(r, n)` does not panic: the budget of `Read` calls
runs out, or it returns an error, or it returns exactly `n` bytes. -/
theorem readN_cases {σ : Type} (R : Reader σ) (fuel : Nat) (s : σ) (n : Int)
    (h0 : 0 ≤ n ∧ n ≤ (maxAlloc : Int)) :
    readN R fuel s n = Run.pending ∨
    (∃ b e s2, readN R fuel s n = Run.done ⟨b, some e, s2⟩) ∨
    (∃ b s2, readN R fuel s n = Run.done ⟨b, none, s2⟩ ∧ b.length = n.toNat) := by
  cases h : readN R fuel s n with
  | pending => exact Or.inl rfl
  | panicked =>
      exfalso
      unfold readN at h
      rw [if_neg (by omega)] at h
      cases hf : ReadFull R fuel s n.toNat with
      | none => simp [hf] at h
      | some r =>
          simp only [hf] at h
          cases herr : r.err with
          | none => simp [herr] at h
          | some e =>
              simp only [herr] at h
              split at h <;> cases h
  | done r =>
      obtain ⟨b, err, s2⟩ := r
      cases err with
      | none => exact Or.inr (Or.inr ⟨b, s2, rfl, readN_ok_length R fuel s s2 n b h⟩)
      | some e => exact Or.inr (Or.inl ⟨b, e, s2, rfl⟩)
theorem ReadUint8_ne_panicked {σ : Type} (R : Reader σ) (fuel : Nat) (s : σ) :
    ReadUint8 R fuel s ≠ Run.panicked := by
  rcases readN_cases R fuel s 1 (by decide) with h | ⟨b, e, s2, h⟩ | ⟨b, s2, h, hlen⟩
  · simp [ReadUint8, h]
  · simp [ReadUint8, h]
  · have hlen1 : b.length = 1 := by simpa using hlen
    obtain ⟨b0, rfl⟩ := List.length_eq_one.1 hlen1
    simp [ReadUint8, h]

theorem ReadInt8_ne_panicked {σ : Type} (R : Reader σ) (fuel : Nat) (s : σ) :
    ReadInt8 R fuel s ≠ Run.panicked := by
  rcases readN_cases R fuel s 1 (by decide) with h | ⟨b, e, s2, h⟩ | ⟨b, s2, h, hlen⟩
  · simp [ReadInt8, h]
  · simp [ReadInt8, h]
  · have hlen1 : b.length = 1 := by simpa using hlen
    obtain ⟨b0, rfl⟩ := List.length_eq_one.1 hlen1
    simp [ReadInt8, h]

theorem ReadUint16BE_ne_panicked {σ : Type} (R : Reader σ) (fuel : Nat) (s : σ) :
    ReadUint16BE R fuel s ≠ Run.panicked := by
  rcases readN_cases R fuel s 2 (by decide) with h | ⟨b, e, s2, h⟩ | ⟨b, s2, h, hlen⟩
  · simp [ReadUint16BE, h]
  · simp [ReadUint16BE, h]
  · have hlen1 : 2 ≤ b.length := by
      have : b.length = 2 := by simpa using hlen
      omega
    obtain ⟨u, hu⟩ := beUint16_isSome b hlen1
    simp [ReadUint16BE, h, hu]

theorem ReadUint16LE_ne_panicked {σ : Type} (R : Reader σ) (fuel : Nat) (s : σ) :
    ReadUint16LE R fuel s ≠ Run.panicked := by
  rcases readN_cases R fuel s 2 (by decide) with h | ⟨b, e, s2, h⟩ | ⟨b, s2, h, hlen⟩
  · simp [ReadUint16LE, h]
  · simp [ReadUint16LE, h]
  · have hlen1 : 2 ≤ b.length := by
      have : b.length = 2 := by simpa using hlen
      omega
    obtain ⟨u, hu⟩ := leUint16_isSome b hlen1
    simp [ReadUint16LE, h, hu]

theorem ReadInt16BE_ne_panicked {σ : Type} (R : Reader σ) (fuel : Nat) (s : σ) :
    ReadInt16BE R fuel s ≠ Run.panicked := by
  rcases readN_cases R fuel s 2 (by decide) with h | ⟨b, e, s2, h⟩ | ⟨b, s2, h, hlen⟩
  · simp [ReadInt16BE, h]
  · simp [ReadInt16BE, h]
  · have hlen1 : 2 ≤ b.length := by
      have : b.length = 2 := by simpa using hlen
      omega
    obtain ⟨u, hu⟩ := beUint16_isSome b hlen1
    simp [ReadInt16BE, h, hu]

theorem ReadInt16LE_ne_panicked {σ : Type} (R : Reader σ) (fuel : Nat) (s : σ) :
    ReadInt16LE R fuel s ≠ Run.panicked := by
  rcases readN_cases R fuel s 2 (by decide) with h | ⟨b, e, s2, h⟩ | ⟨b, s2, h, hlen⟩
  · simp [ReadInt16LE, h]
  · simp [ReadInt16LE, h]
  · have hlen1 : 2 ≤ b.length := by
      have : b.length = 2 := by simpa using hlen
      omega
    obtain ⟨u, hu⟩ := leUint16_isSome b hlen1
    simp [ReadInt16LE, h, hu]

theorem ReadUint32BE_ne_panicked {σ : Type} (R : Reader σ) (fuel : Nat) (s : σ) :
    ReadUint32BE R fuel s ≠ Run.panicked := by
  rcases readN_cases R fuel s 4 (by decide) with h | ⟨b, e, s2, h⟩ | ⟨b, s2, h, hlen⟩
  · simp [ReadUint32BE, h]
  · simp [ReadUint32BE, h]
  · have hlen1 : 4 ≤ b.length := by
      have : b.length = 4 := by simpa using hlen
      omega
    obtain ⟨u, hu⟩ := beUint32_isSome b hlen1
    simp [ReadUint32BE, h, hu]

theorem ReadUint32LE_ne_panicked {σ : Type} (R : Reader σ) (fuel : Nat) (s : σ) :
    ReadUint32LE R fuel s ≠ Run.panicked := by
  rcases readN_cases R fuel s 4 (by decide) with h | ⟨b, e, s2, h⟩ | ⟨b, s2, h, hlen⟩
  · simp [ReadUint32LE, h]
  · simp [ReadUint32LE, h]
  · have hlen1 : 4 ≤ b.length := by
      have : b.length = 4 := by simpa using hlen
      omega
    obtain ⟨u, hu⟩ := leUint32_isSome b hlen1
    simp [ReadUint32LE, h, hu]

theorem ReadInt32BE_ne_panicked {σ : Type} (R : Reader σ) (fuel : Nat) (s : σ) :
    ReadInt32BE R fuel s ≠ Run.panicked := by
  rcases readN_cases R fuel s 4 (by decide) with h | ⟨b, e, s2, h⟩ | ⟨b, s2, h, hlen⟩
  · simp [ReadInt32BE, h]
  · simp [ReadInt32BE, h]
  · have hlen1 : 4 ≤ b.length := by
      have : b.length = 4 := by simpa using hlen
      omega
    obtain ⟨u, hu⟩ := beUint32_isSome b hlen1
    simp [ReadInt32BE, h, hu]

theorem ReadInt32LE_ne_panicked {σ : Type} (R : Reader σ) (fuel : Nat) (s : σ) :
    ReadInt32LE R fuel s ≠ Run.panicked := by
  rcases readN_cases R fuel s 4 (by decide) with h | ⟨b, e, s2, h⟩ | ⟨b, s2, h, hlen⟩
  · simp [ReadInt32LE, h]
  · simp [ReadInt32LE, h]
  · have hlen1 : 4 ≤ b.length := by
      have : b.length = 4 := by simpa using hlen
      omega
    obtain ⟨u, hu⟩ := leUint32_isSome b hlen1
    simp [ReadInt32LE, h, hu]

theorem ReadUint64BE_ne_panicked {σ : Type} (R : Reader σ) (fuel : Nat) (s : σ) :
    ReadUint64BE R fuel s ≠ Run.panicked := by
  rcases readN_cases R fuel s 8 (by decide) with h | ⟨b, e, s2, h⟩ | ⟨b, s2, h, hlen⟩
  · simp [ReadUint64BE, h]
  · simp [ReadUint64BE, h]
  · have hlen1 : 8 ≤ b.length := by
      have : b.length = 8 := by simpa using hlen
      omega
    obtain ⟨u, hu⟩ := beUint64_isSome b hlen1
    simp [ReadUint64BE, h, hu]

theorem ReadUint64LE_ne_panicked {σ : Type} (R : Reader σ) (fuel : Nat) (s : σ) :
    ReadUint64LE R fuel s ≠ Run.panicked := by
  rcases readN_cases R fuel s 8 (by decide) with h | ⟨b, e, s2, h⟩ | ⟨b, s2, h, hlen⟩
  · simp [ReadUint64LE, h]
  · simp [ReadUint64LE, h]
  · have hlen1 : 8 ≤ b.length := by
      have : b.length = 8 := by simpa using hlen
      omega
    obtain ⟨u, hu⟩ := leUint64_isSome b hlen1
    simp [ReadUint64LE, h, hu]

theorem ReadInt64BE_ne_panicked {σ : Type} (R : Reader σ) (fuel : Nat) (s : σ) :
    ReadInt64BE R fuel s ≠ Run.panicked := by
  rcases readN_cases R fuel s 8 (by decide) with h | ⟨b, e, s2, h⟩ | ⟨b, s2, h, hlen⟩
  · simp [ReadInt64BE, h]
  · simp [ReadInt64BE, h]
  · have hlen1 : 8 ≤ b.length := by
      have : b.length = 8 := by simpa using hlen
      omega
    obtain ⟨u, hu⟩ := beUint64_isSome b hlen1
    simp [ReadInt64BE, h, hu]

theorem ReadInt64LE_ne_panicked {σ : Type} (R : Reader σ) (fuel : Nat) (s : σ) :
    ReadInt64LE R fuel s ≠ Run.panicked := by
  rcases readN_cases R fuel s 8 (by decide) with h | ⟨b, e, s2, h⟩ | ⟨b, s2, h, hlen⟩
  · simp [ReadInt64LE, h]
  · simp [ReadInt64LE, h]
  · have hlen1 : 8 ≤ b.length := by
      have : b.length = 8 := by simpa using hlen
      omega
    obtain ⟨u, hu⟩ := leUint64_isSome b hlen1
    simp [ReadInt64LE, h, hu]

theorem ReadFloat32BE_ne_panicked {σ : Type} (R : Reader σ) (fuel : Nat) (s : σ) :
    ReadFloat32BE R fuel s ≠ Run.panicked := by
  rcases readN_cases R fuel s 4 (by decide) with h | ⟨b, e, s2, h⟩ | ⟨b, s2, h, hlen⟩
  · simp [ReadFloat32BE, h]
  · simp [ReadFloat32BE, h]
  · have hlen1 : 4 ≤ b.length := by
      have : b.length = 4 := by simpa using hlen
      omega
    obtain ⟨u, hu⟩ := beUint32_isSome b hlen1
    simp [ReadFloat32BE, h, hu]

theorem ReadFloat32LE_ne_panicked {σ : Type} (R : Reader σ) (fuel : Nat) (s : σ) :
    ReadFloat32LE R fuel s ≠ Run.panicked := by
  rcases readN_cases R fuel s 4 (by decide) with h | ⟨b, e, s2, h⟩ | ⟨b, s2, h, hlen⟩
  · simp [ReadFloat32LE, h]
  · simp [ReadFloat32LE, h]
  · have hlen1 : 4 ≤ b.length := by
      have : b.length = 4 := by simpa using hlen
      omega
    obtain ⟨u, hu⟩ := leUint32_isSome b hlen1
    simp [ReadFloat32LE, h, hu]

theorem ReadFloat64BE_ne_panicked {σ : Type} (R : Reader σ) (fuel : Nat) (s : σ) :
    ReadFloat64BE R fuel s ≠ Run.panicked := by
  rcases readN_cases R fuel s 8 (by decide) with h | ⟨b, e, s2, h⟩ | ⟨b, s2, h, hlen⟩
  · simp [ReadFloat64BE, h]
  · simp [ReadFloat64BE, h]
  · have hlen1 : 8 ≤ b.length := by
      have : b.length = 8 := by simpa using hlen
      omega
    obtain ⟨u, hu⟩ := beUint64_isSome b hlen1
    simp [ReadFloat64BE, h, hu]

theorem ReadFloat64LE_ne_panicked {σ : Type} (R : Reader σ) (fuel : Nat) (s : σ) :
    ReadFloat64LE R fuel s ≠ Run.panicked := by
  rcases readN_cases R fuel s 8 (by decide) with h | ⟨b, e, s2, h⟩ | ⟨b, s2, h, hlen⟩
  · simp [ReadFloat64LE, h]
  · simp [ReadFloat64LE, h]
  · have hlen1 : 8 ≤ b.length := by
      have : b.length = 8 := by simpa using hlen
      omega
    obtain ⟨u, hu⟩ := leUint64_isSome b hlen1
    simp [ReadFloat64LE, h, hu]

theorem ReadIPv4_ne_panicked {σ : Type} (R : Reader σ) (fuel : Nat) (s : σ) :
    ReadIPv4 R fuel s ≠ Run.panicked := by
  rcases readN_cases R fuel s 4 (by decide) with h | ⟨b, e, s2, h⟩ | ⟨b, s2, h, hlen⟩
  · simp [ReadIPv4, h]
  · simp [ReadIPv4, h]
  · simp [ReadIPv4, h]

theorem ReadIPv6_ne_panicked {σ : Type} (R : Reader σ) (fuel : Nat) (s : σ) :
    ReadIPv6 R fuel s ≠ Run.panicked := by
  rcases readN_cases R fuel s 16 (by decide) with h | ⟨b, e, s2, h⟩ | ⟨b, s2, h, hlen⟩
  · simp [ReadIPv6, h]
  · simp [ReadIPv6, h]
  · simp [ReadIPv6, h]

theorem ReadUnixTimeUTC32BE_ne_panicked {σ : Type} (R : Reader σ) (fuel : Nat) (s : σ) :
    ReadUnixTimeUTC32BE R fuel s ≠ Run.panicked := by
  have hb := ReadUint32BE_ne_panicked R fuel s
  cases h : ReadUint32BE R fuel s with
  | pending => simp [ReadUnixTimeUTC32BE, h]
  | panicked => exact absurd h hb
  | done r =>
      obtain ⟨v, err, st⟩ := r
      cases err <;> simp [ReadUnixTimeUTC32BE, h]

theorem ReadUnixTime32BE_ne_panicked {σ : Type} (R : Reader σ) (fuel : Nat) (s : σ) :
    ReadUnixTime32BE R fuel s ≠ Run.panicked := by
  have hb := ReadUint32BE_ne_panicked R fuel s
  cases h : ReadUint32BE R fuel s with
  | pending => simp [ReadUnixTime32BE, h]
  | panicked => exact absurd h hb
  | done r =>
      obtain ⟨v, err, st⟩ := r
      cases err <;> simp [ReadUnixTime32BE, h]

theorem ReadUnixTimeUTC32LE_ne_panicked {σ : Type} (R : Reader σ) (fuel : Nat) (s : σ) :
    ReadUnixTimeUTC32LE R fuel s ≠ Run.panicked := by
  have hb := ReadUint32LE_ne_panicked R fuel s
  cases h : ReadUint32LE R fuel s with
  | pending => simp [ReadUnixTimeUTC32LE, h]
  | panicked => exact absurd h hb
  | done r =>
      obtain ⟨v, err, st⟩ := r
      cases err <;> simp [ReadUnixTimeUTC32LE, h]

theorem ReadUnixTime32LE_ne_panicked {σ : Type} (R : Reader σ) (fuel : Nat) (s : σ) :
    ReadUnixTime32LE R fuel s ≠ Run.panicked := by
  have hb := ReadUint32LE_ne_panicked R fuel s
  cases h : ReadUint32LE R fuel s with
  | pending => simp [ReadUnixTime32LE, h]
  | panicked => exact absurd h hb
  | done r =>
      obtain ⟨v, err, st⟩ := r
      cases err <;> simp [ReadUnixTime32LE, h]

theorem ReadStringN_ne_panicked {σ : Type} (R : Reader σ) (fuel : Nat) (s : σ) (n : Int)
    (pad : Byte) (h0 : 0 ≤ n ∧ n ≤ (maxAlloc : Int)) :
    ReadStringN R fuel s n pad ≠ Run.panicked := by
  rcases readN_cases R fuel s n h0 with h | ⟨b, e, s2, h⟩ | ⟨b, s2, h, hlen⟩
  · simp [ReadStringN, h]
  · simp [ReadStringN, h]
  · simp only [ReadStringN, h]
    split <;> simp

theorem ReadStringN_out_of_range {σ : Type} (R : Reader σ) (fuel : Nat) (s : σ) (n : Int)
    (pad : Byte) (hn : n < 0 ∨ (maxAlloc : Int) < n) :
    ReadStringN R fuel s n pad = Run.panicked := by
  have h : readN R fuel s n = Run.panicked := by
    unfold readN
    rw [if_pos hn]
  simp only [ReadStringN, h]

/-- `ReadStringN` panics exactly for a length that `make` rejects. -/
theorem ReadStringN_panicked_iff {σ : Type} (R : Reader σ) (fuel : Nat) (s : σ) (n : Int)
    (pad : Byte) :
    ReadStringN R fuel s n pad = Run.panicked ↔ (n < 0 ∨ (maxAlloc : Int) < n) := by
  constructor
  · intro h
    by_contra hn
    exact ReadStringN_ne_panicked R fuel s n pad (by omega) h
  · exact ReadStringN_out_of_range R fuel s n pad

/-- C34. The library does terminate the program for some inputs: for every
reader and every pad byte, `ReadStringN(r, n, pad)` panics (in
`make([]byte, n)`) exactly when `n` is negative or above the allocation limit
`maxAlloc`, on a `bytes.Reader` holding `AB` with `n = -1` or `n = 1 << 62`
for instance. No other typed read panics on any reader; the typed writes have
no panicking step. -/
theorem ReadStringN_panics_on_bad_length {σ : Type} (R : Reader σ) (fuel : Nat) (s : σ)
    (pad : Byte) :
    (∀ n : Int, ReadStringN R fuel s n pad = Run.panicked ↔
      (n < 0 ∨ (maxAlloc : Int) < n)) ∧
    ReadStringN bytesReader 1 [65, 66] (-1) 0 = Run.panicked ∧
    ReadStringN bytesReader 1 [65, 66] 4611686018427387904 0 = Run.panicked ∧
    ReadUint8 R fuel s ≠ Run.panicked ∧
    ReadInt8 R fuel s ≠ Run.panicked ∧
    ReadUint16BE R fuel s ≠ Run.panicked ∧
    ReadUint16LE R fuel s ≠ Run.panicked ∧
    ReadInt16BE R fuel s ≠ Run.panicked ∧
    ReadInt16LE R fuel s ≠ Run.panicked ∧
    ReadUint32BE R fuel s ≠ Run.panicked ∧
    ReadUint32LE R fuel s ≠ Run.panicked ∧
    ReadInt32BE R fuel s ≠ Run.panicked ∧
    ReadInt32LE R fuel s ≠ Run.panicked ∧
    ReadUint64BE R fuel s ≠ Run.panicked ∧
    ReadUint64LE R fuel s ≠ Run.panicked ∧
    ReadInt64BE R fuel s ≠ Run.panicked ∧
    ReadInt64LE R fuel s ≠ Run.panicked ∧
    ReadFloat32BE R fuel s ≠ Run.panicked ∧
    ReadFloat32LE R fuel s ≠ Run.panicked ∧
    ReadFloat64BE R fuel s ≠ Run.panicked ∧
    ReadFloat64LE R fuel s ≠ Run.panicked ∧
    ReadIPv4 R fuel s ≠ Run.panicked ∧
    ReadIPv6 R fuel s ≠ Run.panicked ∧
    ReadUnixTimeUTC32BE R fuel s ≠ Run.panicked ∧
    ReadUnixTime32BE R fuel s ≠ Run.panicked ∧
    ReadUnixTimeUTC32LE R fuel s ≠ Run.panicked ∧
    ReadUnixTime32LE R fuel s ≠ Run.panicked :=
  ⟨fun n => ReadStringN_panicked_iff R fuel s n pad,
    by decide,
    by decide,
    ReadUint8_ne_panicked R fuel s,
    ReadInt8_ne_panicked R fuel s,
    ReadUint16BE_ne_panicked R fuel s,
    ReadUint16LE_ne_panicked R fuel s,
    ReadInt16BE_ne_panicked R fuel s,
    ReadInt16LE_ne_panicked R fuel s,
    ReadUint32BE_ne_panicked R fuel s,
    ReadUint32LE_ne_panicked R fuel s,
    ReadInt32BE_ne_panicked R fuel s,
    ReadInt32LE_ne_panicked R fuel s,
    ReadUint64BE_ne_panicked R fuel s,
    ReadUint64LE_ne_panicked R fuel s,
    ReadInt64BE_ne_panicked R fuel s,
    ReadInt64LE_ne_panicked R fuel s,
    ReadFloat32BE_ne_panicked R fuel s,
    ReadFloat32LE_ne_panicked R fuel s,
    ReadFloat64BE_ne_panicked R fuel s,
    ReadFloat64LE_ne_panicked R fuel s,
    ReadIPv4_ne_panicked R fuel s,
    ReadIPv6_ne_panicked R fuel s,
    ReadUnixTimeUTC32BE_ne_panicked R fuel s,
    ReadUnixTime32BE_ne_panicked R fuel s,
    ReadUnixTimeUTC32LE_ne_panicked R fuel s,
    ReadUnixTime32LE_ne_panicked R fuel s⟩

/-! ## Byte order of the `LE` float functions -/

/-- On four bytes `ReadFloat32LE` returns what `ReadFloat32BE` returns on the
same bytes in reverse order. -/
theorem ReadFloat32LE_bytes_reverse (fuel : Nat) (b0 b1 b2 b3 : Byte) :
    ReadFloat32LE bytesReader (fuel + 1) [b0, b1, b2, b3] =
      ReadFloat32BE bytesReader (fuel + 1) [b3, b2, b1, b0] := by
  have h1 := readN_bytes_ok (fuel + 1) [b0, b1, b2, b3] 4 (by omega) (by decide) (by simp)
  have h2 := readN_bytes_ok (fuel + 1) [b3, b2, b1, b0] 4 (by omega) (by decide) (by simp)
  simp [ReadFloat32LE, ReadFloat32BE, h1, h2, LittleEndian.Uint32, BigEndian.Uint32]

/-- On eight bytes `ReadFloat64LE` returns what `ReadFloat64BE` returns on the
same bytes in reverse order. -/
theorem ReadFloat64LE_bytes_reverse (fuel : Nat) (b0 b1 b2 b3 b4 b5 b6 b7 : Byte) :
    ReadFloat64LE bytesReader (fuel + 1) [b0, b1, b2, b3, b4, b5, b6, b7] =
      ReadFloat64BE bytesReader (fuel + 1) [b7, b6, b5, b4, b3, b2, b1, b0] := by
  have h1 := readN_bytes_ok (fuel + 1) [b0, b1, b2, b3, b4, b5, b6, b7] 8 (by omega)
    (by decide) (by simp)
  have h2 := readN_bytes_ok (fuel + 1) [b7, b6, b5, b4, b3, b2, b1, b0] 8 (by omega)
    (by decide) (by simp)
  simp [ReadFloat64LE, ReadFloat64BE, h1, h2, LittleEndian.Uint64, BigEndian.Uint64]

/-- The value `ReadFloat32LE` returns on four bytes: the bits are the sum of
`b[i] * 256 ^ i`. -/
theorem ReadFloat32LE_bytes_value (fuel : Nat) (b0 b1 b2 b3 : Byte) :
    ReadFloat32LE bytesReader (fuel + 1) [b0, b1, b2, b3] =
      Run.done ⟨Float32frombits (b0.val + b1.val * 256 + b2.val * 256 ^ 2 +
        b3.val * 256 ^ 3), none, []⟩ := by
  have h1 := readN_bytes_ok (fuel + 1) [b0, b1, b2, b3] 4 (by omega) (by decide) (by simp)
  simp [ReadFloat32LE, h1, leUint32_cons]

/-- The value `ReadFloat64LE` returns on eight bytes: the bits are the sum of
`b[i] * 256 ^ i`. -/
theorem ReadFloat64LE_bytes_value (fuel : Nat) (b0 b1 b2 b3 b4 b5 b6 b7 : Byte) :
    ReadFloat64LE bytesReader (fuel + 1) [b0, b1, b2, b3, b4, b5, b6, b7] =
      Run.done ⟨Float64frombits (b0.val + b1.val * 256 + b2.val * 256 ^ 2 +
        b3.val * 256 ^ 3 + b4.val * 256 ^ 4 + b5.val * 256 ^ 5 + b6.val * 256 ^ 6 +
        b7.val * 256 ^ 7), none, []⟩ := by
  have h1 := readN_bytes_ok (fuel + 1) [b0, b1, b2, b3, b4, b5, b6, b7] 8 (by omega)
    (by decide) (by simp)
  simp [ReadFloat64LE, h1, leUint64_cons]

/-- C35 (counterexample). On the bytes `3f 80 00 00` (1.0 as a big-endian
float32) `ReadFloat32BE` returns the bits `0x3f800000` and `ReadFloat32LE` the
bits `0x0000803f`; `WriteFloat32LE` of the bits `0x3f800000` writes
`00 00 80 3f` where `WriteFloat32BE` writes `3f 80 00 00`; the same for float64
with `3f f0 00 00 00 00 00 00`. -/
theorem LE_float_functions_byte_order_counterexample :
    ReadFloat32BE bytesReader 1 [63, 128, 0, 0] =
      Run.done ⟨Float32frombits 1065353216, none, []⟩ ∧
    ReadFloat32LE bytesReader 1 [63, 128, 0, 0] =
      Run.done ⟨Float32frombits 32831, none, []⟩ ∧
    ReadFloat32LE bytesReader 1 [63, 128, 0, 0] ≠ ReadFloat32BE bytesReader 1 [63, 128, 0, 0] ∧
    WriteFloat32BE bufferWriter [] (Float32frombits 1065353216) = ⟨none, [63, 128, 0, 0]⟩ ∧
    WriteFloat32LE bufferWriter [] (Float32frombits 1065353216) = ⟨none, [0, 0, 128, 63]⟩ ∧
    ReadFloat64BE bytesReader 1 [63, 240, 0, 0, 0, 0, 0, 0] =
      Run.done ⟨Float64frombits 4607182418800017408, none, []⟩ ∧
    ReadFloat64LE bytesReader 1 [63, 240, 0, 0, 0, 0, 0, 0] =
      Run.done ⟨Float64frombits 61503, none, []⟩ ∧
    ReadFloat64LE bytesReader 1 [63, 240, 0, 0, 0, 0, 0, 0] ≠
      ReadFloat64BE bytesReader 1 [63, 240, 0, 0, 0, 0, 0, 0] ∧
    WriteFloat64BE bufferWriter [] (Float64frombits 4607182418800017408) =
      ⟨none, [63, 240, 0, 0, 0, 0, 0, 0]⟩ ∧
    WriteFloat64LE bufferWriter [] (Float64frombits 4607182418800017408) =
      ⟨none, [0, 0, 0, 0, 0, 0, 240, 63]⟩ :=
  ⟨by decide, by decide, by decide, by decide, by decide, by decide, by decide, by decide,
    by decide, by decide⟩

/-- C35 (amended). Byte order of the `LE` float functions: `ReadFloat32LE` and
`ReadFloat64LE` read their 4 or 8 bytes in little-endian byte order (the bits
of the value are the sum of `b[i] * 256 ^ i`), and `WriteFloat32LE` and
`WriteFloat64LE` write the bits of the value in little-endian byte order,
least significant byte first; that is, `ReadFloat32LE` agrees with
`ReadFloat32BE`, and `ReadFloat64LE` with `ReadFloat64BE`, on the bytes in
reverse order, and `WriteFloat32LE` / `WriteFloat64LE` write the bytes of
`WriteFloat32BE` / `WriteFloat64BE` in reverse order. -/
theorem LE_float_functions_byte_order (fuel : Nat) (b0 b1 b2 b3 b4 b5 b6 b7 : Byte)
    (f : Float32) (d : Float64) :
    ReadFloat32LE bytesReader (fuel + 1) [b0, b1, b2, b3] =
      Run.done ⟨Float32frombits (b0.val + b1.val * 256 + b2.val * 256 ^ 2 +
        b3.val * 256 ^ 3), none, []⟩ ∧
    ReadFloat64LE bytesReader (fuel + 1) [b0, b1, b2, b3, b4, b5, b6, b7] =
      Run.done ⟨Float64frombits (b0.val + b1.val * 256 + b2.val * 256 ^ 2 +
        b3.val * 256 ^ 3 + b4.val * 256 ^ 4 + b5.val * 256 ^ 5 + b6.val * 256 ^ 6 +
        b7.val * 256 ^ 7), none, []⟩ ∧
    ReadFloat32LE bytesReader (fuel + 1) [b0, b1, b2, b3] =
      ReadFloat32BE bytesReader (fuel + 1) [b3, b2, b1, b0] ∧
    ReadFloat64LE bytesReader (fuel + 1) [b0, b1, b2, b3, b4, b5, b6, b7] =
      ReadFloat64BE bytesReader (fuel + 1) [b7, b6, b5, b4, b3, b2, b1, b0] ∧
    WriteFloat32LE bufferWriter [] f =
      ⟨none, [byte (Float32bits f), byte (Float32bits f >>> 8), byte (Float32bits f >>> 16),
        byte (Float32bits f >>> 24)]⟩ ∧
    WriteFloat64LE bufferWriter [] d =
      ⟨none, [byte (Float64bits d), byte (Float64bits d >>> 8), byte (Float64bits d >>> 16),
        byte (Float64bits d >>> 24), byte (Float64bits d >>> 32), byte (Float64bits d >>> 40),
        byte (Float64bits d >>> 48), byte (Float64bits d >>> 56)]⟩ ∧
    (WriteFloat32LE bufferWriter [] f).st = (WriteFloat32BE bufferWriter [] f).st.reverse ∧
    (WriteFloat64LE bufferWriter [] d).st = (WriteFloat64BE bufferWriter [] d).st.reverse :=
  ⟨ReadFloat32LE_bytes_value fuel b0 b1 b2 b3,
    ReadFloat64LE_bytes_value fuel b0 b1 b2 b3 b4 b5 b6 b7,
    ReadFloat32LE_bytes_reverse fuel b0 b1 b2 b3,
    ReadFloat64LE_bytes_reverse fuel b0 b1 b2 b3 b4 b5 b6 b7, rfl, rfl, rfl, rfl⟩

/-! ## The integer encoding is canonical -/

theorem toUnsigned_toSigned_8 (u : Nat) (h : u < 2 ^ 8) : toUnsigned 8 (toSigned 8 u) = u := by
  unfold toUnsigned toSigned
  norm_num at h ⊢
  omega

theorem toUnsigned_toSigned_16 (u : Nat) (h : u < 2 ^ 16) :
    toUnsigned 16 (toSigned 16 u) = u := by
  unfold toUnsigned toSigned
  norm_num at h ⊢
  omega

theorem toUnsigned_toSigned_32 (u : Nat) (h : u < 2 ^ 32) :
    toUnsigned 32 (toSigned 32 u) = u := by
  unfold toUnsigned toSigned
  norm_num at h ⊢
  omega

theorem toUnsigned_toSigned_64 (u : Nat) (h : u < 2 ^ 64) :
    toUnsigned 64 (toSigned 64 u) = u := by
  unfold toUnsigned toSigned
  norm_num at h ⊢
  omega

/-- A byte is the low byte of its own value. -/
theorem byte_val (b : Byte) : byte b.val = b := by
  apply Fin.ext
  have := b.isLt
  simp only [byte]
  omega

/-- If reading a byte sequence and writing the value back reproduces the
sequence, for two sequences, then equal results of the read mean equal
sequences. -/
theorem canonical_inj {α : Type} (read : List Byte → Run (Ret α (List Byte)))
    (wr : α → WRet (List Byte)) (bs cs : List Byte)
    (hb : ∃ v, read bs = Run.done ⟨v, none, []⟩ ∧ wr v = ⟨none, bs⟩)
    (hc : ∃ v, read cs = Run.done ⟨v, none, []⟩ ∧ wr v = ⟨none, cs⟩)
    (h : read bs = read cs) : bs = cs := by
  obtain ⟨v, hr, hw⟩ := hb
  obtain ⟨v2, hr2, hw2⟩ := hc
  rw [hr, hr2] at h
  have hv : v = v2 := by
    injection h with h1
    injection h1
  subst hv
  rw [hw] at hw2
  injection hw2

/-- Decoding 2 bytes with `BigEndian.Uint16` and encoding the value with
`BigEndian.PutUint16` gives the bytes back. -/
theorem beUint16_canonical (b0 b1 : Byte) :
    ∃ u, BigEndian.Uint16 [b0, b1] = some u ∧ u < 2 ^ 16 ∧
      BigEndian.PutUint16 u = [b0, b1] := by
  have h0 := b0.isLt
  have h1 := b1.isLt
  refine ⟨_, beUint16_cons b0 b1 [], ?_, ?_⟩
  · norm_num
    omega
  · simp only [BigEndian.PutUint16, byte, Nat.shiftRight_eq_div_pow, List.cons.injEq, and_true,
      Fin.ext_iff]
    norm_num
    omega

/-- Decoding 2 bytes with `LittleEndian.Uint16` and encoding the value with
`LittleEndian.PutUint16` gives the bytes back. -/
theorem leUint16_canonical (b0 b1 : Byte) :
    ∃ u, LittleEndian.Uint16 [b0, b1] = some u ∧ u < 2 ^ 16 ∧
      LittleEndian.PutUint16 u = [b0, b1] := by
  have h0 := b0.isLt
  have h1 := b1.isLt
  refine ⟨_, leUint16_cons b0 b1 [], ?_, ?_⟩
  · norm_num
    omega
  · simp only [LittleEndian.PutUint16, byte, Nat.shiftRight_eq_div_pow, List.cons.injEq, and_true,
      Fin.ext_iff]
    norm_num
    omega

/-- Decoding 4 bytes with `BigEndian.Uint32` and encoding the value with
`BigEndian.PutUint32` gives the bytes back. -/
theorem beUint32_canonical (b0 b1 b2 b3 : Byte) :
    ∃ u, BigEndian.Uint32 [b0, b1, b2, b3] = some u ∧ u < 2 ^ 32 ∧
      BigEndian.PutUint32 u = [b0, b1, b2, b3] := by
  have h0 := b0.isLt
  have h1 := b1.isLt
  have h2 := b2.isLt
  have h3 := b3.isLt
  refine ⟨_, beUint32_cons b0 b1 b2 b3 [], ?_, ?_⟩
  · norm_num
    omega
  · simp only [BigEndian.PutUint32, byte, Nat.shiftRight_eq_div_pow, List.cons.injEq, and_true,
      Fin.ext_iff]
    norm_num
    omega

/-- Decoding 4 bytes with `LittleEndian.Uint32` and encoding the value with
`LittleEndian.PutUint32` gives the bytes back. -/
theorem leUint32_canonical (b0 b1 b2 b3 : Byte) :
    ∃ u, LittleEndian.Uint32 [b0, b1, b2, b3] = some u ∧ u < 2 ^ 32 ∧
      LittleEndian.PutUint32 u = [b0, b1, b2, b3] := by
  have h0 := b0.isLt
  have h1 := b1.isLt
  have h2 := b2.isLt
  have h3 := b3.isLt
  refine ⟨_, leUint32_cons b0 b1 b2 b3 [], ?_, ?_⟩
  · norm_num
    omega
  · simp only [LittleEndian.PutUint32, byte, Nat.shiftRight_eq_div_pow, List.cons.injEq, and_true,
      Fin.ext_iff]
    norm_num
    omega

/-- Decoding 8 bytes with `BigEndian.Uint64` and encoding the value with
`BigEndian.PutUint64` gives the bytes back. -/
theorem beUint64_canonical (b0 b1 b2 b3 b4 b5 b6 b7 : Byte) :
    ∃ u, BigEndian.Uint64 [b0, b1, b2, b3, b4, b5, b6, b7] = some u ∧ u < 2 ^ 64 ∧
      BigEndian.PutUint64 u = [b0, b1, b2, b3, b4, b5, b6, b7] := by
  have h0 := b0.isLt
  have h1 := b1.isLt
  have h2 := b2.isLt
  have h3 := b3.isLt
  have h4 := b4.isLt
  have h5 := b5.isLt
  have h6 := b6.isLt
  have h7 := b7.isLt
  refine ⟨_, beUint64_cons b0 b1 b2 b3 b4 b5 b6 b7 [], ?_, ?_⟩
  · norm_num
    omega
  · simp only [BigEndian.PutUint64, byte, Nat.shiftRight_eq_div_pow, List.cons.injEq, and_true,
      Fin.ext_iff]
    norm_num
    omega

/-- Decoding 8 bytes with `LittleEndian.Uint64` and encoding the value with
`LittleEndian.PutUint64` gives the bytes back. -/
theorem leUint64_canonical (b0 b1 b2 b3 b4 b5 b6 b7 : Byte) :
    ∃ u, LittleEndian.Uint64 [b0, b1, b2, b3, b4, b5, b6, b7] = some u ∧ u < 2 ^ 64 ∧
      LittleEndian.PutUint64 u = [b0, b1, b2, b3, b4, b5, b6, b7] := by
  have h0 := b0.isLt
  have h1 := b1.isLt
  have h2 := b2.isLt
  have h3 := b3.isLt
  have h4 := b4.isLt
  have h5 := b5.isLt
  have h6 := b6.isLt
  have h7 := b7.isLt
  refine ⟨_, leUint64_cons b0 b1 b2 b3 b4 b5 b6 b7 [], ?_, ?_⟩
  · norm_num
    omega
  · simp only [LittleEndian.PutUint64, byte, Nat.shiftRight_eq_div_pow, List.cons.injEq, and_true,
      Fin.ext_iff]
    norm_num
    omega

theorem ReadUint8_canonical (fuel : Nat) (b0 : Byte) :
    ∃ v, ReadUint8 bytesReader (fuel + 1) [b0] = Run.done ⟨v, none, []⟩ ∧
      WriteUint8 bufferWriter [] v = ⟨none, [b0]⟩ := by
  have h := readN_bytes_ok (fuel + 1) [b0] 1 (by omega) (by decide) (by simp)
  refine ⟨b0.val, ?_, ?_⟩
  · simp [ReadUint8, h]
  · simp [WriteUint8, write, bufferWriter, byte_val]

theorem ReadInt8_canonical (fuel : Nat) (b0 : Byte) :
    ∃ v, ReadInt8 bytesReader (fuel + 1) [b0] = Run.done ⟨v, none, []⟩ ∧
      WriteInt8 bufferWriter [] v = ⟨none, [b0]⟩ := by
  have h := readN_bytes_ok (fuel + 1) [b0] 1 (by omega) (by decide) (by simp)
  refine ⟨toSigned 8 b0.val, ?_, ?_⟩
  · simp [ReadInt8, h]
  · simp [WriteInt8, write, bufferWriter, toUnsigned_toSigned_8 b0.val b0.isLt, byte_val]

theorem ReadUint16BE_canonical (fuel : Nat) (b0 b1 : Byte) :
    ∃ v, ReadUint16BE bytesReader (fuel + 1) [b0, b1] = Run.done ⟨v, none, []⟩ ∧
      WriteUint16BE bufferWriter [] v = ⟨none, [b0, b1]⟩ := by
  have h := readN_bytes_ok (fuel + 1) [b0, b1] 2 (by omega) (by decide) (by simp)
  obtain ⟨u, hu, hlt, hput⟩ := beUint16_canonical b0 b1
  refine ⟨u, ?_, ?_⟩
  · simp [ReadUint16BE, h, hu]
  · simp [WriteUint16BE, write, bufferWriter, hput]

theorem ReadUint16LE_canonical (fuel : Nat) (b0 b1 : Byte) :
    ∃ v, ReadUint16LE bytesReader (fuel + 1) [b0, b1] = Run.done ⟨v, none, []⟩ ∧
      WriteUint16LE bufferWriter [] v = ⟨none, [b0, b1]⟩ := by
  have h := readN_bytes_ok (fuel + 1) [b0, b1] 2 (by omega) (by decide) (by simp)
  obtain ⟨u, hu, hlt, hput⟩ := leUint16_canonical b0 b1
  refine ⟨u, ?_, ?_⟩
  · simp [ReadUint16LE, h, hu]
  · simp [WriteUint16LE, write, bufferWriter, hput]

theorem ReadInt16BE_canonical (fuel : Nat) (b0 b1 : Byte) :
    ∃ v, ReadInt16BE bytesReader (fuel + 1) [b0, b1] = Run.done ⟨v, none, []⟩ ∧
      WriteInt16BE bufferWriter [] v = ⟨none, [b0, b1]⟩ := by
  have h := readN_bytes_ok (fuel + 1) [b0, b1] 2 (by omega) (by decide) (by simp)
  obtain ⟨u, hu, hlt, hput⟩ := beUint16_canonical b0 b1
  refine ⟨toSigned 16 u, ?_, ?_⟩
  · simp [ReadInt16BE, h, hu]
  · simp [WriteInt16BE, write, bufferWriter, toUnsigned_toSigned_16 u hlt, hput]

theorem ReadInt16LE_canonical (fuel : Nat) (b0 b1 : Byte) :
    ∃ v, ReadInt16LE bytesReader (fuel + 1) [b0, b1] = Run.done ⟨v, none, []⟩ ∧
      WriteInt16LE bufferWriter [] v = ⟨none, [b0, b1]⟩ := by
  have h := readN_bytes_ok (fuel + 1) [b0, b1] 2 (by omega) (by decide) (by simp)
  obtain ⟨u, hu, hlt, hput⟩ := leUint16_canonical b0 b1
  refine ⟨toSigned 16 u, ?_, ?_⟩
  · simp [ReadInt16LE, h, hu]
  · simp [WriteInt16LE, write, bufferWriter, toUnsigned_toSigned_16 u hlt, hput]

theorem ReadUint32BE_canonical (fuel : Nat) (b0 b1 b2 b3 : Byte) :
    ∃ v, ReadUint32BE bytesReader (fuel + 1) [b0, b1, b2, b3] = Run.done ⟨v, none, []⟩ ∧
      WriteUint32BE bufferWriter [] v = ⟨none, [b0, b1, b2, b3]⟩ := by
  have h := readN_bytes_ok (fuel + 1) [b0, b1, b2, b3] 4 (by omega) (by decide) (by simp)
  obtain ⟨u, hu, hlt, hput⟩ := beUint32_canonical b0 b1 b2 b3
  refine ⟨u, ?_, ?_⟩
  · simp [ReadUint32BE, h, hu]
  · simp [WriteUint32BE, write, bufferWriter, hput]

theorem ReadUint32LE_canonical (fuel : Nat) (b0 b1 b2 b3 : Byte) :
    ∃ v, ReadUint32LE bytesReader (fuel + 1) [b0, b1, b2, b3] = Run.done ⟨v, none, []⟩ ∧
      WriteUint32LE bufferWriter [] v = ⟨none, [b0, b1, b2, b3]⟩ := by
  have h := readN_bytes_ok (fuel + 1) [b0, b1, b2, b3] 4 (by omega) (by decide) (by simp)
  obtain ⟨u, hu, hlt, hput⟩ := leUint32_canonical b0 b1 b2 b3
  refine ⟨u, ?_, ?_⟩
  · simp [ReadUint32LE, h, hu]
  · simp [WriteUint32LE, write, bufferWriter, hput]

theorem ReadInt32BE_canonical (fuel : Nat) (b0 b1 b2 b3 : Byte) :
    ∃ v, ReadInt32BE bytesReader (fuel + 1) [b0, b1, b2, b3] = Run.done ⟨v, none, []⟩ ∧
      WriteInt32BE bufferWriter [] v = ⟨none, [b0, b1, b2, b3]⟩ := by
  have h := readN_bytes_ok (fuel + 1) [b0, b1, b2, b3] 4 (by omega) (by decide) (by simp)
  obtain ⟨u, hu, hlt, hput⟩ := beUint32_canonical b0 b1 b2 b3
  refine ⟨toSigned 32 u, ?_, ?_⟩
  · simp [ReadInt32BE, h, hu]
  · simp [WriteInt32BE, write, bufferWriter, toUnsigned_toSigned_32 u hlt, hput]

theorem ReadInt32LE_canonical (fuel : Nat) (b0 b1 b2 b3 : Byte) :
    ∃ v, ReadInt32LE bytesReader (fuel + 1) [b0, b1, b2, b3] = Run.done ⟨v, none, []⟩ ∧
      WriteInt32LE bufferWriter [] v = ⟨none, [b0, b1, b2, b3]⟩ := by
  have h := readN_bytes_ok (fuel + 1) [b0, b1, b2, b3] 4 (by omega) (by decide) (by simp)
  obtain ⟨u, hu, hlt, hput⟩ := leUint32_canonical b0 b1 b2 b3
  refine ⟨toSigned 32 u, ?_, ?_⟩
  · simp [ReadInt32LE, h, hu]
  · simp [WriteInt32LE, write, bufferWriter, toUnsigned_toSigned_32 u hlt, hput]

theorem ReadUint64BE_canonical (fuel : Nat) (b0 b1 b2 b3 b4 b5 b6 b7 : Byte) :
    ∃ v, ReadUint64BE bytesReader (fuel + 1) [b0, b1, b2, b3, b4, b5, b6, b7] = Run.done ⟨v, none, []⟩ ∧
      WriteUint64BE bufferWriter [] v = ⟨none, [b0, b1, b2, b3, b4, b5, b6, b7]⟩ := by
  have h := readN_bytes_ok (fuel + 1) [b0, b1, b2, b3, b4, b5, b6, b7] 8 (by omega) (by decide) (by simp)
  obtain ⟨u, hu, hlt, hput⟩ := beUint64_canonical b0 b1 b2 b3 b4 b5 b6 b7
  refine ⟨u, ?_, ?_⟩
  · simp [ReadUint64BE, h, hu]
  · simp [WriteUint64BE, write, bufferWriter, hput]

theorem ReadUint64LE_canonical (fuel : Nat) (b0 b1 b2 b3 b4 b5 b6 b7 : Byte) :
    ∃ v, ReadUint64LE bytesReader (fuel + 1) [b0, b1, b2, b3, b4, b5, b6, b7] = Run.done ⟨v, none, []⟩ ∧
      WriteUint64LE bufferWriter [] v = ⟨none, [b0, b1, b2, b3, b4, b5, b6, b7]⟩ := by
  have h := readN_bytes_ok (fuel + 1) [b0, b1, b2, b3, b4, b5, b6, b7] 8 (by omega) (by decide) (by simp)
  obtain ⟨u, hu, hlt, hput⟩ := leUint64_canonical b0 b1 b2 b3 b4 b5 b6 b7
  refine ⟨u, ?_, ?_⟩
  · simp [ReadUint64LE, h, hu]
  · simp [WriteUint64LE, write, bufferWriter, hput]

theorem ReadInt64BE_canonical (fuel : Nat) (b0 b1 b2 b3 b4 b5 b6 b7 : Byte) :
    ∃ v, ReadInt64BE bytesReader (fuel + 1) [b0, b1, b2, b3, b4, b5, b6, b7] = Run.done ⟨v, none, []⟩ ∧
      WriteInt64BE bufferWriter [] v = ⟨none, [b0, b1, b2, b3, b4, b5, b6, b7]⟩ := by
  have h := readN_bytes_ok (fuel + 1) [b0, b1, b2, b3, b4, b5, b6, b7] 8 (by omega) (by decide) (by simp)
  obtain ⟨u, hu, hlt, hput⟩ := beUint64_canonical b0 b1 b2 b3 b4 b5 b6 b7
  refine ⟨toSigned 64 u, ?_, ?_⟩
  · simp [ReadInt64BE, h, hu]
  · simp [WriteInt64BE, write, bufferWriter, toUnsigned_toSigned_64 u hlt, hput]

theorem ReadInt64LE_canonical (fuel : Nat) (b0 b1 b2 b3 b4 b5 b6 b7 : Byte) :
    ∃ v, ReadInt64LE bytesReader (fuel + 1) [b0, b1, b2, b3, b4, b5, b6, b7] = Run.done ⟨v, none, []⟩ ∧
      WriteInt64LE bufferWriter [] v = ⟨none, [b0, b1, b2, b3, b4, b5, b6, b7]⟩ := by
  have h := readN_bytes_ok (fuel + 1) [b0, b1, b2, b3, b4, b5, b6, b7] 8 (by omega) (by decide) (by simp)
  obtain ⟨u, hu, hlt, hput⟩ := leUint64_canonical b0 b1 b2 b3 b4 b5 b6 b7
  refine ⟨toSigned 64 u, ?_, ?_⟩
  · simp [ReadInt64LE, h, hu]
  · simp [WriteInt64LE, write, bufferWriter, toUnsigned_toSigned_64 u hlt, hput]

/-- C36. The integer encoding is canonical: for every width (8, 16, 32, 64),
signedness and byte order, and every byte sequence `b` of exactly `N/8` bytes,
the typed read of `b` (from a `bytes.Reader`) succeeds, and the matching typed
write of the value it returns puts exactly `b` into an empty `bytes.Buffer`;
hence two `N/8`-byte sequences on which the read returns the same result are
the same sequence. -/
theorem integer_encoding_is_canonical (fuel : Nat) (b0 b1 b2 b3 b4 b5 b6 b7 : Byte) :
    (∃ v, ReadUint8 bytesReader (fuel + 1) [b0] = Run.done ⟨v, none, []⟩ ∧
      WriteUint8 bufferWriter [] v = ⟨none, [b0]⟩) ∧
    (∀ c0 : Byte,
      ReadUint8 bytesReader (fuel + 1) [b0] =
        ReadUint8 bytesReader (fuel + 1) [c0] →
      [b0] = [c0]) ∧
    (∃ v, ReadInt8 bytesReader (fuel + 1) [b0] = Run.done ⟨v, none, []⟩ ∧
      WriteInt8 bufferWriter [] v = ⟨none, [b0]⟩) ∧
    (∀ c0 : Byte,
      ReadInt8 bytesReader (fuel + 1) [b0] =
        ReadInt8 bytesReader (fuel + 1) [c0] →
      [b0] = [c0]) ∧
    (∃ v, ReadUint16BE bytesReader (fuel + 1) [b0, b1] = Run.done ⟨v, none, []⟩ ∧
      WriteUint16BE bufferWriter [] v = ⟨none, [b0, b1]⟩) ∧
    (∀ c0 c1 : Byte,
      ReadUint16BE bytesReader (fuel + 1) [b0, b1] =
        ReadUint16BE bytesReader (fuel + 1) [c0, c1] →
      [b0, b1] = [c0, c1]) ∧
    (∃ v, ReadUint16LE bytesReader (fuel + 1) [b0, b1] = Run.done ⟨v, none, []⟩ ∧
      WriteUint16LE bufferWriter [] v = ⟨none, [b0, b1]⟩) ∧
    (∀ c0 c1 : Byte,
      ReadUint16LE bytesReader (fuel + 1) [b0, b1] =
        ReadUint16LE bytesReader (fuel + 1) [c0, c1] →
      [b0, b1] = [c0, c1]) ∧
    (∃ v, ReadInt16BE bytesReader (fuel + 1) [b0, b1] = Run.done ⟨v, none, []⟩ ∧
      WriteInt16BE bufferWriter [] v = ⟨none, [b0, b1]⟩) ∧
    (∀ c0 c1 : Byte,
      ReadInt16BE bytesReader (fuel + 1) [b0, b1] =
        ReadInt16BE bytesReader (fuel + 1) [c0, c1] →
      [b0, b1] = [c0, c1]) ∧
    (∃ v, ReadInt16LE bytesReader (fuel + 1) [b0, b1] = Run.done ⟨v, none, []⟩ ∧
      WriteInt16LE bufferWriter [] v = ⟨none, [b0, b1]⟩) ∧
    (∀ c0 c1 : Byte,
      ReadInt16LE bytesReader (fuel + 1) [b0, b1] =
        ReadInt16LE bytesReader (fuel + 1) [c0, c1] →
      [b0, b1] = [c0, c1]) ∧
    (∃ v, ReadUint32BE bytesReader (fuel + 1) [b0, b1, b2, b3] = Run.done ⟨v, none, []⟩ ∧
      WriteUint32BE bufferWriter [] v = ⟨none, [b0, b1, b2, b3]⟩) ∧
    (∀ c0 c1 c2 c3 : Byte,
      ReadUint32BE bytesReader (fuel + 1) [b0, b1, b2, b3] =
        ReadUint32BE bytesReader (fuel + 1) [c0, c1, c2, c3] →
      [b0, b1, b2, b3] = [c0, c1, c2, c3]) ∧
    (∃ v, ReadUint32LE bytesReader (fuel + 1) [b0, b1, b2, b3] = Run.done ⟨v, none, []⟩ ∧
      WriteUint32LE bufferWriter [] v = ⟨none, [b0, b1, b2, b3]⟩) ∧
    (∀ c0 c1 c2 c3 : Byte,
      ReadUint32LE bytesReader (fuel + 1) [b0, b1, b2, b3] =
        ReadUint32LE bytesReader (fuel + 1) [c0, c1, c2, c3] →
      [b0, b1, b2, b3] = [c0, c1, c2, c3]) ∧
    (∃ v, ReadInt32BE bytesReader (fuel + 1) [b0, b1, b2, b3] = Run.done ⟨v, none, []⟩ ∧
      WriteInt32BE bufferWriter [] v = ⟨none, [b0, b1, b2, b3]⟩) ∧
    (∀ c0 c1 c2 c3 : Byte,
      ReadInt32BE bytesReader (fuel + 1) [b0, b1, b2, b3] =
        ReadInt32BE bytesReader (fuel + 1) [c0, c1, c2, c3] →
      [b0, b1, b2, b3] = [c0, c1, c2, c3]) ∧
    (∃ v, ReadInt32LE bytesReader (fuel + 1) [b0, b1, b2, b3] = Run.done ⟨v, none, []⟩ ∧
      WriteInt32LE bufferWriter [] v = ⟨none, [b0, b1, b2, b3]⟩) ∧
    (∀ c0 c1 c2 c3 : Byte,
      ReadInt32LE bytesReader (fuel + 1) [b0, b1, b2, b3] =
        ReadInt32LE bytesReader (fuel + 1) [c0, c1, c2, c3] →
      [b0, b1, b2, b3] = [c0, c1, c2, c3]) ∧
    (∃ v, ReadUint64BE bytesReader (fuel + 1) [b0, b1, b2, b3, b4, b5, b6, b7] = Run.done ⟨v, none, []⟩ ∧
      WriteUint64BE bufferWriter [] v = ⟨none, [b0, b1, b2, b3, b4, b5, b6, b7]⟩) ∧
    (∀ c0 c1 c2 c3 c4 c5 c6 c7 : Byte,
      ReadUint64BE bytesReader (fuel + 1) [b0, b1, b2, b3, b4, b5, b6, b7] =
        ReadUint64BE bytesReader (fuel + 1) [c0, c1, c2, c3, c4, c5, c6, c7] →
      [b0, b1, b2, b3, b4, b5, b6, b7] = [c0, c1, c2, c3, c4, c5, c6, c7]) ∧
    (∃ v, ReadUint64LE bytesReader (fuel + 1) [b0, b1, b2, b3, b4, b5, b6, b7] = Run.done ⟨v, none, []⟩ ∧
      WriteUint64LE bufferWriter [] v = ⟨none, [b0, b1, b2, b3, b4, b5, b6, b7]⟩) ∧
    (∀ c0 c1 c2 c3 c4 c5 c6 c7 : Byte,
      ReadUint64LE bytesReader (fuel + 1) [b0, b1, b2, b3, b4, b5, b6, b7] =
        ReadUint64LE bytesReader (fuel + 1) [c0, c1, c2, c3, c4, c5, c6, c7] →
      [b0, b1, b2, b3, b4, b5, b6, b7] = [c0, c1, c2, c3, c4, c5, c6, c7]) ∧
    (∃ v, ReadInt64BE bytesReader (fuel + 1) [b0, b1, b2, b3, b4, b5, b6, b7] = Run.done ⟨v, none, []⟩ ∧
      WriteInt64BE bufferWriter [] v = ⟨none, [b0, b1, b2, b3, b4, b5, b6, b7]⟩) ∧
    (∀ c0 c1 c2 c3 c4 c5 c6 c7 : Byte,
      ReadInt64BE bytesReader (fuel + 1) [b0, b1, b2, b3, b4, b5, b6, b7] =
        ReadInt64BE bytesReader (fuel + 1) [c0, c1, c2, c3, c4, c5, c6, c7] →
      [b0, b1, b2, b3, b4, b5, b6, b7] = [c0, c1, c2, c3, c4, c5, c6, c7]) ∧
    (∃ v, ReadInt64LE bytesReader (fuel + 1) [b0, b1, b2, b3, b4, b5, b6, b7] = Run.done ⟨v, none, []⟩ ∧
      WriteInt64LE bufferWriter [] v = ⟨none, [b0, b1, b2, b3, b4, b5, b6, b7]⟩) ∧
    (∀ c0 c1 c2 c3 c4 c5 c6 c7 : Byte,
      ReadInt64LE bytesReader (fuel + 1) [b0, b1, b2, b3, b4, b5, b6, b7] =
        ReadInt64LE bytesReader (fuel + 1) [c0, c1, c2, c3, c4, c5, c6, c7] →
      [b0, b1, b2, b3, b4, b5, b6, b7] = [c0, c1, c2, c3, c4, c5, c6, c7]) :=
  ⟨ReadUint8_canonical fuel b0,
    fun c0 h =>
      canonical_inj (ReadUint8 bytesReader (fuel + 1)) (WriteUint8 bufferWriter []) _ _
        (ReadUint8_canonical fuel b0) (ReadUint8_canonical fuel c0) h,
    ReadInt8_canonical fuel b0,
    fun c0 h =>
      canonical_inj (ReadInt8 bytesReader (fuel + 1)) (WriteInt8 bufferWriter []) _ _
        (ReadInt8_canonical fuel b0) (ReadInt8_canonical fuel c0) h,
    ReadUint16BE_canonical fuel b0 b1,
    fun c0 c1 h =>
      canonical_inj (ReadUint16BE bytesReader (fuel + 1)) (WriteUint16BE bufferWriter []) _ _
        (ReadUint16BE_canonical fuel b0 b1) (ReadUint16BE_canonical fuel c0 c1) h,
    ReadUint16LE_canonical fuel b0 b1,
    fun c0 c1 h =>
      canonical_inj (ReadUint16LE bytesReader (fuel + 1)) (WriteUint16LE bufferWriter []) _ _
        (ReadUint16LE_canonical fuel b0 b1) (ReadUint16LE_canonical fuel c0 c1) h,
    ReadInt16BE_canonical fuel b0 b1,
    fun c0 c1 h =>
      canonical_inj (ReadInt16BE bytesReader (fuel + 1)) (WriteInt16BE bufferWriter []) _ _
        (ReadInt16BE_canonical fuel b0 b1) (ReadInt16BE_canonical fuel c0 c1) h,
    ReadInt16LE_canonical fuel b0 b1,
    fun c0 c1 h =>
      canonical_inj (ReadInt16LE bytesReader (fuel + 1)) (WriteInt16LE bufferWriter []) _ _
        (ReadInt16LE_canonical fuel b0 b1) (ReadInt16LE_canonical fuel c0 c1) h,
    ReadUint32BE_canonical fuel b0 b1 b2 b3,
    fun c0 c1 c2 c3 h =>
      canonical_inj (ReadUint32BE bytesReader (fuel + 1)) (WriteUint32BE bufferWriter []) _ _
        (ReadUint32BE_canonical fuel b0 b1 b2 b3) (ReadUint32BE_canonical fuel c0 c1 c2 c3) h,
    ReadUint32LE_canonical fuel b0 b1 b2 b3,
    fun c0 c1 c2 c3 h =>
      canonical_inj (ReadUint32LE bytesReader (fuel + 1)) (WriteUint32LE bufferWriter []) _ _
        (ReadUint32LE_canonical fuel b0 b1 b2 b3) (ReadUint32LE_canonical fuel c0 c1 c2 c3) h,
    ReadInt32BE_canonical fuel b0 b1 b2 b3,
    fun c0 c1 c2 c3 h =>
      canonical_inj (ReadInt32BE bytesReader (fuel + 1)) (WriteInt32BE bufferWriter []) _ _
        (ReadInt32BE_canonical fuel b0 b1 b2 b3) (ReadInt32BE_canonical fuel c0 c1 c2 c3) h,
    ReadInt32LE_canonical fuel b0 b1 b2 b3,
    fun c0 c1 c2 c3 h =>
      canonical_inj (ReadInt32LE bytesReader (fuel + 1)) (WriteInt32LE bufferWriter []) _ _
        (ReadInt32LE_canonical fuel b0 b1 b2 b3) (ReadInt32LE_canonical fuel c0 c1 c2 c3) h,
    ReadUint64BE_canonical fuel b0 b1 b2 b3 b4 b5 b6 b7,
    fun c0 c1 c2 c3 c4 c5 c6 c7 h =>
      canonical_inj (ReadUint64BE bytesReader (fuel + 1)) (WriteUint64BE bufferWriter []) _ _
        (ReadUint64BE_canonical fuel b0 b1 b2 b3 b4 b5 b6 b7) (ReadUint64BE_canonical fuel c0 c1 c2 c3 c4 c5 c6 c7) h,
    ReadUint64LE_canonical fuel b0 b1 b2 b3 b4 b5 b6 b7,
    fun c0 c1 c2 c3 c4 c5 c6 c7 h =>
      canonical_inj (ReadUint64LE bytesReader (fuel + 1)) (WriteUint64LE bufferWriter []) _ _
        (ReadUint64LE_canonical fuel b0 b1 b2 b3 b4 b5 b6 b7) (ReadUint64LE_canonical fuel c0 c1 c2 c3 c4 c5 c6 c7) h,
    ReadInt64BE_canonical fuel b0 b1 b2 b3 b4 b5 b6 b7,
    fun c0 c1 c2 c3 c4 c5 c6 c7 h =>
      canonical_inj (ReadInt64BE bytesReader (fuel + 1)) (WriteInt64BE bufferWriter []) _ _
        (ReadInt64BE_canonical fuel b0 b1 b2 b3 b4 b5 b6 b7) (ReadInt64BE_canonical fuel c0 c1 c2 c3 c4 c5 c6 c7) h,
    ReadInt64LE_canonical fuel b0 b1 b2 b3 b4 b5 b6 b7,
    fun c0 c1 c2 c3 c4 c5 c6 c7 h =>
      canonical_inj (ReadInt64LE bytesReader (fuel + 1)) (WriteInt64LE bufferWriter []) _ _
        (ReadInt64LE_canonical fuel b0 b1 b2 b3 b4 b5 b6 b7) (ReadInt64LE_canonical fuel c0 c1 c2 c3 c4 c5 c6 c7) h⟩

/-! ## The value returned with an error -/

theorem ReadUint8_zero_on_error {σ : Type} (R : Reader σ) (fuel : Nat) (s : σ)
    (r : Ret Nat σ) (h : ReadUint8 R fuel s = Run.done r) (herr : r.err ≠ none) :
    r.val = 0 := by
  obtain ⟨v, e, s2⟩ := r
  cases e with
  | none => exact absurd rfl herr
  | some e =>
      unfold ReadUint8 at h
      cases hr : readN R fuel s 1 with
      | pending => simp [hr] at h
      | panicked => simp [hr] at h
      | done rr =>
          obtain ⟨val, err, st⟩ := rr
          cases err with
          | some e2 =>
              simp [hr] at h
              exact h.1.symm
          | none => cases val <;> simp [hr] at h

theorem ReadInt8_zero_on_error {σ : Type} (R : Reader σ) (fuel : Nat) (s : σ)
    (r : Ret Int σ) (h : ReadInt8 R fuel s = Run.done r) (herr : r.err ≠ none) :
    r.val = 0 := by
  obtain ⟨v, e, s2⟩ := r
  cases e with
  | none => exact absurd rfl herr
  | some e =>
      unfold ReadInt8 at h
      cases hr : readN R fuel s 1 with
      | pending => simp [hr] at h
      | panicked => simp [hr] at h
      | done rr =>
          obtain ⟨val, err, st⟩ := rr
          cases err with
          | some e2 =>
              simp [hr] at h
              exact h.1.symm
          | none => cases val <;> simp [hr] at h

theorem ReadUint16BE_zero_on_error {σ : Type} (R : Reader σ) (fuel : Nat) (s : σ)
    (r : Ret Nat σ) (h : ReadUint16BE R fuel s = Run.done r) (herr : r.err ≠ none) :
    r.val = 0 := by
  obtain ⟨v, e, s2⟩ := r
  cases e with
  | none => exact absurd rfl herr
  | some e =>
      unfold ReadUint16BE at h
      cases hr : readN R fuel s 2 with
      | pending => simp [hr] at h
      | panicked => simp [hr] at h
      | done rr =>
          obtain ⟨val, err, st⟩ := rr
          cases err with
          | some e2 =>
              simp [hr] at h
              exact h.1.symm
          | none => cases hu : BigEndian.Uint16 val <;> simp [hr, hu] at h

theorem ReadUint16LE_zero_on_error {σ : Type} (R : Reader σ) (fuel : Nat) (s : σ)
    (r : Ret Nat σ) (h : ReadUint16LE R fuel s = Run.done r) (herr : r.err ≠ none) :
    r.val = 0 := by
  obtain ⟨v, e, s2⟩ := r
  cases e with
  | none => exact absurd rfl herr
  | some e =>
      unfold ReadUint16LE at h
      cases hr : readN R fuel s 2 with
      | pending => simp [hr] at h
      | panicked => simp [hr] at h
      | done rr =>
          obtain ⟨val, err, st⟩ := rr
          cases err with
          | some e2 =>
              simp [hr] at h
              exact h.1.symm
          | none => cases hu : LittleEndian.Uint16 val <;> simp [hr, hu] at h

theorem ReadInt16BE_zero_on_error {σ : Type} (R : Reader σ) (fuel : Nat) (s : σ)
    (r : Ret Int σ) (h : ReadInt16BE R fuel s = Run.done r) (herr : r.err ≠ none) :
    r.val = 0 := by
  obtain ⟨v, e, s2⟩ := r
  cases e with
  | none => exact absurd rfl herr
  | some e =>
      unfold ReadInt16BE at h
      cases hr : readN R fuel s 2 with
      | pending => simp [hr] at h
      | panicked => simp [hr] at h
      | done rr =>
          obtain ⟨val, err, st⟩ := rr
          cases err with
          | some e2 =>
              simp [hr] at h
              exact h.1.symm
          | none => cases hu : BigEndian.Uint16 val <;> simp [hr, hu] at h

theorem ReadInt16LE_zero_on_error {σ : Type} (R : Reader σ) (fuel : Nat) (s : σ)
    (r : Ret Int σ) (h : ReadInt16LE R fuel s = Run.done r) (herr : r.err ≠ none) :
    r.val = 0 := by
  obtain ⟨v, e, s2⟩ := r
  cases e with
  | none => exact absurd rfl herr
  | some e =>
      unfold ReadInt16LE at h
      cases hr : readN R fuel s 2 with
      | pending => simp [hr] at h
      | panicked => simp [hr] at h
      | done rr =>
          obtain ⟨val, err, st⟩ := rr
          cases err with
          | some e2 =>
              simp [hr] at h
              exact h.1.symm
          | none => cases hu : LittleEndian.Uint16 val <;> simp [hr, hu] at h

theorem ReadUint32BE_zero_on_error {σ : Type} (R : Reader σ) (fuel : Nat) (s : σ)
    (r : Ret Nat σ) (h : ReadUint32BE R fuel s = Run.done r) (herr : r.err ≠ none) :
    r.val = 0 := by
  obtain ⟨v, e, s2⟩ := r
  cases e with
  | none => exact absurd rfl herr
  | some e =>
      unfold ReadUint32BE at h
      cases hr : readN R fuel s 4 with
      | pending => simp [hr] at h
      | panicked => simp [hr] at h
      | done rr =>
          obtain ⟨val, err, st⟩ := rr
          cases err with
          | some e2 =>
              simp [hr] at h
              exact h.1.symm
          | none => cases hu : BigEndian.Uint32 val <;> simp [hr, hu] at h

theorem ReadUint32LE_zero_on_error {σ : Type} (R : Reader σ) (fuel : Nat) (s : σ)
    (r : Ret Nat σ) (h : ReadUint32LE R fuel s = Run.done r) (herr : r.err ≠ none) :
    r.val = 0 := by
  obtain ⟨v, e, s2⟩ := r
  cases e with
  | none => exact absurd rfl herr
  | some e =>
      unfold ReadUint32LE at h
      cases hr : readN R fuel s 4 with
      | pending => simp [hr] at h
      | panicked => simp [hr] at h
      | done rr =>
          obtain ⟨val, err, st⟩ := rr
          cases err with
          | some e2 =>
              simp [hr] at h
              exact h.1.symm
          | none => cases hu : LittleEndian.Uint32 val <;> simp [hr, hu] at h

theorem ReadInt32BE_zero_on_error {σ : Type} (R : Reader σ) (fuel : Nat) (s : σ)
    (r : Ret Int σ) (h : ReadInt32BE R fuel s = Run.done r) (herr : r.err ≠ none) :
    r.val = 0 := by
  obtain ⟨v, e, s2⟩ := r
  cases e with
  | none => exact absurd rfl herr
  | some e =>
      unfold ReadInt32BE at h
      cases hr : readN R fuel s 4 with
      | pending => simp [hr] at h
      | panicked => simp [hr] at h
      | done rr =>
          obtain ⟨val, err, st⟩ := rr
          cases err with
          | some e2 =>
              simp [hr] at h
              exact h.1.symm
          | none => cases hu : BigEndian.Uint32 val <;> simp [hr, hu] at h

theorem ReadInt32LE_zero_on_error {σ : Type} (R : Reader σ) (fuel : Nat) (s : σ)
    (r : Ret Int σ) (h : ReadInt32LE R fuel s = Run.done r) (herr : r.err ≠ none) :
    r.val = 0 := by
  obtain ⟨v, e, s2⟩ := r
  cases e with
  | none => exact absurd rfl herr
  | some e =>
      unfold ReadInt32LE at h
      cases hr : readN R fuel s 4 with
      | pending => simp [hr] at h
      | panicked => simp [hr] at h
      | done rr =>
          obtain ⟨val, err, st⟩ := rr
          cases err with
          | some e2 =>
              simp [hr] at h
              exact h.1.symm
          | none => cases hu : LittleEndian.Uint32 val <;> simp [hr, hu] at h

theorem ReadUint64BE_zero_on_error {σ : Type} (R : Reader σ) (fuel : Nat) (s : σ)
    (r : Ret Nat σ) (h : ReadUint64BE R fuel s = Run.done r) (herr : r.err ≠ none) :
    r.val = 0 := by
  obtain ⟨v, e, s2⟩ := r
  cases e with
  | none => exact absurd rfl herr
  | some e =>
      unfold ReadUint64BE at h
      cases hr : readN R fuel s 8 with
      | pending => simp [hr] at h
      | panicked => simp [hr] at h
      | done rr =>
          obtain ⟨val, err, st⟩ := rr
          cases err with
          | some e2 =>
              simp [hr] at h
              exact h.1.symm
          | none => cases hu : BigEndian.Uint64 val <;> simp [hr, hu] at h

theorem ReadUint64LE_zero_on_error {σ : Type} (R : Reader σ) (fuel : Nat) (s : σ)
    (r : Ret Nat σ) (h : ReadUint64LE R fuel s = Run.done r) (herr : r.err ≠ none) :
    r.val = 0 := by
  obtain ⟨v, e, s2⟩ := r
  cases e with
  | none => exact absurd rfl herr
  | some e =>
      unfold ReadUint64LE at h
      cases hr : readN R fuel s 8 with
      | pending => simp [hr] at h
      | panicked => simp [hr] at h
      | done rr =>
          obtain ⟨val, err, st⟩ := rr
          cases err with
          | some e2 =>
              simp [hr] at h
              exact h.1.symm
          | none => cases hu : LittleEndian.Uint64 val <;> simp [hr, hu] at h

theorem ReadInt64BE_zero_on_error {σ : Type} (R : Reader σ) (fuel : Nat) (s : σ)
    (r : Ret Int σ) (h : ReadInt64BE R fuel s = Run.done r) (herr : r.err ≠ none) :
    r.val = 0 := by
  obtain ⟨v, e, s2⟩ := r
  cases e with
  | none => exact absurd rfl herr
  | some e =>
      unfold ReadInt64BE at h
      cases hr : readN R fuel s 8 with
      | pending => simp [hr] at h
      | panicked => simp [hr] at h
      | done rr =>
          obtain ⟨val, err, st⟩ := rr
          cases err with
          | some e2 =>
              simp [hr] at h
              exact h.1.symm
          | none => cases hu : BigEndian.Uint64 val <;> simp [hr, hu] at h

theorem ReadInt64LE_zero_on_error {σ : Type} (R : Reader σ) (fuel : Nat) (s : σ)
    (r : Ret Int σ) (h : ReadInt64LE R fuel s = Run.done r) (herr : r.err ≠ none) :
    r.val = 0 := by
  obtain ⟨v, e, s2⟩ := r
  cases e with
  | none => exact absurd rfl herr
  | some e =>
      unfold ReadInt64LE at h
      cases hr : readN R fuel s 8 with
      | pending => simp [hr] at h
      | panicked => simp [hr] at h
      | done rr =>
          obtain ⟨val, err, st⟩ := rr
          cases err with
          | some e2 =>
              simp [hr] at h
              exact h.1.symm
          | none => cases hu : LittleEndian.Uint64 val <;> simp [hr, hu] at h

theorem ReadFloat32BE_zero_on_error {σ : Type} (R : Reader σ) (fuel : Nat) (s : σ)
    (r : Ret Float32 σ) (h : ReadFloat32BE R fuel s = Run.done r) (herr : r.err ≠ none) :
    r.val = Float32frombits 0 := by
  obtain ⟨v, e, s2⟩ := r
  cases e with
  | none => exact absurd rfl herr
  | some e =>
      unfold ReadFloat32BE at h
      cases hr : readN R fuel s 4 with
      | pending => simp [hr] at h
      | panicked => simp [hr] at h
      | done rr =>
          obtain ⟨val, err, st⟩ := rr
          cases err with
          | some e2 =>
              simp [hr] at h
              exact h.1.symm
          | none => cases hu : BigEndian.Uint32 val <;> simp [hr, hu] at h

theorem ReadFloat32LE_zero_on_error {σ : Type} (R : Reader σ) (fuel : Nat) (s : σ)
    (r : Ret Float32 σ) (h : ReadFloat32LE R fuel s = Run.done r) (herr : r.err ≠ none) :
    r.val = Float32frombits 0 := by
  obtain ⟨v, e, s2⟩ := r
  cases e with
  | none => exact absurd rfl herr
  | some e =>
      unfold ReadFloat32LE at h
      cases hr : readN R fuel s 4 with
      | pending => simp [hr] at h
      | panicked => simp [hr] at h
      | done rr =>
          obtain ⟨val, err, st⟩ := rr
          cases err with
          | some e2 =>
              simp [hr] at h
              exact h.1.symm
          | none => cases hu : LittleEndian.Uint32 val <;> simp [hr, hu] at h

theorem ReadFloat64BE_zero_on_error {σ : Type} (R : Reader σ) (fuel : Nat) (s : σ)
    (r : Ret Float64 σ) (h : ReadFloat64BE R fuel s = Run.done r) (herr : r.err ≠ none) :
    r.val = Float64frombits 0 := by
  obtain ⟨v, e, s2⟩ := r
  cases e with
  | none => exact absurd rfl herr
  | some e =>
      unfold ReadFloat64BE at h
      cases hr : readN R fuel s 8 with
      | pending => simp [hr] at h
      | panicked => simp [hr] at h
      | done rr =>
          obtain ⟨val, err, st⟩ := rr
          cases err with
          | some e2 =>
              simp [hr] at h
              exact h.1.symm
          | none => cases hu : BigEndian.Uint64 val <;> simp [hr, hu] at h

theorem ReadFloat64LE_zero_on_error {σ : Type} (R : Reader σ) (fuel : Nat) (s : σ)
    (r : Ret Float64 σ) (h : ReadFloat64LE R fuel s = Run.done r) (herr : r.err ≠ none) :
    r.val = Float64frombits 0 := by
  obtain ⟨v, e, s2⟩ := r
  cases e with
  | none => exact absurd rfl herr
  | some e =>
      unfold ReadFloat64LE at h
      cases hr : readN R fuel s 8 with
      | pending => simp [hr] at h
      | panicked => simp [hr] at h
      | done rr =>
          obtain ⟨val, err, st⟩ := rr
          cases err with
          | some e2 =>
              simp [hr] at h
              exact h.1.symm
          | none => cases hu : LittleEndian.Uint64 val <;> simp [hr, hu] at h

theorem ReadIPv4_zero_on_error {σ : Type} (R : Reader σ) (fuel : Nat) (s : σ)
    (r : Ret IP σ) (h : ReadIPv4 R fuel s = Run.done r) (herr : r.err ≠ none) :
    r.val = none := by
  obtain ⟨v, e, s2⟩ := r
  cases e with
  | none => exact absurd rfl herr
  | some e =>
      unfold ReadIPv4 at h
      cases hr : readN R fuel s 4 with
      | pending => simp [hr] at h
      | panicked => simp [hr] at h
      | done rr =>
          obtain ⟨val, err, st⟩ := rr
          cases err with
          | some e2 =>
              simp [hr] at h
              exact h.1.symm
          | none => simp [hr] at h

theorem ReadIPv6_zero_on_error {σ : Type} (R : Reader σ) (fuel : Nat) (s : σ)
    (r : Ret IP σ) (h : ReadIPv6 R fuel s = Run.done r) (herr : r.err ≠ none) :
    r.val = none := by
  obtain ⟨v, e, s2⟩ := r
  cases e with
  | none => exact absurd rfl herr
  | some e =>
      unfold ReadIPv6 at h
      cases hr : readN R fuel s 16 with
      | pending => simp [hr] at h
      | panicked => simp [hr] at h
      | done rr =>
          obtain ⟨val, err, st⟩ := rr
          cases err with
          | some e2 =>
              simp [hr] at h
              exact h.1.symm
          | none => simp [hr] at h

theorem ReadUnixTimeUTC32BE_zero_on_error {σ : Type} (R : Reader σ) (fuel : Nat) (s : σ)
    (r : Ret Time σ) (h : ReadUnixTimeUTC32BE R fuel s = Run.done r) (herr : r.err ≠ none) :
    r.val = Time.zero := by
  obtain ⟨v, e, s2⟩ := r
  cases e with
  | none => exact absurd rfl herr
  | some e =>
      unfold ReadUnixTimeUTC32BE at h
      cases hr : ReadUint32BE R fuel s with
      | pending => simp [hr] at h
      | panicked => simp [hr] at h
      | done rr =>
          obtain ⟨val, err, st⟩ := rr
          cases err with
          | some e2 =>
              simp [hr] at h
              exact h.1.symm
          | none => simp [hr] at h

theorem ReadUnixTime32BE_zero_on_error {σ : Type} (R : Reader σ) (fuel : Nat) (s : σ)
    (r : Ret Time σ) (h : ReadUnixTime32BE R fuel s = Run.done r) (herr : r.err ≠ none) :
    r.val = Time.zero := by
  obtain ⟨v, e, s2⟩ := r
  cases e with
  | none => exact absurd rfl herr
  | some e =>
      unfold ReadUnixTime32BE at h
      cases hr : ReadUint32BE R fuel s with
      | pending => simp [hr] at h
      | panicked => simp [hr] at h
      | done rr =>
          obtain ⟨val, err, st⟩ := rr
          cases err with
          | some e2 =>
              simp [hr] at h
              exact h.1.symm
          | none => simp [hr] at h

theorem ReadUnixTimeUTC32LE_zero_on_error {σ : Type} (R : Reader σ) (fuel : Nat) (s : σ)
    (r : Ret Time σ) (h : ReadUnixTimeUTC32LE R fuel s = Run.done r) (herr : r.err ≠ none) :
    r.val = Time.zero := by
  obtain ⟨v, e, s2⟩ := r
  cases e with
  | none => exact absurd rfl herr
  | some e =>
      unfold ReadUnixTimeUTC32LE at h
      cases hr : ReadUint32LE R fuel s with
      | pending => simp [hr] at h
      | panicked => simp [hr] at h
      | done rr =>
          obtain ⟨val, err, st⟩ := rr
          cases err with
          | some e2 =>
              simp [hr] at h
              exact h.1.symm
          | none => simp [hr] at h

theorem ReadUnixTime32LE_zero_on_error {σ : Type} (R : Reader σ) (fuel : Nat) (s : σ)
    (r : Ret Time σ) (h : ReadUnixTime32LE R fuel s = Run.done r) (herr : r.err ≠ none) :
    r.val = Time.zero := by
  obtain ⟨v, e, s2⟩ := r
  cases e with
  | none => exact absurd rfl herr
  | some e =>
      unfold ReadUnixTime32LE at h
      cases hr : ReadUint32LE R fuel s with
      | pending => simp [hr] at h
      | panicked => simp [hr] at h
      | done rr =>
          obtain ⟨val, err, st⟩ := rr
          cases err with
          | some e2 =>
              simp [hr] at h
              exact h.1.symm
          | none => simp [hr] at h

theorem ReadStringN_zero_on_error {σ : Type} (R : Reader σ) (fuel : Nat) (s : σ) (n : Int)
    (pad : Byte) (r : Ret (List Byte) σ) (h : ReadStringN R fuel s n pad = Run.done r)
    (herr : r.err ≠ none) : r.val = [] := by
  obtain ⟨v, e, s2⟩ := r
  cases e with
  | none => exact absurd rfl herr
  | some e =>
      unfold ReadStringN at h
      cases hr : readN R fuel s n with
      | pending => simp [hr] at h
      | panicked => simp [hr] at h
      | done rr =>
          obtain ⟨val, err, st⟩ := rr
          cases err with
          | some e2 =>
              simp [hr] at h
              exact h.1
          | none =>
              simp only [hr] at h
              split at h <;> simp at h

/-- C37. A failed bounded read yields the zero value: for every reader,
whenever a typed read built on the bounded reader returns a non-nil error, the
value returned with it is the zero value of the type: `0` for the integers, the
float with the bits `0` (`+0.0`) for the floats, the zero `time.Time` for the
UNIX-time reads, the `nil` address for `ReadIPv4` and `ReadIPv6`, and the empty
string for `ReadStringN`. On a `bytes.Reader` holding the two bytes `01 02`,
for instance, `ReadUint32BE` returns `0` with its error, not a value made of
the two bytes. -/
theorem failed_read_yields_zero_value {σ : Type} (R : Reader σ) (fuel : Nat) (s : σ) :
    (∀ r, ReadUint8 R fuel s = Run.done r → r.err ≠ none → r.val = 0) ∧
    (∀ r, ReadInt8 R fuel s = Run.done r → r.err ≠ none → r.val = 0) ∧
    (∀ r, ReadUint16BE R fuel s = Run.done r → r.err ≠ none → r.val = 0) ∧
    (∀ r, ReadUint16LE R fuel s = Run.done r → r.err ≠ none → r.val = 0) ∧
    (∀ r, ReadInt16BE R fuel s = Run.done r → r.err ≠ none → r.val = 0) ∧
    (∀ r, ReadInt16LE R fuel s = Run.done r → r.err ≠ none → r.val = 0) ∧
    (∀ r, ReadUint32BE R fuel s = Run.done r → r.err ≠ none → r.val = 0) ∧
    (∀ r, ReadUint32LE R fuel s = Run.done r → r.err ≠ none → r.val = 0) ∧
    (∀ r, ReadInt32BE R fuel s = Run.done r → r.err ≠ none → r.val = 0) ∧
    (∀ r, ReadInt32LE R fuel s = Run.done r → r.err ≠ none → r.val = 0) ∧
    (∀ r, ReadUint64BE R fuel s = Run.done r → r.err ≠ none → r.val = 0) ∧
    (∀ r, ReadUint64LE R fuel s = Run.done r → r.err ≠ none → r.val = 0) ∧
    (∀ r, ReadInt64BE R fuel s = Run.done r → r.err ≠ none → r.val = 0) ∧
    (∀ r, ReadInt64LE R fuel s = Run.done r → r.err ≠ none → r.val = 0) ∧
    (∀ r, ReadFloat32BE R fuel s = Run.done r → r.err ≠ none → r.val = Float32frombits 0) ∧
    (∀ r, ReadFloat32LE R fuel s = Run.done r → r.err ≠ none → r.val = Float32frombits 0) ∧
    (∀ r, ReadFloat64BE R fuel s = Run.done r → r.err ≠ none → r.val = Float64frombits 0) ∧
    (∀ r, ReadFloat64LE R fuel s = Run.done r → r.err ≠ none → r.val = Float64frombits 0) ∧
    (∀ r, ReadIPv4 R fuel s = Run.done r → r.err ≠ none → r.val = none) ∧
    (∀ r, ReadIPv6 R fuel s = Run.done r → r.err ≠ none → r.val = none) ∧
    (∀ r, ReadUnixTimeUTC32BE R fuel s = Run.done r → r.err ≠ none → r.val = Time.zero) ∧
    (∀ r, ReadUnixTime32BE R fuel s = Run.done r → r.err ≠ none → r.val = Time.zero) ∧
    (∀ r, ReadUnixTimeUTC32LE R fuel s = Run.done r → r.err ≠ none → r.val = Time.zero) ∧
    (∀ r, ReadUnixTime32LE R fuel s = Run.done r → r.err ≠ none → r.val = Time.zero) ∧
    (∀ n pad r, ReadStringN R fuel s n pad = Run.done r → r.err ≠ none → r.val = []) ∧
    ReadUint32BE bytesReader 2 [1, 2] =
      Run.done ⟨0, some (Error.wrap "read failure: " Error.ErrUnexpectedEOF), []⟩ :=
  ⟨fun r h herr => ReadUint8_zero_on_error R fuel s r h herr,
    fun r h herr => ReadInt8_zero_on_error R fuel s r h herr,
    fun r h herr => ReadUint16BE_zero_on_error R fuel s r h herr,
    fun r h herr => ReadUint16LE_zero_on_error R fuel s r h herr,
    fun r h herr => ReadInt16BE_zero_on_error R fuel s r h herr,
    fun r h herr => ReadInt16LE_zero_on_error R fuel s r h herr,
    fun r h herr => ReadUint32BE_zero_on_error R fuel s r h herr,
    fun r h herr => ReadUint32LE_zero_on_error R fuel s r h herr,
    fun r h herr => ReadInt32BE_zero_on_error R fuel s r h herr,
    fun r h herr => ReadInt32LE_zero_on_error R fuel s r h herr,
    fun r h herr => ReadUint64BE_zero_on_error R fuel s r h herr,
    fun r h herr => ReadUint64LE_zero_on_error R fuel s r h herr,
    fun r h herr => ReadInt64BE_zero_on_error R fuel s r h herr,
    fun r h herr => ReadInt64LE_zero_on_error R fuel s r h herr,
    fun r h herr => ReadFloat32BE_zero_on_error R fuel s r h herr,
    fun r h herr => ReadFloat32LE_zero_on_error R fuel s r h herr,
    fun r h herr => ReadFloat64BE_zero_on_error R fuel s r h herr,
    fun r h herr => ReadFloat64LE_zero_on_error R fuel s r h herr,
    fun r h herr => ReadIPv4_zero_on_error R fuel s r h herr,
    fun r h herr => ReadIPv6_zero_on_error R fuel s r h herr,
    fun r h herr => ReadUnixTimeUTC32BE_zero_on_error R fuel s r h herr,
    fun r h herr => ReadUnixTime32BE_zero_on_error R fuel s r h herr,
    fun r h herr => ReadUnixTimeUTC32LE_zero_on_error R fuel s r h herr,
    fun r h herr => ReadUnixTime32LE_zero_on_error R fuel s r h herr,
    fun n pad r h herr => ReadStringN_zero_on_error R fuel s n pad r h herr,
    by decide⟩

/-! ## A truncated read drains the stream -/

/-- C38. A truncated read drains the stream: for every typed read that needs
`N` bytes (integers, floats, UNIX time, IPv4, IPv6, `ReadStringN` with `n = N`,
`n` within the allocation limit `maxAlloc`) on a `bytes.Reader` holding `k`
bytes with `1 <= k < N`, the read fails (with a
wrapped `io.ErrUnexpectedEOF` and the zero value) and leaves the stream empty;
and on the empty stream every typed read that needs at least one byte fails
with exactly `io.EOF`, the stream staying empty: the `k` bytes are gone. -/
theorem truncated_read_drains_stream (fuel : Nat) (bs : List Byte) (n : Nat) (pad : Byte)
    (hf : 2 ≤ fuel) (hk : 0 < bs.length) (hmax : n ≤ maxAlloc) :
    ReadUint8 bytesReader fuel [] = Run.done ⟨0, some Error.EOF, []⟩ ∧
    ReadInt8 bytesReader fuel [] = Run.done ⟨0, some Error.EOF, []⟩ ∧
    ReadUint16BE bytesReader fuel [] = Run.done ⟨0, some Error.EOF, []⟩ ∧
    (bs.length < 2 →
      ReadUint16BE bytesReader fuel bs =
        Run.done ⟨0, some (Error.wrap "read failure: " Error.ErrUnexpectedEOF), []⟩) ∧
    ReadUint16LE bytesReader fuel [] = Run.done ⟨0, some Error.EOF, []⟩ ∧
    (bs.length < 2 →
      ReadUint16LE bytesReader fuel bs =
        Run.done ⟨0, some (Error.wrap "read failure: " Error.ErrUnexpectedEOF), []⟩) ∧
    ReadInt16BE bytesReader fuel [] = Run.done ⟨0, some Error.EOF, []⟩ ∧
    (bs.length < 2 →
      ReadInt16BE bytesReader fuel bs =
        Run.done ⟨0, some (Error.wrap "read failure: " Error.ErrUnexpectedEOF), []⟩) ∧
    ReadInt16LE bytesReader fuel [] = Run.done ⟨0, some Error.EOF, []⟩ ∧
    (bs.length < 2 →
      ReadInt16LE bytesReader fuel bs =
        Run.done ⟨0, some (Error.wrap "read failure: " Error.ErrUnexpectedEOF), []⟩) ∧
    ReadUint32BE bytesReader fuel [] = Run.done ⟨0, some Error.EOF, []⟩ ∧
    (bs.length < 4 →
      ReadUint32BE bytesReader fuel bs =
        Run.done ⟨0, some (Error.wrap "read failure: " Error.ErrUnexpectedEOF), []⟩) ∧
    ReadUint32LE bytesReader fuel [] = Run.done ⟨0, some Error.EOF, []⟩ ∧
    (bs.length < 4 →
      ReadUint32LE bytesReader fuel bs =
        Run.done ⟨0, some (Error.wrap "read failure: " Error.ErrUnexpectedEOF), []⟩) ∧
    ReadInt32BE bytesReader fuel [] = Run.done ⟨0, some Error.EOF, []⟩ ∧
    (bs.length < 4 →
      ReadInt32BE bytesReader fuel bs =
        Run.done ⟨0, some (Error.wrap "read failure: " Error.ErrUnexpectedEOF), []⟩) ∧
    ReadInt32LE bytesReader fuel [] = Run.done ⟨0, some Error.EOF, []⟩ ∧
    (bs.length < 4 →
      ReadInt32LE bytesReader fuel bs =
        Run.done ⟨0, some (Error.wrap "read failure: " Error.ErrUnexpectedEOF), []⟩) ∧
    ReadUint64BE bytesReader fuel [] = Run.done ⟨0, some Error.EOF, []⟩ ∧
    (bs.length < 8 →
      ReadUint64BE bytesReader fuel bs =
        Run.done ⟨0, some (Error.wrap "read failure: " Error.ErrUnexpectedEOF), []⟩) ∧
    ReadUint64LE bytesReader fuel [] = Run.done ⟨0, some Error.EOF, []⟩ ∧
    (bs.length < 8 →
      ReadUint64LE bytesReader fuel bs =
        Run.done ⟨0, some (Error.wrap "read failure: " Error.ErrUnexpectedEOF), []⟩) ∧
    ReadInt64BE bytesReader fuel [] = Run.done ⟨0, some Error.EOF, []⟩ ∧
    (bs.length < 8 →
      ReadInt64BE bytesReader fuel bs =
        Run.done ⟨0, some (Error.wrap "read failure: " Error.ErrUnexpectedEOF), []⟩) ∧
    ReadInt64LE bytesReader fuel [] = Run.done ⟨0, some Error.EOF, []⟩ ∧
    (bs.length < 8 →
      ReadInt64LE bytesReader fuel bs =
        Run.done ⟨0, some (Error.wrap "read failure: " Error.ErrUnexpectedEOF), []⟩) ∧
    ReadFloat32BE bytesReader fuel [] = Run.done ⟨Float32frombits 0, some Error.EOF, []⟩ ∧
    (bs.length < 4 →
      ReadFloat32BE bytesReader fuel bs =
        Run.done ⟨Float32frombits 0, some (Error.wrap "read failure: " Error.ErrUnexpectedEOF), []⟩) ∧
    ReadFloat32LE bytesReader fuel [] = Run.done ⟨Float32frombits 0, some Error.EOF, []⟩ ∧
    (bs.length < 4 →
      ReadFloat32LE bytesReader fuel bs =
        Run.done ⟨Float32frombits 0, some (Error.wrap "read failure: " Error.ErrUnexpectedEOF), []⟩) ∧
    ReadFloat64BE bytesReader fuel [] = Run.done ⟨Float64frombits 0, some Error.EOF, []⟩ ∧
    (bs.length < 8 →
      ReadFloat64BE bytesReader fuel bs =
        Run.done ⟨Float64frombits 0, some (Error.wrap "read failure: " Error.ErrUnexpectedEOF), []⟩) ∧
    ReadFloat64LE bytesReader fuel [] = Run.done ⟨Float64frombits 0, some Error.EOF, []⟩ ∧
    (bs.length < 8 →
      ReadFloat64LE bytesReader fuel bs =
        Run.done ⟨Float64frombits 0, some (Error.wrap "read failure: " Error.ErrUnexpectedEOF), []⟩) ∧
    ReadUnixTimeUTC32BE bytesReader fuel [] = Run.done ⟨Time.zero, some Error.EOF, []⟩ ∧
    (bs.length < 4 →
      ReadUnixTimeUTC32BE bytesReader fuel bs =
        Run.done ⟨Time.zero, some (Error.wrap "read failure: " Error.ErrUnexpectedEOF), []⟩) ∧
    ReadUnixTime32BE bytesReader fuel [] = Run.done ⟨Time.zero, some Error.EOF, []⟩ ∧
    (bs.length < 4 →
      ReadUnixTime32BE bytesReader fuel bs =
        Run.done ⟨Time.zero, some (Error.wrap "read failure: " Error.ErrUnexpectedEOF), []⟩) ∧
    ReadUnixTimeUTC32LE bytesReader fuel [] = Run.done ⟨Time.zero, some Error.EOF, []⟩ ∧
    (bs.length < 4 →
      ReadUnixTimeUTC32LE bytesReader fuel bs =
        Run.done ⟨Time.zero, some (Error.wrap "read failure: " Error.ErrUnexpectedEOF), []⟩) ∧
    ReadUnixTime32LE bytesReader fuel [] = Run.done ⟨Time.zero, some Error.EOF, []⟩ ∧
    (bs.length < 4 →
      ReadUnixTime32LE bytesReader fuel bs =
        Run.done ⟨Time.zero, some (Error.wrap "read failure: " Error.ErrUnexpectedEOF), []⟩) ∧
    ReadIPv4 bytesReader fuel [] = Run.done ⟨none, some Error.EOF, []⟩ ∧
    (bs.length < 4 →
      ReadIPv4 bytesReader fuel bs =
        Run.done ⟨none, some (Error.wrap "read failure: " Error.ErrUnexpectedEOF), []⟩) ∧
    ReadIPv6 bytesReader fuel [] = Run.done ⟨none, some Error.EOF, []⟩ ∧
    (bs.length < 16 →
      ReadIPv6 bytesReader fuel bs =
        Run.done ⟨none, some (Error.wrap "read failure: " Error.ErrUnexpectedEOF), []⟩) ∧
    (0 < n →
      ReadStringN bytesReader fuel [] (n : Nat) pad =
        Run.done ⟨[], some Error.EOF, []⟩) ∧
    (bs.length < n →
      ReadStringN bytesReader fuel bs (n : Nat) pad =
        Run.done ⟨[], some (Error.wrap "read failure: " Error.ErrUnexpectedEOF), []⟩) :=
  ⟨ReadUint8_of_readN_err _ _ _ _ _ _ (readN_bytes_eof fuel 1 (by omega) (by decide)),
    ReadInt8_of_readN_err _ _ _ _ _ _ (readN_bytes_eof fuel 1 (by omega) (by decide)),
    ReadUint16BE_of_readN_err _ _ _ _ _ _ (readN_bytes_eof fuel 2 (by omega) (by decide)),
    fun h => ReadUint16BE_of_readN_err _ _ _ _ _ _
      (readN_bytes_short fuel bs 2 hf hk (by simpa using h) (by decide)),
    ReadUint16LE_of_readN_err _ _ _ _ _ _ (readN_bytes_eof fuel 2 (by omega) (by decide)),
    fun h => ReadUint16LE_of_readN_err _ _ _ _ _ _
      (readN_bytes_short fuel bs 2 hf hk (by simpa using h) (by decide)),
    ReadInt16BE_of_readN_err _ _ _ _ _ _ (readN_bytes_eof fuel 2 (by omega) (by decide)),
    fun h => ReadInt16BE_of_readN_err _ _ _ _ _ _
      (readN_bytes_short fuel bs 2 hf hk (by simpa using h) (by decide)),
    ReadInt16LE_of_readN_err _ _ _ _ _ _ (readN_bytes_eof fuel 2 (by omega) (by decide)),
    fun h => ReadInt16LE_of_readN_err _ _ _ _ _ _
      (readN_bytes_short fuel bs 2 hf hk (by simpa using h) (by decide)),
    ReadUint32BE_of_readN_err _ _ _ _ _ _ (readN_bytes_eof fuel 4 (by omega) (by decide)),
    fun h => ReadUint32BE_of_readN_err _ _ _ _ _ _
      (readN_bytes_short fuel bs 4 hf hk (by simpa using h) (by decide)),
    ReadUint32LE_of_readN_err _ _ _ _ _ _ (readN_bytes_eof fuel 4 (by omega) (by decide)),
    fun h => ReadUint32LE_of_readN_err _ _ _ _ _ _
      (readN_bytes_short fuel bs 4 hf hk (by simpa using h) (by decide)),
    ReadInt32BE_of_readN_err _ _ _ _ _ _ (readN_bytes_eof fuel 4 (by omega) (by decide)),
    fun h => ReadInt32BE_of_readN_err _ _ _ _ _ _
      (readN_bytes_short fuel bs 4 hf hk (by simpa using h) (by decide)),
    ReadInt32LE_of_readN_err _ _ _ _ _ _ (readN_bytes_eof fuel 4 (by omega) (by decide)),
    fun h => ReadInt32LE_of_readN_err _ _ _ _ _ _
      (readN_bytes_short fuel bs 4 hf hk (by simpa using h) (by decide)),
    ReadUint64BE_of_readN_err _ _ _ _ _ _ (readN_bytes_eof fuel 8 (by omega) (by decide)),
    fun h => ReadUint64BE_of_readN_err _ _ _ _ _ _
      (readN_bytes_short fuel bs 8 hf hk (by simpa using h) (by decide)),
    ReadUint64LE_of_readN_err _ _ _ _ _ _ (readN_bytes_eof fuel 8 (by omega) (by decide)),
    fun h => ReadUint64LE_of_readN_err _ _ _ _ _ _
      (readN_bytes_short fuel bs 8 hf hk (by simpa using h) (by decide)),
    ReadInt64BE_of_readN_err _ _ _ _ _ _ (readN_bytes_eof fuel 8 (by omega) (by decide)),
    fun h => ReadInt64BE_of_readN_err _ _ _ _ _ _
      (readN_bytes_short fuel bs 8 hf hk (by simpa using h) (by decide)),
    ReadInt64LE_of_readN_err _ _ _ _ _ _ (readN_bytes_eof fuel 8 (by omega) (by decide)),
    fun h => ReadInt64LE_of_readN_err _ _ _ _ _ _
      (readN_bytes_short fuel bs 8 hf hk (by simpa using h) (by decide)),
    ReadFloat32BE_of_readN_err _ _ _ _ _ _ (readN_bytes_eof fuel 4 (by omega) (by decide)),
    fun h => ReadFloat32BE_of_readN_err _ _ _ _ _ _
      (readN_bytes_short fuel bs 4 hf hk (by simpa using h) (by decide)),
    ReadFloat32LE_of_readN_err _ _ _ _ _ _ (readN_bytes_eof fuel 4 (by omega) (by decide)),
    fun h => ReadFloat32LE_of_readN_err _ _ _ _ _ _
      (readN_bytes_short fuel bs 4 hf hk (by simpa using h) (by decide)),
    ReadFloat64BE_of_readN_err _ _ _ _ _ _ (readN_bytes_eof fuel 8 (by omega) (by decide)),
    fun h => ReadFloat64BE_of_readN_err _ _ _ _ _ _
      (readN_bytes_short fuel bs 8 hf hk (by simpa using h) (by decide)),
    ReadFloat64LE_of_readN_err _ _ _ _ _ _ (readN_bytes_eof fuel 8 (by omega) (by decide)),
    fun h => ReadFloat64LE_of_readN_err _ _ _ _ _ _
      (readN_bytes_short fuel bs 8 hf hk (by simpa using h) (by decide)),
    ReadUnixTimeUTC32BE_of_readN_err _ _ _ _ _ _ (readN_bytes_eof fuel 4 (by omega) (by decide)),
    fun h => ReadUnixTimeUTC32BE_of_readN_err _ _ _ _ _ _
      (readN_bytes_short fuel bs 4 hf hk (by simpa using h) (by decide)),
    ReadUnixTime32BE_of_readN_err _ _ _ _ _ _ (readN_bytes_eof fuel 4 (by omega) (by decide)),
    fun h => ReadUnixTime32BE_of_readN_err _ _ _ _ _ _
      (readN_bytes_short fuel bs 4 hf hk (by simpa using h) (by decide)),
    ReadUnixTimeUTC32LE_of_readN_err _ _ _ _ _ _ (readN_bytes_eof fuel 4 (by omega) (by decide)),
    fun h => ReadUnixTimeUTC32LE_of_readN_err _ _ _ _ _ _
      (readN_bytes_short fuel bs 4 hf hk (by simpa using h) (by decide)),
    ReadUnixTime32LE_of_readN_err _ _ _ _ _ _ (readN_bytes_eof fuel 4 (by omega) (by decide)),
    fun h => ReadUnixTime32LE_of_readN_err _ _ _ _ _ _
      (readN_bytes_short fuel bs 4 hf hk (by simpa using h) (by decide)),
    ReadIPv4_of_readN_err _ _ _ _ _ _ (readN_bytes_eof fuel 4 (by omega) (by decide)),
    fun h => ReadIPv4_of_readN_err _ _ _ _ _ _
      (readN_bytes_short fuel bs 4 hf hk (by simpa using h) (by decide)),
    ReadIPv6_of_readN_err _ _ _ _ _ _ (readN_bytes_eof fuel 16 (by omega) (by decide)),
    fun h => ReadIPv6_of_readN_err _ _ _ _ _ _
      (readN_bytes_short fuel bs 16 hf hk (by simpa using h) (by decide)),
    fun h => ReadStringN_of_readN_err _ _ _ _ _ _ _ _
      (readN_bytes_eof fuel (n : Nat) (by omega) ⟨by omega, by omega⟩),
    fun h => ReadStringN_of_readN_err _ _ _ _ _ _ _ _
      (readN_bytes_short fuel bs (n : Nat) hf hk (by simpa using h) (by omega))⟩

/-- Witness of C38: a `bytes.Reader` holding the single byte `ff`, and
`ReadStringN` with `n = 3`. -/
theorem truncated_read_drains_stream_witness :
    (2 ≤ 2 ∧ 0 < [(255 : Byte)].length ∧ 3 ≤ maxAlloc) ∧
    ReadUint8 bytesReader 2 [] = Run.done ⟨0, some Error.EOF, []⟩ ∧
    ReadInt8 bytesReader 2 [] = Run.done ⟨0, some Error.EOF, []⟩ ∧
    ReadUint16BE bytesReader 2 [] = Run.done ⟨0, some Error.EOF, []⟩ ∧
    ReadUint16BE bytesReader 2 [255] =
        Run.done ⟨0, some (Error.wrap "read failure: " Error.ErrUnexpectedEOF), []⟩ ∧
    ReadUint16LE bytesReader 2 [] = Run.done ⟨0, some Error.EOF, []⟩ ∧
    ReadUint16LE bytesReader 2 [255] =
        Run.done ⟨0, some (Error.wrap "read failure: " Error.ErrUnexpectedEOF), []⟩ ∧
    ReadInt16BE bytesReader 2 [] = Run.done ⟨0, some Error.EOF, []⟩ ∧
    ReadInt16BE bytesReader 2 [255] =
        Run.done ⟨0, some (Error.wrap "read failure: " Error.ErrUnexpectedEOF), []⟩ ∧
    ReadInt16LE bytesReader 2 [] = Run.done ⟨0, some Error.EOF, []⟩ ∧
    ReadInt16LE bytesReader 2 [255] =
        Run.done ⟨0, some (Error.wrap "read failure: " Error.ErrUnexpectedEOF), []⟩ ∧
    ReadUint32BE bytesReader 2 [] = Run.done ⟨0, some Error.EOF, []⟩ ∧
    ReadUint32BE bytesReader 2 [255] =
        Run.done ⟨0, some (Error.wrap "read failure: " Error.ErrUnexpectedEOF), []⟩ ∧
    ReadUint32LE bytesReader 2 [] = Run.done ⟨0, some Error.EOF, []⟩ ∧
    ReadUint32LE bytesReader 2 [255] =
        Run.done ⟨0, some (Error.wrap "read failure: " Error.ErrUnexpectedEOF), []⟩ ∧
    ReadInt32BE bytesReader 2 [] = Run.done ⟨0, some Error.EOF, []⟩ ∧
    ReadInt32BE bytesReader 2 [255] =
        Run.done ⟨0, some (Error.wrap "read failure: " Error.ErrUnexpectedEOF), []⟩ ∧
    ReadInt32LE bytesReader 2 [] = Run.done ⟨0, some Error.EOF, []⟩ ∧
    ReadInt32LE bytesReader 2 [255] =
        Run.done ⟨0, some (Error.wrap "read failure: " Error.ErrUnexpectedEOF), []⟩ ∧
    ReadUint64BE bytesReader 2 [] = Run.done ⟨0, some Error.EOF, []⟩ ∧
    ReadUint64BE bytesReader 2 [255] =
        Run.done ⟨0, some (Error.wrap "read failure: " Error.ErrUnexpectedEOF), []⟩ ∧
    ReadUint64LE bytesReader 2 [] = Run.done ⟨0, some Error.EOF, []⟩ ∧
    ReadUint64LE bytesReader 2 [255] =
        Run.done ⟨0, some (Error.wrap "read failure: " Error.ErrUnexpectedEOF), []⟩ ∧
    ReadInt64BE bytesReader 2 [] = Run.done ⟨0, some Error.EOF, []⟩ ∧
    ReadInt64BE bytesReader 2 [255] =
        Run.done ⟨0, some (Error.wrap "read failure: " Error.ErrUnexpectedEOF), []⟩ ∧
    ReadInt64LE bytesReader 2 [] = Run.done ⟨0, some Error.EOF, []⟩ ∧
    ReadInt64LE bytesReader 2 [255] =
        Run.done ⟨0, some (Error.wrap "read failure: " Error.ErrUnexpectedEOF), []⟩ ∧
    ReadFloat32BE bytesReader 2 [] = Run.done ⟨Float32frombits 0, some Error.EOF, []⟩ ∧
    ReadFloat32BE bytesReader 2 [255] =
        Run.done ⟨Float32frombits 0, some (Error.wrap "read failure: " Error.ErrUnexpectedEOF), []⟩ ∧
    ReadFloat32LE bytesReader 2 [] = Run.done ⟨Float32frombits 0, some Error.EOF, []⟩ ∧
    ReadFloat32LE bytesReader 2 [255] =
        Run.done ⟨Float32frombits 0, some (Error.wrap "read failure: " Error.ErrUnexpectedEOF), []⟩ ∧
    ReadFloat64BE bytesReader 2 [] = Run.done ⟨Float64frombits 0, some Error.EOF, []⟩ ∧
    ReadFloat64BE bytesReader 2 [255] =
        Run.done ⟨Float64frombits 0, some (Error.wrap "read failure: " Error.ErrUnexpectedEOF), []⟩ ∧
    ReadFloat64LE bytesReader 2 [] = Run.done ⟨Float64frombits 0, some Error.EOF, []⟩ ∧
    ReadFloat64LE bytesReader 2 [255] =
        Run.done ⟨Float64frombits 0, some (Error.wrap "read failure: " Error.ErrUnexpectedEOF), []⟩ ∧
    ReadUnixTimeUTC32BE bytesReader 2 [] = Run.done ⟨Time.zero, some Error.EOF, []⟩ ∧
    ReadUnixTimeUTC32BE bytesReader 2 [255] =
        Run.done ⟨Time.zero, some (Error.wrap "read failure: " Error.ErrUnexpectedEOF), []⟩ ∧
    ReadUnixTime32BE bytesReader 2 [] = Run.done ⟨Time.zero, some Error.EOF, []⟩ ∧
    ReadUnixTime32BE bytesReader 2 [255] =
        Run.done ⟨Time.zero, some (Error.wrap "read failure: " Error.ErrUnexpectedEOF), []⟩ ∧
    ReadUnixTimeUTC32LE bytesReader 2 [] = Run.done ⟨Time.zero, some Error.EOF, []⟩ ∧
    ReadUnixTimeUTC32LE bytesReader 2 [255] =
        Run.done ⟨Time.zero, some (Error.wrap "read failure: " Error.ErrUnexpectedEOF), []⟩ ∧
    ReadUnixTime32LE bytesReader 2 [] = Run.done ⟨Time.zero, some Error.EOF, []⟩ ∧
    ReadUnixTime32LE bytesReader 2 [255] =
        Run.done ⟨Time.zero, some (Error.wrap "read failure: " Error.ErrUnexpectedEOF), []⟩ ∧
    ReadIPv4 bytesReader 2 [] = Run.done ⟨none, some Error.EOF, []⟩ ∧
    ReadIPv4 bytesReader 2 [255] =
        Run.done ⟨none, some (Error.wrap "read failure: " Error.ErrUnexpectedEOF), []⟩ ∧
    ReadIPv6 bytesReader 2 [] = Run.done ⟨none, some Error.EOF, []⟩ ∧
    ReadIPv6 bytesReader 2 [255] =
        Run.done ⟨none, some (Error.wrap "read failure: " Error.ErrUnexpectedEOF), []⟩ ∧
    ReadStringN bytesReader 2 [] (3 : Nat) 32 =
        Run.done ⟨[], some Error.EOF, []⟩ ∧
    ReadStringN bytesReader 2 [255] (3 : Nat) 32 =
        Run.done ⟨[], some (Error.wrap "read failure: " Error.ErrUnexpectedEOF), []⟩ :=
  have h := truncated_read_drains_stream 2 [255] 3 32 (by decide) (by decide) (by decide)
  ⟨⟨by decide, by decide, by decide⟩,
    h.1,
    h.2.1,
    h.2.2.1,
    h.2.2.2.1 (by decide),
    h.2.2.2.2.1,
    h.2.2.2.2.2.1 (by decide),
    h.2.2.2.2.2.2.1,
    h.2.2.2.2.2.2.2.1 (by decide),
    h.2.2.2.2.2.2.2.2.1,
    h.2.2.2.2.2.2.2.2.2.1 (by decide),
    h.2.2.2.2.2.2.2.2.2.2.1,
    h.2.2.2.2.2.2.2.2.2.2.2.1 (by decide),
    h.2.2.2.2.2.2.2.2.2.2.2.2.1,
    h.2.2.2.2.2.2.2.2.2.2.2.2.2.1 (by decide),
    h.2.2.2.2.2.2.2.2.2.2.2.2.2.2.1,
    h.2.2.2.2.2.2.2.2.2.2.2.2.2.2.2.1 (by decide),
    h.2.2.2.2.2.2.2.2.2.2.2.2.2.2.2.2.1,
    h.2.2.2.2.2.2.2.2.2.2.2.2.2.2.2.2.2.1 (by decide),
    h.2.2.2.2.2.2.2.2.2.2.2.2.2.2.2.2.2.2.1,
    h.2.2.2.2.2.2.2.2.2.2.2.2.2.2.2.2.2.2.2.1 (by decide),
    h.2.2.2.2.2.2.2.2.2.2.2.2.2.2.2.2.2.2.2.2.1,
    h.2.2.2.2.2.2.2.2.2.2.2.2.2.2.2.2.2.2.2.2.2.1 (by decide),
    h.2.2.2.2.2.2.2.2.2.2.2.2.2.2.2.2.2.2.2.2.2.2.1,
    h.2.2.2.2.2.2.2.2.2.2.2.2.2.2.2.2.2.2.2.2.2.2.2.1 (by decide),
    h.2.2.2.2.2.2.2.2.2.2.2.2.2.2.2.2.2.2.2.2.2.2.2.2.1,
    h.2.2.2.2.2.2.2.2.2.2.2.2.2.2.2.2.2.2.2.2.2.2.2.2.2.1 (by decide),
    h.2.2.2.2.2.2.2.2.2.2.2.2.2.2.2.2.2.2.2.2.2.2.2.2.2.2.1,
    h.2.2.2.2.2.2.2.2.2.2.2.2.2.2.2.2.2.2.2.2.2.2.2.2.2.2.2.1 (by decide),
    h.2.2.2.2.2.2.2.2.2.2.2.2.2.2.2.2.2.2.2.2.2.2.2.2.2.2.2.2.1,
    h.2.2.2.2.2.2.2.2.2.2.2.2.2.2.2.2.2.2.2.2.2.2.2.2.2.2.2.2.2.1 (by decide),
    h.2.2.2.2.2.2.2.2.2.2.2.2.2.2.2.2.2.2.2.2.2.2.2.2.2.2.2.2.2.2.1,
    h.2.2.2.2.2.2.2.2.2.2.2.2.2.2.2.2.2.2.2.2.2.2.2.2.2.2.2.2.2.2.2.1 (by decide),
    h.2.2.2.2.2.2.2.2.2.2.2.2.2.2.2.2.2.2.2.2.2.2.2.2.2.2.2.2.2.2.2.2.1,
    h.2.2.2.2.2.2.2.2.2.2.2.2.2.2.2.2.2.2.2.2.2.2.2.2.2.2.2.2.2.2.2.2.2.1 (by decide),
    h.2.2.2.2.2.2.2.2.2.2.2.2.2.2.2.2.2.2.2.2.2.2.2.2.2.2.2.2.2.2.2.2.2.2.1,
    h.2.2.2.2.2.2.2.2.2.2.2.2.2.2.2.2.2.2.2.2.2.2.2.2.2.2.2.2.2.2.2.2.2.2.2.1 (by decide),
    h.2.2.2.2.2.2.2.2.2.2.2.2.2.2.2.2.2.2.2.2.2.2.2.2.2.2.2.2.2.2.2.2.2.2.2.2.1,
    h.2.2.2.2.2.2.2.2.2.2.2.2.2.2.2.2.2.2.2.2.2.2.2.2.2.2.2.2.2.2.2.2.2.2.2.2.2.1 (by decide),
    h.2.2.2.2.2.2.2.2.2.2.2.2.2.2.2.2.2.2.2.2.2.2.2.2.2.2.2.2.2.2.2.2.2.2.2.2.2.2.1,
    h.2.2.2.2.2.2.2.2.2.2.2.2.2.2.2.2.2.2.2.2.2.2.2.2.2.2.2.2.2.2.2.2.2.2.2.2.2.2.2.1 (by decide),
    h.2.2.2.2.2.2.2.2.2.2.2.2.2.2.2.2.2.2.2.2.2.2.2.2.2.2.2.2.2.2.2.2.2.2.2.2.2.2.2.2.1,
    h.2.2.2.2.2.2.2.2.2.2.2.2.2.2.2.2.2.2.2.2.2.2.2.2.2.2.2.2.2.2.2.2.2.2.2.2.2.2.2.2.2.1 (by decide),
    h.2.2.2.2.2.2.2.2.2.2.2.2.2.2.2.2.2.2.2.2.2.2.2.2.2.2.2.2.2.2.2.2.2.2.2.2.2.2.2.2.2.2.1,
    h.2.2.2.2.2.2.2.2.2.2.2.2.2.2.2.2.2.2.2.2.2.2.2.2.2.2.2.2.2.2.2.2.2.2.2.2.2.2.2.2.2.2.2.1 (by decide),
    h.2.2.2.2.2.2.2.2.2.2.2.2.2.2.2.2.2.2.2.2.2.2.2.2.2.2.2.2.2.2.2.2.2.2.2.2.2.2.2.2.2.2.2.2.1,
    h.2.2.2.2.2.2.2.2.2.2.2.2.2.2.2.2.2.2.2.2.2.2.2.2.2.2.2.2.2.2.2.2.2.2.2.2.2.2.2.2.2.2.2.2.2.1 (by decide),
    h.2.2.2.2.2.2.2.2.2.2.2.2.2.2.2.2.2.2.2.2.2.2.2.2.2.2.2.2.2.2.2.2.2.2.2.2.2.2.2.2.2.2.2.2.2.2.1 (by decide),
    h.2.2.2.2.2.2.2.2.2.2.2.2.2.2.2.2.2.2.2.2.2.2.2.2.2.2.2.2.2.2.2.2.2.2.2.2.2.2.2.2.2.2.2.2.2.2.2 (by decide)⟩

/-! ## The result of `ReadCString` on every reader -/

/-- The error path of `ReadCString` returns the string and the count it was
given and leaves the reader as it is. -/
theorem ReadCString.onErr_fields {σ : Type} (b : List Byte) (t : Nat) (e : Error) (st : σ) :
    (ReadCString.onErr b t e st).val = (b, t) ∧ (ReadCString.onErr b t e st).st = st := by
  unfold ReadCString.onErr
  split
  · split <;> exact ⟨rfl, rfl⟩
  · exact ⟨rfl, rfl⟩

/-- What the loop of `ReadCString` returns, in terms of the `Read` calls it
made: it made `k` calls; either they delivered no `0x00`, and the string is
`b` with the delivered bytes and the count has grown by their number; or the
last of them delivered the `0x00` terminator, the string is `b` with the bytes
before it, the count has grown by their number and one, and the error is
`nil`. -/
theorem ReadCString.loop_calls {σ : Type} (R : Reader σ) :
    ∀ (fuel : Nat) (s : σ) (b : List Byte) (t : Nat) (str : List Byte) (t2 : Nat)
      (err : Option Error) (s2 : σ),
      ReadCString.loop R fuel s b t = Run.done ⟨(str, t2), err, s2⟩ →
      ∃ k, k ≤ fuel ∧ (readCalls R k s).2 = s2 ∧
        (((0 : Byte) ∉ (readCalls R k s).1 ∧ str = b ++ (readCalls R k s).1 ∧
            t2 = t + (readCalls R k s).1.length) ∨
          (∃ ds, (readCalls R k s).1 = ds ++ [0] ∧ (0 : Byte) ∉ ds ∧ str = b ++ ds ∧
            t2 = t + ds.length + 1 ∧ err = none)) := by
  intro fuel
  induction fuel with
  | zero =>
      intro s b t str t2 err s2 h
      simp [ReadCString.loop] at h
  | succ fuel ih =>
      intro s b t str t2 err s2 h
      have hle := R.read_le s 1
      simp only [ReadCString.loop] at h
      rcases hd : (R.read s 1).data with _ | ⟨c, _ | ⟨c2, rest⟩⟩
      · rw [hd] at h
        simp only [] at h
        cases herr : (R.read s 1).err with
        | some e =>
            rw [herr] at h
            simp only [] at h
            have h2 := Run.done.inj h
            have hv := congrArg Ret.val h2
            have hs := congrArg Ret.st h2
            rw [(ReadCString.onErr_fields _ _ _ _).1] at hv
            rw [(ReadCString.onErr_fields _ _ _ _).2] at hs
            simp only [Prod.mk.injEq] at hv
            refine ⟨1, by omega, ?_, Or.inl ?_⟩
            · simpa [readCalls] using hs
            · simp [readCalls, hd, hv.1.symm, hv.2.symm]
        | none =>
            rw [herr] at h
            simp only [] at h
            obtain ⟨k, hk, hst, hres⟩ := ih _ _ _ _ _ _ _ h
            refine ⟨k + 1, by omega, ?_, ?_⟩
            · simpa [readCalls] using hst
            · simpa [readCalls, hd] using hres
      · rw [hd] at h
        simp only [] at h
        by_cases hc : c = 0
        · rw [if_pos hc] at h
          injection h with h
          injection h with h1 h2 h3
          injection h1 with h4 h5
          refine ⟨1, by omega, ?_, Or.inr ⟨[], ?_, ?_, ?_, ?_, ?_⟩⟩
          · simpa [readCalls] using h3
          · simp [readCalls, hd, hc]
          · simp
          · simp [h4.symm]
          · simp [h5.symm]
          · exact h2.symm
        · rw [if_neg hc] at h
          cases herr : (R.read s 1).err with
          | some e =>
              rw [herr] at h
              simp only [] at h
              have h2 := Run.done.inj h
              have hv := congrArg Ret.val h2
              have hs := congrArg Ret.st h2
              rw [(ReadCString.onErr_fields _ _ _ _).1] at hv
              rw [(ReadCString.onErr_fields _ _ _ _).2] at hs
              simp only [Prod.mk.injEq] at hv
              have hc2 : ¬ (0 : Byte) = c := fun h0 => hc h0.symm
              refine ⟨1, by omega, ?_, Or.inl ?_⟩
              · simpa [readCalls] using hs
              · simp [readCalls, hd, hv.1.symm, hv.2.symm, hc2]
          | none =>
              rw [herr] at h
              simp only [] at h
              obtain ⟨k, hk, hst, hres⟩ := ih _ _ _ _ _ _ _ h
              refine ⟨k + 1, by omega, ?_, ?_⟩
              · simpa [readCalls] using hst
              · have hc2 : ¬ (0 : Byte) = c := fun h0 => hc h0.symm
                rcases hres with ⟨h1, h2, h3⟩ | ⟨ds, h1, h2, h3, h4, h5⟩
                · refine Or.inl ⟨?_, ?_, ?_⟩
                  · simp [readCalls, hd, hc2, h1]
                  · simp [readCalls, hd, h2]
                  · simp [readCalls, hd, h3]
                    omega
                · refine Or.inr ⟨c :: ds, ?_, ?_, ?_, ?_, h5⟩
                  · simp [readCalls, hd, h1]
                  · simp [hc2, h2]
                  · simp [h3]
                  · simp [h4]
                    omega
      · rw [hd] at hle
        simp at hle

/-- C39. `ReadCString` result invariant: on every return of `ReadCString`
(success or failure, any reader), the returned string contains no `0x00` byte
and the returned count `t` is `len(string)` or `len(string) + 1`;
`t = len(string) + 1` holds exactly when a `0x00` terminator was consumed, that
is when the bytes delivered by the `Read` calls made contain a `0x00` (they
are then the string followed by that one `0x00`, otherwise the string alone),
and in that case the returned error is `nil`. The count is the number of bytes
these calls delivered. -/
theorem ReadCString_result_invariant {σ : Type} (R : Reader σ) (fuel : Nat) (s s2 : σ)
    (str : List Byte) (t : Nat) (err : Option Error)
    (h : ReadCString R fuel s = Run.done ⟨(str, t), err, s2⟩) :
    (0 : Byte) ∉ str ∧
    (t = str.length ∨ t = str.length + 1) ∧
    (t = str.length + 1 → err = none) ∧
    ∃ k, k ≤ fuel ∧ (readCalls R k s).2 = s2 ∧
      t = (readCalls R k s).1.length ∧
      ((0 : Byte) ∈ (readCalls R k s).1 ↔ t = str.length + 1) ∧
      ((readCalls R k s).1 = str ∨ (readCalls R k s).1 = str ++ [0]) := by
  obtain ⟨k, hk, hst, hres⟩ := ReadCString.loop_calls R fuel s [] 0 str t err s2 h
  rcases hres with ⟨h1, h2, h3⟩ | ⟨ds, h1, h2, h3, h4, h5⟩
  · simp only [List.nil_append] at h2
    simp only [Nat.zero_add] at h3
    rw [← h2] at h1 h3
    refine ⟨h1, Or.inl h3, ?_, k, hk, hst, ?_, ?_, Or.inl h2.symm⟩
    · intro h4
      omega
    · rw [← h2]
      exact h3
    · rw [← h2]
      constructor
      · intro h4
        exact absurd h4 h1
      · intro h4
        omega
  · simp only [List.nil_append] at h3
    simp only [Nat.zero_add] at h4
    subst h3
    refine ⟨h2, Or.inr h4, fun _ => h5, k, hk, hst, ?_, ?_, Or.inr h1⟩
    · rw [h1, List.length_append]
      simpa using h4
    · rw [h1]
      constructor
      · intro _
        exact h4
      · intro _
        simp

/-- Witness of C39: a reader that delivers `A`, then the terminator, then `B`:
the string is `A`, the count 2, and `B` stays in the reader. -/
theorem ReadCString_result_invariant_witness :
    ReadCString scriptReader 5 [([65], none), ([0], none), ([66], none)] =
      Run.done ⟨([65], 2), none, [([66], none)]⟩ ∧
    (0 : Byte) ∉ ([65] : List Byte) ∧
    (2 = ([65] : List Byte).length ∨ 2 = ([65] : List Byte).length + 1) ∧
    (2 = ([65] : List Byte).length + 1 → (none : Option Error) = none) ∧
    ∃ k, k ≤ 5 ∧
      (readCalls scriptReader k [([65], none), ([0], none), ([66], none)]).2 =
        [([66], none)] ∧
      2 = (readCalls scriptReader k [([65], none), ([0], none), ([66], none)]).1.length ∧
      ((0 : Byte) ∈ (readCalls scriptReader k [([65], none), ([0], none), ([66], none)]).1 ↔
        2 = ([65] : List Byte).length + 1) ∧
      ((readCalls scriptReader k [([65], none), ([0], none), ([66], none)]).1 = [65] ∨
        (readCalls scriptReader k [([65], none), ([0], none), ([66], none)]).1 =
          [65] ++ [0]) :=
  ⟨by decide,
    ReadCString_result_invariant scriptReader 5 [([65], none), ([0], none), ([66], none)]
      [([66], none)] [65] 2 none (by decide)⟩

/-! ## Termination of `ReadCString` on in-memory streams -/

/-- On a `bytes.Reader` holding `bs`, a budget of `len(bs) + 1` calls of `Read`
is enough for the loop of `ReadCString` to return, and the count grows by at
most `len(bs)`. -/
theorem ReadCString.loop_bytes_total :
    ∀ (bs : List Byte) (fuel : Nat) (b : List Byte) (t : Nat), bs.length + 1 ≤ fuel →
      ∃ str t2 err rest,
        ReadCString.loop bytesReader fuel bs b t = Run.done ⟨(str, t2), err, rest⟩ ∧
        t2 ≤ t + bs.length := by
  intro bs
  induction bs with
  | nil =>
      intro fuel b t hfuel
      obtain ⟨f, rfl⟩ : ∃ f, fuel = f + 1 := ⟨fuel - 1, by omega⟩
      rw [ReadCString.loop_bytes_nil]
      have hv := (ReadCString.onErr_fields b t Error.EOF ([] : List Byte)).1
      refine ⟨(ReadCString.onErr b t Error.EOF ([] : List Byte)).val.1,
        (ReadCString.onErr b t Error.EOF ([] : List Byte)).val.2,
        (ReadCString.onErr b t Error.EOF ([] : List Byte)).err,
        (ReadCString.onErr b t Error.EOF ([] : List Byte)).st, rfl, ?_⟩
      rw [hv]
      simp
  | cons c rest ih =>
      intro fuel b t hfuel
      simp only [List.length_cons] at hfuel
      obtain ⟨f, rfl⟩ : ∃ f, fuel = f + 1 := ⟨fuel - 1, by omega⟩
      by_cases hc : c = 0
      · subst hc
        rw [ReadCString.loop_bytes_zero]
        refine ⟨b, t + 1, none, rest, rfl, ?_⟩
        simp only [List.length_cons]
        omega
      · rw [ReadCString.loop_bytes_nonzero f c rest b t hc]
        obtain ⟨str, t2, err, rest2, h, hle⟩ := ih f (b ++ [c]) (t + 1) (by omega)
        refine ⟨str, t2, err, rest2, h, ?_⟩
        simp only [List.length_cons]
        omega

/-- C40. `ReadCString` terminates on finite input: on every `bytes.Reader`
holding the bytes `bs`, `ReadCString` returns within a budget of `len(bs) + 1`
calls of `Read`, and the count it returns is at most `len(bs)`. The function
has no maximum of its own: for every `L` there is a stream (`L + 1` bytes
`0x01`) on which the returned count, `L + 1`, exceeds `L`. -/
theorem ReadCString_terminates_on_finite_input (bs : List Byte) (fuel : Nat)
    (hfuel : bs.length + 1 ≤ fuel) :
    (∃ str t err rest,
      ReadCString bytesReader fuel bs = Run.done ⟨(str, t), err, rest⟩ ∧ t ≤ bs.length) ∧
    (∀ L : Nat, ReadCString bytesReader (L + 2) (List.replicate (L + 1) 1) =
      Run.done ⟨(List.replicate (L + 1) 1, L + 1), none, []⟩) := by
  constructor
  · obtain ⟨str, t, err, rest, h, hle⟩ := ReadCString.loop_bytes_total bs fuel [] 0 hfuel
    exact ⟨str, t, err, rest, h, by omega⟩
  · intro L
    have h := ReadCString_bytes_unterminated (L + 2) (List.replicate (L + 1) 1)
      (by simp [List.replicate_succ]) (by simp) (by simp)
    simpa using h

/-- Witness of C40: the stream `A 0x00 B` with a budget of 4 calls. -/
theorem ReadCString_terminates_on_finite_input_witness :
    ([65, 0, 66] : List Byte).length + 1 ≤ 4 ∧
    ReadCString bytesReader 4 [65, 0, 66] = Run.done ⟨([65], 2), none, [66]⟩ ∧
    (∃ str t err rest,
      ReadCString bytesReader 4 [65, 0, 66] = Run.done ⟨(str, t), err, rest⟩ ∧
      t ≤ ([65, 0, 66] : List Byte).length) ∧
    (∀ L : Nat, ReadCString bytesReader (L + 2) (List.replicate (L + 1) 1) =
      Run.done ⟨(List.replicate (L + 1) 1, L + 1), none, []⟩) :=
  ⟨by decide, by decide, ReadCString_terminates_on_finite_input [65, 0, 66] 4 (by decide)⟩

end Typeio
